import Mathlib

/-!
# Shallow embedding of `src/parser_json.c` (nftables JSON front-end)

The development follows the source file top-down: the jansson document model,
the parse context with its flag word and error queue, the expression nodes
built by the allocators, the primitive value reader, the expression builders
and the context-guarded dispatcher `json_parse_expr`.

Conventions.
* A C function `f(ctx, ...)` that may enqueue errors or change `ctx->flags`
  becomes a function from `json_ctx` to `Res _`, which carries the returned
  value together with the context after the call.
* A `NULL` result is `none`.  Dereferencing a `NULL` pointer is `Res.fault`.
* `json_parse_expr` is recursive through its builders.  Every builder takes
  the recursive parser as the argument `pe`; the knot is tied by
  `json_parse_expr_fuel`, and `json_parse_expr` supplies enough fuel for the
  nesting depth of the document.
-/

namespace ParserJson

/-! ## The jansson document model -/

/-- A jansson value (`json_t`). Object members keep their insertion order. -/
inductive Json where
  | object (members : List (String × Json))
  | array (items : List Json)
  | string (s : String)
  | integer (n : Int)
  | real
  | jtrue
  | jfalse
  | null

mutual
/-- Nesting depth of a document: the measure that bounds the recursion of the
parser. -/
def Json.depth : Json → Nat
  | .array xs => depthList xs + 1
  | .object kvs => depthMembers kvs + 1
  | _ => 0
/-- Largest depth among array items. -/
def depthList : List Json → Nat
  | [] => 0
  | x :: xs => max x.depth (depthList xs)
/-- Largest depth among object member values. -/
def depthMembers : List (String × Json) → Nat
  | [] => 0
  | (_, v) :: rest => max v.depth (depthMembers rest)
end

/-- The numeric value of `json_typeof` (jansson's `json_type` enumeration:
JSON_OBJECT, JSON_ARRAY, JSON_STRING, JSON_INTEGER, JSON_REAL, JSON_TRUE,
JSON_FALSE, JSON_NULL). -/
def json_typeof : Json → Nat
  | .object _ => 0
  | .array _ => 1
  | .string _ => 2
  | .integer _ => 3
  | .real => 4
  | .jtrue => 5
  | .jfalse => 6
  | .null => 7

/-- Source: `json_typename`. -/
def json_typename : Json → String
  | .object _ => "object"
  | .array _ => "array"
  | .string _ => "string"
  | .integer _ => "integer"
  | .real => "real"
  | .jtrue => "true"
  | .jfalse => "false"
  | .null => "null"

def json_is_array : Json → Bool
  | .array _ => true
  | _ => false

def json_is_object : Json → Bool
  | .object _ => true
  | _ => false

def json_is_string : Json → Bool
  | .string _ => true
  | _ => false

def json_is_integer : Json → Bool
  | .integer _ => true
  | _ => false

def json_is_true : Json → Bool
  | .jtrue => true
  | _ => false

def json_is_boolean : Json → Bool
  | .jtrue => true
  | .jfalse => true
  | _ => false

def json_is_null : Json → Bool
  | .null => true
  | _ => false

/-- The jansson `json_object_size`: 0 for anything that is not an object. -/
def json_object_size : Json → Nat
  | .object kvs => kvs.length
  | _ => 0

/-- The jansson `json_object_get`. -/
def json_object_get (root : Json) (key : String) : Option Json :=
  match root with
  | .object kvs => kvs.lookup key
  | _ => none

/-- The items visited by `json_array_foreach`: none when the value is not an
array (`json_array_size` is 0 then). -/
def json_array_items : Json → List Json
  | .array xs => xs
  | _ => []

/-- A C `int` holding the mathematical integer `n` after conversion from a
wider type (two's complement wrap to 32 bits). -/
def c_int (n : Int) : Int := (n + 2 ^ 31) % 2 ^ 32 - 2 ^ 31

/-- The unpack format `s` applied to the root: a string value. -/
def json_unpack_s (root : Json) : Option String :=
  match root with
  | .string s => some s
  | _ => none

/-- The unpack format for one object key holding a string
(brace s:s brace). -/
def json_unpack_key_s (root : Json) (key : String) : Option String :=
  match json_object_get root key with
  | some (.string s) => some s
  | _ => none

/-- The unpack format for one object key holding an integer read into a C
`int` (brace s:i brace). -/
def json_unpack_key_i (root : Json) (key : String) : Option Int :=
  match json_object_get root key with
  | some (.integer n) => some (c_int n)
  | _ => none

/-- The unpack format for one object key holding any value
(brace s:o brace). -/
def json_unpack_key_o (root : Json) (key : String) : Option Json :=
  json_object_get root key

/-- The unpack format `[o, o!]`: an array of exactly two items. -/
def json_unpack_pair (root : Json) : Option (Json × Json) :=
  match root with
  | .array [a, b] => some (a, b)
  | _ => none

/-! ## Error records and the parse context -/

/-- An argument of a printf-style error format. -/
inductive ErrArg where
  | str (s : String)
  | int (n : Int)
  | dump (j : Json)

/-- An error record (`struct error_record`). -/
inductive Erec where
  /-- Built by `json_error` from a format and its arguments. -/
  | error (fmt : String) (args : List ErrArg)
  /-- Built by `json_lib_error` from the `json_error_t` of a failed unpack. -/
  | lib
  /-- Returned by an external registry parser (`meta_key_parse`). -/
  | ext (text : String)

def CTX_F_RHS : Nat := 1 <<< 0
def CTX_F_STMT : Nat := 1 <<< 1
def CTX_F_PRIMARY : Nat := 1 <<< 2
def CTX_F_DTYPE : Nat := 1 <<< 3
def CTX_F_SET_RHS : Nat := 1 <<< 4
def CTX_F_MANGLE : Nat := 1 <<< 5
def CTX_F_SES : Nat := 1 <<< 6
def CTX_F_MAP : Nat := 1 <<< 7

/-- The mutable part of `struct json_ctx` that the expression and statement
parsers touch: the flag word and the message queue (`msgs`, oldest first). -/
structure json_ctx where
  flags : Nat
  msgs : List Erec

def is_RHS (ctx : json_ctx) : Bool := ctx.flags &&& CTX_F_RHS != 0
def is_STMT (ctx : json_ctx) : Bool := ctx.flags &&& CTX_F_STMT != 0
def is_PRIMARY (ctx : json_ctx) : Bool := ctx.flags &&& CTX_F_PRIMARY != 0
def is_DTYPE (ctx : json_ctx) : Bool := ctx.flags &&& CTX_F_DTYPE != 0
def is_SET_RHS (ctx : json_ctx) : Bool := ctx.flags &&& CTX_F_SET_RHS != 0

/-- One `if (is_X(ctx))` block of `ctx_flags_to_string`: append the separator
and the name, and switch the separator to a comma. -/
def ctx_flags_step (set : Bool) (name : String) (st : String × String) : String × String :=
  if set then (st.1 ++ st.2 ++ name, ", ") else st

/-- Source: `ctx_flags_to_string`. -/
def ctx_flags_to_string (ctx : json_ctx) : String :=
  (ctx_flags_step (is_SET_RHS ctx) "SET_RHS"
    (ctx_flags_step (is_DTYPE ctx) "DTYPE"
      (ctx_flags_step (is_PRIMARY ctx) "PRIMARY"
        (ctx_flags_step (is_STMT ctx) "STMT"
          (ctx_flags_step (is_RHS ctx) "RHS" ("", "")))))).1

/-- The jansson-error path: `json_lib_error` queues one record. -/
def json_lib_error (ctx : json_ctx) : json_ctx :=
  { ctx with msgs := ctx.msgs ++ [Erec.lib] }

/-- Source: `json_error` queues one record built from the format. -/
def json_error (ctx : json_ctx) (fmt : String) (args : List ErrArg) : json_ctx :=
  { ctx with msgs := ctx.msgs ++ [Erec.error fmt args] }

/-- The outcome of a call: the returned value with the context after the
call, or a fault (the call dereferences a NULL pointer and never returns). -/
inductive Res (α : Type) where
  | ok (val : α) (ctx : json_ctx)
  | fault

/-! ## External registries and constants

The descriptors, templates and constants below are declared in headers that
are not part of `src/`; the parser only reads them.  Tables are parameters
(`Registry`); well-known numeric constants are given their header values. -/

/-- Modelled from the spec: a protocol descriptor (`struct proto_desc`) as the
parser reads it, its name and the tokens of its header templates (a missing
token is a NULL pointer). -/
structure proto_desc where
  name : String
  templates : List (Option String)

/-- Modelled from the spec: an extension-header or tcp-option descriptor
(`struct exthdr_desc`), its name and the tokens of its templates. -/
structure exthdr_desc where
  name : String
  templates : List (Option String)

inductive byteorder where
  | BYTEORDER_INVALID
  | BYTEORDER_HOST_ENDIAN
  | BYTEORDER_BIG_ENDIAN

/-- A pointer to a datatype (`const struct datatype *`): one of the global
datatypes the source names, or another entry of the datatype registry,
identified by its name. -/
inductive dtype_ref where
  | inet_protocol_type
  | icmp_type_type
  | boolean_type
  | integer_type
  | icmpx_code_type
  | icmp_code_type
  | icmpv6_code_type
  | other (name : String)

/-- The read-only registries consulted by the parser. -/
structure Registry where
  /-- The `meta_key_parse` function: the key, or the error record it returns. -/
  meta_key_parse : String → Except Erec Nat
  /-- The descriptors listed in `proto_lookup_byname`, in table order. -/
  proto_tbl : List proto_desc
  /-- The descriptors listed in `exthdr_lookup_byname`, in table order
  (hbh, rt, rt0, rt2, rt4, frag, dst, mh). -/
  exthdr_tbl : List exthdr_desc
  /-- The array `tcpopthdr_protocols` (entries may be NULL). -/
  tcpopthdr_protocols : List (Option exthdr_desc)
  /-- The enumerator `TCPOPTHDR_SACK0`. -/
  TCPOPTHDR_SACK0 : Nat
  /-- The enumerator `TCPOPTHDR_FIELD_KIND`. -/
  TCPOPTHDR_FIELD_KIND : Nat
  /-- The libc call `sscanf(name, "sack%u", &i)`: the number read when the
  call returns 1. -/
  sscanf_sack : String → Option Nat
  /-- The tokens of the array `ct_templates` (entries may lack a token). -/
  ct_templates : List (Option String)
  /-- The `datatype_lookup_byname` function. -/
  datatype_lookup_byname : String → Option dtype_ref
  /-- The field `byteorder` of a datatype. -/
  datatype_byteorder : dtype_ref → byteorder
  /-- The field `size` of a datatype. -/
  datatype_size : dtype_ref → Nat

/-- Position of `exthdr_rt0` in the table of `exthdr_lookup_byname`. -/
def EXTHDR_RT0_INDEX : Nat := 2

def NFPROTO_UNSPEC : Int := 0
def NFPROTO_INET : Int := 1
def NFPROTO_IPV4 : Int := 2
def NFPROTO_ARP : Int := 3
def NFPROTO_NETDEV : Int := 5
def NFPROTO_BRIDGE : Int := 7
def NFPROTO_IPV6 : Int := 10

def IPPROTO_ICMP : Nat := 1
def IPPROTO_TCP : Nat := 6
def IPPROTO_UDP : Nat := 17
def IPPROTO_DCCP : Nat := 33
def IPPROTO_ESP : Nat := 50
def IPPROTO_AH : Nat := 51
def IPPROTO_ICMPV6 : Nat := 58
def IPPROTO_COMP : Nat := 108
def IPPROTO_SCTP : Nat := 132
def IPPROTO_UDPLITE : Nat := 136
def ICMP_REDIRECT : Nat := 5

/-- The macro `BITS_PER_BYTE`. -/
def BITS_PER_BYTE : Nat := 8

def NFT_EXTHDR_F_PRESENT : Nat := 1 <<< 0

def NFT_RT_CLASSID : Nat := 0
def NFT_RT_NEXTHOP4 : Nat := 1
def NFT_RT_NEXTHOP6 : Nat := 2
def NFT_RT_TCPMSS : Nat := 3

def NFT_CT_HELPER : Nat := 6
def NFT_CT_L3PROTOCOL : Nat := 7
def NFT_CT_SRC : Nat := 8
def NFT_CT_DST : Nat := 9
def NFT_CT_PROTOCOL : Nat := 10
def NFT_CT_PROTO_SRC : Nat := 11
def NFT_CT_PROTO_DST : Nat := 12
def NFT_CT_PKTS : Nat := 14
def NFT_CT_BYTES : Nat := 15
def NFT_CT_AVGPKT : Nat := 16
def NFT_CT_ZONE : Nat := 17

def IP_CT_DIR_ORIGINAL : Int := 0
def IP_CT_DIR_REPLY : Int := 1

inductive nft_ng_types where
  | NFT_NG_INCREMENTAL
  | NFT_NG_RANDOM

inductive nft_hash_types where
  | NFT_HASH_JENKINS
  | NFT_HASH_SYM

def NFT_FIB_RESULT_UNSPEC : Nat := 0
def NFT_FIB_RESULT_OIF : Nat := 1
def NFT_FIB_RESULT_OIFNAME : Nat := 2
def NFT_FIB_RESULT_ADDRTYPE : Nat := 3

def NFTA_FIB_F_SADDR : Nat := 1 <<< 0
def NFTA_FIB_F_DADDR : Nat := 1 <<< 1
def NFTA_FIB_F_MARK : Nat := 1 <<< 2
def NFTA_FIB_F_IIF : Nat := 1 <<< 3
def NFTA_FIB_F_OIF : Nat := 1 <<< 4

inductive proto_bases where
  | PROTO_BASE_INVALID
  | PROTO_BASE_LL_HDR
  | PROTO_BASE_NETWORK_HDR
  | PROTO_BASE_TRANSPORT_HDR

inductive ops where
  | OP_INVALID
  | OP_IMPLICIT
  | OP_HTON
  | OP_NTOH
  | OP_LSHIFT
  | OP_RSHIFT
  | OP_AND
  | OP_XOR
  | OP_OR
  | OP_EQ
  | OP_NEQ
  | OP_LT
  | OP_GT
  | OP_LTE
  | OP_GTE
  | OP_RANGE
  | OP_FLAGCMP
  | OP_LOOKUP

def NF_DROP : Int := 0
def NF_ACCEPT : Int := 1
def NF_QUEUE : Int := 3
def NFT_CONTINUE : Int := -1
def NFT_BREAK : Int := -2
def NFT_JUMP : Int := -3
def NFT_GOTO : Int := -4
def NFT_RETURN : Int := -5

/-! ## Expression nodes -/

inductive symbol_types where
  | SYMBOL_VALUE
  | SYMBOL_DEFINE
  | SYMBOL_SET

/-- The kind tag `expr->ops->type`. -/
inductive expr_types where
  | EXPR_INVALID
  | EXPR_VERDICT
  | EXPR_SYMBOL
  | EXPR_VALUE
  | EXPR_PREFIX
  | EXPR_RANGE
  | EXPR_PAYLOAD
  | EXPR_EXTHDR
  | EXPR_META
  | EXPR_CT
  | EXPR_CONCAT
  | EXPR_LIST
  | EXPR_SET
  | EXPR_SET_REF
  | EXPR_SET_ELEM
  | EXPR_MAPPING
  | EXPR_MAP
  | EXPR_UNARY
  | EXPR_BINOP
  | EXPR_RELATIONAL
  | EXPR_NUMGEN
  | EXPR_HASH
  | EXPR_RT
  | EXPR_FIB
  deriving DecidableEq

/-- Modelled from the spec: the expression nodes (`struct expr`) as built by
the allocators of expression.h, which are not part of `src/`.  Each
constructor records the arguments of one allocator call together with the
fields the parser assigns afterwards; the input-location stamp is always
`int_loc` and is left out. -/
inductive expr where
  /-- From `symbol_expr_alloc(loc, symtype, NULL, identifier)`. -/
  | symbol_expr (symtype : symbol_types) (identifier : String)
  /-- From `constant_expr_alloc(loc, dtype, byteorder, len, data)`; `data` is
  the object the data pointer addresses (empty for NULL). -/
  | constant_expr (dtype : dtype_ref) (bo : byteorder) (len : Nat) (data : List Nat)
  /-- From `meta_expr_alloc(loc, key)`. -/
  | meta_expr (key : Nat)
  /-- From `payload_expr_alloc(loc, desc, type)` with a descriptor. -/
  | payload_expr (desc : proto_desc) (type : Nat)
  /-- From `payload_expr_alloc(loc, NULL, 0)` followed by `payload_init_raw`
  and the assignments of byte order and raw flag. -/
  | payload_raw_expr (base : proto_bases) (offset : Int) (len : Int) (bo : byteorder)
      (is_raw : Bool)
  /-- From `exthdr_expr_alloc(loc, desc, type)` and the `exthdr.flags` field. -/
  | exthdr_expr (desc : exthdr_desc) (type : Int) (flags : Nat)
  /-- From `tcpopt_expr_alloc(loc, type, field)` and the `exthdr.flags` field. -/
  | tcpopt_expr (type : Nat) (field : Nat) (flags : Nat)
  /-- From `rt_expr_alloc(loc, key, invalid)`. -/
  | rt_expr (key : Nat) (invalid : Bool)
  /-- From `ct_expr_alloc(loc, key, direction, nfproto)`. -/
  | ct_expr (key : Nat) (direction : Int) (nfproto : Int)
  /-- From `numgen_expr_alloc(loc, type, mod, offset)`. -/
  | numgen_expr (type : nft_ng_types) (mod : Int) (offset : Int)
  /-- From `hash_expr_alloc(loc, mod, seed_set, seed, offset, type)` and the
  `hash.expr` field. -/
  | hash_expr (mod : Int) (seed_set : Bool) (seed : Int) (offset : Int)
      (type : nft_hash_types) (expr : Option expr)
  /-- From `fib_expr_alloc(loc, flags, result)`. -/
  | fib_expr (flags : Nat) (result : Nat)
  /-- From `binop_expr_alloc(loc, op, left, right)`. -/
  | binop_expr (op : ops) (left : expr) (right : expr)
  /-- From `concat_expr_alloc(loc)` with the children added so far. -/
  | concat_expr (exprs : List expr)
  /-- From `list_expr_alloc(loc)` with the children added so far. -/
  | list_expr (exprs : List expr)
  /-- From `prefix_expr_alloc(loc, expr, len)`. -/
  | prefix_expr (expr : expr) (len : Int)
  /-- From `range_expr_alloc(loc, low, high)`. -/
  | range_expr (left : expr) (right : expr)
  /-- From `verdict_expr_alloc(loc, verdict, chain)`. -/
  | verdict_expr (verdict : Int) (chain : Option String)
  /-- From `set_expr_alloc(loc, NULL)` with the children added so far. -/
  | set_expr (exprs : List expr)
  /-- From `set_elem_expr_alloc(loc, key)` and the fields `timeout`,
  `expiration` (both `uint64_t`) and `comment`. -/
  | set_elem_expr (key : expr) (timeout : Nat) (expiration : Nat) (comment : Option String)
  /-- From `mapping_expr_alloc(loc, left, right)`. -/
  | mapping_expr (left : expr) (right : expr)
  /-- From `map_expr_alloc(loc, left, right)`. -/
  | map_expr (map : expr) (mappings : expr)
  /-- From `relational_expr_alloc(loc, op, left, right)`. -/
  | relational_expr (op : ops) (left : expr) (right : expr)

open expr_types in
/-- Modelled from the spec: the kind tag `expr->ops->type` of a node, fixed by
the allocator that built it (a tcp option is an exthdr expression). -/
def expr.etype : expr → expr_types
  | .symbol_expr _ _ => EXPR_SYMBOL
  | .constant_expr _ _ _ _ => EXPR_VALUE
  | .meta_expr _ => EXPR_META
  | .payload_expr _ _ => EXPR_PAYLOAD
  | .payload_raw_expr _ _ _ _ _ => EXPR_PAYLOAD
  | .exthdr_expr _ _ _ => EXPR_EXTHDR
  | .tcpopt_expr _ _ _ => EXPR_EXTHDR
  | .rt_expr _ _ => EXPR_RT
  | .ct_expr _ _ _ => EXPR_CT
  | .numgen_expr _ _ _ => EXPR_NUMGEN
  | .hash_expr _ _ _ _ _ _ => EXPR_HASH
  | .fib_expr _ _ => EXPR_FIB
  | .binop_expr _ _ _ => EXPR_BINOP
  | .concat_expr _ => EXPR_CONCAT
  | .list_expr _ => EXPR_LIST
  | .prefix_expr _ _ => EXPR_PREFIX
  | .range_expr _ _ => EXPR_RANGE
  | .verdict_expr _ _ => EXPR_VERDICT
  | .set_expr _ => EXPR_SET
  | .set_elem_expr _ _ _ _ => EXPR_SET_ELEM
  | .mapping_expr _ _ => EXPR_MAPPING
  | .map_expr _ _ => EXPR_MAP
  | .relational_expr _ _ _ => EXPR_RELATIONAL

/-- Modelled from the spec: `compound_expr_add(compound, e)` appends `e` to
the children of a concat, list or set node (the only nodes it is applied
to). -/
def compound_expr_add (compound : expr) (e : expr) : expr :=
  match compound with
  | .concat_expr xs => .concat_expr (xs ++ [e])
  | .list_expr xs => .list_expr (xs ++ [e])
  | .set_expr xs => .set_expr (xs ++ [e])
  | other => other

/-- Modelled from the spec: `set_elem_expr_alloc(loc, key)` with a key that is
not NULL; timeout and expiration start at 0 and there is no comment. -/
def set_elem_expr_alloc (key : expr) : expr := .set_elem_expr key 0 0 none

/-! ## Parsing helpers -/

/-- Source: `json_unpack_err`, the error path: the jansson error is queued. -/
def json_unpack_err (ctx : json_ctx) : json_ctx := json_lib_error ctx

/-- Source: `json_unpack_stmt`. The single member of a one-key object, or an
error for any other value (`json_object_size` is 0 for a non-object). -/
def json_unpack_stmt (ctx : json_ctx) (root : Json) : Option (String × Json) × json_ctx :=
  if json_object_size root ≠ 1 then
    (none, json_error ctx "Malformed object (too many properties): '%s'." [.dump root])
  else
    match root with
    | .object (kv :: _) => (some kv, ctx)
    | _ => (none, ctx)

def family_tbl : List (String × Int) :=
  [ ("ip", NFPROTO_IPV4),
    ("ip6", NFPROTO_IPV6),
    ("inet", NFPROTO_INET),
    ("arp", NFPROTO_ARP),
    ("bridge", NFPROTO_BRIDGE),
    ("netdev", NFPROTO_NETDEV) ]

/-- Source: `parse_family`. -/
def parse_family (name : String) : Int :=
  match family_tbl.find? (fun e => name = e.1) with
  | some e => e.2
  | none => -1

def keywords : List String :=
  [ "ether", "ip", "ip6", "vlan", "arp", "dnat", "snat", "ecn", "reset",
    "original", "reply", "label" ]

/-- Source: `is_keyword`. -/
def is_keyword (keyword : String) : Bool :=
  keywords.any (fun k => keyword = k)

def constants : List String :=
  [ "tcp", "udp", "udplite", "esp", "ah", "icmp", "icmpv6", "comp", "dccp",
    "sctp", "redirect" ]

/-- Source: `is_constant`. -/
def is_constant (keyword : String) : Bool :=
  constants.any (fun k => keyword = k)

/-- The table `constant_tbl` of `json_parse_constant`: name, data byte and
datatype. -/
def constant_tbl : List (String × Nat × dtype_ref) :=
  [ ("tcp", IPPROTO_TCP, .inet_protocol_type),
    ("udp", IPPROTO_UDP, .inet_protocol_type),
    ("udplite", IPPROTO_UDPLITE, .inet_protocol_type),
    ("esp", IPPROTO_ESP, .inet_protocol_type),
    ("ah", IPPROTO_AH, .inet_protocol_type),
    ("icmp", IPPROTO_ICMP, .inet_protocol_type),
    ("icmpv6", IPPROTO_ICMPV6, .inet_protocol_type),
    ("comp", IPPROTO_COMP, .inet_protocol_type),
    ("dccp", IPPROTO_DCCP, .inet_protocol_type),
    ("sctp", IPPROTO_SCTP, .inet_protocol_type),
    ("redirect", ICMP_REDIRECT, .icmp_type_type) ]

/-- Source: `json_parse_constant`. -/
def json_parse_constant (ctx : json_ctx) (name : String) : Res (Option expr) :=
  match constant_tbl.find? (fun e => name = e.1) with
  | some e =>
    .ok (some (.constant_expr e.2.2 .BYTEORDER_HOST_ENDIAN (8 * BITS_PER_BYTE) [e.2.1])) ctx
  | none => .ok none (json_error ctx "Unknown constant '%s'." [.str name])

/-- The string branch of `json_parse_immediate_expr` up to the keyword test:
a leading `@` selects `SYMBOL_SET` and is skipped (`str++`). -/
def immediate_symtype (s : String) : symbol_types × String :=
  match s.data with
  | '@' :: rest => (.SYMBOL_SET, String.mk rest)
  | _ => (.SYMBOL_VALUE, s)

/-- Source: `json_parse_immediate_expr`, the primitive value reader. -/
def json_parse_immediate_expr (ctx : json_ctx) (_type : String) (root : Json) :
    Res (Option expr) :=
  match root with
  | .string s =>
    let symtype := (immediate_symtype s).1
    let str := (immediate_symtype s).2
    if is_RHS ctx && is_keyword str then
      .ok (some (.symbol_expr .SYMBOL_VALUE str)) ctx
    else if is_RHS ctx && is_constant str then
      json_parse_constant ctx str
    else
      .ok (some (.symbol_expr symtype str)) ctx
  | .integer n =>
    .ok (some (.symbol_expr .SYMBOL_VALUE (toString n))) ctx
  | .jtrue =>
    if is_RHS ctx then
      .ok (some (.constant_expr .boolean_type .BYTEORDER_HOST_ENDIAN 1 [1])) ctx
    else
      .ok none (json_error ctx "Invalid immediate value type '%d'." [.int (json_typeof root)])
  | .jfalse =>
    if is_RHS ctx then
      .ok (some (.constant_expr .boolean_type .BYTEORDER_HOST_ENDIAN 1 [0])) ctx
    else
      .ok none (json_error ctx "Invalid immediate value type '%d'." [.int (json_typeof root)])
  | _ =>
    .ok none (json_error ctx "Invalid immediate value type '%d'." [.int (json_typeof root)])

/-- The recursive expression parser handed to every builder. -/
abbrev expr_parse_fn := json_ctx → Json → Res (Option expr)

/-- Source: `json_parse_flagged_expr`. -/
def json_parse_flagged_expr (pe : expr_parse_fn) (ctx : json_ctx) (flags : Nat) (root : Json) :
    Res (Option expr) :=
  let old_flags := ctx.flags
  match pe { ctx with flags := ctx.flags ||| flags } root with
  | .ok e ctx => .ok e { ctx with flags := old_flags }
  | .fault => .fault

def json_parse_rhs_expr (pe : expr_parse_fn) (ctx : json_ctx) (root : Json) :=
  json_parse_flagged_expr pe ctx CTX_F_RHS root

def json_parse_stmt_expr (pe : expr_parse_fn) (ctx : json_ctx) (root : Json) :=
  json_parse_flagged_expr pe ctx CTX_F_STMT root

def json_parse_primary_expr (pe : expr_parse_fn) (ctx : json_ctx) (root : Json) :=
  json_parse_flagged_expr pe ctx CTX_F_PRIMARY root

def json_parse_set_rhs_expr (pe : expr_parse_fn) (ctx : json_ctx) (root : Json) :=
  json_parse_flagged_expr pe ctx CTX_F_SET_RHS root

def json_parse_mangle_lhs_expr (pe : expr_parse_fn) (ctx : json_ctx) (root : Json) :=
  json_parse_flagged_expr pe ctx CTX_F_MANGLE root

def json_parse_map_lhs_expr (pe : expr_parse_fn) (ctx : json_ctx) (root : Json) :=
  json_parse_flagged_expr pe ctx CTX_F_MAP root

/-- Source: `json_parse_set_elem_expr_stmt`. The kind test dereferences the
result of the sub-parse without a NULL check. -/
def json_parse_set_elem_expr_stmt (pe : expr_parse_fn) (ctx : json_ctx) (root : Json) :
    Res (Option expr) :=
  match json_parse_flagged_expr pe ctx CTX_F_SES root with
  | .fault => .fault
  | .ok none _ => .fault
  | .ok (some e) ctx =>
    if e.etype ≠ .EXPR_SET_ELEM then .ok (some (set_elem_expr_alloc e)) ctx
    else .ok (some e) ctx

/-! ## Expression builders -/

/-- Source: `json_parse_meta_expr`. -/
def json_parse_meta_expr (reg : Registry) (_pe : expr_parse_fn) (ctx : json_ctx)
    (_type : String) (root : Json) : Res (Option expr) :=
  match json_unpack_s root with
  | none => .ok none (json_unpack_err ctx)
  | some name =>
    match reg.meta_key_parse name with
    | .error erec => .ok none { ctx with msgs := ctx.msgs ++ [erec] }
    | .ok key => .ok (some (.meta_expr key)) ctx

/-- The template search shared by `json_parse_payload_field`,
`json_parse_tcp_option_field`, `json_parse_exthdr_field` and the key loop of
`json_parse_ct_expr`: the first index whose token is present and equal to
`name`. -/
def token_index (templates : List (Option String)) (name : String) : Option Nat :=
  match templates.findIdx? (fun t => t = some name) with
  | some i => some i
  | none => none

/-- Source: `proto_lookup_byname`. -/
def proto_lookup_byname (reg : Registry) (name : String) : Option proto_desc :=
  reg.proto_tbl.find? (fun d => d.name = name)

/-- Source: `json_parse_payload_expr`. -/
def json_parse_payload_expr (reg : Registry) (_pe : expr_parse_fn) (ctx : json_ctx)
    (_type : String) (root : Json) : Res (Option expr) :=
  match json_unpack_key_s root "name" with
  | none => .ok none (json_unpack_err ctx)
  | some name =>
    if name = "raw" then
      match json_unpack_key_s root "base", json_unpack_key_i root "offset",
          json_unpack_key_i root "len" with
      | some base, some offset, some len =>
        if base = "ll" then
          .ok (some (.payload_raw_expr .PROTO_BASE_LL_HDR offset len
            .BYTEORDER_BIG_ENDIAN true)) ctx
        else if base = "nh" then
          .ok (some (.payload_raw_expr .PROTO_BASE_NETWORK_HDR offset len
            .BYTEORDER_BIG_ENDIAN true)) ctx
        else if base = "th" then
          .ok (some (.payload_raw_expr .PROTO_BASE_TRANSPORT_HDR offset len
            .BYTEORDER_BIG_ENDIAN true)) ctx
        else
          .ok none (json_error ctx "Invalid payload base '%s'." [.str base])
      | _, _, _ => .ok none (json_unpack_err ctx)
    else
      match proto_lookup_byname reg name with
      | none => .ok none (json_error ctx "Unknown payload expr name '%s'." [.str name])
      | some proto =>
        match json_unpack_key_s root "field" with
        | none => .ok none (json_unpack_err ctx)
        | some field =>
          match token_index proto.templates field with
          | none => .ok none (json_error ctx "Unknown %s field '%s'." [.str name, .str field])
          | some val => .ok (some (.payload_expr proto val)) ctx

/-- Source: `json_parse_tcp_option_type`. -/
def json_parse_tcp_option_type (reg : Registry) (name : String) : Option Nat :=
  match reg.tcpopthdr_protocols.findIdx?
      (fun d => match d with
        | some d => d.name = name
        | none => false) with
  | some i => some i
  | none =>
    match reg.sscanf_sack name with
    | some i => if i < 4 then some (reg.TCPOPTHDR_SACK0 + i) else none
    | none => none

/-- Source: `json_parse_tcp_option_field`. The outer `none` is the fault of
reading the templates of a descriptor pointer that is NULL or lies outside
the array. -/
def json_parse_tcp_option_field (reg : Registry) (type : Nat) (name : String) :
    Option (Option Nat) :=
  match reg.tcpopthdr_protocols.get? type with
  | some (some desc) => some (token_index desc.templates name)
  | _ => none

/-- Source: `json_parse_tcp_option_expr`. -/
def json_parse_tcp_option_expr (reg : Registry) (_pe : expr_parse_fn) (ctx : json_ctx)
    (_type : String) (root : Json) : Res (Option expr) :=
  match json_unpack_key_s root "name" with
  | none => .ok none (json_unpack_err ctx)
  | some desc =>
    match json_parse_tcp_option_type reg desc with
    | none => .ok none (json_error ctx "Unknown tcp option name '%s'." [.str desc])
    | some descval =>
      match json_unpack_key_s root "field" with
      | none =>
        .ok (some (.tcpopt_expr descval reg.TCPOPTHDR_FIELD_KIND NFT_EXTHDR_F_PRESENT)) ctx
      | some field =>
        match json_parse_tcp_option_field reg descval field with
        | none => .fault
        | some none => .ok none (json_error ctx "Unknown tcp option field '%s'." [.str field])
        | some (some fieldval) => .ok (some (.tcpopt_expr descval fieldval 0)) ctx

/-- Source: `exthdr_lookup_byname`, with the table position standing for the
identity of the descriptor. -/
def exthdr_lookup_byname (reg : Registry) (name : String) : Option (Nat × exthdr_desc) :=
  match reg.exthdr_tbl.findIdx? (fun d => d.name = name) with
  | none => none
  | some i =>
    match reg.exthdr_tbl.get? i with
    | some d => some (i, d)
    | none => none

/-- Source: `json_parse_exthdr_expr`. -/
def json_parse_exthdr_expr (reg : Registry) (_pe : expr_parse_fn) (ctx : json_ctx)
    (_type : String) (root : Json) : Res (Option expr) :=
  match json_unpack_key_s root "name" with
  | none => .ok none (json_unpack_err ctx)
  | some name =>
    match exthdr_lookup_byname reg name with
    | none => .ok none (json_error ctx "Invalid exthdr protocol '%s'." [.str name])
    | some (idx, desc) =>
      match json_unpack_key_s root "field" with
      | none => .ok (some (.exthdr_expr desc 1 NFT_EXTHDR_F_PRESENT)) ctx
      | some field =>
        match token_index desc.templates field with
        | none =>
          .ok none (json_error ctx "Unknown %s field %s." [.str desc.name, .str field])
        | some fieldval =>
          if idx = EXTHDR_RT0_INDEX then
            match json_unpack_key_i root "offset" with
            | none => .ok none (json_unpack_err ctx)
            | some offset => .ok (some (.exthdr_expr desc (fieldval + offset) 0)) ctx
          else
            .ok (some (.exthdr_expr desc (fieldval + 0) 0)) ctx

def rt_key_tbl : List (String × Nat) :=
  [ ("classid", NFT_RT_CLASSID),
    ("nexthop", NFT_RT_NEXTHOP4),
    ("mtu", NFT_RT_TCPMSS) ]

/-- The key loop of `json_parse_rt_expr`, entered with the family value. -/
def json_parse_rt_key (ctx : json_ctx) (key : String) (familyval : Int) : Res (Option expr) :=
  match rt_key_tbl.find? (fun e => key = e.1) with
  | some e =>
    if familyval ≠ 0 then
      if familyval = NFPROTO_IPV6 ∧ e.2 = NFT_RT_NEXTHOP4 then
        .ok (some (.rt_expr NFT_RT_NEXTHOP6 false)) ctx
      else
        .ok (some (.rt_expr e.2 false)) ctx
    else
      .ok (some (.rt_expr e.2 true)) ctx
  | none => .ok none (json_error ctx "Unknown rt key '%s'." [.str key])

/-- Source: `json_parse_rt_expr`. -/
def json_parse_rt_expr (_pe : expr_parse_fn) (ctx : json_ctx) (_type : String) (root : Json) :
    Res (Option expr) :=
  match json_unpack_key_s root "key" with
  | none => .ok none (json_unpack_err ctx)
  | some key =>
    match json_unpack_key_s root "family" with
    | some family =>
      if parse_family family ≠ NFPROTO_IPV4 ∧ parse_family family ≠ NFPROTO_IPV6 then
        .ok none (json_error ctx "Invalid RT family '%s'." [.str family])
      else
        json_parse_rt_key ctx key (parse_family family)
    | none => json_parse_rt_key ctx key NFPROTO_UNSPEC

def ct_dir_keys : List Nat :=
  [ NFT_CT_L3PROTOCOL, NFT_CT_SRC, NFT_CT_DST, NFT_CT_PROTOCOL, NFT_CT_PROTO_SRC,
    NFT_CT_PROTO_DST, NFT_CT_PKTS, NFT_CT_BYTES, NFT_CT_AVGPKT, NFT_CT_ZONE ]

/-- Source: `ct_key_is_dir`. -/
def ct_key_is_dir (key : Nat) : Bool :=
  ct_dir_keys.any (fun k => key = k)

/-- The tail of `json_parse_ct_expr` after the family has been read: the
optional direction and its checks. -/
def json_parse_ct_dir (ctx : json_ctx) (root : Json) (key : String) (keyval : Nat)
    (familyval : Int) : Res (Option expr) :=
  match json_unpack_key_s root "dir" with
  | some dir =>
    if dir = "original" then
      if !ct_key_is_dir keyval then
        .ok none (json_error ctx "Direction not supported by CT key '%s'." [.str key])
      else .ok (some (.ct_expr keyval IP_CT_DIR_ORIGINAL familyval)) ctx
    else if dir = "reply" then
      if !ct_key_is_dir keyval then
        .ok none (json_error ctx "Direction not supported by CT key '%s'." [.str key])
      else .ok (some (.ct_expr keyval IP_CT_DIR_REPLY familyval)) ctx
    else
      .ok none (json_error ctx "Invalid ct direction '%s'." [.str dir])
  | none => .ok (some (.ct_expr keyval (-1) familyval)) ctx

/-- Source: `json_parse_ct_expr`. -/
def json_parse_ct_expr (reg : Registry) (_pe : expr_parse_fn) (ctx : json_ctx)
    (_type : String) (root : Json) : Res (Option expr) :=
  match json_unpack_key_s root "key" with
  | none => .ok none (json_unpack_err ctx)
  | some key =>
    match token_index reg.ct_templates key with
    | none => .ok none (json_error ctx "Unknown ct key '%s'." [.str key])
    | some keyval =>
      match json_unpack_key_s root "family" with
      | some family =>
        if parse_family family ≠ NFPROTO_IPV4 ∧ parse_family family ≠ NFPROTO_IPV6 then
          .ok none (json_error ctx "Invalid CT family '%s'." [.str family])
        else
          json_parse_ct_dir ctx root key keyval (parse_family family)
      | none => json_parse_ct_dir ctx root key keyval NFPROTO_UNSPEC

/-- Source: `json_parse_numgen_expr`. -/
def json_parse_numgen_expr (_pe : expr_parse_fn) (ctx : json_ctx) (_type : String)
    (root : Json) : Res (Option expr) :=
  match json_unpack_key_s root "mode", json_unpack_key_i root "mod" with
  | some mode, some mod =>
    let offset := (json_unpack_key_i root "offset").getD 0
    if mode = "inc" then
      .ok (some (.numgen_expr .NFT_NG_INCREMENTAL mod offset)) ctx
    else if mode = "random" then
      .ok (some (.numgen_expr .NFT_NG_RANDOM mod offset)) ctx
    else
      .ok none (json_error ctx "Unknown numgen mode '%s'." [.str mode])
  | _, _ => .ok none (json_unpack_err ctx)

/-- Source: `json_parse_hash_expr`. -/
def json_parse_hash_expr (pe : expr_parse_fn) (ctx : json_ctx) (type : String) (root : Json) :
    Res (Option expr) :=
  match json_unpack_key_i root "mod" with
  | none => .ok none (json_unpack_err ctx)
  | some mod =>
    let offset := (json_unpack_key_i root "offset").getD 0
    if type = "symhash" then
      .ok (some (.hash_expr mod false 0 offset .NFT_HASH_SYM none)) ctx
    else if type ≠ "jhash" then
      .ok none (json_error ctx "Unknown hash type '%s'." [.str type])
    else
      match json_unpack_key_o root "expr" with
      | none => .ok none (json_unpack_err ctx)
      | some jexpr =>
        match pe ctx jexpr with
        | .fault => .fault
        | .ok none ctx => .ok none (json_error ctx "Invalid jhash expression." [])
        | .ok (some e) ctx =>
          match json_unpack_key_i root "seed" with
          | some seed =>
            .ok (some (.hash_expr mod true seed offset .NFT_HASH_JENKINS (some e))) ctx
          | none =>
            .ok (some (.hash_expr mod false 0 offset .NFT_HASH_JENKINS (some e))) ctx

def fib_flags : List String := [ "saddr", "daddr", "mark", "iif", "oif" ]

/-- Source: `fib_flag_parse`: the updated flag word, or `none` for return
value 1. -/
def fib_flag_parse (name : String) (flags : Nat) : Option Nat :=
  match fib_flags.findIdx? (fun f => name = f) with
  | some i => some (flags ||| (1 <<< i))
  | none => none

/-- The result loop of `json_parse_fib_expr` over `fib_result_tbl`, which
starts at index 1. -/
def fib_result_parse (result : String) : Nat :=
  if result = "oif" then NFT_FIB_RESULT_OIF
  else if result = "oifname" then NFT_FIB_RESULT_OIFNAME
  else if result = "type" then NFT_FIB_RESULT_ADDRTYPE
  else NFT_FIB_RESULT_UNSPEC

/-- The `json_array_foreach` loop of `json_parse_fib_expr`: the accumulated
flag word, or `none` after an error has been queued. -/
def json_parse_fib_flags_loop (ctx : json_ctx) (items : List Json) (index : Nat)
    (flagval : Nat) : Res (Option Nat) :=
  match items with
  | [] => .ok (some flagval) ctx
  | value :: rest =>
    match value with
    | .string flag =>
      match fib_flag_parse flag flagval with
      | none => .ok none (json_error ctx "Invalid fib flag '%s'." [.str flag])
      | some flagval => json_parse_fib_flags_loop ctx rest (index + 1) flagval
    | _ =>
      .ok none (json_error ctx "Unexpected object type in fib flags array at index %zd."
        [.int index])

/-- The sanity checks that close `json_parse_fib_expr`. -/
def json_parse_fib_checks (ctx : json_ctx) (flagval : Nat) (resultval : Nat) :
    Res (Option expr) :=
  if flagval &&& (NFTA_FIB_F_SADDR ||| NFTA_FIB_F_DADDR) = 0 then
    .ok none (json_error ctx "fib: need either saddr or daddr" [])
  else if flagval &&& (NFTA_FIB_F_SADDR ||| NFTA_FIB_F_DADDR)
      = (NFTA_FIB_F_SADDR ||| NFTA_FIB_F_DADDR) then
    .ok none (json_error ctx "fib: saddr and daddr are mutually exclusive" [])
  else if flagval &&& (NFTA_FIB_F_IIF ||| NFTA_FIB_F_OIF)
      = (NFTA_FIB_F_IIF ||| NFTA_FIB_F_OIF) then
    .ok none (json_error ctx "fib: iif and oif are mutually exclusive" [])
  else
    .ok (some (.fib_expr flagval resultval)) ctx

/-- The flag loop of `json_parse_fib_expr` followed by the sanity checks. -/
def json_parse_fib_tail (ctx : json_ctx) (flags : Json) (flagval : Nat) (resultval : Nat) :
    Res (Option expr) :=
  match json_parse_fib_flags_loop ctx (json_array_items flags) 0 flagval with
  | .fault => .fault
  | .ok none ctx => .ok none ctx
  | .ok (some flagval) ctx => json_parse_fib_checks ctx flagval resultval

/-- Source: `json_parse_fib_expr`. -/
def json_parse_fib_expr (_pe : expr_parse_fn) (ctx : json_ctx) (_type : String) (root : Json) :
    Res (Option expr) :=
  match json_unpack_key_s root "result" with
  | none => .ok none (json_unpack_err ctx)
  | some result =>
    if fib_result_parse result = NFT_FIB_RESULT_UNSPEC then
      .ok none (json_error ctx "Invalid fib result '%s'." [.str result])
    else
      match json_unpack_key_o root "flags" with
      | none => json_parse_fib_checks ctx 0 (fib_result_parse result)
      | some flags =>
        match flags with
        | .string flag =>
          match fib_flag_parse flag 0 with
          | none => .ok none (json_error ctx "Invalid fib flag '%s'." [.str flag])
          | some flagval => json_parse_fib_tail ctx flags flagval (fib_result_parse result)
        | _ =>
          if !json_is_array flags then
            .ok none (json_error ctx "Unexpected object type in fib tuple." [])
          else
            json_parse_fib_tail ctx flags 0 (fib_result_parse result)

def op_tbl : List (String × ops) :=
  [ ("|", .OP_OR),
    ("^", .OP_XOR),
    ("&", .OP_AND),
    (">>", .OP_RSHIFT),
    ("<<", .OP_LSHIFT) ]

/-- Source: `json_parse_binop_expr`. -/
def json_parse_binop_expr (pe : expr_parse_fn) (ctx : json_ctx) (type : String) (root : Json) :
    Res (Option expr) :=
  match op_tbl.find? (fun e => type = e.1) with
  | none => .ok none (json_error ctx "Invalid binop type '%s'." [.str type])
  | some e =>
    match json_unpack_pair root with
    | none => .ok none (json_unpack_err ctx)
    | some (jleft, jright) =>
      match json_parse_primary_expr pe ctx jleft with
      | .fault => .fault
      | .ok none ctx =>
        .ok none (json_error ctx "Failed to parse LHS of binop expression." [])
      | .ok (some left) ctx =>
        match json_parse_primary_expr pe ctx jright with
        | .fault => .fault
        | .ok none ctx =>
          .ok none (json_error ctx "Failed to parse RHS of binop expression." [])
        | .ok (some right) ctx => .ok (some (.binop_expr e.2 left right)) ctx

/-- The `json_array_foreach` loop of `json_parse_concat_expr`; `acc` is the
local `expr`. -/
def json_parse_concat_loop (pe : expr_parse_fn) (ctx : json_ctx) (items : List Json)
    (index : Nat) (acc : Option expr) : Res (Option expr) :=
  match items with
  | [] => .ok acc ctx
  | value :: rest =>
    match json_parse_primary_expr pe ctx value with
    | .fault => .fault
    | .ok none ctx =>
      .ok none (json_error ctx "Parsing expr at index %zd failed." [.int index])
    | .ok (some tmp) ctx =>
      match acc with
      | none => json_parse_concat_loop pe ctx rest (index + 1) (some tmp)
      | some e =>
        if e.etype ≠ .EXPR_CONCAT then
          json_parse_concat_loop pe ctx rest (index + 1)
            (some (compound_expr_add (compound_expr_add (.concat_expr []) e) tmp))
        else
          json_parse_concat_loop pe ctx rest (index + 1) (some (compound_expr_add e tmp))

/-- Source: `json_parse_concat_expr`. -/
def json_parse_concat_expr (pe : expr_parse_fn) (ctx : json_ctx) (_type : String)
    (root : Json) : Res (Option expr) :=
  if !json_is_array root then
    .ok none (json_error ctx "Unexpected concat object type %s." [.str (json_typename root)])
  else
    json_parse_concat_loop pe ctx (json_array_items root) 0 none

/-- Source: `json_parse_prefix_expr`. -/
def json_parse_prefix_expr (pe : expr_parse_fn) (ctx : json_ctx) (_type : String)
    (root : Json) : Res (Option expr) :=
  match json_unpack_key_o root "addr", json_unpack_key_i root "len" with
  | some addr, some len =>
    match json_parse_primary_expr pe ctx addr with
    | .fault => .fault
    | .ok none ctx => .ok none (json_error ctx "Invalid prefix in prefix expr." [])
    | .ok (some e) ctx => .ok (some (.prefix_expr e len)) ctx
  | _, _ => .ok none (json_unpack_err ctx)

/-- Source: `json_parse_range_expr`. -/
def json_parse_range_expr (pe : expr_parse_fn) (ctx : json_ctx) (_type : String)
    (root : Json) : Res (Option expr) :=
  match json_unpack_pair root with
  | none => .ok none (json_unpack_err ctx)
  | some (low, high) =>
    match json_parse_primary_expr pe ctx low with
    | .fault => .fault
    | .ok none ctx =>
      .ok none (json_error ctx "Invalid low value in range expression." [])
    | .ok (some expr_low) ctx =>
      match json_parse_primary_expr pe ctx high with
      | .fault => .fault
      | .ok none ctx =>
        .ok none (json_error ctx "Invalid high value in range expression." [])
      | .ok (some expr_high) ctx => .ok (some (.range_expr expr_low expr_high)) ctx

/-- Source: `json_parse_wildcard_expr`. -/
def json_parse_wildcard_expr (_pe : expr_parse_fn) (ctx : json_ctx) (_type : String)
    (_root : Json) : Res (Option expr) :=
  .ok (some (.prefix_expr (.constant_expr .integer_type .BYTEORDER_HOST_ENDIAN 0 []) 0)) ctx

/-- The table `verdict_tbl` of `json_parse_verdict_expr`: verdict code, name
and whether a chain is needed. -/
def verdict_tbl : List (Int × String × Bool) :=
  [ (NFT_CONTINUE, "continue", false),
    (NFT_BREAK, "break", false),
    (NFT_JUMP, "jump", true),
    (NFT_GOTO, "goto", true),
    (NFT_RETURN, "return", false),
    (NF_ACCEPT, "accept", false),
    (NF_DROP, "drop", false),
    (NF_QUEUE, "queue", false) ]

/-- Source: `json_parse_verdict_expr`. -/
def json_parse_verdict_expr (_pe : expr_parse_fn) (ctx : json_ctx) (type : String)
    (root : Json) : Res (Option expr) :=
  let chain := json_unpack_s root
  match verdict_tbl.find? (fun e => type = e.2.1) with
  | some e =>
    if e.2.2 && chain.isNone then
      .ok none (json_error ctx "Verdict %s needs chain argument." [.str type])
    else
      .ok (some (.verdict_expr e.1 chain)) ctx
  | none => .ok none (json_error ctx "Unknown verdict '%s'." [.str type])

/-- The `uint64_t` value that results from storing the C integer `n`. -/
def c_uint64 (n : Int) : Nat := (n % 2 ^ 64).toNat

/-- The local `set_expr` after `compound_expr_add(set_expr, e)`, allocated on
first use. -/
def set_expr_add (set_expr : Option expr) (e : expr) : expr :=
  match set_expr with
  | none => compound_expr_add (.set_expr []) e
  | some s => compound_expr_add s e

/-- The wrap `if (expr->ops->type != EXPR_SET_ELEM) expr = set_elem_expr_alloc(..)`. -/
def set_elem_wrap (e : expr) : expr :=
  if e.etype ≠ .EXPR_SET_ELEM then set_elem_expr_alloc e else e

/-- The `json_array_foreach` loop of `json_parse_set_expr`. A scalar item
that the primitive reader rejects reaches `set_elem_expr_alloc` as NULL,
which reads the fields of its key: a fault. -/
def json_parse_set_loop (pe : expr_parse_fn) (ctx : json_ctx) (items : List Json)
    (index : Nat) (set_expr : Option expr) : Res (Option expr) :=
  match items with
  | [] => .ok set_expr ctx
  | value :: rest =>
    match json_unpack_pair value with
    | some (jleft, jright) =>
      match json_parse_rhs_expr pe ctx jleft with
      | .fault => .fault
      | .ok none ctx =>
        .ok none (json_error ctx "Invalid set elem at index %zu." [.int index])
      | .ok (some e) ctx =>
        match json_parse_set_rhs_expr pe ctx jright with
        | .fault => .fault
        | .ok none ctx =>
          .ok none (json_error ctx "Invalid set elem at index %zu." [.int index])
        | .ok (some e2) ctx =>
          json_parse_set_loop pe ctx rest (index + 1)
            (some (set_expr_add set_expr (.mapping_expr (set_elem_wrap e) e2)))
    | none =>
      if json_is_object value then
        match json_parse_rhs_expr pe ctx value with
        | .fault => .fault
        | .ok none ctx =>
          .ok none (json_error ctx "Invalid set elem at index %zu." [.int index])
        | .ok (some e) ctx =>
          json_parse_set_loop pe ctx rest (index + 1)
            (some (set_expr_add set_expr (set_elem_wrap e)))
      else
        match json_parse_immediate_expr ctx "elem" value with
        | .fault => .fault
        | .ok none _ => .fault
        | .ok (some e) ctx =>
          json_parse_set_loop pe ctx rest (index + 1)
            (some (set_expr_add set_expr (set_elem_expr_alloc e)))

/-- Source: `json_parse_set_expr`. For a scalar operand the result of the
primitive reader is dereferenced without a NULL check. -/
def json_parse_set_expr (pe : expr_parse_fn) (ctx : json_ctx) (type : String) (root : Json) :
    Res (Option expr) :=
  if json_is_object root || json_is_array root then
    json_parse_set_loop pe ctx (json_array_items root) 0 none
  else
    match json_parse_immediate_expr ctx type root with
    | .fault => .fault
    | .ok none _ => .fault
    | .ok (some e) ctx =>
      match e with
      | .symbol_expr .SYMBOL_SET _ => .ok (some e) ctx
      | _ => .ok (some (compound_expr_add (.set_expr []) (set_elem_expr_alloc e))) ctx

/-- Source: `json_parse_map_expr`. -/
def json_parse_map_expr (pe : expr_parse_fn) (ctx : json_ctx) (_type : String) (root : Json) :
    Res (Option expr) :=
  match json_unpack_key_o root "left", json_unpack_key_o root "right" with
  | some jleft, some jright =>
    match json_parse_map_lhs_expr pe ctx jleft with
    | .fault => .fault
    | .ok none ctx => .ok none (json_error ctx "Illegal LHS of map expression." [])
    | .ok (some left) ctx =>
      match json_parse_rhs_expr pe ctx jright with
      | .fault => .fault
      | .ok none ctx => .ok none (json_error ctx "Illegal RHS of map expression." [])
      | .ok (some right) ctx => .ok (some (.map_expr left right)) ctx
  | _, _ => .ok none (json_unpack_err ctx)

/-- The value stored by `expr->timeout = i * 1000` for the C `int` `i`: the
product is formed in `int` (wrapping) and converted to `uint64_t`. -/
def elem_msecs (i : Int) : Nat := c_uint64 (c_int (i * 1000))

/-- Source: `json_parse_set_elem_expr`. -/
def json_parse_set_elem_expr (pe : expr_parse_fn) (ctx : json_ctx) (_type : String)
    (root : Json) : Res (Option expr) :=
  match json_unpack_key_o root "val" with
  | none => .ok none (json_unpack_err ctx)
  | some tmp =>
    match pe ctx tmp with
    | .fault => .fault
    | .ok none ctx => .ok none ctx
    | .ok (some e) ctx =>
      .ok (some (.set_elem_expr e
        (match json_unpack_key_i root "elem_timeout" with
          | some i => elem_msecs i
          | none => 0)
        (match json_unpack_key_i root "elem_expires" with
          | some i => elem_msecs i
          | none => 0)
        (json_unpack_key_s root "elem_comment"))) ctx

/-! ## The expression dispatcher -/

/-- One row of `cb_tbl`: discriminator, builder and permitted flag mask. -/
structure cb_entry where
  name : String
  cb : expr_parse_fn → json_ctx → String → Json → Res (Option expr)
  flags : Nat

/-- The table `cb_tbl` of `json_parse_expr`. -/
def cb_tbl (reg : Registry) : List cb_entry :=
  [ ⟨"concat", json_parse_concat_expr,
      CTX_F_RHS ||| CTX_F_STMT ||| CTX_F_DTYPE ||| CTX_F_SET_RHS ||| CTX_F_SES ||| CTX_F_MAP⟩,
    ⟨"set", json_parse_set_expr, CTX_F_RHS ||| CTX_F_STMT⟩,
    ⟨"map", json_parse_map_expr, CTX_F_STMT ||| CTX_F_PRIMARY ||| CTX_F_SET_RHS⟩,
    ⟨"prefix", json_parse_prefix_expr, CTX_F_RHS ||| CTX_F_STMT⟩,
    ⟨"range", json_parse_range_expr, CTX_F_RHS ||| CTX_F_STMT⟩,
    ⟨"*", json_parse_wildcard_expr, CTX_F_RHS ||| CTX_F_STMT⟩,
    ⟨"immediate", fun _ => json_parse_immediate_expr,
      CTX_F_RHS ||| CTX_F_STMT ||| CTX_F_PRIMARY ||| CTX_F_SET_RHS ||| CTX_F_SES ||| CTX_F_MAP⟩,
    ⟨"payload", json_parse_payload_expr reg,
      CTX_F_STMT ||| CTX_F_PRIMARY ||| CTX_F_SET_RHS ||| CTX_F_MANGLE ||| CTX_F_SES
        ||| CTX_F_MAP⟩,
    ⟨"exthdr", json_parse_exthdr_expr reg,
      CTX_F_PRIMARY ||| CTX_F_SET_RHS ||| CTX_F_SES ||| CTX_F_MAP⟩,
    ⟨"tcp option", json_parse_tcp_option_expr reg,
      CTX_F_PRIMARY ||| CTX_F_SET_RHS ||| CTX_F_MANGLE ||| CTX_F_SES⟩,
    ⟨"meta", json_parse_meta_expr reg,
      CTX_F_STMT ||| CTX_F_PRIMARY ||| CTX_F_SET_RHS ||| CTX_F_MANGLE ||| CTX_F_SES
        ||| CTX_F_MAP⟩,
    ⟨"rt", json_parse_rt_expr,
      CTX_F_STMT ||| CTX_F_PRIMARY ||| CTX_F_SET_RHS ||| CTX_F_SES ||| CTX_F_MAP⟩,
    ⟨"ct", json_parse_ct_expr reg,
      CTX_F_STMT ||| CTX_F_PRIMARY ||| CTX_F_SET_RHS ||| CTX_F_MANGLE ||| CTX_F_SES
        ||| CTX_F_MAP⟩,
    ⟨"numgen", json_parse_numgen_expr,
      CTX_F_STMT ||| CTX_F_PRIMARY ||| CTX_F_SET_RHS ||| CTX_F_SES ||| CTX_F_MAP⟩,
    ⟨"jhash", json_parse_hash_expr,
      CTX_F_STMT ||| CTX_F_PRIMARY ||| CTX_F_SET_RHS ||| CTX_F_SES ||| CTX_F_MAP⟩,
    ⟨"symhash", json_parse_hash_expr,
      CTX_F_STMT ||| CTX_F_PRIMARY ||| CTX_F_SET_RHS ||| CTX_F_SES ||| CTX_F_MAP⟩,
    ⟨"fib", json_parse_fib_expr,
      CTX_F_PRIMARY ||| CTX_F_SET_RHS ||| CTX_F_SES ||| CTX_F_MAP⟩,
    ⟨"|", json_parse_binop_expr,
      CTX_F_RHS ||| CTX_F_STMT ||| CTX_F_PRIMARY ||| CTX_F_SET_RHS ||| CTX_F_SES ||| CTX_F_MAP⟩,
    ⟨"^", json_parse_binop_expr,
      CTX_F_RHS ||| CTX_F_STMT ||| CTX_F_PRIMARY ||| CTX_F_SET_RHS ||| CTX_F_SES ||| CTX_F_MAP⟩,
    ⟨"&", json_parse_binop_expr,
      CTX_F_RHS ||| CTX_F_STMT ||| CTX_F_PRIMARY ||| CTX_F_SET_RHS ||| CTX_F_SES ||| CTX_F_MAP⟩,
    ⟨">>", json_parse_binop_expr,
      CTX_F_RHS ||| CTX_F_STMT ||| CTX_F_PRIMARY ||| CTX_F_SET_RHS ||| CTX_F_SES ||| CTX_F_MAP⟩,
    ⟨"<<", json_parse_binop_expr,
      CTX_F_RHS ||| CTX_F_STMT ||| CTX_F_PRIMARY ||| CTX_F_SET_RHS ||| CTX_F_SES ||| CTX_F_MAP⟩,
    ⟨"accept", json_parse_verdict_expr, CTX_F_RHS ||| CTX_F_SET_RHS⟩,
    ⟨"drop", json_parse_verdict_expr, CTX_F_RHS ||| CTX_F_SET_RHS⟩,
    ⟨"continue", json_parse_verdict_expr, CTX_F_RHS ||| CTX_F_SET_RHS⟩,
    ⟨"jump", json_parse_verdict_expr, CTX_F_RHS ||| CTX_F_SET_RHS⟩,
    ⟨"goto", json_parse_verdict_expr, CTX_F_RHS ||| CTX_F_SET_RHS⟩,
    ⟨"return", json_parse_verdict_expr, CTX_F_RHS ||| CTX_F_SET_RHS⟩,
    ⟨"elem", json_parse_set_elem_expr, CTX_F_RHS ||| CTX_F_STMT ||| CTX_F_PRIMARY⟩ ]

/-- The dispatch loop of `json_parse_expr` over a table: the first row whose
name equals `type` decides; its builder runs only when its mask covers the
active flags. -/
def json_parse_expr_dispatch (tbl : List cb_entry) (pe : expr_parse_fn) (ctx : json_ctx)
    (type : String) (value : Json) : Res (Option expr) :=
  match tbl with
  | [] => .ok none (json_error ctx "Unknown expression type '%s'." [.str type])
  | row :: rest =>
    if type ≠ row.name then
      json_parse_expr_dispatch rest pe ctx type value
    else if row.flags &&& ctx.flags ≠ ctx.flags then
      .ok none (json_error ctx "Expression type %s not allowed in context (%s)."
        [.str type, .str (ctx_flags_to_string ctx)])
    else
      row.cb pe ctx type value

/-- The `json_array_foreach` loop of the list branch of `json_parse_expr`. -/
def json_parse_list_loop (pe : expr_parse_fn) (ctx : json_ctx) (items : List Json)
    (index : Nat) (list : expr) : Res (Option expr) :=
  match items with
  | [] => .ok (some list) ctx
  | value :: rest =>
    match pe ctx value with
    | .fault => .fault
    | .ok none ctx =>
      .ok none (json_error ctx "Parsing list expression item at index %zu failed."
        [.int index])
    | .ok (some e) ctx => json_parse_list_loop pe ctx rest (index + 1) (compound_expr_add list e)

/-- Source: the body of `json_parse_expr`, over a dispatch table `tbl` and
with the recursive calls going to `pe`. -/
def json_parse_expr_with (reg : Registry) (tbl : List cb_entry) (pe : expr_parse_fn)
    (ctx : json_ctx) (root : Json) : Res (Option expr) :=
  match root with
  | .array items =>
    if ctx.flags &&& (CTX_F_RHS ||| CTX_F_STMT) = 0 then
      .ok none (json_error ctx
        "List expression only allowed on RHS or in statement expression." [])
    else if is_PRIMARY ctx then
      .ok none (json_error ctx "List expression not allowed as primary expression." [])
    else
      json_parse_list_loop pe ctx items 0 (.list_expr [])
  | .string s =>
    if is_DTYPE ctx then
      match reg.datatype_lookup_byname s with
      | none => .ok none (json_error ctx "Unknown datatype '%s'." [.str s])
      | some dtype =>
        .ok (some (.constant_expr dtype (reg.datatype_byteorder dtype)
          (reg.datatype_size dtype) [])) ctx
    else
      json_parse_immediate_expr ctx "immediate" root
  | _ =>
    if (is_RHS ctx || is_STMT ctx || is_PRIMARY ctx)
        && (json_is_integer root || json_is_boolean root) then
      json_parse_immediate_expr ctx "immediate" root
    else
      match json_unpack_stmt ctx root with
      | (none, ctx) => .ok none ctx
      | (some (type, value), ctx) => json_parse_expr_dispatch tbl pe ctx type value

/-- The body of `json_parse_expr` with its own table `cb_tbl`. -/
def json_parse_expr_body (reg : Registry) (pe : expr_parse_fn) : expr_parse_fn :=
  json_parse_expr_with reg (cb_tbl reg) pe

/-- The parser `json_parse_expr` unrolled `fuel` times. -/
def json_parse_expr_fuel (reg : Registry) : Nat → expr_parse_fn
  | 0 => fun _ _ => .fault
  | fuel + 1 => json_parse_expr_body reg (json_parse_expr_fuel reg fuel)

/-- Source: `json_parse_expr`. The recursion descends into the document, so
its nesting depth bounds the unrolling (see `json_parse_expr_eq`). -/
def json_parse_expr (reg : Registry) : expr_parse_fn :=
  fun ctx root => json_parse_expr_fuel reg (root.depth + 1) ctx root

/-! ## Predicates used in the proofs -/

/-- Two parsers agree on every document of depth below `d`. -/
def Agree (pe pe1 : expr_parse_fn) (d : Nat) : Prop :=
  ∀ c x, x.depth < d → pe c x = pe1 c x

/-- A builder reads the recursive parser only on documents nested in its
operand. -/
def BuilderCongr (cb : expr_parse_fn → json_ctx → String → Json → Res (Option expr)) : Prop :=
  ∀ pe pe1 ctx type value, Agree pe pe1 value.depth →
    cb pe ctx type value = cb pe1 ctx type value

/-- The result `r`, obtained on an empty queue, replayed after the context
`ctx`: same value, the flag word of `ctx`, and the records of `r` appended to
the queue of `ctx`. -/
def Res.rebase {α : Type} (r : Res α) (ctx : json_ctx) : Res α :=
  match r with
  | .ok v c => .ok v ⟨ctx.flags, ctx.msgs ++ c.msgs⟩
  | .fault => .fault

/-- A call is framed when it returns with the flag word it was entered with,
only appends to the message queue, and nothing in its outcome depends on the
records already queued. -/
def Framed {α : Type} (p : json_ctx → Res α) : Prop :=
  ∀ ctx, p ctx = (p ⟨ctx.flags, []⟩).rebase ctx

/-- The outcome described by a value and the records to append. -/
def Res.lift {α : Type} (o : Option (α × List Erec)) (ctx : json_ctx) : Res α :=
  match o with
  | none => .fault
  | some (v, errs) => .ok v ⟨ctx.flags, ctx.msgs ++ errs⟩

/-- Every call of the parser is framed. -/
def FramedParser (pe : expr_parse_fn) : Prop := ∀ x, Framed (fun c => pe c x)

/-- A builder is framed whenever the recursive parser is. -/
def BuilderFramed (cb : expr_parse_fn → json_ctx → String → Json → Res (Option expr)) : Prop :=
  ∀ pe, FramedParser pe → ∀ type value, Framed (fun c => cb pe c type value)

/-! ## The specification's expression kind table -/

/-- The eight context flags of the specification's parse context. -/
inductive CtxFlag where
  | RHS
  | STMT
  | PRIMARY
  | DTYPE
  | SET_RHS
  | MANGLE
  | SES
  | MAP
  deriving DecidableEq

/-- The bit `CTX_F_*` that the source assigns to a flag. -/
def CtxFlag.bit : CtxFlag → Nat
  | .RHS => CTX_F_RHS
  | .STMT => CTX_F_STMT
  | .PRIMARY => CTX_F_PRIMARY
  | .DTYPE => CTX_F_DTYPE
  | .SET_RHS => CTX_F_SET_RHS
  | .MANGLE => CTX_F_MANGLE
  | .SES => CTX_F_SES
  | .MAP => CTX_F_MAP

/-- The flag word that holds exactly the listed flags. -/
def flag_mask (fs : List CtxFlag) : Nat :=
  fs.foldl (fun m f => m ||| f.bit) 0

open CtxFlag in
/-- The expression kind table as the specification prints it: the keys of a
row and the contexts in which they are admissible. -/
def spec_expr_kind_table : List (List String × List CtxFlag) :=
  [ (["concat"], [RHS, STMT, DTYPE, SET_RHS, SES, MAP]),
    (["set"], [RHS, STMT]),
    (["map"], [STMT, PRIMARY, SET_RHS]),
    (["prefix"], [RHS, STMT]),
    (["range"], [RHS, STMT]),
    (["*"], [RHS, STMT]),
    (["immediate"], [RHS, STMT, PRIMARY, SET_RHS, SES, MAP]),
    (["payload"], [STMT, PRIMARY, SET_RHS, MANGLE, SES, MAP]),
    (["exthdr"], [PRIMARY, SET_RHS, SES, MAP]),
    (["tcp option"], [PRIMARY, SET_RHS, MANGLE, SES]),
    (["meta"], [STMT, PRIMARY, SET_RHS, MANGLE, SES, MAP]),
    (["rt"], [STMT, PRIMARY, SET_RHS, SES, MAP]),
    (["ct"], [STMT, PRIMARY, SET_RHS, MANGLE, SES, MAP]),
    (["numgen"], [STMT, PRIMARY, SET_RHS, SES, MAP]),
    (["jhash", "symhash"], [STMT, PRIMARY, SET_RHS, SES, MAP]),
    (["fib"], [PRIMARY, SET_RHS, SES, MAP]),
    (["|", "^", "&", ">>", "<<"], [RHS, STMT, PRIMARY, SET_RHS, SES, MAP]),
    (["accept", "drop", "continue", "jump", "goto", "return"], [RHS, SET_RHS]),
    (["elem"], [RHS, STMT, PRIMARY]) ]

/-- The specification's table, one entry per key: the key and the flag word
of its admissible contexts. -/
def spec_expr_kinds : List (String × Nat) :=
  spec_expr_kind_table.flatMap (fun row => row.1.map (fun k => (k, flag_mask row.2)))

/-- The name and mask columns of a dispatch table. -/
def cb_columns (tbl : List cb_entry) : List (String × Nat) :=
  tbl.map (fun r => (r.name, r.flags))

/-- The record queued by the context check of `json_parse_expr`. -/
def context_error (ctx : json_ctx) (type : String) : Erec :=
  .error "Expression type %s not allowed in context (%s)."
    [.str type, .str (ctx_flags_to_string ctx)]

/-! ## A small registry for concrete evaluations -/

/-- A registry with a few entries of each table. -/
def sample_registry : Registry :=
  { meta_key_parse := fun s => if s = "mark" then .ok 3 else .error (.ext s),
    proto_tbl := [⟨"ip", [none, some "saddr", some "daddr"]⟩,
      ⟨"tcp", [none, some "sport", some "dport"]⟩],
    exthdr_tbl := [⟨"hbh", [none, some "nexthdr"]⟩, ⟨"rt", [none, some "nexthdr"]⟩,
      ⟨"rt0", [none, some "reserved", some "addr[1]"]⟩],
    tcpopthdr_protocols := [none, none, some ⟨"maxseg", [none, some "kind", some "size"]⟩],
    TCPOPTHDR_SACK0 := 5,
    TCPOPTHDR_FIELD_KIND := 1,
    sscanf_sack := fun _ => none,
    ct_templates := [some "state", some "direction", some "status", some "mark"],
    datatype_lookup_byname := fun s =>
      if s = "ipv4_addr" then some (.other "ipv4_addr") else none,
    datatype_byteorder := fun _ => .BYTEORDER_BIG_ENDIAN,
    datatype_size := fun _ => 32 }

/-! ## Statement nodes -/

def NFT_OBJECT_COUNTER : Nat := 1
def NFT_OBJECT_QUOTA : Nat := 2
def NFT_OBJECT_CT_HELPER : Nat := 3
def NFT_OBJECT_LIMIT : Nat := 4

def NFT_QUOTA_F_INV : Nat := 1 <<< 0
def NFT_LIMIT_F_INV : Nat := 1 <<< 0

inductive nft_limit_type where
  | NFT_LIMIT_PKTS
  | NFT_LIMIT_PKT_BYTES

def NF_NAT_RANGE_PROTO_RANDOM : Int := 1 <<< 2
def NF_NAT_RANGE_PERSISTENT : Int := 1 <<< 3
def NF_NAT_RANGE_PROTO_RANDOM_FULLY : Int := 1 <<< 4

def NFT_REJECT_ICMP_UNREACH : Int := 0
def NFT_REJECT_TCP_RST : Int := 1
def NFT_REJECT_ICMPX_UNREACH : Int := 2

inductive nft_dynset_ops where
  | NFT_DYNSET_OP_ADD
  | NFT_DYNSET_OP_UPDATE

def NF_LOG_TCPSEQ : Int := 0x01
def NF_LOG_TCPOPT : Int := 0x02
def NF_LOG_IPOPT : Int := 0x04
def NF_LOG_UID : Int := 0x08
def NF_LOG_MACDECODE : Int := 0x20
def NF_LOG_MASK : Int := 0x2f

/-- Modelled from the spec: the presence bits `STMT_LOG_*` of a log statement,
one bit for each of prefix, snaplen, group, queue-threshold and level; their
declaration is in a header that is not part of `src/`. -/
def STMT_LOG_PREFIX : Nat := 1 <<< 0
def STMT_LOG_SNAPLEN : Nat := 1 <<< 1
def STMT_LOG_GROUP : Nat := 1 <<< 2
def STMT_LOG_QTHRESHOLD : Nat := 1 <<< 3
def STMT_LOG_LEVEL : Nat := 1 <<< 4

def NFT_QUEUE_FLAG_BYPASS : Nat := 0x01
def NFT_QUEUE_FLAG_CPU_FANOUT : Nat := 0x02

/-- Modelled from the spec: the statement nodes (`struct stmt`) as built by
the allocators of statement.h, which are not part of `src/`. Each constructor
records the allocator and the values the parser assigns to the fields of the
statement; a field the parser leaves alone keeps the zero (or NULL) of the
allocator. Numeric fields hold the value of the assigned C expression. -/
inductive stmt where
  /-- From `expr_stmt_alloc(loc, expr)`. -/
  | expr_stmt (e : ParserJson.expr)
  /-- From `counter_stmt_alloc(loc)` and the fields `packets`, `bytes`. -/
  | counter_stmt (packets : Int) (bytes : Int)
  /-- From `objref_stmt_alloc(loc)` and the fields `type`, `expr`. -/
  | objref_stmt (type : Nat) (e : ParserJson.expr)
  /-- From `verdict_stmt_alloc(loc, expr)`. -/
  | verdict_stmt (e : ParserJson.expr)
  /-- From `exthdr_stmt_alloc(loc, expr, val)`. -/
  | exthdr_stmt (e : ParserJson.expr) (val : ParserJson.expr)
  /-- From `payload_stmt_alloc(loc, expr, val)`. -/
  | payload_stmt (e : ParserJson.expr) (val : ParserJson.expr)
  /-- From `meta_stmt_alloc(loc, key, expr)`. -/
  | meta_stmt (key : Nat) (e : ParserJson.expr)
  /-- From `ct_stmt_alloc(loc, key, direction, expr)`. -/
  | ct_stmt (key : Nat) (direction : Int) (e : ParserJson.expr)
  /-- From `quota_stmt_alloc(loc)` and the fields `bytes`, `used`, `flags`. -/
  | quota_stmt (bytes : Nat) (used : Nat) (flags : Nat)
  /-- From `limit_stmt_alloc(loc)` and the fields `type`, `rate`, `burst`,
  `unit`, `flags`. -/
  | limit_stmt (type : nft_limit_type) (rate : Int) (burst : Int) (unit : Nat) (flags : Nat)
  /-- From `fwd_stmt_alloc(loc)` and the field `to` (here `dest`). -/
  | fwd_stmt (dest : Option ParserJson.expr)
  /-- From `notrack_stmt_alloc(loc)`. -/
  | notrack_stmt
  /-- From `dup_stmt_alloc(loc)` and the fields `to` (here `dest`), `dev`. -/
  | dup_stmt (dest : ParserJson.expr) (dev : Option ParserJson.expr)
  /-- From `nat_stmt_alloc(loc, type)` and the fields `addr`, `proto`,
  `flags`. -/
  | nat_stmt (type : Nat) (addr : Option ParserJson.expr) (proto : Option ParserJson.expr) (flags : Int)
  /-- From `reject_stmt_alloc(loc)` and the fields `type`, `icmp_code`,
  `family`, `expr`, and the datatype assigned to `expr->dtype`. -/
  | reject_stmt (type : Int) (icmp_code : Int) (family : Int) (e : Option ParserJson.expr)
      (expr_dtype : Option dtype_ref)
  /-- From `set_stmt_alloc(loc)` and the fields `op`, `key`, `set`. -/
  | set_stmt (op : nft_dynset_ops) (key : ParserJson.expr) (set : ParserJson.expr)
  /-- From `log_stmt_alloc(loc)` and the fields of `stmt->log`. -/
  | log_stmt (prefix_text : Option String) (group : Int) (snaplen : Int) (qthreshold : Int)
      (level : Int) (logflags : Int) (flags : Nat)
  /-- From `meter_stmt_alloc(loc)` and the fields `name`, `key`, `stmt`. -/
  | meter_stmt (name : Option String) (key : ParserJson.expr) (stmt : stmt)
  /-- From `queue_stmt_alloc(loc)` and the fields `queue`, `flags`. -/
  | queue_stmt (queue : Option ParserJson.expr) (flags : Nat)

/-- The recursive statement parser handed to the meter builder. -/
abbrev stmt_parse_fn := json_ctx → Json → Res (Option stmt)

/-- The enumeration `enum ops` in declaration order, up to `__OP_MAX`. -/
def ops_tbl : List ops :=
  [ .OP_INVALID, .OP_IMPLICIT, .OP_HTON, .OP_NTOH, .OP_LSHIFT, .OP_RSHIFT, .OP_AND, .OP_XOR,
    .OP_OR, .OP_EQ, .OP_NEQ, .OP_LT, .OP_GT, .OP_LTE, .OP_GTE, .OP_RANGE, .OP_FLAGCMP,
    .OP_LOOKUP ]

/-- The external tables read by the statement parsers. -/
structure StmtRegistry where
  /-- The array `expr_op_symbols`, indexed by `enum ops` (entries may be
  NULL). -/
  expr_op_symbols : List (Option String)
  /-- The function `log_level_parse`. -/
  log_level_parse : String → Int

/-- The unpack format for one object key holding a boolean read into an
`int` (brace s:b brace). -/
def json_unpack_key_b (root : Json) (key : String) : Option Int :=
  match json_object_get root key with
  | some .jtrue => some 1
  | some .jfalse => some 0
  | _ => none

/-- The unpack format for one object key holding an integer read into a
64-bit `json_int_t` (brace s:I brace). -/
def json_unpack_key_I (root : Json) (key : String) : Option Int :=
  match json_object_get root key with
  | some (.integer n) => some n
  | _ => none

/-! ## Statement builders -/

/-- The operator loop of `json_parse_match_stmt`: the first operator whose
symbol is present and equal to `opstr`. -/
def match_op_lookup (sreg : StmtRegistry) (opstr : String) : Option ops :=
  match (sreg.expr_op_symbols.take ops_tbl.length).findIdx? (fun s => s = some opstr) with
  | some i => ops_tbl.get? i
  | none => none

/-- The tail of `json_parse_match_stmt` once the operator is known. -/
def json_parse_match_sides (pe : expr_parse_fn) (ctx : json_ctx) (op : ops)
    (jleft jright : Json) : Res (Option stmt) :=
  match pe ctx jleft with
  | .fault => .fault
  | .ok none ctx => .ok none (json_error ctx "Invalid LHS of relational." [])
  | .ok (some left) ctx =>
    match json_parse_rhs_expr pe ctx jright with
    | .fault => .fault
    | .ok none ctx => .ok none (json_error ctx "Invalid RHS of relational." [])
    | .ok (some right) ctx => .ok (some (.expr_stmt (.relational_expr op left right))) ctx

/-- Source: `json_parse_match_stmt`. -/
def json_parse_match_stmt (sreg : StmtRegistry) (pe : expr_parse_fn) (_ps : stmt_parse_fn)
    (ctx : json_ctx) (_key : String) (value : Json) : Res (Option stmt) :=
  match json_unpack_key_o value "left", json_unpack_key_o value "right" with
  | some jleft, some jright =>
    match json_unpack_key_s value "op" with
    | some opstr =>
      match match_op_lookup sreg opstr with
      | none => .ok none (json_error ctx "Unknown relational op '%s'." [.str opstr])
      | some op => json_parse_match_sides pe ctx op jleft jright
    | none => json_parse_match_sides pe ctx .OP_IMPLICIT jleft jright
  | _, _ => .ok none (json_unpack_err ctx)

/-- Source: `json_parse_counter_stmt`. -/
def json_parse_counter_stmt (pe : expr_parse_fn) (_ps : stmt_parse_fn) (ctx : json_ctx)
    (_key : String) (value : Json) : Res (Option stmt) :=
  if json_is_null value then .ok (some (.counter_stmt 0 0)) ctx
  else
    match json_unpack_key_i value "packets", json_unpack_key_i value "bytes" with
    | some packets, some bytes => .ok (some (.counter_stmt packets bytes)) ctx
    | _, _ =>
      match json_parse_stmt_expr pe ctx value with
      | .fault => .fault
      | .ok none ctx => .ok none (json_error ctx "Invalid counter reference." [])
      | .ok (some e) ctx => .ok (some (.objref_stmt NFT_OBJECT_COUNTER e)) ctx

def verdict_type_tbl : List (String × Int) :=
  [ ("accept", NF_ACCEPT),
    ("drop", NF_DROP),
    ("continue", NFT_CONTINUE),
    ("jump", NFT_JUMP),
    ("goto", NFT_GOTO),
    ("return", NFT_RETURN) ]

/-- The table loop of `json_parse_verdict_stmt`; 255 when the key is not in
the table. -/
def verdict_type_lookup (key : String) : Int :=
  match verdict_type_tbl.find? (fun e => e.1 = key) with
  | some e => e.2
  | none => 255

/-- Source: `json_parse_verdict_stmt`. -/
def json_parse_verdict_stmt (_pe : expr_parse_fn) (_ps : stmt_parse_fn) (ctx : json_ctx)
    (key : String) (value : Json) : Res (Option stmt) :=
  if verdict_type_lookup key = NFT_JUMP ∨ verdict_type_lookup key = NFT_GOTO then
    match value with
    | .string identifier =>
      .ok (some (.verdict_stmt (.verdict_expr (verdict_type_lookup key) (some identifier)))) ctx
    | _ => .ok none (json_error ctx "Verdict '%s' requires destination." [.str key])
  else if verdict_type_lookup key = NF_ACCEPT ∨ verdict_type_lookup key = NF_DROP
      ∨ verdict_type_lookup key = NFT_CONTINUE ∨ verdict_type_lookup key = NFT_RETURN then
    .ok (some (.verdict_stmt (.verdict_expr (verdict_type_lookup key) none))) ctx
  else
    .ok none (json_error ctx "Unknown verdict '%s'." [.str key])

/-- The `switch (left->ops->type)` of `json_parse_mangle_stmt`. -/
def mangle_stmt_of (ctx : json_ctx) (left right : expr) : Res (Option stmt) :=
  match left with
  | .exthdr_expr _ _ _ => .ok (some (.exthdr_stmt left right)) ctx
  | .tcpopt_expr _ _ _ => .ok (some (.exthdr_stmt left right)) ctx
  | .payload_expr _ _ => .ok (some (.payload_stmt left right)) ctx
  | .payload_raw_expr _ _ _ _ _ => .ok (some (.payload_stmt left right)) ctx
  | .meta_expr key => .ok (some (.meta_stmt key right)) ctx
  | .ct_expr key direction _ =>
    if key = NFT_CT_HELPER then .ok (some (.objref_stmt NFT_OBJECT_CT_HELPER right)) ctx
    else .ok (some (.ct_stmt key direction right)) ctx
  | _ =>
    .ok none (json_error ctx "Invalid LHS expression type for mangle statement." [])

/-- Source: `json_parse_mangle_stmt`. -/
def json_parse_mangle_stmt (pe : expr_parse_fn) (_ps : stmt_parse_fn) (ctx : json_ctx)
    (_key : String) (value : Json) : Res (Option stmt) :=
  match json_unpack_key_o value "left", json_unpack_key_o value "right" with
  | some jleft, some jright =>
    match json_parse_mangle_lhs_expr pe ctx jleft with
    | .fault => .fault
    | .ok none ctx => .ok none (json_error ctx "Invalid LHS of mangle statement" [])
    | .ok (some left) ctx =>
      match json_parse_stmt_expr pe ctx jright with
      | .fault => .fault
      | .ok none ctx => .ok none (json_error ctx "Invalid RHS of mangle statement" [])
      | .ok (some right) ctx => mangle_stmt_of ctx left right
  | _, _ => .ok none (json_unpack_err ctx)

/-- Source: `rate_to_bytes`; the arithmetic is in `uint64_t`. -/
def rate_to_bytes (val : Int) (unit : String) : Nat :=
  if unit = "kbytes" then (c_uint64 val * 1024) % 2 ^ 64
  else if unit = "mbytes" then (c_uint64 val * 1024 * 1024) % 2 ^ 64
  else c_uint64 val

/-- Source: `json_parse_quota_stmt`. -/
def json_parse_quota_stmt (pe : expr_parse_fn) (_ps : stmt_parse_fn) (ctx : json_ctx)
    (_key : String) (value : Json) : Res (Option stmt) :=
  match json_unpack_key_i value "val" with
  | some val =>
    let inv := (json_unpack_key_b value "inv").getD 0
    let val_unit := (json_unpack_key_s value "val_unit").getD "bytes"
    let used := (json_unpack_key_i value "used").getD 0
    let used_unit := (json_unpack_key_s value "used_unit").getD "bytes"
    .ok (some (.quota_stmt (rate_to_bytes val val_unit)
      (if used ≠ 0 then rate_to_bytes used used_unit else 0)
      (if inv ≠ 0 then NFT_QUOTA_F_INV else 0))) ctx
  | none =>
    match json_parse_stmt_expr pe ctx value with
    | .fault => .fault
    | .ok none ctx => .ok none (json_error ctx "Invalid quota reference." [])
    | .ok (some e) ctx => .ok (some (.objref_stmt NFT_OBJECT_QUOTA e)) ctx

/-- Source: `seconds_from_unit`. -/
def seconds_from_unit (unit : String) : Nat :=
  if unit = "week" then 60 * 60 * 24 * 7
  else if unit = "day" then 60 * 60 * 24
  else if unit = "hour" then 60 * 60
  else if unit = "minute" then 60
  else 1

/-- Source: `json_parse_limit_stmt`. -/
def json_parse_limit_stmt (pe : expr_parse_fn) (_ps : stmt_parse_fn) (ctx : json_ctx)
    (_key : String) (value : Json) : Res (Option stmt) :=
  match json_unpack_key_i value "rate", json_unpack_key_s value "per" with
  | some rate, some time =>
    let rate_unit := (json_unpack_key_s value "rate_unit").getD "packets"
    let inv := (json_unpack_key_b value "inv").getD 0
    let burst := (json_unpack_key_i value "burst").getD 0
    let burst_unit := (json_unpack_key_s value "burst_unit").getD "bytes"
    if rate_unit = "packets" then
      .ok (some (.limit_stmt .NFT_LIMIT_PKTS rate burst (seconds_from_unit time)
        (if inv ≠ 0 then NFT_LIMIT_F_INV else 0))) ctx
    else
      .ok (some (.limit_stmt .NFT_LIMIT_PKT_BYTES (rate_to_bytes rate rate_unit)
        (rate_to_bytes burst burst_unit) (seconds_from_unit time)
        (if inv ≠ 0 then NFT_LIMIT_F_INV else 0))) ctx
  | _, _ =>
    match json_parse_stmt_expr pe ctx value with
    | .fault => .fault
    | .ok none ctx => .ok none (json_error ctx "Invalid limit reference." [])
    | .ok (some e) ctx => .ok (some (.objref_stmt NFT_OBJECT_LIMIT e)) ctx

/-- Source: `json_parse_fwd_stmt`. The result of the sub-parse is stored
without a NULL check. -/
def json_parse_fwd_stmt (pe : expr_parse_fn) (_ps : stmt_parse_fn) (ctx : json_ctx)
    (_key : String) (value : Json) : Res (Option stmt) :=
  match pe ctx value with
  | .fault => .fault
  | .ok dest ctx => .ok (some (.fwd_stmt dest)) ctx

/-- Source: `json_parse_notrack_stmt`. -/
def json_parse_notrack_stmt (_pe : expr_parse_fn) (_ps : stmt_parse_fn) (ctx : json_ctx)
    (_key : String) (_value : Json) : Res (Option stmt) :=
  .ok (some .notrack_stmt) ctx

/-- Source: `json_parse_dup_stmt`. -/
def json_parse_dup_stmt (pe : expr_parse_fn) (_ps : stmt_parse_fn) (ctx : json_ctx)
    (_key : String) (value : Json) : Res (Option stmt) :=
  match json_unpack_key_o value "addr" with
  | none => .ok none (json_unpack_err ctx)
  | some tmp =>
    match json_parse_stmt_expr pe ctx tmp with
    | .fault => .fault
    | .ok none ctx => .ok none (json_error ctx "Illegal dup addr arg." [])
    | .ok (some dest) ctx =>
      match json_unpack_key_o value "dev" with
      | none => .ok (some (.dup_stmt dest none)) ctx
      | some tmp =>
        match json_parse_stmt_expr pe ctx tmp with
        | .fault => .fault
        | .ok none ctx => .ok none (json_error ctx "Illegal dup dev." [])
        | .ok (some dev) ctx => .ok (some (.dup_stmt dest (some dev))) ctx

def nat_flag_tbl : List (String × Nat) :=
  [ ("random", 1 <<< 2),
    ("fully-random", 1 <<< 4),
    ("persistent", 1 <<< 3) ]

/-- Source: `json_parse_nat_flag`. The value is the return code (true for 1)
with the updated flag word; the flag word only ever collects the positive
constants of the table, so it is kept as a natural number. -/
def json_parse_nat_flag (ctx : json_ctx) (root : Json) (flags : Nat) : Res (Bool × Nat) :=
  match root with
  | .string flag =>
    match nat_flag_tbl.find? (fun e => flag = e.1) with
    | some e => .ok (false, flags ||| e.2) ctx
    | none => .ok (true, flags) (json_error ctx "Unknown nat flag '%s'." [.str flag])
  | _ =>
    .ok (true, flags) (json_error ctx "Invalid nat flag type %s, expected string."
      [.str (json_typename root)])

/-- The `json_array_foreach` loop of `json_parse_nat_flags`. -/
def json_parse_nat_flags_loop (ctx : json_ctx) (items : List Json) (index : Nat)
    (flags : Nat) : Res Nat :=
  match items with
  | [] => .ok flags ctx
  | value :: rest =>
    match json_parse_nat_flag ctx value flags with
    | .fault => .fault
    | .ok (true, flags) ctx =>
      json_parse_nat_flags_loop
        (json_error ctx "Parsing nat flag at index %zu failed." [.int index])
        rest (index + 1) flags
    | .ok (false, flags) ctx => json_parse_nat_flags_loop ctx rest (index + 1) flags

/-- Source: `json_parse_nat_flags`: the flag word, or -1. -/
def json_parse_nat_flags (ctx : json_ctx) (root : Json) : Res Int :=
  if json_is_string root then
    match json_parse_nat_flag ctx root 0 with
    | .fault => .fault
    | .ok (_, flags) ctx => .ok flags ctx
  else if !json_is_array root then
    .ok (-1) (json_error ctx "Invalid nat flags type %s." [.str (json_typename root)])
  else
    match json_parse_nat_flags_loop ctx (json_array_items root) 0 0 with
    | .fault => .fault
    | .ok flags ctx => .ok flags ctx

def nat_etypes : List String := [ "snat", "dnat", "masquerade", "redirect" ]

/-- Source: `nat_type_parse`. -/
def nat_type_parse (type : String) : Int :=
  match nat_etypes.findIdx? (fun t => type = t) with
  | some i => i
  | none => -1

/-- The third step of `json_parse_nat_stmt`: the optional `flags`. -/
def json_parse_nat_stmt_flags (ctx : json_ctx) (value : Json) (type : Nat)
    (addr proto : Option expr) : Res (Option stmt) :=
  match json_unpack_key_o value "flags" with
  | none => .ok (some (.nat_stmt type addr proto 0)) ctx
  | some tmp =>
    match json_parse_nat_flags ctx tmp with
    | .fault => .fault
    | .ok flags ctx =>
      if flags < 0 then .ok none ctx
      else .ok (some (.nat_stmt type addr proto flags)) ctx

/-- The second step of `json_parse_nat_stmt`: the optional `port`. -/
def json_parse_nat_stmt_port (pe : expr_parse_fn) (ctx : json_ctx) (value : Json) (type : Nat)
    (addr : Option expr) : Res (Option stmt) :=
  match json_unpack_key_o value "port" with
  | none => json_parse_nat_stmt_flags ctx value type addr none
  | some tmp =>
    match json_parse_stmt_expr pe ctx tmp with
    | .fault => .fault
    | .ok none ctx => .ok none (json_error ctx "Invalid nat port." [])
    | .ok (some proto) ctx => json_parse_nat_stmt_flags ctx value type addr (some proto)

/-- Source: `json_parse_nat_stmt`. -/
def json_parse_nat_stmt (pe : expr_parse_fn) (_ps : stmt_parse_fn) (ctx : json_ctx)
    (key : String) (value : Json) : Res (Option stmt) :=
  if nat_type_parse key < 0 then
    .ok none (json_error ctx "Unknown nat type '%s'." [.str key])
  else
    match json_unpack_key_o value "addr" with
    | none => json_parse_nat_stmt_port pe ctx value (nat_type_parse key).toNat none
    | some tmp =>
      match json_parse_stmt_expr pe ctx tmp with
      | .fault => .fault
      | .ok none ctx => .ok none (json_error ctx "Invalid nat addr." [])
      | .ok (some addr) ctx =>
        json_parse_nat_stmt_port pe ctx value (nat_type_parse key).toNat (some addr)

/-- The `type` branch of `json_parse_reject_stmt`: the values of
`reject.type`, `reject.icmp_code`, `reject.family` and the local `dtype`. -/
def reject_type_parse (type : Option String) : Int × Int × Int × Option dtype_ref :=
  match type with
  | none => (-1, -1, 0, none)
  | some type =>
    if type = "tcp reset" then (NFT_REJECT_TCP_RST, 0, 0, none)
    else if type = "icmpx" then (NFT_REJECT_ICMPX_UNREACH, 0, 0, some .icmpx_code_type)
    else if type = "icmp" then
      (NFT_REJECT_ICMP_UNREACH, 0, NFPROTO_IPV4, some .icmp_code_type)
    else if type = "icmpv6" then
      (NFT_REJECT_ICMP_UNREACH, 0, NFPROTO_IPV6, some .icmpv6_code_type)
    else (-1, -1, 0, none)

/-- Source: `json_parse_reject_stmt`. -/
def json_parse_reject_stmt (_pe : expr_parse_fn) (_ps : stmt_parse_fn) (ctx : json_ctx)
    (_key : String) (value : Json) : Res (Option stmt) :=
  let r := reject_type_parse (json_unpack_key_s value "type")
  match json_unpack_key_o value "expr" with
  | none => .ok (some (.reject_stmt r.1 r.2.1 r.2.2.1 none none)) ctx
  | some tmp =>
    match json_parse_immediate_expr ctx "immediate" tmp with
    | .fault => .fault
    | .ok none ctx => .ok none (json_error ctx "Illegal reject expr." [])
    | .ok (some e) ctx => .ok (some (.reject_stmt r.1 r.2.1 r.2.2.1 (some e) r.2.2.2)) ctx

/-- The assignment `expr->timeout = t` on a set element. -/
def expr_set_timeout (e : expr) (t : Nat) : expr :=
  match e with
  | .set_elem_expr key _ expiration comment => .set_elem_expr key t expiration comment
  | other => other

/-- The assignment `expr->expiration = t` on a set element. -/
def expr_set_expiration (e : expr) (t : Nat) : expr :=
  match e with
  | .set_elem_expr key timeout _ comment => .set_elem_expr key timeout t comment
  | other => other

/-- The assignment `expr->comment = s` on a set element. -/
def expr_set_comment (e : expr) (s : String) : expr :=
  match e with
  | .set_elem_expr key timeout expiration _ => .set_elem_expr key timeout expiration (some s)
  | other => other

/-- The three lookups of `json_parse_set_stmt` on the `elem` node, with the
products formed in `uint64_t`. -/
def set_stmt_elem_fields (elem : Json) (e : expr) : expr :=
  let e1 := match json_unpack_key_I elem "elem_timeout" with
    | some tmp => expr_set_timeout e ((c_uint64 tmp * 1000) % 2 ^ 64)
    | none => e
  let e2 := match json_unpack_key_I elem "elem_expires" with
    | some tmp => expr_set_expiration e1 ((c_uint64 tmp * 1000) % 2 ^ 64)
    | none => e1
  match json_unpack_key_s elem "elem_comment" with
  | some s => expr_set_comment e2 s
  | none => e2

/-- The reference check that closes `json_parse_set_stmt`. -/
def json_parse_set_stmt_ref (ctx : json_ctx) (op : nft_dynset_ops) (key : expr)
    (set : String) : Res (Option stmt) :=
  match set.data with
  | '@' :: rest => .ok (some (.set_stmt op key (.symbol_expr .SYMBOL_SET (String.mk rest)))) ctx
  | _ => .ok none (json_error ctx "Illegal set reference in set statement." [])

/-- The part of `json_parse_set_stmt` after the operator has been read. -/
def json_parse_set_stmt_elem (pe : expr_parse_fn) (ctx : json_ctx) (op : nft_dynset_ops)
    (elem : Json) (set : String) : Res (Option stmt) :=
  match json_parse_set_elem_expr_stmt pe ctx elem with
  | .fault => .fault
  | .ok none ctx => .ok none (json_error ctx "Illegal set statement element." [])
  | .ok (some e) ctx => json_parse_set_stmt_ref ctx op (set_stmt_elem_fields elem e) set

/-- Source: `json_parse_set_stmt`. -/
def json_parse_set_stmt (pe : expr_parse_fn) (_ps : stmt_parse_fn) (ctx : json_ctx)
    (_key : String) (value : Json) : Res (Option stmt) :=
  match json_unpack_key_s value "op", json_unpack_key_o value "elem",
      json_unpack_key_s value "set" with
  | some opstr, some elem, some set =>
    if opstr = "add" then json_parse_set_stmt_elem pe ctx .NFT_DYNSET_OP_ADD elem set
    else if opstr = "update" then
      json_parse_set_stmt_elem pe ctx .NFT_DYNSET_OP_UPDATE elem set
    else .ok none (json_error ctx "Unknown set statement op '%s'." [.str opstr])
  | _, _, _ => .ok none (json_unpack_err ctx)

def log_flag_tbl : List (String × Nat) :=
  [ ("tcp sequence", 0x01),
    ("tcp options", 0x02),
    ("ip options", 0x04),
    ("skuid", 0x08),
    ("ether", 0x20),
    ("all", 0x2f) ]

/-- Source: `json_parse_log_flag`, with the conventions of
`json_parse_nat_flag`. -/
def json_parse_log_flag (ctx : json_ctx) (root : Json) (flags : Nat) : Res (Bool × Nat) :=
  match root with
  | .string flag =>
    match log_flag_tbl.find? (fun e => flag = e.1) with
    | some e => .ok (false, flags ||| e.2) ctx
    | none => .ok (true, flags) (json_error ctx "Unknown log flag '%s'." [.str flag])
  | _ =>
    .ok (true, flags) (json_error ctx "Invalid log flag type %s, expected string."
      [.str (json_typename root)])

/-- The `json_array_foreach` loop of `json_parse_log_flags`. -/
def json_parse_log_flags_loop (ctx : json_ctx) (items : List Json) (index : Nat)
    (flags : Nat) : Res Nat :=
  match items with
  | [] => .ok flags ctx
  | value :: rest =>
    match json_parse_log_flag ctx value flags with
    | .fault => .fault
    | .ok (true, flags) ctx =>
      json_parse_log_flags_loop
        (json_error ctx "Parsing log flag at index %zu failed." [.int index])
        rest (index + 1) flags
    | .ok (false, flags) ctx => json_parse_log_flags_loop ctx rest (index + 1) flags

/-- Source: `json_parse_log_flags`: the flag word, or -1. -/
def json_parse_log_flags (ctx : json_ctx) (root : Json) : Res Int :=
  if json_is_string root then
    match json_parse_log_flag ctx root 0 with
    | .fault => .fault
    | .ok (_, flags) ctx => .ok flags ctx
  else if !json_is_array root then
    .ok (-1) (json_error ctx "Invalid log flags type %s." [.str (json_typename root)])
  else
    match json_parse_log_flags_loop ctx (json_array_items root) 0 0 with
    | .fault => .fault
    | .ok flags ctx => .ok flags ctx

/-- The presence-flag word of `json_parse_log_stmt` after the options
`prefix`, `group`, `snaplen` and `queue-threshold` have been read, in source
order. -/
def log_presence (value : Json) : Nat :=
  (((if (json_unpack_key_s value "prefix").isSome then STMT_LOG_PREFIX else 0)
    ||| (if (json_unpack_key_i value "group").isSome then STMT_LOG_GROUP else 0))
    ||| (if (json_unpack_key_i value "snaplen").isSome then STMT_LOG_SNAPLEN else 0))
    ||| (if (json_unpack_key_i value "queue-threshold").isSome then STMT_LOG_QTHRESHOLD else 0)

/-- The last step of `json_parse_log_stmt`: the optional `flags`. -/
def json_parse_log_stmt_flags (ctx : json_ctx) (value : Json) (level : Int) (flags : Nat) :
    Res (Option stmt) :=
  match json_unpack_key_o value "flags" with
  | none =>
    .ok (some (.log_stmt (json_unpack_key_s value "prefix")
      ((json_unpack_key_i value "group").getD 0) ((json_unpack_key_i value "snaplen").getD 0)
      ((json_unpack_key_i value "queue-threshold").getD 0) level 0 flags)) ctx
  | some jflags =>
    match json_parse_log_flags ctx jflags with
    | .fault => .fault
    | .ok logflags ctx =>
      if logflags < 0 then .ok none ctx
      else
        .ok (some (.log_stmt (json_unpack_key_s value "prefix")
          ((json_unpack_key_i value "group").getD 0)
          ((json_unpack_key_i value "snaplen").getD 0)
          ((json_unpack_key_i value "queue-threshold").getD 0) level logflags flags)) ctx

/-- Source: `json_parse_log_stmt`. -/
def json_parse_log_stmt (sreg : StmtRegistry) (_pe : expr_parse_fn) (_ps : stmt_parse_fn)
    (ctx : json_ctx) (_key : String) (value : Json) : Res (Option stmt) :=
  match json_unpack_key_s value "level" with
  | some tmpstr =>
    if sreg.log_level_parse tmpstr < 0 then
      .ok none (json_error ctx "Invalid log level '%s'." [.str tmpstr])
    else
      json_parse_log_stmt_flags ctx value (sreg.log_level_parse tmpstr)
        (log_presence value ||| STMT_LOG_LEVEL)
  | none => json_parse_log_stmt_flags ctx value 0 (log_presence value)

/-- Source: `json_parse_cthelper_stmt`. -/
def json_parse_cthelper_stmt (pe : expr_parse_fn) (_ps : stmt_parse_fn) (ctx : json_ctx)
    (_key : String) (value : Json) : Res (Option stmt) :=
  match json_parse_stmt_expr pe ctx value with
  | .fault => .fault
  | .ok none ctx => .ok none (json_error ctx "Invalid cthelper reference." [])
  | .ok (some e) ctx => .ok (some (.objref_stmt NFT_OBJECT_CT_HELPER e)) ctx

/-- Source: `json_parse_meter_stmt`. -/
def json_parse_meter_stmt (pe : expr_parse_fn) (ps : stmt_parse_fn) (ctx : json_ctx)
    (_key : String) (value : Json) : Res (Option stmt) :=
  match json_unpack_key_o value "key", json_unpack_key_o value "stmt" with
  | some jkey, some jstmt =>
    match pe ctx jkey with
    | .fault => .fault
    | .ok none ctx => .ok none (json_error ctx "Invalid meter key." [])
    | .ok (some key) ctx =>
      match ps ctx jstmt with
      | .fault => .fault
      | .ok none ctx => .ok none (json_error ctx "Invalid meter statement." [])
      | .ok (some s) ctx =>
        .ok (some (.meter_stmt (json_unpack_key_s value "name") key s)) ctx
  | _, _ => .ok none (json_unpack_err ctx)

/-- Source: `queue_flag_parse`: the updated flag word, or `none` for return
value 1. -/
def queue_flag_parse (name : String) (flags : Nat) : Option Nat :=
  if name = "bypass" then some (flags ||| NFT_QUEUE_FLAG_BYPASS)
  else if name = "fanout" then some (flags ||| NFT_QUEUE_FLAG_CPU_FANOUT)
  else none

/-- The `json_array_foreach` loop of `json_parse_queue_stmt`. -/
def json_parse_queue_flags_loop (ctx : json_ctx) (items : List Json) (index : Nat)
    (queue : Option expr) (flags : Nat) : Res (Option stmt) :=
  match items with
  | [] => .ok (some (.queue_stmt queue flags)) ctx
  | val :: rest =>
    match val with
    | .string flag =>
      match queue_flag_parse flag flags with
      | none => .ok none (json_error ctx "Invalid queue flag '%s'." [.str flag])
      | some flags => json_parse_queue_flags_loop ctx rest (index + 1) queue flags
    | _ =>
      .ok none (json_error ctx "Invalid object in queue flag array at index %zu."
        [.int index])

/-- The second step of `json_parse_queue_stmt`: the optional `flags`. -/
def json_parse_queue_stmt_flags (ctx : json_ctx) (value : Json) (queue : Option expr) :
    Res (Option stmt) :=
  match json_unpack_key_o value "flags" with
  | none => .ok (some (.queue_stmt queue 0)) ctx
  | some tmp =>
    match tmp with
    | .string flag =>
      match queue_flag_parse flag 0 with
      | none => .ok none (json_error ctx "Invalid queue flag '%s'." [.str flag])
      | some flags => json_parse_queue_flags_loop ctx (json_array_items tmp) 0 queue flags
    | _ =>
      if !json_is_array tmp then
        .ok none (json_error ctx "Unexpected object type in queue flags." [])
      else
        json_parse_queue_flags_loop ctx (json_array_items tmp) 0 queue 0

/-- Source: `json_parse_queue_stmt`. -/
def json_parse_queue_stmt (pe : expr_parse_fn) (_ps : stmt_parse_fn) (ctx : json_ctx)
    (_key : String) (value : Json) : Res (Option stmt) :=
  match json_unpack_key_o value "num" with
  | none => json_parse_queue_stmt_flags ctx value none
  | some tmp =>
    match json_parse_stmt_expr pe ctx tmp with
    | .fault => .fault
    | .ok none ctx => .ok none (json_error ctx "Invalid queue num." [])
    | .ok (some q) ctx => json_parse_queue_stmt_flags ctx value (some q)

/-! ## The statement dispatcher -/

/-- One row of `stmt_parser_tbl`. -/
structure stmt_entry where
  key : String
  cb : expr_parse_fn → stmt_parse_fn → json_ctx → String → Json → Res (Option stmt)

/-- The table `stmt_parser_tbl` of `json_parse_stmt`. -/
def stmt_parser_tbl (sreg : StmtRegistry) : List stmt_entry :=
  [ ⟨"accept", json_parse_verdict_stmt⟩,
    ⟨"drop", json_parse_verdict_stmt⟩,
    ⟨"continue", json_parse_verdict_stmt⟩,
    ⟨"jump", json_parse_verdict_stmt⟩,
    ⟨"goto", json_parse_verdict_stmt⟩,
    ⟨"return", json_parse_verdict_stmt⟩,
    ⟨"match", json_parse_match_stmt sreg⟩,
    ⟨"counter", json_parse_counter_stmt⟩,
    ⟨"mangle", json_parse_mangle_stmt⟩,
    ⟨"quota", json_parse_quota_stmt⟩,
    ⟨"limit", json_parse_limit_stmt⟩,
    ⟨"fwd", json_parse_fwd_stmt⟩,
    ⟨"notrack", json_parse_notrack_stmt⟩,
    ⟨"dup", json_parse_dup_stmt⟩,
    ⟨"snat", json_parse_nat_stmt⟩,
    ⟨"dnat", json_parse_nat_stmt⟩,
    ⟨"masquerade", json_parse_nat_stmt⟩,
    ⟨"redirect", json_parse_nat_stmt⟩,
    ⟨"reject", json_parse_reject_stmt⟩,
    ⟨"set", json_parse_set_stmt⟩,
    ⟨"log", json_parse_log_stmt sreg⟩,
    ⟨"ct helper", json_parse_cthelper_stmt⟩,
    ⟨"meter", json_parse_meter_stmt⟩,
    ⟨"queue", json_parse_queue_stmt⟩ ]

/-- The table loop of `json_parse_stmt`: the builder of the first row whose
key equals `type` is called with the key of the row. -/
def json_parse_stmt_dispatch (tbl : List stmt_entry) (pe : expr_parse_fn) (ps : stmt_parse_fn)
    (ctx : json_ctx) (type : String) (tmp : Json) : Res (Option stmt) :=
  match tbl with
  | [] => .ok none (json_error ctx "Unknown statement object '%s'." [.str type])
  | row :: rest =>
    if type = row.key then row.cb pe ps ctx row.key tmp
    else json_parse_stmt_dispatch rest pe ps ctx type tmp

/-- Source: the body of `json_parse_stmt`, with the recursive calls going to
`ps` and the expression parses to `pe`. -/
def json_parse_stmt_body (sreg : StmtRegistry) (pe : expr_parse_fn) (ps : stmt_parse_fn) :
    stmt_parse_fn :=
  fun ctx root =>
    match json_unpack_stmt ctx root with
    | (none, ctx) => .ok none ctx
    | (some (type, tmp), ctx) =>
      if type = "map" then
        match json_parse_map_expr pe ctx type tmp with
        | .fault => .fault
        | .ok none ctx => .ok none (json_error ctx "Illegal vmap statement." [])
        | .ok (some e) ctx => .ok (some (.verdict_stmt e)) ctx
      else
        json_parse_stmt_dispatch (stmt_parser_tbl sreg) pe ps ctx type tmp

/-- The parser `json_parse_stmt` unrolled `fuel` times. -/
def json_parse_stmt_fuel (reg : Registry) (sreg : StmtRegistry) : Nat → stmt_parse_fn
  | 0 => fun _ _ => .fault
  | fuel + 1 => json_parse_stmt_body sreg (json_parse_expr reg) (json_parse_stmt_fuel reg sreg fuel)

/-- Source: `json_parse_stmt`. The recursion (through the meter statement)
descends into the document, so its nesting depth bounds the unrolling (see
`json_parse_stmt_eq`). -/
def json_parse_stmt (reg : Registry) (sreg : StmtRegistry) : stmt_parse_fn :=
  fun ctx root => json_parse_stmt_fuel reg sreg (root.depth + 1) ctx root

/-- Statement tables for concrete evaluations. -/
def sample_stmt_registry : StmtRegistry :=
  { expr_op_symbols := [none, some "implicit", some "hton", some "ntoh", some "<<", some ">>",
      some "&", some "^", some "|", some "==", some "!=", some "<", some ">", some "<=",
      some ">=", none, none, none],
    log_level_parse := fun s => if s = "warn" then 4 else -1 }

/-- Two statement parsers agree on every document of depth below `d`. -/
def AgreeStmt (ps ps1 : stmt_parse_fn) (d : Nat) : Prop :=
  ∀ c x, x.depth < d → ps c x = ps1 c x

/-- Every call of the statement parser is framed. -/
def FramedStmtParser (ps : stmt_parse_fn) : Prop := ∀ x, Framed (fun c => ps c x)

/-- A statement builder is framed whenever the parsers it calls are. -/
def StmtBuilderFramed
    (cb : expr_parse_fn → stmt_parse_fn → json_ctx → String → Json → Res (Option stmt)) :
    Prop :=
  ∀ pe ps, FramedParser pe → FramedStmtParser ps →
    ∀ key value, Framed (fun c => cb pe ps c key value)

/-! ## Builder contracts of the specification (section 4.2) -/

/-- The document `x` parses to an expression under the flag word `F`. -/
def parses (reg : Registry) (F : Nat) (x : Json) : Prop :=
  ∃ e c, json_parse_expr reg ⟨F, []⟩ x = .ok (some e) c

/-- A scalar leaf that the primitive reader accepts under the flag word `F`:
a string, an integer, or a boolean in a context holding RHS. -/
def immediate_ok (F : Nat) (x : Json) : Prop :=
  json_is_string x = true ∨ json_is_integer x = true
    ∨ (json_is_boolean x = true ∧ is_RHS ⟨F, []⟩ = true)

/-- A well-formed element of the operand of `set`: a 2-tuple `[k, v]` with
`k` parsed as RHS and `v` as SET_RHS, a one-key object parsed as RHS, or a
scalar leaf. -/
def set_item_contract (reg : Registry) (F : Nat) (x : Json) : Prop :=
  (∃ k v, x = .array [k, v] ∧ parses reg (F ||| CTX_F_RHS) k
      ∧ parses reg (F ||| CTX_F_SET_RHS) v)
    ∨ (json_is_object x = true ∧ parses reg (F ||| CTX_F_RHS) x)
    ∨ immediate_ok F x

/-- The operand `v` satisfies the contract of the builder selected by the
key, in a context with flag word `F` (specification, key builders and their
contracts). Sub-expressions are well formed when they parse under the flag
word of the flag-scoped helper that reads them. -/
inductive operand_contract (reg : Registry) (F : Nat) : String → Json → Prop where
  /-- concat: an array of at least two primaries. -/
  | concat (xs : List Json) (h2 : 2 ≤ xs.length)
      (hx : ∀ x ∈ xs, parses reg (F ||| CTX_F_PRIMARY) x) :
      operand_contract reg F "concat" (.array xs)
  /-- set: a (non-empty) array of elements. -/
  | set_array (xs : List Json) (hne : xs ≠ []) (hx : ∀ x ∈ xs, set_item_contract reg F x) :
      operand_contract reg F "set" (.array xs)
  /-- set: a scalar operand. -/
  | set_scalar (v : Json) (hv : immediate_ok F v) : operand_contract reg F "set" v
  /-- map: `left` parsed with MAP, `right` with RHS. -/
  | map (v l r : Json) (hl : json_unpack_key_o v "left" = some l)
      (hr : json_unpack_key_o v "right" = some r) (pl : parses reg (F ||| CTX_F_MAP) l)
      (pr : parses reg (F ||| CTX_F_RHS) r) : operand_contract reg F "map" v
  /-- prefix: `addr` parsed as PRIMARY and an integer `len`. -/
  | addr_prefix (v addr : Json) (len : Int) (ha : json_unpack_key_o v "addr" = some addr)
      (hl : json_unpack_key_i v "len" = some len)
      (pa : parses reg (F ||| CTX_F_PRIMARY) addr) : operand_contract reg F "prefix" v
  /-- range: a two-element array parsed as PRIMARY. -/
  | range (lo hi : Json) (pl : parses reg (F ||| CTX_F_PRIMARY) lo)
      (ph : parses reg (F ||| CTX_F_PRIMARY) hi) : operand_contract reg F "range" (.array [lo, hi])
  /-- wildcard: any operand. -/
  | wildcard (v : Json) : operand_contract reg F "*" v
  /-- immediate: a scalar leaf. -/
  | immediate (v : Json) (hv : immediate_ok F v) : operand_contract reg F "immediate" v
  /-- payload, raw form: base among ll, nh, th, integer offset and len. -/
  | payload_raw (v : Json) (base : String) (offset len : Int)
      (hn : json_unpack_key_s v "name" = some "raw")
      (hb : json_unpack_key_s v "base" = some base) (hbase : base ∈ ["ll", "nh", "th"])
      (ho : json_unpack_key_i v "offset" = some offset)
      (hl : json_unpack_key_i v "len" = some len) : operand_contract reg F "payload" v
  /-- payload: a protocol of the registry and one of its fields. -/
  | payload (v : Json) (name field : String) (proto : proto_desc) (idx : Nat)
      (hn : json_unpack_key_s v "name" = some name) (hraw : name ≠ "raw")
      (hp : proto_lookup_byname reg name = some proto)
      (hf : json_unpack_key_s v "field" = some field)
      (hi : token_index proto.templates field = some idx) : operand_contract reg F "payload" v
  /-- exthdr without `field`: the presence probe. -/
  | exthdr_present (v : Json) (name : String) (idx : Nat) (desc : exthdr_desc)
      (hn : json_unpack_key_s v "name" = some name)
      (hd : exthdr_lookup_byname reg name = some (idx, desc))
      (hf : json_unpack_key_s v "field" = none) : operand_contract reg F "exthdr" v
  /-- exthdr with a field of the header; route type 0 comes with an integer
  `offset`. -/
  | exthdr_field (v : Json) (name field : String) (idx : Nat) (desc : exthdr_desc) (i : Nat)
      (hn : json_unpack_key_s v "name" = some name)
      (hd : exthdr_lookup_byname reg name = some (idx, desc))
      (hf : json_unpack_key_s v "field" = some field)
      (hi : token_index desc.templates field = some i)
      (ho : idx = EXTHDR_RT0_INDEX → ∃ offset, json_unpack_key_i v "offset" = some offset) :
      operand_contract reg F "exthdr" v
  /-- tcp option without `field`: the presence probe. -/
  | tcpopt_present (v : Json) (name : String) (t : Nat)
      (hn : json_unpack_key_s v "name" = some name)
      (ht : json_parse_tcp_option_type reg name = some t)
      (hf : json_unpack_key_s v "field" = none) : operand_contract reg F "tcp option" v
  /-- tcp option with a field of the option template. -/
  | tcpopt_field (v : Json) (name field : String) (t : Nat) (desc : exthdr_desc) (i : Nat)
      (hn : json_unpack_key_s v "name" = some name)
      (ht : json_parse_tcp_option_type reg name = some t)
      (hf : json_unpack_key_s v "field" = some field)
      (hd : reg.tcpopthdr_protocols.get? t = some (some desc))
      (hi : token_index desc.templates field = some i) : operand_contract reg F "tcp option" v
  /-- meta: a string key known to the meta-key parser. -/
  | meta_key (name : String) (key : Nat) (hk : reg.meta_key_parse name = .ok key) :
      operand_contract reg F "meta" (.string name)
  /-- rt: key among classid, nexthop, mtu; family, if given, ip or ip6. -/
  | rt (v : Json) (key : String) (hk : json_unpack_key_s v "key" = some key)
      (hkey : key ∈ ["classid", "nexthop", "mtu"])
      (hfam : ∀ family, json_unpack_key_s v "family" = some family →
        family = "ip" ∨ family = "ip6") : operand_contract reg F "rt" v
  /-- ct: key of the ct templates; family, if given, ip or ip6; dir, if
  given, original or reply and only on a directional key. -/
  | ct (v : Json) (key : String) (i : Nat) (hk : json_unpack_key_s v "key" = some key)
      (hi : token_index reg.ct_templates key = some i)
      (hfam : ∀ family, json_unpack_key_s v "family" = some family →
        family = "ip" ∨ family = "ip6")
      (hdir : ∀ dir, json_unpack_key_s v "dir" = some dir →
        (dir = "original" ∨ dir = "reply") ∧ ct_key_is_dir i = true) :
      operand_contract reg F "ct" v
  /-- numgen: mode inc or random and an integer mod. -/
  | numgen (v : Json) (mode : String) (mod : Int)
      (hm : json_unpack_key_s v "mode" = some mode) (hmode : mode = "inc" ∨ mode = "random")
      (hmod : json_unpack_key_i v "mod" = some mod) : operand_contract reg F "numgen" v
  /-- jhash: an integer mod and an `expr` parsed at the current context. -/
  | jhash (v x : Json) (mod : Int) (hmod : json_unpack_key_i v "mod" = some mod)
      (hx : json_unpack_key_o v "expr" = some x) (px : parses reg F x) :
      operand_contract reg F "jhash" v
  /-- symhash: an integer mod. -/
  | symhash (v : Json) (mod : Int) (hmod : json_unpack_key_i v "mod" = some mod) :
      operand_contract reg F "symhash" v
  /-- fib: result among oif, oifname, type; flags, one string or an array of
  strings, among saddr, daddr, mark, iif, oif; exactly one of saddr and daddr;
  not both iif and oif. -/
  | fib (v flags : Json) (result : String) (names : List String)
      (hr : json_unpack_key_s v "result" = some result)
      (hres : result ∈ ["oif", "oifname", "type"])
      (hfl : json_unpack_key_o v "flags" = some flags)
      (hshape : (∃ n, flags = .string n ∧ names = [n]) ∨ flags = .array (names.map .string))
      (hall : ∀ n ∈ names, n ∈ ["saddr", "daddr", "mark", "iif", "oif"])
      (hone : ("saddr" ∈ names ∧ "daddr" ∉ names) ∨ ("saddr" ∉ names ∧ "daddr" ∈ names))
      (hio : ¬ ("iif" ∈ names ∧ "oif" ∈ names)) : operand_contract reg F "fib" v
  /-- binary operators: a two-element array parsed as PRIMARY on both
  sides. -/
  | binop (T : String) (hT : T ∈ ["|", "^", "&", ">>", "<<"]) (l r : Json)
      (pl : parses reg (F ||| CTX_F_PRIMARY) l) (pr : parses reg (F ||| CTX_F_PRIMARY) r) :
      operand_contract reg F T (.array [l, r])
  /-- verdicts without argument. -/
  | verdict_plain (T : String) (hT : T ∈ ["accept", "drop", "continue", "return"]) (v : Json) :
      operand_contract reg F T v
  /-- jump and goto: a string chain name. -/
  | verdict_chain (T : String) (hT : T ∈ ["jump", "goto"]) (chain : String) :
      operand_contract reg F T (.string chain)
  /-- elem: `val` parsed as a general expression. -/
  | elem (v x : Json) (hx : json_unpack_key_o v "val" = some x) (px : parses reg F x) :
      operand_contract reg F "elem" v

open expr_types in
/-- The expression kinds that a key of the kind table names (specification,
data model): an immediate is a symbol or a constant, the wildcard is a
zero-length prefix, a tcp option is an exthdr expression. -/
def spec_kind_of (T : String) : List expr_types :=
  if T = "concat" then [EXPR_CONCAT]
  else if T = "set" then [EXPR_SET]
  else if T = "map" then [EXPR_MAP]
  else if T = "prefix" then [EXPR_PREFIX]
  else if T = "range" then [EXPR_RANGE]
  else if T = "*" then [EXPR_PREFIX]
  else if T = "immediate" then [EXPR_SYMBOL, EXPR_VALUE]
  else if T = "payload" then [EXPR_PAYLOAD]
  else if T = "exthdr" then [EXPR_EXTHDR]
  else if T = "tcp option" then [EXPR_EXTHDR]
  else if T = "meta" then [EXPR_META]
  else if T = "rt" then [EXPR_RT]
  else if T = "ct" then [EXPR_CT]
  else if T = "numgen" then [EXPR_NUMGEN]
  else if T = "jhash" ∨ T = "symhash" then [EXPR_HASH]
  else if T = "fib" then [EXPR_FIB]
  else if T ∈ ["|", "^", "&", ">>", "<<"] then [EXPR_BINOP]
  else if T ∈ ["accept", "drop", "continue", "jump", "goto", "return"] then [EXPR_VERDICT]
  else if T = "elem" then [EXPR_SET_ELEM]
  else []

/-- The flag word of `json_parse_fib_expr` as five booleans, one per name of
`fib_flags` in table order. -/
def fib_word (b0 b1 b2 b3 b4 : Bool) : Nat :=
  (if b0 then 1 else 0) ||| (if b1 then 2 else 0) ||| (if b2 then 4 else 0)
    ||| (if b3 then 8 else 0) ||| (if b4 then 16 else 0)

/-! ## The contract of fib (specification, key builders) -/

/-- The strings held by a list of JSON nodes, when every node is a string. -/
def string_items : List Json → Option (List String)
  | [] => some []
  | .string s :: rest =>
    match string_items rest with
    | some names => some (s :: names)
    | none => none
  | _ :: _ => none

/-- The flags named by the `flags` member of a fib operand: one string, or an
array of strings. -/
def fib_flag_names (flags : Json) : Option (List String) :=
  match flags with
  | .string n => some [n]
  | .array xs => string_items xs
  | _ => none

/-- The acceptance condition of fib as the specification words it: `result`
among oif, oifname, type; `flags` a string or an array of strings, each among
saddr, daddr, mark, iif, oif; exactly one of saddr and daddr named; iif and
oif not both named. -/
def spec_fib_accepts (root : Json) (result : String) (names : List String) : Prop :=
  json_unpack_key_s root "result" = some result
    ∧ result ∈ ["oif", "oifname", "type"]
    ∧ (∃ flags, json_unpack_key_o root "flags" = some flags
        ∧ fib_flag_names flags = some names)
    ∧ (∀ n ∈ names, n ∈ ["saddr", "daddr", "mark", "iif", "oif"])
    ∧ (("saddr" ∈ names ∧ "daddr" ∉ names) ∨ ("saddr" ∉ names ∧ "daddr" ∈ names))
    ∧ ¬ ("iif" ∈ names ∧ "oif" ∈ names)

/-- The flag word that holds exactly the named flags: bit `i` is set when the
`i`-th name of `fib_flags` occurs in `names`. -/
def spec_fib_flagval (names : List String) : Nat :=
  fib_word (decide ("saddr" ∈ names)) (decide ("daddr" ∈ names)) (decide ("mark" ∈ names))
    (decide ("iif" ∈ names)) (decide ("oif" ∈ names))

/-- A registry whose ct templates reach the directional keys (the tokens of
`ct_templates` up to `NFT_CT_DST`), for concrete evaluations. -/
def sample_ct_registry : Registry :=
  { sample_registry with
    ct_templates := [some "state", some "direction", some "status", some "mark",
      some "secmark", some "expiration", some "helper", some "l3proto", some "saddr",
      some "daddr"] }

/-- The family value of `json_parse_ct_expr` and `json_parse_rt_expr` after
the optional `family` member has been read. -/
def optional_family (root : Json) : Int :=
  match json_unpack_key_s root "family" with
  | some family => parse_family family
  | none => NFPROTO_UNSPEC

/-! ## Command nodes

The structures below are declared in headers outside `src/`; they hold the
fields that the command builders of `parser_json.c` assign. An allocator
(`chain_alloc`, `set_alloc`, `rule_alloc`, `obj_alloc`, `flowtable_alloc`)
returns the structure with every such field cleared. -/

/-- The operations of `enum cmd_ops` named by the parser. -/
inductive cmd_ops where
  | CMD_ADD
  | CMD_REPLACE
  | CMD_CREATE
  | CMD_INSERT
  | CMD_DELETE
  | CMD_LIST
  | CMD_RESET
  | CMD_FLUSH
  | CMD_RENAME
  deriving DecidableEq

/-- The object kinds of `enum cmd_obj` named by the parser. -/
inductive cmd_obj where
  | CMD_OBJ_SETELEM
  | CMD_OBJ_SET
  | CMD_OBJ_SETS
  | CMD_OBJ_RULE
  | CMD_OBJ_CHAIN
  | CMD_OBJ_CHAINS
  | CMD_OBJ_TABLE
  | CMD_OBJ_RULESET
  | CMD_OBJ_METER
  | CMD_OBJ_METERS
  | CMD_OBJ_MAP
  | CMD_OBJ_MAPS
  | CMD_OBJ_COUNTER
  | CMD_OBJ_COUNTERS
  | CMD_OBJ_QUOTA
  | CMD_OBJ_QUOTAS
  | CMD_OBJ_CT_HELPER
  | CMD_OBJ_CT_HELPERS
  | CMD_OBJ_LIMIT
  | CMD_OBJ_LIMITS
  | CMD_OBJ_FLOWTABLE
  | CMD_OBJ_FLOWTABLES
  deriving DecidableEq

/-- The value `NFT_OBJECT_CT_HELPER` (3) where the tables of the parser pass
it as an `enum cmd_obj`: the enumerator with that value, the fourth of the
enumeration (after INVALID, SETELEM, SET). -/
def NFT_OBJECT_CT_HELPER_obj : cmd_obj := .CMD_OBJ_SETS

/-- Modelled from the spec: `struct handle`, whose declaration is in a header
outside `src/`. The field `family` holds the `int` that `parse_family`
returns, so that the test `h.family < 0` of the builders sees the negative
sentinel (families outside the table are rejected at the ingest point). -/
structure handle where
  family : Int := 0
  table_name : Option String := none
  chain_name : Option String := none
  set_name : Option String := none
  obj_name : Option String := none
  flowtable : Option String := none
  /-- The field `handle.id` (`uint64_t`). -/
  handle_id : Nat := 0
  /-- The field `position.id` (`uint64_t`). -/
  position_id : Nat := 0

def CHAIN_F_BASECHAIN : Nat := 0x1

/-- A `struct chain` as `json_parse_cmd_add_chain` fills it. `policy` is
`none` while the value of `chain_alloc` stands. -/
structure chain where
  handle : handle
  flags : Nat := 0
  type : Option String := none
  hookstr : Option String := none
  dev : Option String := none
  policy : Option Int := none

/-- A `struct rule` as the rule builders fill it. -/
structure rule where
  comment : Option String := none
  num_stmts : Nat := 0
  stmts : List stmt := []

def NFT_SET_CONSTANT : Nat := 0x2
def NFT_SET_INTERVAL : Nat := 0x4
def NFT_SET_MAP : Nat := 0x8
def NFT_SET_TIMEOUT : Nat := 0x10
def NFT_SET_OBJECT : Nat := 0x40

def NFT_SET_POL_PERFORMANCE : Nat := 0
def NFT_SET_POL_MEMORY : Nat := 1

/-- A `struct set` as `json_parse_cmd_add_set` fills it. `timeout` is a
`uint64_t`, `gc_int` and `desc.size` are `uint32_t`. -/
structure set where
  handle : handle
  key : Option expr := none
  objtype : Nat := 0
  datatype : Option dtype_ref := none
  flags : Nat := 0
  policy : Nat := 0
  init : Option expr := none
  timeout : Nat := 0
  gc_int : Nat := 0
  desc_size : Nat := 0

/-- A `struct flowtable` as `json_parse_cmd_add_flowtable` fills it.
`dev_expr` holds the children of the compound expression that
`json_parse_flowtable_devs` allocates without operations. -/
structure flowtable where
  hookstr : String
  priority : Int
  dev_expr : List expr

/-- A `struct obj` as `json_parse_cmd_add_object` fills it. -/
structure obj where
  type : Nat := 0
  counter_packets : Nat := 0
  counter_bytes : Nat := 0
  quota_bytes : Nat := 0
  quota_used : Nat := 0
  quota_flags : Nat := 0
  ct_helper_name : String := ""
  ct_helper_l3proto : Int := 0
  ct_helper_l4proto : Nat := 0
  limit_rate : Nat := 0
  limit_unit : Nat := 0
  limit_burst : Nat := 0
  /-- The field `limit.type`; the cleared value 0 is `NFT_LIMIT_PKTS`. -/
  limit_type : nft_limit_type := .NFT_LIMIT_PKTS
  limit_flags : Nat := 0

/-- The payload of a command (`cmd->data` and its union members). -/
inductive cmd_data where
  | none
  | chain (c : chain)
  | rule (r : rule)
  | set (s : set)
  | expr (e : expr)
  | flowtable (f : flowtable)
  | obj (o : obj)

/-- A `struct cmd` as `cmd_alloc` returns it; `arg` is set by the rename
command. -/
structure cmd where
  op : cmd_ops
  obj : cmd_obj
  handle : handle
  data : cmd_data
  arg : Option String := none

/-- Source use of `cmd_alloc(op, obj, &h, int_loc, data)`. -/
def cmd_alloc (op : cmd_ops) (o : cmd_obj) (h : handle) (data : cmd_data) : cmd :=
  { op := op, obj := o, handle := h, data := data }

/-- The functions of other translation units that the command builders
call. -/
structure CmdRegistry where
  /-- The function `chain_hookname_lookup`: the canonical hook name, or NULL. -/
  chain_hookname_lookup : String → Option String
  /-- The function `handle_merge(dst, src)` applied to the cleared handle of a
  fresh chain or set. -/
  handle_merge : handle → handle
  /-- The function `cmd_alloc_obj_ct`. -/
  cmd_alloc_obj_ct : cmd_ops → Nat → handle → obj → cmd
  /-- The size of the array `obj->ct_helper.name`. -/
  ct_helper_name_size : Nat

/-- The value that a cleared `uint64_t` field holds after jansson has stored
the C `int` `i` through its address (format `i`): the low 32 bits, the layout
of the little-endian targets. -/
def store_int_u64 (i : Int) : Nat := (i % 2 ^ 32).toNat

/-- The value that a `uint32_t` field holds after the C `int` `i` has been
stored in it. -/
def store_int_u32 (i : Int) : Nat := (i % 2 ^ 32).toNat

/-! ## Command builders -/

mutual
/-- Source: `json_parse_dtype_expr`. -/
def json_parse_dtype_expr (reg : Registry) (ctx : json_ctx) : Json → Res (Option expr)
  | .string s =>
    match reg.datatype_lookup_byname s with
    | none => .ok none (json_error ctx "Invalid datatype '%s'." [.str s])
    | some dtype =>
      .ok (some (.constant_expr dtype (reg.datatype_byteorder dtype)
        (reg.datatype_size dtype) [])) ctx
  | .array items => json_parse_dtype_loop reg ctx items 0 (.concat_expr [])
  | _ => .ok none (json_error ctx "Invalid set datatype." [])
/-- The `json_array_foreach` loop of `json_parse_dtype_expr`. -/
def json_parse_dtype_loop (reg : Registry) (ctx : json_ctx) :
    List Json → Nat → expr → Res (Option expr)
  | [], _, acc => .ok (some acc) ctx
  | value :: rest, index, acc =>
    match json_parse_dtype_expr reg ctx value with
    | .fault => .fault
    | .ok none ctx1 =>
      .ok none (json_error ctx1 "Invalid datatype at index %zu." [.int index])
    | .ok (some i) ctx1 =>
      json_parse_dtype_loop reg ctx1 rest (index + 1) (compound_expr_add acc i)
end

/-- The name check shared by the table, chain, set and object builders: the
name is required unless the operation is a delete, for which either `name` or
`handle` will do. `what` is the noun of the error text. The result is the
handle with the members that were read, or `none` after an error. -/
def json_unpack_name_or_handle (ctx : json_ctx) (root : Json) (op : cmd_ops)
    (setname : handle → String → handle) (what : String) (h : handle) :
    Option handle × json_ctx :=
  if op ≠ .CMD_DELETE then
    match json_unpack_key_s root "name" with
    | none => (none, json_unpack_err ctx)
    | some name => (some (setname h name), ctx)
  else
    match json_unpack_key_s root "name" with
    | some name => (some (setname h name), ctx)
    | none =>
      match json_unpack_key_I root "handle" with
      | some id => (some { h with handle_id := c_uint64 id }, ctx)
      | none =>
        (none, json_error ctx ("Either name or handle required to delete " ++ what ++ ".") [])

/-- Source: `json_parse_cmd_add_table`. -/
def json_parse_cmd_add_table (ctx : json_ctx) (root : Json) (op : cmd_ops) (o : cmd_obj) :
    Res (Option cmd) :=
  match json_unpack_key_s root "family" with
  | none => .ok none (json_unpack_err ctx)
  | some family =>
    match json_unpack_name_or_handle ctx root op
        (fun h name => { h with table_name := some name }) "a table" {} with
    | (none, ctx) => .ok none ctx
    | (some h, ctx) =>
      if parse_family family < 0 then
        .ok none (json_error ctx "Unknown family '%s'." [.str family])
      else
        .ok (some (cmd_alloc op o { h with family := parse_family family } .none)) ctx

/-- Source: `parse_policy`. -/
def parse_policy (policy : String) : Int :=
  if policy = "accept" then NF_ACCEPT
  else if policy = "drop" then NF_DROP
  else -1

/-- The part of `json_parse_cmd_add_chain` that builds the base chain, entered
once `type`, `hook` and `prio` have been read. -/
def json_parse_cmd_add_chain_base (creg : CmdRegistry) (ctx : json_ctx) (root : Json)
    (op : cmd_ops) (o : cmd_obj) (h : handle) (type hookstr : String) : Res (Option cmd) :=
  match creg.chain_hookname_lookup hookstr with
  | none => .ok none (json_error ctx "Invalid chain hook '%s'." [.str hookstr])
  | some hook =>
    let c : chain :=
      { handle := creg.handle_merge h, flags := CHAIN_F_BASECHAIN, type := some type,
        hookstr := some hook, dev := json_unpack_key_s root "dev" }
    match json_unpack_key_s root "policy" with
    | some policy =>
      if parse_policy policy < 0 then
        .ok none (json_error ctx "Unknown policy '%s'." [.str policy])
      else
        .ok (some (cmd_alloc op o h (.chain { c with policy := some (parse_policy policy) })))
          ctx
    | none => .ok (some (cmd_alloc op o h (.chain c))) ctx

/-- Source: `json_parse_cmd_add_chain`. -/
def json_parse_cmd_add_chain (creg : CmdRegistry) (ctx : json_ctx) (root : Json)
    (op : cmd_ops) (o : cmd_obj) : Res (Option cmd) :=
  match json_unpack_key_s root "family", json_unpack_key_s root "table" with
  | some family, some table =>
    match json_unpack_name_or_handle ctx root op
        (fun h name => { h with chain_name := some name }) "a chain"
        { table_name := some table } with
    | (none, ctx) => .ok none ctx
    | (some h0, ctx) =>
      if parse_family family < 0 then
        .ok none (json_error ctx "Unknown family '%s'." [.str family])
      else
        let h : handle := { h0 with family := parse_family family }
        if op = .CMD_DELETE ∨ op = .CMD_LIST ∨ op = .CMD_FLUSH then
          .ok (some (cmd_alloc op o h .none)) ctx
        else
          match json_unpack_key_s root "type", json_unpack_key_s root "hook",
              json_unpack_key_i root "prio" with
          | some type, some hookstr, some _ =>
            json_parse_cmd_add_chain_base creg ctx root op o h type hookstr
          | _, _, _ => .ok (some (cmd_alloc op o h .none)) ctx
  | _, _ => .ok none (json_unpack_err ctx)

/-- The `json_array_foreach` loop over the property `expr` shared by
`json_parse_cmd_add_rule` and `json_parse_cmd_replace`. -/
def json_parse_rule_stmts (ps : stmt_parse_fn) (ctx : json_ctx) (items : List Json)
    (index : Nat) (r : rule) : Res (Option rule) :=
  match items with
  | [] => .ok (some r) ctx
  | value :: rest =>
    if !json_is_object value then
      .ok none (json_error ctx "Unexpected expr array element of type %s, expected object."
        [.str (json_typename value)])
    else
      match ps ctx value with
      | .fault => .fault
      | .ok none ctx =>
        .ok none (json_error ctx "Parsing expr array at index %zd failed." [.int index])
      | .ok (some s) ctx =>
        json_parse_rule_stmts ps ctx rest (index + 1)
          { r with num_stmts := r.num_stmts + 1, stmts := r.stmts ++ [s] }

/-- The part of `json_parse_cmd_add_rule` that follows the family check. -/
def json_parse_cmd_add_rule_body (ps : stmt_parse_fn) (ctx : json_ctx) (root : Json)
    (op : cmd_ops) (o : cmd_obj) (h : handle) (tmp : Json) : Res (Option cmd) :=
  if op = .CMD_DELETE then
    .ok (some (cmd_alloc op o h .none)) ctx
  else if !json_is_array tmp then
    .ok none (json_error ctx "Value of property \"expr\" must be an array." [])
  else
    let h1 : handle :=
      match json_unpack_key_i root "pos" with
      | some pos => { h with position_id := store_int_u64 pos }
      | none => h
    match json_parse_rule_stmts ps ctx (json_array_items tmp) 0
        { comment := json_unpack_key_s root "comment" } with
    | .fault => .fault
    | .ok none ctx => .ok none ctx
    | .ok (some r) ctx => .ok (some (cmd_alloc op o h1 (.rule r))) ctx

/-- Source: `json_parse_cmd_add_rule`. -/
def json_parse_cmd_add_rule (ps : stmt_parse_fn) (ctx : json_ctx) (root : Json)
    (op : cmd_ops) (o : cmd_obj) : Res (Option cmd) :=
  match json_unpack_key_s root "family", json_unpack_key_s root "table",
      json_unpack_key_s root "chain" with
  | some family, some table, some chainname =>
    let h0 : handle := { table_name := some table, chain_name := some chainname }
    if op ≠ .CMD_DELETE then
      match json_unpack_key_o root "expr" with
      | none => .ok none (json_unpack_err ctx)
      | some tmp =>
        if parse_family family < 0 then
          .ok none (json_error ctx "Unknown family '%s'." [.str family])
        else
          json_parse_cmd_add_rule_body ps ctx root op o
            { h0 with family := parse_family family } tmp
    else
      match json_unpack_key_I root "handle" with
      | none => .ok none (json_unpack_err ctx)
      | some id =>
        if parse_family family < 0 then
          .ok none (json_error ctx "Unknown family '%s'." [.str family])
        else
          json_parse_cmd_add_rule_body ps ctx root op o
            { h0 with family := parse_family family, handle_id := c_uint64 id } .null
  | _, _, _ => .ok none (json_unpack_err ctx)

/-- Source: `string_to_nft_object`. -/
def string_to_nft_object (str : String) : Nat :=
  if str = "counter" then NFT_OBJECT_COUNTER
  else if str = "quota" then NFT_OBJECT_QUOTA
  else if str = "ct helper" then NFT_OBJECT_CT_HELPER
  else if str = "limit" then NFT_OBJECT_LIMIT
  else 0

/-- Source: `string_to_set_flag`. -/
def string_to_set_flag (str : String) : Nat :=
  if str = "constant" then NFT_SET_CONSTANT
  else if str = "interval" then NFT_SET_INTERVAL
  else if str = "timeout" then NFT_SET_TIMEOUT
  else 0

/-- The `map` step of `json_parse_cmd_add_set`. -/
def json_parse_cmd_add_set_map (reg : Registry) (ctx : json_ctx) (root : Json) (s : set) :
    Option set × json_ctx :=
  match json_unpack_key_s root "map" with
  | none => (some s, ctx)
  | some dtype_ext =>
    if string_to_nft_object dtype_ext ≠ 0 then
      (some { s with
        objtype := string_to_nft_object dtype_ext,
        flags := s.flags ||| NFT_SET_OBJECT }, ctx)
    else
      match reg.datatype_lookup_byname dtype_ext with
      | some dtype =>
        (some { s with objtype := 0, datatype := some dtype, flags := s.flags ||| NFT_SET_MAP },
          ctx)
      | none => (none, json_error ctx "Invalid map type '%s'." [.str dtype_ext])

/-- The `policy` step of `json_parse_cmd_add_set`. -/
def json_parse_cmd_add_set_policy (ctx : json_ctx) (root : Json) (s : set) :
    Option set × json_ctx :=
  match json_unpack_key_s root "policy" with
  | none => (some s, ctx)
  | some policy =>
    if policy = "performance" then (some { s with policy := NFT_SET_POL_PERFORMANCE }, ctx)
    else if policy = "memory" then (some { s with policy := NFT_SET_POL_MEMORY }, ctx)
    else (none, json_error ctx "Unknown set policy '%s'." [.str policy])

/-- The `json_array_foreach` loop over `flags` of `json_parse_cmd_add_set`. -/
def json_parse_cmd_add_set_flags (ctx : json_ctx) (items : List Json) (index : Nat)
    (s : set) : Option set × json_ctx :=
  match items with
  | [] => (some s, ctx)
  | value :: rest =>
    match value with
    | .string name =>
      if string_to_set_flag name = 0 then
        (none, json_error ctx "Invalid set flag at index %zu." [.int index])
      else
        json_parse_cmd_add_set_flags ctx rest (index + 1)
          { s with flags := s.flags ||| string_to_set_flag name }
    | _ => (none, json_error ctx "Invalid set flag at index %zu." [.int index])

/-- The value of `set->timeout` after the `int` `i` has been stored through
its address and the field multiplied by 1000 (`uint64_t` arithmetic). -/
def set_timeout_msecs (i : Int) : Nat := (store_int_u64 i * 1000) % 2 ^ 64

/-- The value of `set->gc_int` after the `int` `i` has been stored in it and
the field multiplied by 1000 (`uint32_t` arithmetic). -/
def set_gc_int_msecs (i : Int) : Nat := (store_int_u32 i * 1000) % 2 ^ 32

/-- The last steps of `json_parse_cmd_add_set`: `timeout`, `gc-interval`,
`size` and the merge of the handle. -/
def json_parse_cmd_add_set_tail (creg : CmdRegistry) (root : Json) (h : handle) (s : set) :
    set :=
  { s with
    timeout := match json_unpack_key_i root "timeout" with
      | some i => set_timeout_msecs i
      | none => s.timeout,
    gc_int := match json_unpack_key_i root "gc-interval" with
      | some i => set_gc_int_msecs i
      | none => s.gc_int,
    desc_size := match json_unpack_key_i root "size" with
      | some i => store_int_u32 i
      | none => s.desc_size,
    handle := creg.handle_merge h }

/-- The `elem` step of `json_parse_cmd_add_set` and what follows it. -/
def json_parse_cmd_add_set_elem (reg : Registry) (creg : CmdRegistry) (ctx : json_ctx)
    (root : Json) (op : cmd_ops) (o : cmd_obj) (h : handle) (s : set) : Res (Option cmd) :=
  match json_unpack_key_o root "elem" with
  | none => .ok (some (cmd_alloc op o h (.set (json_parse_cmd_add_set_tail creg root h s)))) ctx
  | some tmp =>
    match json_parse_set_expr (json_parse_expr reg) ctx "elem" tmp with
    | .fault => .fault
    | .ok none ctx => .ok none (json_error ctx "Invalid set elem expression." [])
    | .ok (some init) ctx =>
      .ok (some (cmd_alloc op o h
        (.set (json_parse_cmd_add_set_tail creg root h { s with init := some init })))) ctx

/-- The part of `json_parse_cmd_add_set` that fills a fresh `struct set`. -/
def json_parse_cmd_add_set_body (reg : Registry) (creg : CmdRegistry) (ctx : json_ctx)
    (root : Json) (op : cmd_ops) (o : cmd_obj) (h : handle) : Res (Option cmd) :=
  match json_unpack_key_o root "type" with
  | none => .ok none (json_error ctx "Invalid set type." [])
  | some tmp =>
    match json_parse_dtype_expr reg ctx tmp with
    | .fault => .fault
    | .ok none ctx => .ok none (json_error ctx "Invalid set type." [])
    | .ok (some key) ctx =>
      match json_parse_cmd_add_set_map reg ctx root { handle := {}, key := some key } with
      | (none, ctx) => .ok none ctx
      | (some s, ctx) =>
        match json_parse_cmd_add_set_policy ctx root s with
        | (none, ctx) => .ok none ctx
        | (some s, ctx) =>
          match json_parse_cmd_add_set_flags ctx
              (match json_unpack_key_o root "flags" with
                | some tmp => json_array_items tmp
                | none => []) 0 s with
          | (none, ctx) => .ok none ctx
          | (some s, ctx) => json_parse_cmd_add_set_elem reg creg ctx root op o h s

/-- Source: `json_parse_cmd_add_set`. -/
def json_parse_cmd_add_set (reg : Registry) (creg : CmdRegistry) (ctx : json_ctx)
    (root : Json) (op : cmd_ops) (o : cmd_obj) : Res (Option cmd) :=
  match json_unpack_key_s root "family", json_unpack_key_s root "table" with
  | some family, some table =>
    match json_unpack_name_or_handle ctx root op
        (fun h name => { h with set_name := some name }) "a set"
        { table_name := some table } with
    | (none, ctx) => .ok none ctx
    | (some h0, ctx) =>
      if parse_family family < 0 then
        .ok none (json_error ctx "Unknown family '%s'." [.str family])
      else
        let h : handle := { h0 with family := parse_family family }
        if op = .CMD_DELETE ∨ op = .CMD_LIST ∨ op = .CMD_FLUSH then
          .ok (some (cmd_alloc op o h .none)) ctx
        else
          json_parse_cmd_add_set_body reg creg ctx root op o h
  | _, _ => .ok none (json_unpack_err ctx)

/-- Source: `json_parse_cmd_add_element`. -/
def json_parse_cmd_add_element (reg : Registry) (ctx : json_ctx) (root : Json)
    (op : cmd_ops) (o : cmd_obj) : Res (Option cmd) :=
  match json_unpack_key_s root "family", json_unpack_key_s root "table",
      json_unpack_key_s root "name", json_unpack_key_o root "elem" with
  | some family, some table, some name, some tmp =>
    if parse_family family < 0 then
      .ok none (json_error ctx "Unknown family '%s'." [.str family])
    else
      match json_parse_set_expr (json_parse_expr reg) ctx "elem" tmp with
      | .fault => .fault
      | .ok none ctx => .ok none (json_error ctx "Invalid set." [])
      | .ok (some e) ctx =>
        .ok (some (cmd_alloc op o
          { family := parse_family family, table_name := some table, set_name := some name }
          (.expr e))) ctx
  | _, _, _, _ => .ok none (json_unpack_err ctx)

/-- The `json_array_foreach` loop of `json_parse_flowtable_devs`. -/
def json_parse_flowtable_devs_loop (ctx : json_ctx) (items : List Json) (index : Nat)
    (devs : List expr) : Option (List expr) × json_ctx :=
  match items with
  | [] => (some devs, ctx)
  | value :: rest =>
    match json_unpack_s value with
    | none => (none, json_error ctx "Invalid flowtable dev at index %zu." [.int index])
    | some dev =>
      json_parse_flowtable_devs_loop ctx rest (index + 1)
        (devs ++ [.symbol_expr .SYMBOL_VALUE dev])

/-- Source: `json_parse_flowtable_devs`. -/
def json_parse_flowtable_devs (ctx : json_ctx) (root : Json) : Option (List expr) × json_ctx :=
  match json_unpack_s root with
  | some dev => (some [.symbol_expr .SYMBOL_VALUE dev], ctx)
  | none =>
    if !json_is_array root then (none, ctx)
    else json_parse_flowtable_devs_loop ctx (json_array_items root) 0 []

/-- Source: `json_parse_cmd_add_flowtable`. The priority is read with the
format `I` into an `int`: it holds the low 32 bits. -/
def json_parse_cmd_add_flowtable (creg : CmdRegistry) (ctx : json_ctx) (root : Json)
    (op : cmd_ops) (o : cmd_obj) : Res (Option cmd) :=
  match json_unpack_key_s root "family", json_unpack_key_s root "table",
      json_unpack_key_s root "name" with
  | some family, some table, some name =>
    if parse_family family < 0 then
      .ok none (json_error ctx "Unknown family '%s'." [.str family])
    else
      let h : handle :=
        { family := parse_family family, table_name := some table, flowtable := some name }
      if op = .CMD_DELETE then
        .ok (some (cmd_alloc op o h .none)) ctx
      else
        match json_unpack_key_s root "hook", json_unpack_key_I root "prio",
            json_unpack_key_o root "dev" with
        | some hook, some prio, some devs =>
          match creg.chain_hookname_lookup hook with
          | none => .ok none (json_error ctx "Invalid flowtable hook '%s'." [.str hook])
          | some hookstr =>
            match json_parse_flowtable_devs ctx devs with
            | (none, ctx) => .ok none (json_error ctx "Invalid flowtable dev." [])
            | (some dev_expr, ctx) =>
              .ok (some (cmd_alloc op o h (.flowtable ⟨hookstr, c_int prio, dev_expr⟩))) ctx
        | _, _, _ => .ok none (json_unpack_err ctx)
  | _, _, _ => .ok none (json_unpack_err ctx)

/-- The case `CMD_OBJ_COUNTER` of `json_parse_cmd_add_object`. -/
def json_parse_obj_counter (root : Json) : obj :=
  { type := NFT_OBJECT_COUNTER,
    counter_packets := match json_unpack_key_i root "packets" with
      | some i => store_int_u64 i
      | none => 0,
    counter_bytes := match json_unpack_key_i root "bytes" with
      | some i => store_int_u64 i
      | none => 0 }

/-- The case `CMD_OBJ_QUOTA` of `json_parse_cmd_add_object`. -/
def json_parse_obj_quota (root : Json) : obj :=
  { type := NFT_OBJECT_QUOTA,
    quota_bytes := match json_unpack_key_i root "bytes" with
      | some i => store_int_u64 i
      | none => 0,
    quota_used := match json_unpack_key_i root "used" with
      | some i => store_int_u64 i
      | none => 0,
    quota_flags := match json_unpack_key_b root "inv" with
      | some b => if b ≠ 0 then NFT_QUOTA_F_INV else 0
      | none => 0 }

/-- The case `NFT_OBJECT_CT_HELPER` of `json_parse_cmd_add_object`; the length
test is that of `snprintf` into the array `ct_helper.name`. -/
def json_parse_obj_ct_helper (creg : CmdRegistry) (ctx : json_ctx) (root : Json) :
    Option obj × json_ctx :=
  let o1 : obj := { type := NFT_OBJECT_CT_HELPER }
  match (match json_unpack_key_s root "type" with
      | some tmp =>
        if tmp.utf8ByteSize ≥ creg.ct_helper_name_size then
          (none, json_error ctx "Invalid CT helper type '%s', max length is %zu."
            [.str tmp, .int creg.ct_helper_name_size])
        else (some { o1 with ct_helper_name := tmp }, ctx)
      | none => (some o1, ctx) : Option obj × json_ctx) with
  | (none, ctx) => (none, ctx)
  | (some o2, ctx) =>
    match (match json_unpack_key_s root "protocol" with
        | some tmp =>
          if tmp = "tcp" then (some { o2 with ct_helper_l4proto := IPPROTO_TCP }, ctx)
          else if tmp = "udp" then (some { o2 with ct_helper_l4proto := IPPROTO_UDP }, ctx)
          else (none, json_error ctx "Invalid ct helper protocol '%s'." [.str tmp])
        | none => (some o2, ctx) : Option obj × json_ctx) with
    | (none, ctx) => (none, ctx)
    | (some o3, ctx) =>
      match json_unpack_key_s root "l3proto" with
      | some tmp =>
        if parse_family tmp < 0 then
          (none, json_error ctx "Invalid ct helper l3proto '%s'." [.str tmp])
        else (some { o3 with ct_helper_l3proto := parse_family tmp }, ctx)
      | none => (some { o3 with ct_helper_l3proto := NFPROTO_IPV4 }, ctx)

/-- The case `CMD_OBJ_LIMIT` of `json_parse_cmd_add_object`. -/
def json_parse_obj_limit (ctx : json_ctx) (root : Json) : Option obj × json_ctx :=
  let o1 : obj :=
    { type := NFT_OBJECT_LIMIT,
      limit_rate := match json_unpack_key_i root "rate" with
        | some i => store_int_u64 i
        | none => 0,
      limit_unit := match json_unpack_key_s root "per" with
        | some tmp => seconds_from_unit tmp
        | none => 0,
      limit_burst := match json_unpack_key_i root "burst" with
        | some i => store_int_u32 i
        | none => 0 }
  let flags : Nat := match json_unpack_key_b root "inv" with
    | some b => if b ≠ 0 then NFT_LIMIT_F_INV else 0
    | none => 0
  match json_unpack_key_s root "unit" with
  | some tmp =>
    if tmp = "packets" then
      (some { o1 with limit_type := .NFT_LIMIT_PKTS, limit_flags := flags }, ctx)
    else if tmp = "bytes" then
      (some { o1 with limit_type := .NFT_LIMIT_PKT_BYTES, limit_flags := flags }, ctx)
    else (none, json_error ctx "Invalid limit unit '%s'." [.str tmp])
  | none => (some { o1 with limit_flags := flags }, ctx)

/-- The part of `json_parse_cmd_add_object` that follows the family check.
Reaching the `default` label of the switch is `BUG()`, which aborts. -/
def json_parse_cmd_add_object_body (creg : CmdRegistry) (ctx : json_ctx) (root : Json)
    (op : cmd_ops) (o : cmd_obj) (h : handle) : Res (Option cmd) :=
  if op = .CMD_DELETE ∨ op = .CMD_LIST then
    if o = NFT_OBJECT_CT_HELPER_obj then
      .ok (some (creg.cmd_alloc_obj_ct op NFT_OBJECT_CT_HELPER h {})) ctx
    else .ok (some (cmd_alloc op o h .none)) ctx
  else if o = .CMD_OBJ_COUNTER then
    .ok (some (cmd_alloc op o h (.obj (json_parse_obj_counter root)))) ctx
  else if o = .CMD_OBJ_QUOTA then
    .ok (some (cmd_alloc op o h (.obj (json_parse_obj_quota root)))) ctx
  else if o = NFT_OBJECT_CT_HELPER_obj then
    match json_parse_obj_ct_helper creg ctx root with
    | (none, ctx) => .ok none ctx
    | (some ob, ctx) => .ok (some (cmd_alloc op .CMD_OBJ_CT_HELPER h (.obj ob))) ctx
  else if o = .CMD_OBJ_LIMIT then
    match json_parse_obj_limit ctx root with
    | (none, ctx) => .ok none ctx
    | (some ob, ctx) => .ok (some (cmd_alloc op o h (.obj ob))) ctx
  else .fault

/-- Source: `json_parse_cmd_add_object`. -/
def json_parse_cmd_add_object (creg : CmdRegistry) (ctx : json_ctx) (root : Json)
    (op : cmd_ops) (o : cmd_obj) : Res (Option cmd) :=
  match json_unpack_key_s root "family", json_unpack_key_s root "table" with
  | some family, some table =>
    let h0 : handle := { table_name := some table }
    match (if op ≠ .CMD_DELETE ∨ o = NFT_OBJECT_CT_HELPER_obj then
        match json_unpack_key_s root "name" with
        | none => (none, json_unpack_err ctx)
        | some name => (some { h0 with obj_name := some name }, ctx)
      else
        match json_unpack_key_s root "name" with
        | some name => (some { h0 with obj_name := some name }, ctx)
        | none =>
          match json_unpack_key_I root "handle" with
          | some id => (some { h0 with handle_id := c_uint64 id }, ctx)
          | none =>
            (none, json_error ctx "Either name or handle required to delete an object." [])
        : Option handle × json_ctx) with
    | (none, ctx) => .ok none ctx
    | (some h1, ctx) =>
      if parse_family family < 0 then
        .ok none (json_error ctx "Unknown family '%s'." [.str family])
      else
        json_parse_cmd_add_object_body creg ctx root op o
          { h1 with family := parse_family family }
  | _, _ => .ok none (json_unpack_err ctx)

/-- A builder of the object tables: context, operand, operation and object
kind. -/
abbrev cmd_obj_cb := json_ctx → Json → cmd_ops → cmd_obj → Res (Option cmd)

/-- One row of a `cmd_obj_table`. -/
structure cmd_obj_entry where
  key : String
  obj : cmd_obj
  cb : cmd_obj_cb

/-- The loop over a `cmd_obj_table`: the first row whose key is a member of
`root` decides. `create_guard` is the test of `json_parse_cmd_add` that
refuses to create a rule; `name` is the command named in the error text. -/
def json_parse_cmd_obj_loop (tbl : List cmd_obj_entry) (create_guard : Bool) (name : String)
    (ctx : json_ctx) (root : Json) (op : cmd_ops) : Res (Option cmd) :=
  match tbl with
  | [] => .ok none (json_error ctx ("Unknown object passed to " ++ name ++ " command.") [])
  | row :: rest =>
    match json_object_get root row.key with
    | none => json_parse_cmd_obj_loop rest create_guard name ctx root op
    | some tmp =>
      if create_guard && decide (op = .CMD_CREATE) && decide (row.obj = .CMD_OBJ_RULE) then
        .ok none (json_error ctx "Create command not available for rules." [])
      else row.cb ctx tmp op row.obj

/-- Source: `json_parse_cmd_list_multiple`. -/
def json_parse_cmd_list_multiple (ctx : json_ctx) (root : Json) (op : cmd_ops)
    (o : cmd_obj) : Res (Option cmd) :=
  let tail (family : Int) : Res (Option cmd) :=
    let table : Option String :=
      if o = .CMD_OBJ_SETS ∨ o = .CMD_OBJ_COUNTERS ∨ o = .CMD_OBJ_CT_HELPERS then
        json_unpack_key_s root "table"
      else none
    if o = .CMD_OBJ_CT_HELPERS ∧ table = none then
      .ok none (json_error ctx "Listing ct helpers requires table reference." [])
    else .ok (some (cmd_alloc op o { family := family, table_name := table } .none)) ctx
  match json_unpack_key_s root "family" with
  | some tmp =>
    if parse_family tmp < 0 then
      .ok none (json_error ctx "Unknown family '%s'." [.str tmp])
    else tail (parse_family tmp)
  | none => tail NFPROTO_UNSPEC

/-- The table `cmd_obj_table` of `json_parse_cmd_add`. -/
def cmd_add_table (reg : Registry) (sreg : StmtRegistry) (creg : CmdRegistry) :
    List cmd_obj_entry :=
  [ ⟨"table", .CMD_OBJ_TABLE, json_parse_cmd_add_table⟩,
    ⟨"chain", .CMD_OBJ_CHAIN, json_parse_cmd_add_chain creg⟩,
    ⟨"rule", .CMD_OBJ_RULE, json_parse_cmd_add_rule (json_parse_stmt reg sreg)⟩,
    ⟨"set", .CMD_OBJ_SET, json_parse_cmd_add_set reg creg⟩,
    ⟨"map", .CMD_OBJ_SET, json_parse_cmd_add_set reg creg⟩,
    ⟨"element", .CMD_OBJ_SETELEM, json_parse_cmd_add_element reg⟩,
    ⟨"flowtable", .CMD_OBJ_FLOWTABLE, json_parse_cmd_add_flowtable creg⟩,
    ⟨"counter", .CMD_OBJ_COUNTER, json_parse_cmd_add_object creg⟩,
    ⟨"quota", .CMD_OBJ_QUOTA, json_parse_cmd_add_object creg⟩,
    ⟨"ct helper", NFT_OBJECT_CT_HELPER_obj, json_parse_cmd_add_object creg⟩,
    ⟨"limit", .CMD_OBJ_LIMIT, json_parse_cmd_add_object creg⟩ ]

/-- Source: `json_parse_cmd_add`. -/
def json_parse_cmd_add (reg : Registry) (sreg : StmtRegistry) (creg : CmdRegistry)
    (ctx : json_ctx) (root : Json) (op : cmd_ops) : Res (Option cmd) :=
  if !json_is_object root then
    .ok none (json_error ctx "Value of add command must be object (got %s instead)."
      [.str (json_typename root)])
  else json_parse_cmd_obj_loop (cmd_add_table reg sreg creg) true "add" ctx root op

/-- Source: `json_parse_cmd_replace`. The members are read from the operand
itself, next to its member `rule`. -/
def json_parse_cmd_replace (ps : stmt_parse_fn) (ctx : json_ctx) (root : Json)
    (op : cmd_ops) : Res (Option cmd) :=
  match json_unpack_key_o root "rule" with
  | none => .ok none (json_unpack_err ctx)
  | some _ =>
    match json_unpack_key_s root "family", json_unpack_key_s root "table",
        json_unpack_key_s root "chain", json_unpack_key_o root "expr" with
    | some family, some table, some chainname, some tmp =>
      let h0 : handle := { table_name := some table, chain_name := some chainname }
      match (if op = .CMD_REPLACE then
          match json_unpack_key_I root "handle" with
          | none => (none, json_unpack_err ctx)
          | some id => (some { h0 with handle_id := c_uint64 id }, ctx)
        else (some h0, ctx) : Option handle × json_ctx) with
      | (none, ctx) => .ok none ctx
      | (some h1, ctx) =>
        match (if op = .CMD_INSERT then
            match json_unpack_key_i root "pos" with
            | none => (none, json_unpack_err ctx)
            | some pos => (some { h1 with position_id := store_int_u64 pos }, ctx)
          else (some h1, ctx) : Option handle × json_ctx) with
        | (none, ctx) => .ok none ctx
        | (some h2, ctx) =>
          if parse_family family < 0 then
            .ok none (json_error ctx "Unknown family '%s'." [.str family])
          else if !json_is_array tmp then
            .ok none (json_error ctx "Value of property \"expr\" must be an array." [])
          else
            match json_parse_rule_stmts ps ctx (json_array_items tmp) 0
                { comment := json_unpack_key_s root "comment" } with
            | .fault => .fault
            | .ok none ctx => .ok none ctx
            | .ok (some r) ctx =>
              .ok (some (cmd_alloc op .CMD_OBJ_RULE { h2 with family := parse_family family }
                (.rule r))) ctx
    | _, _, _, _ => .ok none (json_unpack_err ctx)

/-- The table `cmd_obj_table` of `json_parse_cmd_list`. -/
def cmd_list_table (reg : Registry) (creg : CmdRegistry) : List cmd_obj_entry :=
  [ ⟨"table", .CMD_OBJ_TABLE, json_parse_cmd_add_table⟩,
    ⟨"tables", .CMD_OBJ_TABLE, json_parse_cmd_list_multiple⟩,
    ⟨"chain", .CMD_OBJ_CHAIN, json_parse_cmd_add_chain creg⟩,
    ⟨"chains", .CMD_OBJ_CHAINS, json_parse_cmd_list_multiple⟩,
    ⟨"set", .CMD_OBJ_SET, json_parse_cmd_add_set reg creg⟩,
    ⟨"sets", .CMD_OBJ_SETS, json_parse_cmd_list_multiple⟩,
    ⟨"map", .CMD_OBJ_MAP, json_parse_cmd_add_set reg creg⟩,
    ⟨"maps", .CMD_OBJ_MAPS, json_parse_cmd_add_set reg creg⟩,
    ⟨"counter", .CMD_OBJ_COUNTER, json_parse_cmd_add_object creg⟩,
    ⟨"counters", .CMD_OBJ_COUNTERS, json_parse_cmd_list_multiple⟩,
    ⟨"quota", .CMD_OBJ_QUOTA, json_parse_cmd_add_object creg⟩,
    ⟨"quotas", .CMD_OBJ_QUOTAS, json_parse_cmd_list_multiple⟩,
    ⟨"ct helper", NFT_OBJECT_CT_HELPER_obj, json_parse_cmd_add_object creg⟩,
    ⟨"ct helpers", .CMD_OBJ_CT_HELPERS, json_parse_cmd_list_multiple⟩,
    ⟨"limit", .CMD_OBJ_LIMIT, json_parse_cmd_add_object creg⟩,
    ⟨"limits", .CMD_OBJ_LIMIT, json_parse_cmd_list_multiple⟩,
    ⟨"ruleset", .CMD_OBJ_RULESET, json_parse_cmd_list_multiple⟩,
    ⟨"meter", .CMD_OBJ_METER, json_parse_cmd_add_set reg creg⟩,
    ⟨"meters", .CMD_OBJ_METERS, json_parse_cmd_list_multiple⟩,
    ⟨"flowtables", .CMD_OBJ_FLOWTABLES, json_parse_cmd_list_multiple⟩ ]

/-- Source: `json_parse_cmd_list`. -/
def json_parse_cmd_list (reg : Registry) (creg : CmdRegistry) (ctx : json_ctx) (root : Json)
    (op : cmd_ops) : Res (Option cmd) :=
  if !json_is_object root then
    .ok none (json_error ctx "Value of list command must be object (got %s instead)."
      [.str (json_typename root)])
  else json_parse_cmd_obj_loop (cmd_list_table reg creg) false "list" ctx root op

/-- The table `cmd_obj_table` of `json_parse_cmd_reset`. -/
def cmd_reset_table (creg : CmdRegistry) : List cmd_obj_entry :=
  [ ⟨"counter", .CMD_OBJ_COUNTER, json_parse_cmd_add_object creg⟩,
    ⟨"counters", .CMD_OBJ_COUNTERS, json_parse_cmd_list_multiple⟩,
    ⟨"quota", .CMD_OBJ_QUOTA, json_parse_cmd_add_object creg⟩,
    ⟨"quotas", .CMD_OBJ_QUOTAS, json_parse_cmd_list_multiple⟩ ]

/-- Source: `json_parse_cmd_reset`. -/
def json_parse_cmd_reset (creg : CmdRegistry) (ctx : json_ctx) (root : Json)
    (op : cmd_ops) : Res (Option cmd) :=
  if !json_is_object root then
    .ok none (json_error ctx "Value of reset command must be object (got %s instead)."
      [.str (json_typename root)])
  else json_parse_cmd_obj_loop (cmd_reset_table creg) false "reset" ctx root op

/-- The table `cmd_obj_table` of `json_parse_cmd_flush`. -/
def cmd_flush_table (reg : Registry) (creg : CmdRegistry) : List cmd_obj_entry :=
  [ ⟨"table", .CMD_OBJ_TABLE, json_parse_cmd_add_table⟩,
    ⟨"chain", .CMD_OBJ_CHAIN, json_parse_cmd_add_chain creg⟩,
    ⟨"set", .CMD_OBJ_SET, json_parse_cmd_add_set reg creg⟩,
    ⟨"map", .CMD_OBJ_MAP, json_parse_cmd_add_set reg creg⟩,
    ⟨"meter", .CMD_OBJ_METER, json_parse_cmd_add_set reg creg⟩,
    ⟨"ruleset", .CMD_OBJ_RULESET, json_parse_cmd_list_multiple⟩ ]

/-- Source: `json_parse_cmd_flush`. -/
def json_parse_cmd_flush (reg : Registry) (creg : CmdRegistry) (ctx : json_ctx) (root : Json)
    (op : cmd_ops) : Res (Option cmd) :=
  if !json_is_object root then
    .ok none (json_error ctx "Value of flush command must be object (got %s instead)."
      [.str (json_typename root)])
  else json_parse_cmd_obj_loop (cmd_flush_table reg creg) false "flush" ctx root op

/-- Source: `json_parse_cmd_rename`. -/
def json_parse_cmd_rename (ctx : json_ctx) (root : Json) (op : cmd_ops) : Res (Option cmd) :=
  match json_object_get root "chain" with
  | some (.object members) =>
    let c := Json.object members
    match json_unpack_key_s c "family", json_unpack_key_s c "table",
        json_unpack_key_s c "name", json_unpack_key_s c "newname" with
    | some family, some table, some name, some newname =>
      if parse_family family < 0 then
        .ok none (json_error ctx "Unknown family '%s'." [.str family])
      else
        .ok (some { cmd_alloc op .CMD_OBJ_CHAIN
            { family := parse_family family, table_name := some table,
              chain_name := some name } .none with arg := some newname }) ctx
    | _, _, _, _ => .ok none (json_unpack_err ctx)
  | _ => .ok none (json_unpack_err ctx)

/-- One row of `parse_cb_table`. -/
structure parse_cb_entry where
  key : String
  op : cmd_ops
  cb : json_ctx → Json → cmd_ops → Res (Option cmd)

/-- The table `parse_cb_table` of `json_parse_cmd`. -/
def parse_cb_table (reg : Registry) (sreg : StmtRegistry) (creg : CmdRegistry) :
    List parse_cb_entry :=
  [ ⟨"add", .CMD_ADD, json_parse_cmd_add reg sreg creg⟩,
    ⟨"replace", .CMD_REPLACE, json_parse_cmd_replace (json_parse_stmt reg sreg)⟩,
    ⟨"create", .CMD_CREATE, json_parse_cmd_add reg sreg creg⟩,
    ⟨"insert", .CMD_INSERT, json_parse_cmd_replace (json_parse_stmt reg sreg)⟩,
    ⟨"delete", .CMD_DELETE, json_parse_cmd_add reg sreg creg⟩,
    ⟨"list", .CMD_LIST, json_parse_cmd_list reg creg⟩,
    ⟨"reset", .CMD_RESET, json_parse_cmd_reset creg⟩,
    ⟨"flush", .CMD_FLUSH, json_parse_cmd_flush reg creg⟩,
    ⟨"rename", .CMD_RENAME, json_parse_cmd_rename⟩ ]

/-- The loop of `json_parse_cmd` over `parse_cb_table`. -/
def json_parse_cmd_loop (tbl : List parse_cb_entry) (ctx : json_ctx) (root : Json) :
    Res (Option cmd) :=
  match tbl with
  | [] => .ok none (json_error ctx "Unknown command object." [])
  | row :: rest =>
    match json_object_get root row.key with
    | none => json_parse_cmd_loop rest ctx root
    | some tmp => row.cb ctx tmp row.op

/-- Source: `json_parse_cmd`. -/
def json_parse_cmd (reg : Registry) (sreg : StmtRegistry) (creg : CmdRegistry)
    (ctx : json_ctx) (root : Json) : Res (Option cmd) :=
  json_parse_cmd_loop (parse_cb_table reg sreg creg) ctx root

/-- The evaluator `cmd_evaluate` of another translation unit, over a state
`σ` of its own (cache, socket): the return code, the state afterwards and the
records it appends to the message queue it shares with the parser. -/
structure Evaluator (σ : Type) where
  cmd_evaluate : σ → cmd → Int × σ × List Erec

/-- The `json_array_foreach` loop of `__json_parse`: the return code, the
caller's command list and the evaluator state. A command is spliced to the
tail of the list once the evaluator has accepted it. -/
def json_parse_cmds_loop {σ : Type} (reg : Registry) (sreg : StmtRegistry)
    (creg : CmdRegistry) (ev : Evaluator σ) (ctx : json_ctx) (st : σ) (cmds : List cmd)
    (items : List Json) (index : Nat) : Res (Int × List cmd × σ) :=
  match items with
  | [] => .ok (0, cmds, st) ctx
  | value :: rest =>
    if !json_is_object value then
      .ok (-1, cmds, st) (json_error ctx
        "Unexpected command array element of type %s, expected object."
        [.str (json_typename value)])
    else
      match json_parse_cmd reg sreg creg ctx value with
      | .fault => .fault
      | .ok none ctx =>
        .ok (-1, cmds, st)
          (json_error ctx "Parsing command array at index %zd failed." [.int index])
      | .ok (some c) ctx =>
        let r := ev.cmd_evaluate st c
        let ctx1 : json_ctx := { ctx with msgs := ctx.msgs ++ r.2.2 }
        if r.1 < 0 then
          .ok (-1, cmds, r.2.1)
            (json_error ctx1 "Evaluating command at index %zd failed." [.int index])
        else
          json_parse_cmds_loop reg sreg creg ev ctx1 r.2.1 (cmds ++ [c]) rest (index + 1)

/-- Source: `__json_parse`. -/
def __json_parse {σ : Type} (reg : Registry) (sreg : StmtRegistry) (creg : CmdRegistry)
    (ev : Evaluator σ) (ctx : json_ctx) (st : σ) (cmds : List cmd) (root : Json) :
    Res (Int × List cmd × σ) :=
  match json_unpack_key_o root "nftables" with
  | none => .ok (-1, cmds, st) (json_unpack_err ctx)
  | some tmp =>
    if !json_is_array tmp then
      .ok (-1, cmds, st)
        (json_error ctx "Value of property \"nftables\" must be an array." [])
    else json_parse_cmds_loop reg sreg creg ev ctx st cmds (json_array_items tmp) 0

/-- Command functions for concrete evaluations: the hooks `input` and
`ingress`, a merge that copies the handle, and names of 16 bytes. -/
def sample_cmd_registry : CmdRegistry :=
  { chain_hookname_lookup := fun s => if s = "input" ∨ s = "ingress" then some s else none,
    handle_merge := fun h => h,
    cmd_alloc_obj_ct := fun op _ h ob =>
      cmd_alloc op .CMD_OBJ_CT_HELPER h (.obj { ob with type := NFT_OBJECT_CT_HELPER }),
    ct_helper_name_size := 16 }

/-- An evaluator that accepts every command and keeps no state. -/
def sample_evaluator : Evaluator Unit :=
  { cmd_evaluate := fun st _ => (0, st, []) }

/-! ## The family table (specification, data model) -/

/-- The six family names of the specification. -/
def spec_families : List String := ["ip", "ip6", "inet", "arp", "bridge", "netdev"]

/-- The name found when a family code is looked up in `family_tbl`. -/
def family_of_code (code : Int) : Option String :=
  (family_tbl.find? (fun e => e.2 = code)).map (fun e => e.1)

/-- The members that the table, chain and set builders read before the family
check are given: `name` is a string, or, for a delete, `name` is a string or
`handle` is an integer. -/
def name_or_handle_given (root : Json) (op : cmd_ops) : Bool :=
  if op ≠ .CMD_DELETE then (json_unpack_key_s root "name").isSome
  else (json_unpack_key_s root "name").isSome || (json_unpack_key_I root "handle").isSome

/-- A builder call rejects the family string `fam`: in every context it
returns no command and appends one error record, and that record is the
`Unknown family` error whenever the family check is `reached`, i.e. the
members that the builder reads before it are given. -/
def rejects_unknown_family (run : json_ctx → Res (Option cmd)) (reached : Prop)
    (fam : String) : Prop :=
  ∀ ctx, (∃ err, run ctx = .ok none ⟨ctx.flags, ctx.msgs ++ [err]⟩)
    ∧ (reached → run ctx = .ok none (json_error ctx "Unknown family '%s'." [.str fam]))

/-- The members that `json_parse_cmd_add_rule` reads before the family check
are given. -/
def rule_members_given (root : Json) (op : cmd_ops) : Bool :=
  (json_unpack_key_s root "table").isSome && (json_unpack_key_s root "chain").isSome
    && (if op ≠ .CMD_DELETE then (json_unpack_key_o root "expr").isSome
        else (json_unpack_key_I root "handle").isSome)

/-- The members that `json_parse_cmd_add_object` reads before the family
check are given. -/
def object_members_given (root : Json) (op : cmd_ops) (o : cmd_obj) : Bool :=
  (json_unpack_key_s root "table").isSome
    && (if op ≠ .CMD_DELETE ∨ o = NFT_OBJECT_CT_HELPER_obj then
          (json_unpack_key_s root "name").isSome
        else (json_unpack_key_s root "name").isSome || (json_unpack_key_I root "handle").isSome)

/-- The members that `json_parse_cmd_replace` reads before the family check
are given. -/
def replace_members_given (root : Json) (op : cmd_ops) : Bool :=
  (json_unpack_key_o root "rule").isSome && (json_unpack_key_s root "table").isSome
    && (json_unpack_key_s root "chain").isSome && (json_unpack_key_o root "expr").isSome
    && (if op = .CMD_REPLACE then (json_unpack_key_I root "handle").isSome else true)
    && (if op = .CMD_INSERT then (json_unpack_key_i root "pos").isSome else true)

/-! ## Runs of the command loop in which every element is accepted -/

/-- Every element of `items`, taken in order, is an object for which
`json_parse_cmd` builds a command and the evaluator accepts it: `built` lists
the commands, `ctx2` and `st2` are the parser context and the evaluator state
after the last element. Each element is parsed in the context and evaluated in
the state that the elements before it have left. -/
inductive builds_all {σ : Type} (reg : Registry) (sreg : StmtRegistry) (creg : CmdRegistry)
    (ev : Evaluator σ) : json_ctx → σ → List Json → List cmd → json_ctx → σ → Prop
  | nil (ctx : json_ctx) (st : σ) : builds_all reg sreg creg ev ctx st [] [] ctx st
  | cons (ctx ctx1 ctx2 : json_ctx) (st st2 : σ) (value : Json) (rest : List Json)
      (c : cmd) (built : List cmd)
      (hobj : json_is_object value = true)
      (hcmd : json_parse_cmd reg sreg creg ctx value = .ok (some c) ctx1)
      (hev : 0 ≤ (ev.cmd_evaluate st c).1)
      (hrest : builds_all reg sreg creg ev
        ⟨ctx1.flags, ctx1.msgs ++ (ev.cmd_evaluate st c).2.2⟩ (ev.cmd_evaluate st c).2.1
        rest built ctx2 st2) :
      builds_all reg sreg creg ev ctx st (value :: rest) (c :: built) ctx2 st2

/-- The command `add table ip filter`. -/
def sample_add_table : Json :=
  .object [("add", .object [("table",
    .object [("family", .string "ip"), ("name", .string "filter")])])]

/-- The command `add table ip6 nat`. -/
def sample_add_table6 : Json :=
  .object [("add", .object [("table",
    .object [("family", .string "ip6"), ("name", .string "nat")])])]

/-! ## Runs of the statement loop in which every element is parsed -/

/-- Every element of `items`, taken in order, is an object that `ps` parses:
`stmts` lists the statements and `ctx2` is the context after the last
element. Each element is parsed in the context left by the elements before
it. -/
inductive stmts_parse (ps : stmt_parse_fn) : json_ctx → List Json → List stmt → json_ctx → Prop
  | nil (ctx : json_ctx) : stmts_parse ps ctx [] [] ctx
  | cons (ctx ctx1 ctx2 : json_ctx) (value : Json) (rest : List Json) (s : stmt)
      (stmts : List stmt)
      (hobj : json_is_object value = true)
      (hs : ps ctx value = .ok (some s) ctx1)
      (hrest : stmts_parse ps ctx1 rest stmts ctx2) :
      stmts_parse ps ctx (value :: rest) (s :: stmts) ctx2

/-- A rule operand with the two statements `accept` and `notrack`. -/
def sample_rule : Json :=
  .object [("family", .string "ip"), ("table", .string "t"), ("chain", .string "c"),
    ("expr", .array [.object [("accept", .null)], .object [("notrack", .null)]])]

/-! ## Growth of the message queue -/

/-- The queue of `b` is the queue of `a` followed by further records. -/
def queue_grows (a b : json_ctx) : Prop := ∃ errs, b.msgs = a.msgs ++ errs

/-- The call that gave `r` from the context `a` only appended records to the
queue (nothing is said of a call that does not return). -/
def res_grows {α : Type} (a : json_ctx) (r : Res α) : Prop :=
  match r with
  | .fault => True
  | .ok _ b => queue_grows a b

theorem depth_le_depthList {x : Json} {xs : List Json} (h : x ∈ xs) :
    x.depth ≤ depthList xs := by
  induction xs with
  | nil => cases h
  | cons y ys ih =>
    simp only [depthList]
    rcases List.mem_cons.mp h with rfl | h
    · exact le_max_left _ _
    · exact le_trans (ih h) (le_max_right _ _)

theorem depth_le_depthMembers {k : String} {v : Json} {kvs : List (String × Json)}
    (h : (k, v) ∈ kvs) : v.depth ≤ depthMembers kvs := by
  induction kvs with
  | nil => cases h
  | cons y ys ih =>
    obtain ⟨k1, v1⟩ := y
    simp only [depthMembers]
    rcases List.mem_cons.mp h with h | h
    · cases h
      exact le_max_left _ _
    · exact le_trans (ih h) (le_max_right _ _)

theorem lookup_mem {k : String} {v : Json} {kvs : List (String × Json)}
    (h : kvs.lookup k = some v) : ∃ k1, (k1, v) ∈ kvs := by
  induction kvs with
  | nil => simp [List.lookup] at h
  | cons y ys ih =>
    obtain ⟨k1, v1⟩ := y
    simp only [List.lookup] at h
    split at h
    · cases h
      exact ⟨k1, List.mem_cons_self _ _⟩
    · obtain ⟨k2, h2⟩ := ih h
      exact ⟨k2, List.mem_cons_of_mem _ h2⟩

theorem depth_array_items {root x : Json} (h : x ∈ json_array_items root) :
    x.depth < root.depth := by
  cases root <;> simp [json_array_items] at h
  simp only [Json.depth]
  exact Nat.lt_succ_of_le (depth_le_depthList h)

theorem depth_object_get {root v : Json} {key : String}
    (h : json_object_get root key = some v) : v.depth < root.depth := by
  cases root <;> simp [json_object_get] at h
  obtain ⟨k1, hk⟩ := lookup_mem h
  simp only [Json.depth]
  exact Nat.lt_succ_of_le (depth_le_depthMembers hk)

theorem depth_unpack_pair {root a b : Json} (h : json_unpack_pair root = some (a, b)) :
    a.depth < root.depth ∧ b.depth < root.depth := by
  unfold json_unpack_pair at h
  split at h
  · cases h
    simp only [Json.depth, depthList]
    omega
  · cases h

theorem depth_unpack_stmt {ctx ctx1 : json_ctx} {root value : Json} {type : String}
    (h : json_unpack_stmt ctx root = (some (type, value), ctx1)) :
    value.depth < root.depth ∧ ctx1 = ctx := by
  unfold json_unpack_stmt at h
  split at h
  · cases h
  · split at h
    · cases h
      simp only [Json.depth, depthMembers]
      exact ⟨by omega, trivial⟩
    · cases h

theorem flagged_congr {pe pe1 : expr_parse_fn} {d : Nat} {x : Json}
    (h : Agree pe pe1 d) (hx : x.depth < d) (c : json_ctx) (f : Nat) :
    json_parse_flagged_expr pe c f x = json_parse_flagged_expr pe1 c f x := by
  simp only [json_parse_flagged_expr, h _ _ hx]

theorem hash_congr : BuilderCongr json_parse_hash_expr := by
  intro pe pe1 ctx type value h
  unfold json_parse_hash_expr
  cases hmod : json_unpack_key_i value "mod" with
  | none => rfl
  | some mod =>
    cases hexpr : json_unpack_key_o value "expr" with
    | none => rfl
    | some jexpr =>
      have hx : ∀ c, pe c jexpr = pe1 c jexpr := fun c => h c jexpr (depth_object_get hexpr)
      simp only [hx]

theorem binop_congr : BuilderCongr json_parse_binop_expr := by
  intro pe pe1 ctx type value h
  unfold json_parse_binop_expr
  cases hp : json_unpack_pair value with
  | none => rfl
  | some p =>
    obtain ⟨a, b⟩ := p
    obtain ⟨ha, hb⟩ := depth_unpack_pair hp
    have h1 := flagged_congr h ha
    have h2 := flagged_congr h hb
    simp only [json_parse_primary_expr, h1, h2]

theorem concat_loop_congr {pe pe1 : expr_parse_fn} {d : Nat} (h : Agree pe pe1 d)
    (items : List Json) (hi : ∀ x ∈ items, x.depth < d) (ctx : json_ctx) (index : Nat)
    (acc : Option expr) :
    json_parse_concat_loop pe ctx items index acc
      = json_parse_concat_loop pe1 ctx items index acc := by
  induction items generalizing ctx index acc with
  | nil => rfl
  | cons x xs ih =>
    have hx := flagged_congr h (hi x (List.mem_cons_self _ _))
    have ih1 := ih (fun y hy => hi y (List.mem_cons_of_mem _ hy))
    simp only [json_parse_concat_loop, json_parse_primary_expr, hx, ih1]

theorem concat_congr : BuilderCongr json_parse_concat_expr := by
  intro pe pe1 ctx type value h
  unfold json_parse_concat_expr
  rw [concat_loop_congr h _ (fun x hx => depth_array_items hx)]

theorem prefix_congr : BuilderCongr json_parse_prefix_expr := by
  intro pe pe1 ctx type value h
  unfold json_parse_prefix_expr
  cases ha : json_unpack_key_o value "addr" with
  | none => rfl
  | some addr =>
    cases hl : json_unpack_key_i value "len" with
    | none => rfl
    | some len =>
      have h1 := flagged_congr h (depth_object_get ha)
      simp only [json_parse_primary_expr, h1]

theorem range_congr : BuilderCongr json_parse_range_expr := by
  intro pe pe1 ctx type value h
  unfold json_parse_range_expr
  cases hp : json_unpack_pair value with
  | none => rfl
  | some p =>
    obtain ⟨a, b⟩ := p
    obtain ⟨ha, hb⟩ := depth_unpack_pair hp
    have h1 := flagged_congr h ha
    have h2 := flagged_congr h hb
    simp only [json_parse_primary_expr, h1, h2]

theorem set_loop_congr {pe pe1 : expr_parse_fn} {d : Nat} (h : Agree pe pe1 d)
    (items : List Json) (hi : ∀ x ∈ items, x.depth < d) (ctx : json_ctx) (index : Nat)
    (acc : Option expr) :
    json_parse_set_loop pe ctx items index acc
      = json_parse_set_loop pe1 ctx items index acc := by
  induction items generalizing ctx index acc with
  | nil => rfl
  | cons x xs ih =>
    have hxd := hi x (List.mem_cons_self _ _)
    have hx := flagged_congr h hxd
    have ih1 := ih (fun y hy => hi y (List.mem_cons_of_mem _ hy))
    unfold json_parse_set_loop
    cases hp : json_unpack_pair x with
    | none => simp only [json_parse_rhs_expr, hx, ih1]
    | some p =>
      obtain ⟨a, b⟩ := p
      obtain ⟨ha, hb⟩ := depth_unpack_pair hp
      have h1 := flagged_congr h (lt_trans ha hxd)
      have h2 := flagged_congr h (lt_trans hb hxd)
      simp only [json_parse_rhs_expr, json_parse_set_rhs_expr, h1, h2, ih1]

theorem set_congr : BuilderCongr json_parse_set_expr := by
  intro pe pe1 ctx type value h
  unfold json_parse_set_expr
  rw [set_loop_congr h _ (fun x hx => depth_array_items hx)]

theorem map_congr : BuilderCongr json_parse_map_expr := by
  intro pe pe1 ctx type value h
  unfold json_parse_map_expr
  cases hl : json_unpack_key_o value "left" with
  | none => rfl
  | some jl =>
    cases hr : json_unpack_key_o value "right" with
    | none => rfl
    | some jr =>
      have h1 := flagged_congr h (depth_object_get hl)
      have h2 := flagged_congr h (depth_object_get hr)
      simp only [json_parse_map_lhs_expr, json_parse_rhs_expr, h1, h2]

theorem set_elem_congr : BuilderCongr json_parse_set_elem_expr := by
  intro pe pe1 ctx type value h
  unfold json_parse_set_elem_expr
  cases hv : json_unpack_key_o value "val" with
  | none => rfl
  | some tmp =>
    have hx : ∀ c, pe c tmp = pe1 c tmp := fun c => h c tmp (depth_object_get hv)
    simp only [hx]

theorem cb_tbl_congr (reg : Registry) : ∀ row ∈ cb_tbl reg, BuilderCongr row.cb := by
  intro row hrow
  simp only [cb_tbl, List.mem_cons, List.mem_singleton, List.not_mem_nil, or_false] at hrow
  rcases hrow with h | h | h | h | h | h | h | h | h | h | h | h | h | h | h | h | h | h | h
    | h | h | h | h | h | h | h | h | h | h <;> subst h
  all_goals first
    | exact concat_congr
    | exact set_congr
    | exact map_congr
    | exact prefix_congr
    | exact range_congr
    | exact hash_congr
    | exact binop_congr
    | exact set_elem_congr
    | exact fun _ _ _ _ _ _ => rfl

theorem dispatch_congr {tbl : List cb_entry} (ht : ∀ row ∈ tbl, BuilderCongr row.cb)
    {pe pe1 : expr_parse_fn} {value : Json} (h : Agree pe pe1 value.depth)
    (ctx : json_ctx) (type : String) :
    json_parse_expr_dispatch tbl pe ctx type value
      = json_parse_expr_dispatch tbl pe1 ctx type value := by
  induction tbl with
  | nil => rfl
  | cons row rest ih =>
    simp only [json_parse_expr_dispatch]
    rw [ih (fun r hr => ht r (List.mem_cons_of_mem _ hr)),
      ht row (List.mem_cons_self _ _) pe pe1 ctx type value h]

theorem list_loop_congr {pe pe1 : expr_parse_fn} {d : Nat} (h : Agree pe pe1 d)
    (items : List Json) (hi : ∀ x ∈ items, x.depth < d) (ctx : json_ctx) (index : Nat)
    (list : expr) :
    json_parse_list_loop pe ctx items index list
      = json_parse_list_loop pe1 ctx items index list := by
  induction items generalizing ctx index list with
  | nil => rfl
  | cons x xs ih =>
    have hx : ∀ c, pe c x = pe1 c x := fun c => h c x (hi x (List.mem_cons_self _ _))
    have ih1 := ih (fun y hy => hi y (List.mem_cons_of_mem _ hy))
    simp only [json_parse_list_loop, hx, ih1]

theorem agree_mono {pe pe1 : expr_parse_fn} {d e : Nat} (h : Agree pe pe1 d) (hed : e ≤ d) :
    Agree pe pe1 e :=
  fun c x hx => h c x (lt_of_lt_of_le hx hed)

theorem body_congr (reg : Registry) {pe pe1 : expr_parse_fn} {root : Json}
    (h : Agree pe pe1 root.depth) (ctx : json_ctx) :
    json_parse_expr_body reg pe ctx root = json_parse_expr_body reg pe1 ctx root := by
  unfold json_parse_expr_body json_parse_expr_with
  split
  · rename_i items
    rw [list_loop_congr h items (fun x hx => @depth_array_items (.array items) x hx)]
  · rfl
  · split
    · rfl
    · cases hu : json_unpack_stmt ctx root with
      | mk o c1 =>
        cases o with
        | none => rfl
        | some p =>
          obtain ⟨type, value⟩ := p
          have hd := (depth_unpack_stmt hu).1
          simp only []
          exact dispatch_congr (cb_tbl_congr reg) (agree_mono h (le_of_lt hd)) _ _

theorem fuel_agree (reg : Registry) (n m : Nat) :
    Agree (json_parse_expr_fuel reg n) (json_parse_expr_fuel reg m) (min n m) := by
  induction n generalizing m with
  | zero => intro c x hx; simp at hx
  | succ n ih =>
    cases m with
    | zero => intro c x hx; simp at hx
    | succ m =>
      intro c x hx
      simp only [json_parse_expr_fuel]
      apply body_congr
      apply agree_mono (ih m)
      omega

/-- More fuel than the depth of the document does not change the result. -/
theorem json_parse_expr_fuel_stable (reg : Registry) (n : Nat) (ctx : json_ctx) (root : Json)
    (h : root.depth < n) :
    json_parse_expr_fuel reg n ctx root = json_parse_expr reg ctx root := by
  unfold json_parse_expr
  exact fuel_agree reg n (root.depth + 1) ctx root (by omega)

/-- The total parser satisfies the recursive equation of the source: a call
of `json_parse_expr` runs the body of the function with the recursive calls
going to `json_parse_expr` itself. -/
theorem json_parse_expr_eq (reg : Registry) (ctx : json_ctx) (root : Json) :
    json_parse_expr reg ctx root
      = json_parse_expr_body reg (json_parse_expr reg) ctx root := by
  show json_parse_expr_body reg (json_parse_expr_fuel reg root.depth) ctx root = _
  apply body_congr
  intro c x hx
  exact json_parse_expr_fuel_stable reg _ c x hx

/-! ## Frame property: flags are restored, the queue only grows -/

/-- A framed call, at a fixed flag word, is described by one outcome. -/
theorem framed_at {α : Type} {p : json_ctx → Res α} (h : Framed p) (F : Nat) :
    ∃ o : Option (α × List Erec), ∀ m, p ⟨F, m⟩ = Res.lift o ⟨F, m⟩ := by
  cases hp : p ⟨F, []⟩ with
  | fault =>
    refine ⟨none, fun m => ?_⟩
    rw [h ⟨F, m⟩]
    simp [hp, Res.rebase, Res.lift]
  | ok v c =>
    refine ⟨some (v, c.msgs), fun m => ?_⟩
    rw [h ⟨F, m⟩]
    simp [hp, Res.rebase, Res.lift]

theorem flagged_framed {pe : expr_parse_fn} (h : FramedParser pe) (f : Nat) (x : Json) :
    Framed (fun c => json_parse_flagged_expr pe c f x) := by
  intro ctx
  obtain ⟨F, m⟩ := ctx
  obtain ⟨o, ho⟩ := framed_at (h x) (F ||| f)
  simp only [json_parse_flagged_expr, ho]
  rcases o with _ | ⟨v, errs⟩ <;> simp [Res.lift, Res.rebase]

theorem immediate_framed (type : String) (value : Json) :
    Framed (fun c => json_parse_immediate_expr c type value) := by
  intro ctx
  obtain ⟨F, m⟩ := ctx
  simp only [json_parse_immediate_expr, json_parse_constant, is_RHS]
  repeat' split
  all_goals simp [Res.rebase, json_error]

theorem meta_framed (reg : Registry) : BuilderFramed (json_parse_meta_expr reg) := by
  intro pe _ type value ctx
  obtain ⟨F, m⟩ := ctx
  simp only [json_parse_meta_expr]
  repeat' split
  all_goals simp [Res.rebase, json_error, json_unpack_err, json_lib_error]

theorem payload_framed (reg : Registry) : BuilderFramed (json_parse_payload_expr reg) := by
  intro pe _ type value ctx
  obtain ⟨F, m⟩ := ctx
  simp only [json_parse_payload_expr]
  repeat' split
  all_goals simp [Res.rebase, json_error, json_unpack_err, json_lib_error]

theorem tcp_option_framed (reg : Registry) :
    BuilderFramed (json_parse_tcp_option_expr reg) := by
  intro pe _ type value ctx
  obtain ⟨F, m⟩ := ctx
  simp only [json_parse_tcp_option_expr]
  repeat' split
  all_goals simp [Res.rebase, json_error, json_unpack_err, json_lib_error]

theorem exthdr_framed (reg : Registry) : BuilderFramed (json_parse_exthdr_expr reg) := by
  intro pe _ type value ctx
  obtain ⟨F, m⟩ := ctx
  simp only [json_parse_exthdr_expr]
  repeat' split
  all_goals simp [Res.rebase, json_error, json_unpack_err, json_lib_error]

theorem rt_framed : BuilderFramed json_parse_rt_expr := by
  intro pe _ type value ctx
  obtain ⟨F, m⟩ := ctx
  simp only [json_parse_rt_expr, json_parse_rt_key]
  repeat' split
  all_goals simp [Res.rebase, json_error, json_unpack_err, json_lib_error]

theorem ct_framed (reg : Registry) : BuilderFramed (json_parse_ct_expr reg) := by
  intro pe _ type value ctx
  obtain ⟨F, m⟩ := ctx
  simp only [json_parse_ct_expr, json_parse_ct_dir]
  repeat' split
  all_goals simp [Res.rebase, json_error, json_unpack_err, json_lib_error]

theorem numgen_framed : BuilderFramed json_parse_numgen_expr := by
  intro pe _ type value ctx
  obtain ⟨F, m⟩ := ctx
  simp only [json_parse_numgen_expr]
  repeat' split
  all_goals simp [Res.rebase, json_error, json_unpack_err, json_lib_error]

theorem wildcard_framed : BuilderFramed json_parse_wildcard_expr := by
  intro pe _ type value ctx
  simp [json_parse_wildcard_expr, Res.rebase]

theorem verdict_framed : BuilderFramed json_parse_verdict_expr := by
  intro pe _ type value ctx
  obtain ⟨F, m⟩ := ctx
  simp only [json_parse_verdict_expr]
  repeat' split
  all_goals simp [Res.rebase, json_error]

theorem fib_flags_loop_framed (items : List Json) (index : Nat) (flagval : Nat) :
    Framed (fun c => json_parse_fib_flags_loop c items index flagval) := by
  induction items generalizing index flagval with
  | nil => intro ctx; simp [json_parse_fib_flags_loop, Res.rebase]
  | cons x xs ih =>
    intro ctx
    obtain ⟨F, m⟩ := ctx
    simp only [json_parse_fib_flags_loop]
    repeat' split
    all_goals first
      | exact ih _ _ ⟨F, m⟩
      | simp [json_error, Res.rebase]

theorem fib_checks_framed (flagval resultval : Nat) :
    Framed (fun c => json_parse_fib_checks c flagval resultval) := by
  intro ctx
  obtain ⟨F, m⟩ := ctx
  simp only [json_parse_fib_checks]
  repeat' split
  all_goals simp [Res.rebase, json_error]

theorem fib_tail_framed (flags : Json) (flagval resultval : Nat) :
    Framed (fun c => json_parse_fib_tail c flags flagval resultval) := by
  intro ctx
  obtain ⟨F, m⟩ := ctx
  obtain ⟨o, ho⟩ := framed_at (fib_flags_loop_framed (json_array_items flags) 0 flagval) F
  simp only [json_parse_fib_tail, ho]
  rcases o with _ | ⟨_ | fv, errs⟩
  · simp [Res.lift, Res.rebase]
  · simp [Res.lift, Res.rebase]
  · obtain ⟨o2, ho2⟩ := framed_at (fib_checks_framed fv resultval) F
    simp only [Res.lift, ho2]
    rcases o2 with _ | ⟨v, errs2⟩ <;> simp [Res.lift, Res.rebase]

theorem fib_framed : BuilderFramed json_parse_fib_expr := by
  intro pe _ type value ctx
  obtain ⟨F, m⟩ := ctx
  simp only [json_parse_fib_expr]
  repeat' split
  all_goals first
    | exact fib_checks_framed _ _ ⟨F, m⟩
    | exact fib_tail_framed _ _ _ ⟨F, m⟩
    | simp [Res.rebase, json_error, json_unpack_err, json_lib_error]

theorem hash_framed : BuilderFramed json_parse_hash_expr := by
  intro pe hpe type value ctx
  obtain ⟨F, m⟩ := ctx
  simp only [json_parse_hash_expr]
  split
  · simp [Res.rebase, json_unpack_err, json_lib_error]
  · split
    · simp [Res.rebase]
    · split
      · simp [Res.rebase, json_error]
      · split
        · simp [Res.rebase, json_unpack_err, json_lib_error]
        · rename_i jexpr _
          obtain ⟨o, ho⟩ := framed_at (hpe jexpr) F
          simp only [ho]
          rcases o with _ | ⟨_ | e, errs⟩ <;> simp only [Res.lift]
          · simp [Res.rebase]
          · simp [Res.rebase, json_error]
          · split <;> simp [Res.rebase]

theorem binop_framed : BuilderFramed json_parse_binop_expr := by
  intro pe hpe type value ctx
  obtain ⟨F, m⟩ := ctx
  simp only [json_parse_binop_expr, json_parse_primary_expr]
  split
  · simp [Res.rebase, json_error]
  · split
    · simp [Res.rebase, json_unpack_err, json_lib_error]
    · rename_i jleft jright _
      obtain ⟨o1, h1⟩ := framed_at (flagged_framed hpe CTX_F_PRIMARY jleft) F
      obtain ⟨o2, h2⟩ := framed_at (flagged_framed hpe CTX_F_PRIMARY jright) F
      rcases o1 with _ | ⟨_ | e1, errs1⟩ <;> rcases o2 with _ | ⟨_ | e2, errs2⟩ <;>
        simp [h1, h2, Res.lift, Res.rebase, json_error]

theorem prefix_framed : BuilderFramed json_parse_prefix_expr := by
  intro pe hpe type value ctx
  obtain ⟨F, m⟩ := ctx
  simp only [json_parse_prefix_expr, json_parse_primary_expr]
  split
  · rename_i addr len _ _
    obtain ⟨o1, h1⟩ := framed_at (flagged_framed hpe CTX_F_PRIMARY addr) F
    simp only [h1]
    rcases o1 with _ | ⟨_ | e1, errs1⟩ <;> simp [Res.lift, Res.rebase, json_error]
  · simp [Res.rebase, json_unpack_err, json_lib_error]

theorem range_framed : BuilderFramed json_parse_range_expr := by
  intro pe hpe type value ctx
  obtain ⟨F, m⟩ := ctx
  simp only [json_parse_range_expr, json_parse_primary_expr]
  split
  · simp [Res.rebase, json_unpack_err, json_lib_error]
  · rename_i low high _
    obtain ⟨o1, h1⟩ := framed_at (flagged_framed hpe CTX_F_PRIMARY low) F
    obtain ⟨o2, h2⟩ := framed_at (flagged_framed hpe CTX_F_PRIMARY high) F
    rcases o1 with _ | ⟨_ | e1, errs1⟩ <;> rcases o2 with _ | ⟨_ | e2, errs2⟩ <;>
      simp [h1, h2, Res.lift, Res.rebase, json_error]

theorem map_framed : BuilderFramed json_parse_map_expr := by
  intro pe hpe type value ctx
  obtain ⟨F, m⟩ := ctx
  simp only [json_parse_map_expr, json_parse_map_lhs_expr, json_parse_rhs_expr]
  split
  · rename_i jleft jright _ _
    obtain ⟨o1, h1⟩ := framed_at (flagged_framed hpe CTX_F_MAP jleft) F
    obtain ⟨o2, h2⟩ := framed_at (flagged_framed hpe CTX_F_RHS jright) F
    rcases o1 with _ | ⟨_ | e1, errs1⟩ <;> rcases o2 with _ | ⟨_ | e2, errs2⟩ <;>
      simp [h1, h2, Res.lift, Res.rebase, json_error]
  · simp [Res.rebase, json_unpack_err, json_lib_error]

theorem set_elem_framed : BuilderFramed json_parse_set_elem_expr := by
  intro pe hpe type value ctx
  obtain ⟨F, m⟩ := ctx
  simp only [json_parse_set_elem_expr]
  split
  · simp [Res.rebase, json_unpack_err, json_lib_error]
  · rename_i tmp _
    obtain ⟨o, ho⟩ := framed_at (hpe tmp) F
    simp only [ho]
    rcases o with _ | ⟨_ | e, errs⟩ <;> simp [Res.lift, Res.rebase]

theorem rebase_rebase {α : Type} (r : Res α) (F : Nat) (m errs : List Erec) :
    (r.rebase ⟨F, errs⟩).rebase ⟨F, m⟩ = r.rebase ⟨F, m ++ errs⟩ := by
  cases r <;> simp [Res.rebase]

theorem concat_loop_framed_aux {pe : expr_parse_fn} (hpe : FramedParser pe) (items : List Json)
    (index : Nat) (acc : Option expr) (F : Nat) (m : List Erec) :
    json_parse_concat_loop pe ⟨F, m⟩ items index acc
      = (json_parse_concat_loop pe ⟨F, []⟩ items index acc).rebase ⟨F, m⟩ := by
  induction items generalizing index acc m with
  | nil => simp [json_parse_concat_loop, Res.rebase]
  | cons x xs ih =>
    obtain ⟨o1, h1⟩ := framed_at (flagged_framed hpe CTX_F_PRIMARY x) F
    simp only [json_parse_concat_loop, json_parse_primary_expr, h1]
    rcases o1 with _ | ⟨_ | e1, errs1⟩ <;> simp only [Res.lift, List.nil_append]
    · simp [Res.rebase]
    · simp [Res.rebase, json_error]
    · repeat' split
      all_goals rw [ih _ _ (m ++ errs1), ih _ _ errs1, rebase_rebase]

theorem concat_framed : BuilderFramed json_parse_concat_expr := by
  intro pe hpe type value ctx
  obtain ⟨F, m⟩ := ctx
  simp only [json_parse_concat_expr]
  split
  · simp [Res.rebase, json_error]
  · exact concat_loop_framed_aux hpe _ _ _ F m

theorem set_loop_framed_aux {pe : expr_parse_fn} (hpe : FramedParser pe) (items : List Json)
    (index : Nat) (acc : Option expr) (F : Nat) (m : List Erec) :
    json_parse_set_loop pe ⟨F, m⟩ items index acc
      = (json_parse_set_loop pe ⟨F, []⟩ items index acc).rebase ⟨F, m⟩ := by
  induction items generalizing index acc m with
  | nil => simp [json_parse_set_loop, Res.rebase]
  | cons x xs ih =>
    simp only [json_parse_set_loop, json_parse_rhs_expr, json_parse_set_rhs_expr]
    split
    · rename_i jleft jright _
      obtain ⟨o1, h1⟩ := framed_at (flagged_framed hpe CTX_F_RHS jleft) F
      obtain ⟨o2, h2⟩ := framed_at (flagged_framed hpe CTX_F_SET_RHS jright) F
      simp only [h1]
      rcases o1 with _ | ⟨_ | e1, errs1⟩ <;> simp only [Res.lift, List.nil_append]
      · simp [Res.rebase]
      · simp [Res.rebase, json_error]
      · simp only [h2]
        rcases o2 with _ | ⟨_ | e2, errs2⟩ <;> simp only [Res.lift]
        · simp [Res.rebase]
        · simp [Res.rebase, json_error]
        · rw [ih _ _ (m ++ errs1 ++ errs2), ih _ _ (errs1 ++ errs2), rebase_rebase,
            List.append_assoc]
    · split
      · obtain ⟨o1, h1⟩ := framed_at (flagged_framed hpe CTX_F_RHS x) F
        simp only [h1]
        rcases o1 with _ | ⟨_ | e1, errs1⟩ <;> simp only [Res.lift, List.nil_append]
        · simp [Res.rebase]
        · simp [Res.rebase, json_error]
        · rw [ih _ _ (m ++ errs1), ih _ _ errs1, rebase_rebase]
      · obtain ⟨o1, h1⟩ := framed_at (immediate_framed "elem" x) F
        simp only [h1]
        rcases o1 with _ | ⟨_ | e1, errs1⟩ <;> simp only [Res.lift, List.nil_append]
        · simp [Res.rebase]
        · simp [Res.rebase]
        · rw [ih _ _ (m ++ errs1), ih _ _ errs1, rebase_rebase]

theorem set_framed : BuilderFramed json_parse_set_expr := by
  intro pe hpe type value ctx
  obtain ⟨F, m⟩ := ctx
  simp only [json_parse_set_expr]
  split
  · exact set_loop_framed_aux hpe _ _ _ F m
  · obtain ⟨o1, h1⟩ := framed_at (immediate_framed type value) F
    simp only [h1]
    rcases o1 with _ | ⟨_ | e1, errs1⟩ <;> simp only [Res.lift, List.nil_append]
    · simp [Res.rebase]
    · simp [Res.rebase]
    · split <;> simp [Res.rebase]

theorem list_loop_framed_aux {pe : expr_parse_fn} (hpe : FramedParser pe) (items : List Json)
    (index : Nat) (list : expr) (F : Nat) (m : List Erec) :
    json_parse_list_loop pe ⟨F, m⟩ items index list
      = (json_parse_list_loop pe ⟨F, []⟩ items index list).rebase ⟨F, m⟩ := by
  induction items generalizing index list m with
  | nil => simp [json_parse_list_loop, Res.rebase]
  | cons x xs ih =>
    obtain ⟨o1, h1⟩ := framed_at (hpe x) F
    simp only [json_parse_list_loop, h1]
    rcases o1 with _ | ⟨_ | e1, errs1⟩ <;> simp only [Res.lift, List.nil_append]
    · simp [Res.rebase]
    · simp [Res.rebase, json_error]
    · rw [ih _ _ (m ++ errs1), ih _ _ errs1, rebase_rebase]

theorem cb_tbl_framed (reg : Registry) : ∀ row ∈ cb_tbl reg, BuilderFramed row.cb := by
  intro row hrow
  simp only [cb_tbl, List.mem_cons, List.mem_singleton, List.not_mem_nil, or_false] at hrow
  rcases hrow with h | h | h | h | h | h | h | h | h | h | h | h | h | h | h | h | h | h | h
    | h | h | h | h | h | h | h | h | h | h <;> subst h
  all_goals first
    | exact concat_framed
    | exact set_framed
    | exact map_framed
    | exact prefix_framed
    | exact range_framed
    | exact wildcard_framed
    | exact fun _ _ t v => immediate_framed t v
    | exact payload_framed reg
    | exact exthdr_framed reg
    | exact tcp_option_framed reg
    | exact meta_framed reg
    | exact rt_framed
    | exact ct_framed reg
    | exact numgen_framed
    | exact hash_framed
    | exact fib_framed
    | exact binop_framed
    | exact verdict_framed
    | exact set_elem_framed

theorem dispatch_framed {tbl : List cb_entry} (ht : ∀ row ∈ tbl, BuilderFramed row.cb)
    {pe : expr_parse_fn} (hpe : FramedParser pe) (type : String) (value : Json) :
    Framed (fun c => json_parse_expr_dispatch tbl pe c type value) := by
  induction tbl with
  | nil => intro ctx; simp [json_parse_expr_dispatch, Res.rebase, json_error]
  | cons row rest ih =>
    intro ctx
    obtain ⟨F, m⟩ := ctx
    simp only [json_parse_expr_dispatch]
    split
    · exact ih (fun r hr => ht r (List.mem_cons_of_mem _ hr)) ⟨F, m⟩
    · split
      · simp [Res.rebase, json_error, ctx_flags_to_string, is_RHS, is_STMT, is_PRIMARY,
          is_DTYPE, is_SET_RHS]
      · exact ht row (List.mem_cons_self _ _) pe hpe type value ⟨F, m⟩

/-- What `json_unpack_stmt` computes: the member of a one-key object, and an
error for every other value. -/
theorem json_unpack_stmt_eq (ctx : json_ctx) (root : Json) :
    json_unpack_stmt ctx root
      = match root with
        | .object [kv] => (some kv, ctx)
        | _ => (none, json_error ctx "Malformed object (too many properties): '%s'."
            [.dump root]) := by
  unfold json_unpack_stmt
  cases root with
  | object kvs =>
    rcases kvs with _ | ⟨kv, _ | ⟨kv2, rest⟩⟩ <;> simp [json_object_size]
  | _ => simp [json_object_size]

theorem body_framed (reg : Registry) {pe : expr_parse_fn} (hpe : FramedParser pe) :
    FramedParser (json_parse_expr_body reg pe) := by
  intro root ctx
  obtain ⟨F, m⟩ := ctx
  cases root with
  | array items =>
    simp only [json_parse_expr_body, json_parse_expr_with, is_PRIMARY]
    split
    · simp [Res.rebase, json_error]
    · split
      · simp [Res.rebase, json_error]
      · exact list_loop_framed_aux hpe _ _ _ F m
  | string s =>
    simp only [json_parse_expr_body, json_parse_expr_with, is_DTYPE]
    split
    · split <;> simp [Res.rebase, json_error]
    · exact immediate_framed _ _ ⟨F, m⟩
  | object kvs =>
    simp only [json_parse_expr_body, json_parse_expr_with, json_is_integer, json_is_boolean,
      Bool.or_self, Bool.and_false, json_unpack_stmt_eq]
    rcases kvs with _ | ⟨⟨k, v⟩, _ | ⟨kv2, rest⟩⟩
    · simp [Res.rebase, json_error]
    · exact dispatch_framed (cb_tbl_framed reg) hpe _ _ ⟨F, m⟩
    · simp [Res.rebase, json_error]
  | integer n =>
    simp only [json_parse_expr_body, json_parse_expr_with, is_RHS, is_STMT, is_PRIMARY,
      json_unpack_stmt_eq]
    split
    · exact immediate_framed _ _ ⟨F, m⟩
    · simp [Res.rebase, json_error]
  | jtrue =>
    simp only [json_parse_expr_body, json_parse_expr_with, is_RHS, is_STMT, is_PRIMARY,
      json_unpack_stmt_eq]
    split
    · exact immediate_framed _ _ ⟨F, m⟩
    · simp [Res.rebase, json_error]
  | jfalse =>
    simp only [json_parse_expr_body, json_parse_expr_with, is_RHS, is_STMT, is_PRIMARY,
      json_unpack_stmt_eq]
    split
    · exact immediate_framed _ _ ⟨F, m⟩
    · simp [Res.rebase, json_error]
  | real =>
    simp [json_parse_expr_body, json_parse_expr_with, json_is_integer, json_is_boolean,
      json_unpack_stmt_eq, Res.rebase, json_error]
  | null =>
    simp [json_parse_expr_body, json_parse_expr_with, json_is_integer, json_is_boolean,
      json_unpack_stmt_eq, Res.rebase, json_error]

theorem fuel_framed (reg : Registry) (n : Nat) : FramedParser (json_parse_expr_fuel reg n) := by
  induction n with
  | zero => intro x ctx; simp [json_parse_expr_fuel, Res.rebase]
  | succ n ih => exact body_framed reg ih

/-- Every call of `json_parse_expr` is framed: it returns with the flag word
it was entered with and only appends error records. -/
theorem json_parse_expr_framed (reg : Registry) : FramedParser (json_parse_expr reg) :=
  fun x ctx => fuel_framed reg (x.depth + 1) x ctx

/-! ## The dispatch step -/

/-- The dispatch loop finds the first row named `type`; it reports an unknown
type when there is none, a context error when the mask of the row does not
cover the active flags, and calls the builder of the row otherwise. -/
theorem dispatch_eq (tbl : List cb_entry) (pe : expr_parse_fn) (ctx : json_ctx)
    (type : String) (value : Json) :
    json_parse_expr_dispatch tbl pe ctx type value
      = match tbl.find? (fun r => type = r.name) with
        | none => .ok none (json_error ctx "Unknown expression type '%s'." [.str type])
        | some row =>
          if row.flags &&& ctx.flags ≠ ctx.flags then
            .ok none ⟨ctx.flags, ctx.msgs ++ [context_error ctx type]⟩
          else row.cb pe ctx type value := by
  induction tbl with
  | nil => rfl
  | cons row rest ih =>
    simp only [json_parse_expr_dispatch, List.find?]
    by_cases h : type = row.name
    · simp [h, json_error, context_error]
    · simp [h, ih]

theorem find_columns (tbl : List cb_entry) (type : String) :
    (tbl.find? (fun r => type = r.name)).map (fun r => (r.name, r.flags))
      = (cb_columns tbl).find? (fun e => type = e.1) := by
  induction tbl with
  | nil => rfl
  | cons row rest ih =>
    simp only [cb_columns, List.map_cons, List.find?]
    by_cases hn : type = row.name
    · simp [hn]
    · simpa [hn, cb_columns] using ih

/-- The name and mask columns of `cb_tbl` are the specification's table. -/
theorem cb_columns_eq (reg : Registry) : cb_columns (cb_tbl reg) = spec_expr_kinds := by
  rfl

/-- Each key of the table is found with its own mask: no key occurs twice. -/
theorem spec_expr_kinds_find {type : String} {M : Nat} (h : (type, M) ∈ spec_expr_kinds) :
    spec_expr_kinds.find? (fun e => type = e.1) = some (type, M) := by
  simp only [spec_expr_kinds, spec_expr_kind_table, List.flatMap_cons, List.flatMap_nil,
    List.map_cons, List.map_nil, List.cons_append, List.nil_append, List.append_nil,
    List.mem_cons, List.not_mem_nil, or_false, Prod.mk.injEq] at h
  rcases h with h | h | h | h | h | h | h | h | h | h | h | h | h | h | h | h | h | h | h
    | h | h | h | h | h | h | h | h | h | h <;> obtain ⟨rfl, rfl⟩ := h <;> decide

theorem dispatch_row {tbl : List cb_entry} {type : String} {M : Nat}
    (htbl : cb_columns tbl = spec_expr_kinds) (h : (type, M) ∈ spec_expr_kinds) :
    ∃ row, tbl.find? (fun r => type = r.name) = some row ∧ row.flags = M := by
  have h1 := find_columns tbl type
  rw [htbl, spec_expr_kinds_find h] at h1
  cases hf : tbl.find? (fun r => type = r.name) with
  | none => simp [hf] at h1
  | some row =>
    simp only [hf, Option.map_some', Option.some.injEq, Prod.mk.injEq] at h1
    exact ⟨row, rfl, h1.2⟩

/-- C1. For every key T of the expression kind table with mask M and every
flag word F that M does not cover (`M &&& F ≠ F`), `json_parse_expr` applied
to the one-key object with key T returns no expression and appends exactly one
record, the context error; the same holds with any builders in the table and
any recursive parser, so the builder of T is not run. -/
theorem json_parse_expr_context_error (reg : Registry) (type : String) (M : Nat)
    (hT : (type, M) ∈ spec_expr_kinds) (ctx : json_ctx) (value : Json)
    (hF : M &&& ctx.flags ≠ ctx.flags) :
    json_parse_expr reg ctx (.object [(type, value)])
        = .ok none ⟨ctx.flags, ctx.msgs ++ [context_error ctx type]⟩
      ∧ ∀ (tbl : List cb_entry) (pe : expr_parse_fn), cb_columns tbl = spec_expr_kinds →
          json_parse_expr_with reg tbl pe ctx (.object [(type, value)])
            = .ok none ⟨ctx.flags, ctx.msgs ++ [context_error ctx type]⟩ := by
  have key : ∀ (tbl : List cb_entry) (pe : expr_parse_fn), cb_columns tbl = spec_expr_kinds →
      json_parse_expr_with reg tbl pe ctx (.object [(type, value)])
        = .ok none ⟨ctx.flags, ctx.msgs ++ [context_error ctx type]⟩ := by
    intro tbl pe htbl
    obtain ⟨row, hrow, hM⟩ := dispatch_row htbl hT
    simp only [json_parse_expr_with, json_is_integer, json_is_boolean, Bool.or_self,
      Bool.and_false, json_unpack_stmt_eq, dispatch_eq, hrow, hM]
    simp [hF]
  refine ⟨?_, key⟩
  rw [json_parse_expr_eq]
  exact key (cb_tbl reg) (json_parse_expr reg) (cb_columns_eq reg)

/-- Witness for C1: `payload` is not admissible in a context holding RHS. -/
theorem json_parse_expr_context_error_witness :
    ("payload", flag_mask [.STMT, .PRIMARY, .SET_RHS, .MANGLE, .SES, .MAP]) ∈ spec_expr_kinds
      ∧ flag_mask [.STMT, .PRIMARY, .SET_RHS, .MANGLE, .SES, .MAP] &&& CTX_F_RHS ≠ CTX_F_RHS
      ∧ json_parse_expr sample_registry ⟨CTX_F_RHS, []⟩
          (.object [("payload", .object [("name", .string "tcp"), ("field", .string "dport")])])
        = .ok none ⟨CTX_F_RHS, [context_error ⟨CTX_F_RHS, []⟩ "payload"]⟩ :=
  ⟨by decide, by decide,
    (json_parse_expr_context_error sample_registry "payload"
      (flag_mask [.STMT, .PRIMARY, .SET_RHS, .MANGLE, .SES, .MAP]) (by decide)
      ⟨CTX_F_RHS, []⟩ _ (by decide)).1⟩

/-- C3. The name and mask columns of `cb_tbl` are, row for row, the keys and
admissible contexts of the specification's expression kind table; the mask of
a row holds exactly the flags listed for it; and a one-key object whose key is
not in the table is rejected as an unknown expression type. -/
theorem cb_tbl_is_spec_table (reg : Registry) :
    cb_columns (cb_tbl reg) = spec_expr_kinds
      ∧ (∀ row ∈ spec_expr_kind_table, ∀ f : CtxFlag,
          flag_mask row.2 &&& f.bit ≠ 0 ↔ f ∈ row.2)
      ∧ ∀ (ctx : json_ctx) (type : String) (value : Json),
          type ∉ spec_expr_kinds.map Prod.fst →
          json_parse_expr reg ctx (.object [(type, value)])
            = .ok none ⟨ctx.flags, ctx.msgs
                ++ [Erec.error "Unknown expression type '%s'." [.str type]]⟩ := by
  refine ⟨cb_columns_eq reg, ?_, ?_⟩
  · intro row hrow f
    revert row
    cases f <;> decide
  · intro ctx type value hT
    have hfind : (cb_tbl reg).find? (fun r => type = r.name) = none := by
      have h1 := find_columns (cb_tbl reg) type
      rw [cb_columns_eq] at h1
      have h2 : spec_expr_kinds.find? (fun e => type = e.1) = none := by
        rw [List.find?_eq_none]
        intro e he
        simp only [decide_eq_true_eq]
        intro hte
        exact hT (List.mem_map.mpr ⟨e, he, hte.symm⟩)
      rw [h2] at h1
      cases hf : (cb_tbl reg).find? (fun r => type = r.name) with
      | none => rfl
      | some r => simp [hf] at h1
    rw [json_parse_expr_eq]
    simp only [json_parse_expr_body, json_parse_expr_with, json_is_integer, json_is_boolean,
      Bool.or_self, Bool.and_false, json_unpack_stmt_eq, dispatch_eq, hfind, json_error]
    simp

/-- Witness for C3: the key `break` is not in the table. -/
theorem cb_tbl_is_spec_table_witness :
    "break" ∉ spec_expr_kinds.map Prod.fst
      ∧ json_parse_expr sample_registry ⟨CTX_F_RHS, []⟩ (.object [("break", .null)])
        = .ok none ⟨CTX_F_RHS, [Erec.error "Unknown expression type '%s'." [.str "break"]]⟩ :=
  ⟨by decide,
    (cb_tbl_is_spec_table sample_registry).2.2 ⟨CTX_F_RHS, []⟩ "break" .null (by decide)⟩

/-! ## The primitive value reader -/

theorem immediate_symtype_at (rest : List Char) :
    immediate_symtype (String.mk ('@' :: rest)) = (.SYMBOL_SET, String.mk rest) := rfl

theorem immediate_symtype_plain (s : String) (h : s.data.head? ≠ some '@') :
    immediate_symtype s = (.SYMBOL_VALUE, s) := by
  unfold immediate_symtype
  split
  · rename_i rest heq
    simp [heq] at h
  · rfl

theorem is_keyword_iff (s : String) : is_keyword s = true ↔ s ∈ keywords := by
  simp [is_keyword, List.any_eq_true]

theorem is_constant_iff (s : String) : is_constant s = true ↔ s ∈ constants := by
  simp [is_constant, List.any_eq_true]

/-- Every named constant has a row in `constant_tbl`, so `json_parse_constant`
returns a constant expression for it. -/
theorem json_parse_constant_some (ctx : json_ctx) (s : String) (h : is_constant s = true) :
    ∃ dtype data, json_parse_constant ctx s
      = .ok (some (.constant_expr dtype .BYTEORDER_HOST_ENDIAN (8 * BITS_PER_BYTE) [data])) ctx := by
  rw [is_constant_iff] at h
  simp only [constants, List.mem_cons, List.not_mem_nil, or_false] at h
  rcases h with h | h | h | h | h | h | h | h | h | h | h <;> subst h <;>
    exact ⟨_, _, rfl⟩

/-- A string with a leading `@` yields the set reference named by the
remainder whenever the context lacks RHS or the remainder is neither a reserved
keyword nor a named constant. -/
theorem json_parse_immediate_expr_set_ref (ctx : json_ctx) (type : String)
    (rest : List Char)
    (h : is_RHS ctx = false ∨ (String.mk rest ∉ keywords ∧ String.mk rest ∉ constants)) :
    json_parse_immediate_expr ctx type (.string (String.mk ('@' :: rest)))
      = .ok (some (.symbol_expr .SYMBOL_SET (String.mk rest))) ctx := by
  simp only [json_parse_immediate_expr, immediate_symtype_at]
  rcases h with h | ⟨hk, hc⟩
  · simp [h]
  · have hk1 : is_keyword (String.mk rest) = false := by
      rw [← Bool.not_eq_true, is_keyword_iff]; exact hk
    have hc1 : is_constant (String.mk rest) = false := by
      rw [← Bool.not_eq_true, is_constant_iff]; exact hc
    simp [hk1, hc1]

/-- C7 (the code at the failing inputs). In a context holding RHS the strings
`@ip` and `@tcp` are not read as set references: the first yields the value
symbol `ip`, the second the constant of the protocol `tcp`; outside RHS `@ip`
is the set reference `ip`. -/
theorem json_parse_immediate_expr_at_sign :
    json_parse_immediate_expr ⟨CTX_F_RHS, []⟩ "immediate" (.string "@ip")
        = .ok (some (.symbol_expr .SYMBOL_VALUE "ip")) ⟨CTX_F_RHS, []⟩
      ∧ json_parse_immediate_expr ⟨CTX_F_RHS, []⟩ "immediate" (.string "@tcp")
        = .ok (some (.constant_expr .inet_protocol_type .BYTEORDER_HOST_ENDIAN 64
            [IPPROTO_TCP])) ⟨CTX_F_RHS, []⟩
      ∧ json_parse_immediate_expr ⟨CTX_F_STMT, []⟩ "immediate" (.string "@ip")
        = .ok (some (.symbol_expr .SYMBOL_SET "ip")) ⟨CTX_F_STMT, []⟩ :=
  ⟨rfl, rfl, rfl⟩

/-- C8. For a string `s` that does not start with `@`: in a context holding
RHS a reserved keyword yields the value symbol spelled `s`; and when the
context lacks RHS, or `s` is neither a reserved keyword nor a named constant,
the reader yields the plain value symbol spelled `s`. -/
theorem json_parse_immediate_expr_plain_string (ctx : json_ctx) (type : String) (s : String)
    (hs : s.data.head? ≠ some '@') :
    (is_RHS ctx = true →
        s ∈ ["ether", "ip", "ip6", "vlan", "arp", "dnat", "snat", "ecn", "reset", "original",
          "reply", "label"] →
        json_parse_immediate_expr ctx type (.string s)
          = .ok (some (.symbol_expr .SYMBOL_VALUE s)) ctx)
      ∧ (is_RHS ctx = false ∨
          (s ∉ ["ether", "ip", "ip6", "vlan", "arp", "dnat", "snat", "ecn", "reset",
              "original", "reply", "label"]
            ∧ s ∉ ["tcp", "udp", "udplite", "esp", "ah", "icmp", "icmpv6", "comp", "dccp",
              "sctp", "redirect"]) →
        json_parse_immediate_expr ctx type (.string s)
          = .ok (some (.symbol_expr .SYMBOL_VALUE s)) ctx) := by
  constructor
  · intro hr hk
    have hk1 : is_keyword s = true := (is_keyword_iff s).mpr hk
    simp [json_parse_immediate_expr, immediate_symtype_plain s hs, hr, hk1]
  · intro h
    simp only [json_parse_immediate_expr, immediate_symtype_plain s hs]
    rcases h with h | ⟨hk, hc⟩
    · simp [h]
    · have hk1 : is_keyword s = false := by
        rw [← Bool.not_eq_true, is_keyword_iff]; exact hk
      have hc1 : is_constant s = false := by
        rw [← Bool.not_eq_true, is_constant_iff]; exact hc
      simp [hk1, hc1]

/-- Witness for C8: the keyword `ip` on the right-hand side, and the plain
string `eth0`. -/
theorem json_parse_immediate_expr_plain_string_witness :
    "ip".data.head? ≠ some '@'
      ∧ json_parse_immediate_expr ⟨CTX_F_RHS, []⟩ "immediate" (.string "ip")
        = .ok (some (.symbol_expr .SYMBOL_VALUE "ip")) ⟨CTX_F_RHS, []⟩ :=
  ⟨by decide,
    (json_parse_immediate_expr_plain_string ⟨CTX_F_RHS, []⟩ "immediate" "ip" (by decide)).1
      (by decide) (by decide)⟩

/-- C9. For every JSON integer `n` and every context, the primitive reader
returns the value symbol whose identifier is the decimal text of `n`; it
queues nothing and changes no flag. -/
theorem json_parse_immediate_expr_integer (ctx : json_ctx) (type : String) (n : Int) :
    json_parse_immediate_expr ctx type (.integer n)
      = .ok (some (.symbol_expr .SYMBOL_VALUE (toString n))) ctx := rfl

/-- C10. The primitive reader returns no expression exactly for a real, a
null, an object, an array, and a boolean outside RHS, and then it appends
exactly one record; a boolean in a context holding RHS yields the 1-bit
boolean constant 1 (true) or 0 (false); every string and every integer yields
an expression; and the reader never faults. -/
theorem json_parse_immediate_expr_total (ctx : json_ctx) (type : String) (root : Json) :
    ((json_is_string root = true ∨ json_is_integer root = true
          ∨ (json_is_boolean root = true ∧ is_RHS ctx = true)) →
        ∃ e, json_parse_immediate_expr ctx type root = .ok (some e) ctx)
      ∧ (¬ (json_is_string root = true ∨ json_is_integer root = true
          ∨ (json_is_boolean root = true ∧ is_RHS ctx = true)) →
        json_parse_immediate_expr ctx type root
          = .ok none ⟨ctx.flags, ctx.msgs
              ++ [Erec.error "Invalid immediate value type '%d'." [.int (json_typeof root)]]⟩)
      ∧ (is_RHS ctx = true →
        json_parse_immediate_expr ctx type .jtrue
            = .ok (some (.constant_expr .boolean_type .BYTEORDER_HOST_ENDIAN 1 [1])) ctx
          ∧ json_parse_immediate_expr ctx type .jfalse
            = .ok (some (.constant_expr .boolean_type .BYTEORDER_HOST_ENDIAN 1 [0])) ctx) := by
  refine ⟨?_, ?_, ?_⟩
  · intro h
    cases root with
    | string s =>
      simp only [json_parse_immediate_expr]
      split
      · exact ⟨_, rfl⟩
      · split
        · rename_i hc
          simp only [Bool.and_eq_true] at hc
          obtain ⟨d, b, hd⟩ := json_parse_constant_some ctx _ hc.2
          exact ⟨_, hd⟩
        · exact ⟨_, rfl⟩
    | integer n => exact ⟨_, rfl⟩
    | jtrue =>
      have hr : is_RHS ctx = true := by
        simpa [json_is_string, json_is_integer, json_is_boolean] using h
      refine ⟨.constant_expr .boolean_type .BYTEORDER_HOST_ENDIAN 1 [1], ?_⟩
      simp [json_parse_immediate_expr, hr]
    | jfalse =>
      have hr : is_RHS ctx = true := by
        simpa [json_is_string, json_is_integer, json_is_boolean] using h
      refine ⟨.constant_expr .boolean_type .BYTEORDER_HOST_ENDIAN 1 [0], ?_⟩
      simp [json_parse_immediate_expr, hr]
    | _ => simp [json_is_string, json_is_integer, json_is_boolean] at h
  · intro h
    cases root with
    | string s => simp [json_is_string] at h
    | integer n => simp [json_is_integer] at h
    | jtrue =>
      have hr : is_RHS ctx = false := by
        simpa [json_is_string, json_is_integer, json_is_boolean] using h
      simp [json_parse_immediate_expr, hr, json_error]
    | jfalse =>
      have hr : is_RHS ctx = false := by
        simpa [json_is_string, json_is_integer, json_is_boolean] using h
      simp [json_parse_immediate_expr, hr, json_error]
    | _ => simp [json_parse_immediate_expr, json_error]
  · intro hr
    simp [json_parse_immediate_expr, hr]

/-- Witness for C10: `true` on the right-hand side is the 1-bit constant 1,
and `null` is rejected with one record. -/
theorem json_parse_immediate_expr_total_witness :
    is_RHS ⟨CTX_F_RHS, []⟩ = true
      ∧ json_parse_immediate_expr ⟨CTX_F_RHS, []⟩ "immediate" .jtrue
        = .ok (some (.constant_expr .boolean_type .BYTEORDER_HOST_ENDIAN 1 [1]))
            ⟨CTX_F_RHS, []⟩
      ∧ json_parse_immediate_expr ⟨CTX_F_RHS, []⟩ "immediate" .null
        = .ok none ⟨CTX_F_RHS, [Erec.error "Invalid immediate value type '%d'." [.int 7]]⟩ :=
  ⟨by decide,
    ((json_parse_immediate_expr_total ⟨CTX_F_RHS, []⟩ "immediate" .jtrue).2.2 (by decide)).1,
    (json_parse_immediate_expr_total ⟨CTX_F_RHS, []⟩ "immediate" .null).2.1 (by decide)⟩

/-- C6 (counterexample). With an empty flag word, which holds none of RHS,
STMT, PRIMARY and not DTYPE, the string `eth0` is not rejected: it is handed
to the primitive reader and read as a value symbol. -/
theorem json_parse_expr_string_empty_flags :
    (is_RHS ⟨0, []⟩ || is_STMT ⟨0, []⟩ || is_PRIMARY ⟨0, []⟩) = false
      ∧ is_DTYPE ⟨0, []⟩ = false
      ∧ json_parse_expr sample_registry ⟨0, []⟩ (.string "eth0")
        = json_parse_immediate_expr ⟨0, []⟩ "immediate" (.string "eth0")
      ∧ json_parse_expr sample_registry ⟨0, []⟩ (.string "eth0")
        = .ok (some (.symbol_expr .SYMBOL_VALUE "eth0")) ⟨0, []⟩ :=
  ⟨rfl, rfl, rfl, rfl⟩

/-- C6 (amended). A string, while the context lacks DTYPE, is always handed
to the primitive reader, whatever the other flags. An integer or a boolean is
handed to the primitive reader if the context holds one of RHS, STMT, PRIMARY;
otherwise it is not read as an immediate and is rejected with the error of
`json_unpack_stmt`, because it is not a one-key object. -/
theorem json_parse_expr_scalar (reg : Registry) (ctx : json_ctx) :
    (∀ s : String, is_DTYPE ctx = false →
        json_parse_expr reg ctx (.string s)
          = json_parse_immediate_expr ctx "immediate" (.string s))
      ∧ ∀ root : Json, json_is_integer root = true ∨ json_is_boolean root = true →
        ((is_RHS ctx || is_STMT ctx || is_PRIMARY ctx) = true →
            json_parse_expr reg ctx root = json_parse_immediate_expr ctx "immediate" root)
          ∧ ((is_RHS ctx || is_STMT ctx || is_PRIMARY ctx) = false →
            json_parse_expr reg ctx root
              = .ok none ⟨ctx.flags, ctx.msgs
                  ++ [Erec.error "Malformed object (too many properties): '%s'."
                      [.dump root]]⟩) := by
  constructor
  · intro s hd
    rw [json_parse_expr_eq]
    simp [json_parse_expr_body, json_parse_expr_with, hd]
  · intro root hroot
    rw [json_parse_expr_eq]
    cases root with
    | integer n =>
      constructor
      · intro h
        simp [json_parse_expr_body, json_parse_expr_with, h, json_is_integer]
      · intro h
        simp [json_parse_expr_body, json_parse_expr_with, h, json_unpack_stmt_eq, json_error]
    | jtrue =>
      constructor
      · intro h
        simp [json_parse_expr_body, json_parse_expr_with, h, json_is_boolean]
      · intro h
        simp [json_parse_expr_body, json_parse_expr_with, h, json_unpack_stmt_eq, json_error]
    | jfalse =>
      constructor
      · intro h
        simp [json_parse_expr_body, json_parse_expr_with, h, json_is_boolean]
      · intro h
        simp [json_parse_expr_body, json_parse_expr_with, h, json_unpack_stmt_eq, json_error]
    | _ => simp [json_is_integer, json_is_boolean] at hroot

/-- Witness for C6 (amended): the integer 22 is read on the right-hand side
and rejected under an empty flag word; a string is read under an empty flag
word. -/
theorem json_parse_expr_scalar_witness :
    is_DTYPE ⟨0, []⟩ = false
      ∧ json_parse_expr sample_registry ⟨0, []⟩ (.string "eth0")
        = json_parse_immediate_expr ⟨0, []⟩ "immediate" (.string "eth0")
      ∧ json_parse_expr sample_registry ⟨CTX_F_RHS, []⟩ (.integer 22)
        = json_parse_immediate_expr ⟨CTX_F_RHS, []⟩ "immediate" (.integer 22)
      ∧ json_parse_expr sample_registry ⟨0, []⟩ (.integer 22)
        = .ok none ⟨0, [Erec.error "Malformed object (too many properties): '%s'."
            [.dump (.integer 22)]]⟩ :=
  ⟨rfl,
    (json_parse_expr_scalar sample_registry ⟨0, []⟩).1 "eth0" rfl,
    ((json_parse_expr_scalar sample_registry ⟨CTX_F_RHS, []⟩).2 (.integer 22)
      (Or.inl rfl)).1 rfl,
    ((json_parse_expr_scalar sample_registry ⟨0, []⟩).2 (.integer 22) (Or.inl rfl)).2 rfl⟩

/-! ## The list branch of `json_parse_expr` -/

/-- The list branch of `json_parse_expr`: the two context checks, then the
loop over the items with the recursive calls going to `json_parse_expr`. -/
theorem json_parse_expr_array (reg : Registry) (ctx : json_ctx) (items : List Json) :
    json_parse_expr reg ctx (.array items)
      = if ctx.flags &&& (CTX_F_RHS ||| CTX_F_STMT) = 0 then
          .ok none (json_error ctx
            "List expression only allowed on RHS or in statement expression." [])
        else if is_PRIMARY ctx then
          .ok none (json_error ctx "List expression not allowed as primary expression." [])
        else
          json_parse_list_loop (json_parse_expr reg) ctx items 0 (.list_expr []) := by
  rw [json_parse_expr_eq]
  rfl

/-- The list loop returns a list exactly when every item parses, each under
the flag word of the loop; the children are the parsed items in order. -/
theorem list_loop_some_iff {pe : expr_parse_fn} (hpe : FramedParser pe) (F : Nat)
    (items : List Json) (m : List Erec) (k : Nat) (acc l : List expr) :
    (∃ c, json_parse_list_loop pe ⟨F, m⟩ items k (.list_expr acc) = .ok (some (.list_expr l)) c)
      ↔ ∃ es, l = acc ++ es
          ∧ List.Forall₂ (fun x e => ∃ c, pe ⟨F, []⟩ x = .ok (some e) c) items es := by
  induction items generalizing m k acc with
  | nil =>
    simp only [json_parse_list_loop, Res.ok.injEq, Option.some.injEq, expr.list_expr.injEq,
      List.forall₂_nil_left_iff, exists_eq_right, List.append_nil]
    constructor
    · rintro ⟨c, h, -⟩
      exact h.symm
    · intro h
      exact ⟨_, h.symm, rfl⟩
  | cons x xs ih =>
    obtain ⟨o, ho⟩ := framed_at (hpe x) F
    simp only [json_parse_list_loop, ho, List.forall₂_cons_left_iff]
    rcases o with _ | ⟨_ | e1, errs⟩
    · simp [Res.lift]
    · simp [Res.lift]
    · simp only [Res.lift, compound_expr_add, ih, List.nil_append, Res.ok.injEq,
        Option.some.injEq, exists_and_left, exists_eq_left']
      constructor
      · rintro ⟨es, hl, hes⟩
        exact ⟨e1 :: es, by simp [hl], e1, ⟨rfl, _, rfl⟩, es, hes, rfl⟩
      · rintro ⟨es, hl, e, ⟨he, -⟩, es1, hes1, rfl⟩
        subst he
        exact ⟨es1, by simp [hl], hes1⟩

/-- The list branch returns a list expression exactly when the context holds
RHS or STMT, lacks PRIMARY, and every item parses under the same flag word;
the children are then the parsed items in array order. -/
theorem json_parse_expr_array_iff (reg : Registry) (ctx : json_ctx) (items : List Json)
    (es : List expr) :
    (∃ c, json_parse_expr reg ctx (.array items) = .ok (some (.list_expr es)) c)
      ↔ ctx.flags &&& (CTX_F_RHS ||| CTX_F_STMT) ≠ 0 ∧ is_PRIMARY ctx = false
          ∧ List.Forall₂
              (fun x e => ∃ c, json_parse_expr reg ⟨ctx.flags, []⟩ x = .ok (some e) c)
              items es := by
  obtain ⟨F, m⟩ := ctx
  rw [json_parse_expr_array]
  by_cases h1 : F &&& (CTX_F_RHS ||| CTX_F_STMT) = 0
  · simp [h1]
  · by_cases h2 : is_PRIMARY ⟨F, m⟩ = true
    · simp [h1, h2]
    · have h3 : is_PRIMARY ⟨F, m⟩ = false := by simpa using h2
      simp only [h1, h3, if_false, ne_eq, not_false_eq_true, true_and, Bool.false_eq_true]
      rw [list_loop_some_iff (json_parse_expr_framed reg)]
      simp

/-- When the items before position `pre.length` parse and the item at that
position returns no expression, the list loop returns no expression and its
last queued record names that position. -/
theorem list_loop_fail {pe : expr_parse_fn} (hpe : FramedParser pe) (F : Nat)
    (pre : List Json) (x : Json) (post : List Json) (es : List expr) (c0 : json_ctx)
    (hpre : List.Forall₂ (fun x e => ∃ c, pe ⟨F, []⟩ x = .ok (some e) c) pre es)
    (hx : pe ⟨F, []⟩ x = .ok none c0) (m : List Erec) (k : Nat) (acc : expr) :
    ∃ errs, json_parse_list_loop pe ⟨F, m⟩ (pre ++ x :: post) k acc
      = .ok none ⟨F, m ++ errs ++ [Erec.error
          "Parsing list expression item at index %zu failed." [.int (k + pre.length)]]⟩ := by
  induction hpre generalizing m k acc with
  | nil =>
    obtain ⟨o, ho⟩ := framed_at (hpe x) F
    rw [ho] at hx
    rcases o with _ | ⟨_ | e1, errs⟩ <;> simp [Res.lift] at hx
    refine ⟨errs, ?_⟩
    simp [json_parse_list_loop, ho, Res.lift, json_error]
  | @cons y e ys es1 hy _ ih =>
    obtain ⟨c, hc⟩ := hy
    obtain ⟨o, ho⟩ := framed_at (hpe y) F
    rw [ho] at hc
    rcases o with _ | ⟨_ | e1, errs⟩ <;> simp [Res.lift] at hc
    obtain ⟨errs2, h2⟩ := ih (m ++ errs) (k + 1) (compound_expr_add acc e1)
    refine ⟨errs ++ errs2, ?_⟩
    simp only [List.cons_append, json_parse_list_loop, ho, Res.lift]
    refine h2.trans ?_
    have hidx : ((k + 1 : Nat) : Int) + (ys.length : Int)
        = (k : Int) + ((ys.length + 1 : Nat) : Int) := by
      push_cast
      ring
    simp only [List.length_cons, List.append_assoc, hidx]

/-- On the right-hand side the array whose only item is the `set` expression
of a null operand makes the parse of that item fault (the NULL result of the
primitive reader is dereferenced in `json_parse_set_expr`), and the list parse
faults with it. -/
theorem json_parse_expr_array_fault :
    json_parse_expr sample_registry ⟨CTX_F_RHS, []⟩ (.array [.object [("set", .null)]])
      = .fault := rfl

/-- C5. For an array node: `json_parse_expr` returns a list expression
exactly when the context holds RHS or STMT, lacks PRIMARY, and every item
parses under the same flag word, and the children are then the parsed items in
array order. When the context holds neither RHS nor STMT, or holds PRIMARY, or
an item returns no expression after the items before it have parsed, it
returns no expression and queues an error. -/
theorem json_parse_expr_list (reg : Registry) (ctx : json_ctx) (items : List Json) :
    (∀ es : List expr,
        (∃ c, json_parse_expr reg ctx (.array items) = .ok (some (.list_expr es)) c)
          ↔ ctx.flags &&& (CTX_F_RHS ||| CTX_F_STMT) ≠ 0 ∧ is_PRIMARY ctx = false
              ∧ List.Forall₂
                  (fun x e => ∃ c, json_parse_expr reg ⟨ctx.flags, []⟩ x = .ok (some e) c)
                  items es)
      ∧ (ctx.flags &&& (CTX_F_RHS ||| CTX_F_STMT) = 0 →
          json_parse_expr reg ctx (.array items)
            = .ok none ⟨ctx.flags, ctx.msgs ++ [Erec.error
                "List expression only allowed on RHS or in statement expression." []]⟩)
      ∧ (ctx.flags &&& (CTX_F_RHS ||| CTX_F_STMT) ≠ 0 → is_PRIMARY ctx = true →
          json_parse_expr reg ctx (.array items)
            = .ok none ⟨ctx.flags, ctx.msgs ++ [Erec.error
                "List expression not allowed as primary expression." []]⟩)
      ∧ (ctx.flags &&& (CTX_F_RHS ||| CTX_F_STMT) ≠ 0 → is_PRIMARY ctx = false →
          ∀ (pre : List Json) (x : Json) (post : List Json) (es : List expr) (c0 : json_ctx),
            items = pre ++ x :: post →
            List.Forall₂
              (fun x e => ∃ c, json_parse_expr reg ⟨ctx.flags, []⟩ x = .ok (some e) c)
              pre es →
            json_parse_expr reg ⟨ctx.flags, []⟩ x = .ok none c0 →
            ∃ errs, json_parse_expr reg ctx (.array items)
              = .ok none ⟨ctx.flags, ctx.msgs ++ errs ++ [Erec.error
                  "Parsing list expression item at index %zu failed."
                  [.int pre.length]]⟩) := by
  refine ⟨fun es => json_parse_expr_array_iff reg ctx items es, ?_, ?_, ?_⟩
  · intro h
    rw [json_parse_expr_array]
    simp [h, json_error]
  · intro h1 h2
    rw [json_parse_expr_array]
    simp [h1, h2, json_error]
  · intro h1 h2 pre x post es c0 hitems hpre hx
    rw [json_parse_expr_array]
    simp only [h1, h2, if_false, Bool.false_eq_true]
    subst hitems
    obtain ⟨errs, he⟩ := list_loop_fail (json_parse_expr_framed reg) ctx.flags pre x post es c0
      hpre hx ctx.msgs 0 (.list_expr [])
    exact ⟨errs, by simpa using he⟩

/-- Witness for C5: on the right-hand side the array `[1, "a"]` becomes the
list of the two symbols, and the array `[1, null]` is rejected at index 1. -/
theorem json_parse_expr_list_witness :
    (∃ c, json_parse_expr sample_registry ⟨CTX_F_RHS, []⟩ (.array [.integer 1, .string "a"])
        = .ok (some (.list_expr [.symbol_expr .SYMBOL_VALUE "1",
            .symbol_expr .SYMBOL_VALUE "a"])) c)
      ∧ ∃ errs, json_parse_expr sample_registry ⟨CTX_F_RHS, []⟩ (.array [.integer 1, .null])
        = .ok none ⟨CTX_F_RHS, [] ++ errs ++ [Erec.error
            "Parsing list expression item at index %zu failed." [.int 1]]⟩ :=
  ⟨((json_parse_expr_list sample_registry ⟨CTX_F_RHS, []⟩ [.integer 1, .string "a"]).1 _).2
      ⟨by decide, rfl,
        List.Forall₂.cons ⟨_, rfl⟩ (List.Forall₂.cons ⟨_, rfl⟩ List.Forall₂.nil)⟩,
    (json_parse_expr_list sample_registry ⟨CTX_F_RHS, []⟩ [.integer 1, .null]).2.2.2
      (by decide) rfl [.integer 1] .null [] [.symbol_expr .SYMBOL_VALUE "1"] _ rfl
      (List.Forall₂.cons ⟨_, rfl⟩ List.Forall₂.nil) rfl⟩

/-! ## The statement parser: recursion and frame property -/

theorem stmt_dispatch_congr (tbl : List stmt_entry)
    (ht : ∀ row ∈ tbl, ∀ pe ps ps1 ctx key value, AgreeStmt ps ps1 value.depth →
      row.cb pe ps ctx key value = row.cb pe ps1 ctx key value)
    (pe : expr_parse_fn) {ps ps1 : stmt_parse_fn} {value : Json}
    (h : AgreeStmt ps ps1 value.depth) (ctx : json_ctx) (type : String) :
    json_parse_stmt_dispatch tbl pe ps ctx type value
      = json_parse_stmt_dispatch tbl pe ps1 ctx type value := by
  induction tbl with
  | nil => rfl
  | cons row rest ih =>
    simp only [json_parse_stmt_dispatch]
    rw [ih (fun r hr => ht r (List.mem_cons_of_mem _ hr)),
      ht row (List.mem_cons_self _ _) pe ps ps1 ctx row.key value h]

theorem meter_congr (pe : expr_parse_fn) (ps ps1 : stmt_parse_fn) (ctx : json_ctx)
    (key : String) (value : Json) (h : AgreeStmt ps ps1 value.depth) :
    json_parse_meter_stmt pe ps ctx key value = json_parse_meter_stmt pe ps1 ctx key value := by
  unfold json_parse_meter_stmt
  cases hk : json_unpack_key_o value "key" with
  | none => rfl
  | some jkey =>
    cases hs : json_unpack_key_o value "stmt" with
    | none => rfl
    | some jstmt =>
      have hx : ∀ c, ps c jstmt = ps1 c jstmt := fun c => h c jstmt (depth_object_get hs)
      simp only [hx]

theorem stmt_tbl_congr (sreg : StmtRegistry) :
    ∀ row ∈ stmt_parser_tbl sreg, ∀ pe ps ps1 ctx key value, AgreeStmt ps ps1 value.depth →
      row.cb pe ps ctx key value = row.cb pe ps1 ctx key value := by
  intro row hrow
  simp only [stmt_parser_tbl, List.mem_cons, List.mem_singleton, List.not_mem_nil,
    or_false] at hrow
  rcases hrow with h | h | h | h | h | h | h | h | h | h | h | h | h | h | h | h | h | h | h
    | h | h | h | h | h <;> subst h
  all_goals first
    | exact meter_congr
    | exact fun _ _ _ _ _ _ _ => rfl

theorem stmt_body_congr (sreg : StmtRegistry) (pe : expr_parse_fn) {ps ps1 : stmt_parse_fn}
    {root : Json} (h : AgreeStmt ps ps1 root.depth) (ctx : json_ctx) :
    json_parse_stmt_body sreg pe ps ctx root = json_parse_stmt_body sreg pe ps1 ctx root := by
  unfold json_parse_stmt_body
  cases hu : json_unpack_stmt ctx root with
  | mk o c1 =>
    cases o with
    | none => rfl
    | some p =>
      obtain ⟨type, value⟩ := p
      have hd := (depth_unpack_stmt hu).1
      simp only []
      split
      · rfl
      · exact stmt_dispatch_congr _ (stmt_tbl_congr sreg) pe
          (fun c x hx => h c x (lt_trans hx hd)) _ _

theorem stmt_fuel_agree (reg : Registry) (sreg : StmtRegistry) (n m : Nat) :
    AgreeStmt (json_parse_stmt_fuel reg sreg n) (json_parse_stmt_fuel reg sreg m) (min n m) := by
  induction n generalizing m with
  | zero => intro c x hx; simp at hx
  | succ n ih =>
    cases m with
    | zero => intro c x hx; simp at hx
    | succ m =>
      intro c x hx
      simp only [json_parse_stmt_fuel]
      apply stmt_body_congr
      intro c1 y hy
      exact ih m c1 y (by omega)

/-- The total statement parser satisfies the recursive equation of the
source: a call of `json_parse_stmt` runs the body of the function with the
recursive calls going to `json_parse_stmt` and the expression parses to
`json_parse_expr`. -/
theorem json_parse_stmt_eq (reg : Registry) (sreg : StmtRegistry) (ctx : json_ctx)
    (root : Json) :
    json_parse_stmt reg sreg ctx root
      = json_parse_stmt_body sreg (json_parse_expr reg) (json_parse_stmt reg sreg) ctx root := by
  show json_parse_stmt_body sreg (json_parse_expr reg)
    (json_parse_stmt_fuel reg sreg root.depth) ctx root = _
  apply stmt_body_congr
  intro c x hx
  exact stmt_fuel_agree reg sreg root.depth (x.depth + 1) c x (by omega)

/-- A framed call entered after `m ++ errs` is the call entered after `errs`,
replayed after `m`. -/
theorem framed_tail {α : Type} {p : json_ctx → Res α} (h : Framed p) (F : Nat)
    (m errs : List Erec) : p ⟨F, m ++ errs⟩ = (p ⟨F, errs⟩).rebase ⟨F, m⟩ := by
  rw [h ⟨F, m ++ errs⟩, h ⟨F, errs⟩, rebase_rebase]

theorem match_sides_framed {pe : expr_parse_fn} (hpe : FramedParser pe) (op : ops)
    (jleft jright : Json) : Framed (fun c => json_parse_match_sides pe c op jleft jright) := by
  intro ctx
  obtain ⟨F, m⟩ := ctx
  obtain ⟨o1, h1⟩ := framed_at (hpe jleft) F
  obtain ⟨o2, h2⟩ := framed_at (flagged_framed hpe CTX_F_RHS jright) F
  simp only [json_parse_match_sides, json_parse_rhs_expr]
  rcases o1 with _ | ⟨_ | e1, errs1⟩ <;> rcases o2 with _ | ⟨_ | e2, errs2⟩ <;>
    simp [h1, h2, Res.lift, Res.rebase, json_error]

theorem match_framed (sreg : StmtRegistry) : StmtBuilderFramed (json_parse_match_stmt sreg) := by
  intro pe ps hpe _ key value ctx
  obtain ⟨F, m⟩ := ctx
  simp only [json_parse_match_stmt]
  repeat' split
  all_goals first
    | exact match_sides_framed hpe _ _ _ ⟨F, m⟩
    | simp [Res.rebase, json_error, json_unpack_err, json_lib_error]

/-- The shape shared by the object-reference statements: a statement
expression wrapped by `mk`, or the error `fmt`. -/
theorem objref_framed {pe : expr_parse_fn} (hpe : FramedParser pe) (value : Json)
    (fmt : String) (mk : expr → stmt) :
    Framed (fun c =>
      match json_parse_stmt_expr pe c value with
      | .fault => .fault
      | .ok none ctx => .ok none (json_error ctx fmt [])
      | .ok (some e) ctx => .ok (some (mk e)) ctx) := by
  intro ctx
  obtain ⟨F, m⟩ := ctx
  obtain ⟨o1, h1⟩ := framed_at (flagged_framed hpe CTX_F_STMT value) F
  simp only [json_parse_stmt_expr]
  rcases o1 with _ | ⟨_ | e1, errs1⟩ <;> simp [h1, Res.lift, Res.rebase, json_error]

theorem counter_framed : StmtBuilderFramed json_parse_counter_stmt := by
  intro pe ps hpe _ key value ctx
  obtain ⟨F, m⟩ := ctx
  simp only [json_parse_counter_stmt]
  split
  · simp [Res.rebase]
  · split
    · simp [Res.rebase]
    · exact objref_framed hpe value _ _ ⟨F, m⟩

theorem verdict_stmt_framed : StmtBuilderFramed json_parse_verdict_stmt := by
  intro pe ps _ _ key value ctx
  obtain ⟨F, m⟩ := ctx
  simp only [json_parse_verdict_stmt]
  repeat' split
  all_goals simp [Res.rebase, json_error]

theorem mangle_stmt_of_framed (left right : expr) :
    Framed (fun c => mangle_stmt_of c left right) := by
  intro ctx
  obtain ⟨F, m⟩ := ctx
  simp only [mangle_stmt_of]
  repeat' split
  all_goals simp [Res.rebase, json_error]

theorem mangle_framed : StmtBuilderFramed json_parse_mangle_stmt := by
  intro pe ps hpe _ key value ctx
  obtain ⟨F, m⟩ := ctx
  simp only [json_parse_mangle_stmt, json_parse_mangle_lhs_expr, json_parse_stmt_expr]
  split
  · rename_i jleft jright _ _
    obtain ⟨o1, h1⟩ := framed_at (flagged_framed hpe CTX_F_MANGLE jleft) F
    obtain ⟨o2, h2⟩ := framed_at (flagged_framed hpe CTX_F_STMT jright) F
    rcases o1 with _ | ⟨_ | e1, errs1⟩ <;> rcases o2 with _ | ⟨_ | e2, errs2⟩ <;>
      simp only [h1, h2, Res.lift, List.nil_append] <;>
      try (simp [Res.rebase, json_error]; done)
    rw [List.append_assoc]
    exact framed_tail (mangle_stmt_of_framed e1 e2) F m (errs1 ++ errs2)
  · simp [Res.rebase, json_unpack_err, json_lib_error]

theorem quota_framed : StmtBuilderFramed json_parse_quota_stmt := by
  intro pe ps hpe _ key value ctx
  obtain ⟨F, m⟩ := ctx
  simp only [json_parse_quota_stmt]
  split
  · simp [Res.rebase]
  · exact objref_framed hpe value _ _ ⟨F, m⟩

theorem limit_framed : StmtBuilderFramed json_parse_limit_stmt := by
  intro pe ps hpe _ key value ctx
  obtain ⟨F, m⟩ := ctx
  simp only [json_parse_limit_stmt]
  split
  · split <;> simp [Res.rebase]
  · exact objref_framed hpe value _ _ ⟨F, m⟩

theorem fwd_framed : StmtBuilderFramed json_parse_fwd_stmt := by
  intro pe ps hpe _ key value ctx
  obtain ⟨F, m⟩ := ctx
  obtain ⟨o1, h1⟩ := framed_at (hpe value) F
  simp only [json_parse_fwd_stmt]
  rcases o1 with _ | ⟨e1, errs1⟩ <;> simp [h1, Res.lift, Res.rebase]

theorem notrack_framed : StmtBuilderFramed json_parse_notrack_stmt := by
  intro pe ps _ _ key value ctx
  simp [json_parse_notrack_stmt, Res.rebase]

theorem dup_framed : StmtBuilderFramed json_parse_dup_stmt := by
  intro pe ps hpe _ key value ctx
  obtain ⟨F, m⟩ := ctx
  simp only [json_parse_dup_stmt, json_parse_stmt_expr]
  split
  · simp [Res.rebase, json_unpack_err, json_lib_error]
  · rename_i tmp _
    obtain ⟨o1, h1⟩ := framed_at (flagged_framed hpe CTX_F_STMT tmp) F
    rcases o1 with _ | ⟨_ | e1, errs1⟩ <;> simp only [h1, Res.lift, List.nil_append]
    · simp [Res.rebase]
    · simp [Res.rebase, json_error]
    · split
      · simp [Res.rebase]
      · rename_i tmp2 _
        obtain ⟨o2, h2⟩ := framed_at (flagged_framed hpe CTX_F_STMT tmp2) F
        rcases o2 with _ | ⟨_ | e2, errs2⟩ <;>
          simp [h2, Res.lift, Res.rebase, json_error]

theorem nat_flag_framed (root : Json) (flags : Nat) :
    Framed (fun c => json_parse_nat_flag c root flags) := by
  intro ctx
  obtain ⟨F, m⟩ := ctx
  simp only [json_parse_nat_flag]
  repeat' split
  all_goals simp [Res.rebase, json_error]

theorem nat_flags_loop_framed (items : List Json) (index flags : Nat) (F : Nat)
    (m : List Erec) :
    json_parse_nat_flags_loop ⟨F, m⟩ items index flags
      = (json_parse_nat_flags_loop ⟨F, []⟩ items index flags).rebase ⟨F, m⟩ := by
  induction items generalizing index flags m with
  | nil => simp [json_parse_nat_flags_loop, Res.rebase]
  | cons x xs ih =>
    obtain ⟨o1, h1⟩ := framed_at (nat_flag_framed x flags) F
    simp only [json_parse_nat_flags_loop, h1]
    rcases o1 with _ | ⟨⟨_ | _, fl⟩, errs1⟩ <;> simp only [Res.lift, List.nil_append, json_error]
    · simp [Res.rebase]
    · rw [ih _ _ (m ++ errs1), ih _ _ errs1, rebase_rebase]
    · rw [ih _ _ (m ++ errs1 ++ _), ih _ _ (errs1 ++ _), rebase_rebase, List.append_assoc]

theorem nat_flags_framed (root : Json) : Framed (fun c => json_parse_nat_flags c root) := by
  intro ctx
  obtain ⟨F, m⟩ := ctx
  simp only [json_parse_nat_flags]
  split
  · obtain ⟨o1, h1⟩ := framed_at (nat_flag_framed root 0) F
    rcases o1 with _ | ⟨⟨b, fl⟩, errs1⟩ <;> simp [h1, Res.lift, Res.rebase]
  · split
    · simp [Res.rebase, json_error]
    · rw [nat_flags_loop_framed]
      cases json_parse_nat_flags_loop ⟨F, []⟩ (json_array_items root) 0 0 <;>
        simp [Res.rebase]

theorem nat_stmt_flags_framed (value : Json) (type : Nat) (addr proto : Option expr) :
    Framed (fun c => json_parse_nat_stmt_flags c value type addr proto) := by
  intro ctx
  obtain ⟨F, m⟩ := ctx
  simp only [json_parse_nat_stmt_flags]
  split
  · simp [Res.rebase]
  · rename_i tmp _
    obtain ⟨o1, h1⟩ := framed_at (nat_flags_framed tmp) F
    rcases o1 with _ | ⟨fl, errs1⟩ <;> simp only [h1, Res.lift]
    · simp [Res.rebase]
    · split <;> simp [Res.rebase]

theorem nat_stmt_port_framed {pe : expr_parse_fn} (hpe : FramedParser pe) (value : Json)
    (type : Nat) (addr : Option expr) :
    Framed (fun c => json_parse_nat_stmt_port pe c value type addr) := by
  intro ctx
  obtain ⟨F, m⟩ := ctx
  simp only [json_parse_nat_stmt_port, json_parse_stmt_expr]
  split
  · exact nat_stmt_flags_framed _ _ _ _ ⟨F, m⟩
  · rename_i tmp _
    obtain ⟨o1, h1⟩ := framed_at (flagged_framed hpe CTX_F_STMT tmp) F
    rcases o1 with _ | ⟨_ | e1, errs1⟩ <;> simp only [h1, Res.lift, List.nil_append]
    · simp [Res.rebase]
    · simp [Res.rebase, json_error]
    · exact framed_tail (nat_stmt_flags_framed _ _ _ _) F m errs1

theorem nat_framed : StmtBuilderFramed json_parse_nat_stmt := by
  intro pe ps hpe _ key value ctx
  obtain ⟨F, m⟩ := ctx
  simp only [json_parse_nat_stmt, json_parse_stmt_expr]
  split
  · simp [Res.rebase, json_error]
  · split
    · exact nat_stmt_port_framed hpe _ _ _ ⟨F, m⟩
    · rename_i tmp _
      obtain ⟨o1, h1⟩ := framed_at (flagged_framed hpe CTX_F_STMT tmp) F
      rcases o1 with _ | ⟨_ | e1, errs1⟩ <;> simp only [h1, Res.lift, List.nil_append]
      · simp [Res.rebase]
      · simp [Res.rebase, json_error]
      · exact framed_tail (nat_stmt_port_framed hpe _ _ _) F m errs1

theorem reject_framed : StmtBuilderFramed json_parse_reject_stmt := by
  intro pe ps _ _ key value ctx
  obtain ⟨F, m⟩ := ctx
  simp only [json_parse_reject_stmt]
  split
  · simp [Res.rebase]
  · rename_i tmp _
    obtain ⟨o1, h1⟩ := framed_at (immediate_framed "immediate" tmp) F
    rcases o1 with _ | ⟨_ | e1, errs1⟩ <;> simp [h1, Res.lift, Res.rebase, json_error]

theorem set_stmt_ref_framed (op : nft_dynset_ops) (key : expr) (set : String) :
    Framed (fun c => json_parse_set_stmt_ref c op key set) := by
  intro ctx
  obtain ⟨F, m⟩ := ctx
  simp only [json_parse_set_stmt_ref]
  split <;> simp [Res.rebase, json_error]

theorem set_elem_expr_stmt_framed {pe : expr_parse_fn} (hpe : FramedParser pe) (root : Json) :
    Framed (fun c => json_parse_set_elem_expr_stmt pe c root) := by
  intro ctx
  obtain ⟨F, m⟩ := ctx
  obtain ⟨o1, h1⟩ := framed_at (flagged_framed hpe CTX_F_SES root) F
  simp only [json_parse_set_elem_expr_stmt]
  rcases o1 with _ | ⟨_ | e1, errs1⟩ <;> simp only [h1, Res.lift, List.nil_append]
  · simp [Res.rebase]
  · simp [Res.rebase]
  · split <;> simp [Res.rebase]

theorem set_stmt_elem_framed {pe : expr_parse_fn} (hpe : FramedParser pe)
    (op : nft_dynset_ops) (elem : Json) (set : String) :
    Framed (fun c => json_parse_set_stmt_elem pe c op elem set) := by
  intro ctx
  obtain ⟨F, m⟩ := ctx
  obtain ⟨o1, h1⟩ := framed_at (set_elem_expr_stmt_framed hpe elem) F
  simp only [json_parse_set_stmt_elem]
  rcases o1 with _ | ⟨_ | e1, errs1⟩ <;> simp only [h1, Res.lift, List.nil_append]
  · simp [Res.rebase]
  · simp [Res.rebase, json_error]
  · exact framed_tail (set_stmt_ref_framed _ _ _) F m errs1

theorem set_stmt_framed : StmtBuilderFramed json_parse_set_stmt := by
  intro pe ps hpe _ key value ctx
  obtain ⟨F, m⟩ := ctx
  simp only [json_parse_set_stmt]
  repeat' split
  all_goals first
    | exact set_stmt_elem_framed hpe _ _ _ ⟨F, m⟩
    | simp [Res.rebase, json_error, json_unpack_err, json_lib_error]

theorem log_flag_framed (root : Json) (flags : Nat) :
    Framed (fun c => json_parse_log_flag c root flags) := by
  intro ctx
  obtain ⟨F, m⟩ := ctx
  simp only [json_parse_log_flag]
  repeat' split
  all_goals simp [Res.rebase, json_error]

theorem log_flags_loop_framed (items : List Json) (index flags : Nat) (F : Nat)
    (m : List Erec) :
    json_parse_log_flags_loop ⟨F, m⟩ items index flags
      = (json_parse_log_flags_loop ⟨F, []⟩ items index flags).rebase ⟨F, m⟩ := by
  induction items generalizing index flags m with
  | nil => simp [json_parse_log_flags_loop, Res.rebase]
  | cons x xs ih =>
    obtain ⟨o1, h1⟩ := framed_at (log_flag_framed x flags) F
    simp only [json_parse_log_flags_loop, h1]
    rcases o1 with _ | ⟨⟨_ | _, fl⟩, errs1⟩ <;> simp only [Res.lift, List.nil_append, json_error]
    · simp [Res.rebase]
    · rw [ih _ _ (m ++ errs1), ih _ _ errs1, rebase_rebase]
    · rw [ih _ _ (m ++ errs1 ++ _), ih _ _ (errs1 ++ _), rebase_rebase, List.append_assoc]

theorem log_flags_framed (root : Json) : Framed (fun c => json_parse_log_flags c root) := by
  intro ctx
  obtain ⟨F, m⟩ := ctx
  simp only [json_parse_log_flags]
  split
  · obtain ⟨o1, h1⟩ := framed_at (log_flag_framed root 0) F
    rcases o1 with _ | ⟨⟨b, fl⟩, errs1⟩ <;> simp [h1, Res.lift, Res.rebase]
  · split
    · simp [Res.rebase, json_error]
    · rw [log_flags_loop_framed]
      cases json_parse_log_flags_loop ⟨F, []⟩ (json_array_items root) 0 0 <;>
        simp [Res.rebase]

theorem log_stmt_flags_framed (value : Json) (level : Int) (flags : Nat) :
    Framed (fun c => json_parse_log_stmt_flags c value level flags) := by
  intro ctx
  obtain ⟨F, m⟩ := ctx
  simp only [json_parse_log_stmt_flags]
  split
  · simp [Res.rebase]
  · rename_i tmp _
    obtain ⟨o1, h1⟩ := framed_at (log_flags_framed tmp) F
    rcases o1 with _ | ⟨fl, errs1⟩ <;> simp only [h1, Res.lift]
    · simp [Res.rebase]
    · split <;> simp [Res.rebase]

theorem log_framed (sreg : StmtRegistry) : StmtBuilderFramed (json_parse_log_stmt sreg) := by
  intro pe ps _ _ key value ctx
  obtain ⟨F, m⟩ := ctx
  simp only [json_parse_log_stmt]
  repeat' split
  all_goals first
    | exact log_stmt_flags_framed _ _ _ ⟨F, m⟩
    | simp [Res.rebase, json_error]

theorem cthelper_framed : StmtBuilderFramed json_parse_cthelper_stmt := by
  intro pe ps hpe _ key value ctx
  exact objref_framed hpe value _ _ ctx

theorem meter_framed : StmtBuilderFramed json_parse_meter_stmt := by
  intro pe ps hpe hps key value ctx
  obtain ⟨F, m⟩ := ctx
  simp only [json_parse_meter_stmt]
  split
  · rename_i jkey jstmt _ _
    obtain ⟨o1, h1⟩ := framed_at (hpe jkey) F
    obtain ⟨o2, h2⟩ := framed_at (hps jstmt) F
    rcases o1 with _ | ⟨_ | e1, errs1⟩ <;> rcases o2 with _ | ⟨_ | e2, errs2⟩ <;>
      simp [h1, h2, Res.lift, Res.rebase, json_error]
  · simp [Res.rebase, json_unpack_err, json_lib_error]

theorem queue_flags_loop_framed (items : List Json) (index : Nat) (queue : Option expr)
    (flags : Nat) : Framed (fun c => json_parse_queue_flags_loop c items index queue flags) := by
  induction items generalizing index flags with
  | nil => intro ctx; simp [json_parse_queue_flags_loop, Res.rebase]
  | cons x xs ih =>
    intro ctx
    obtain ⟨F, m⟩ := ctx
    simp only [json_parse_queue_flags_loop]
    repeat' split
    all_goals first
      | exact ih _ _ ⟨F, m⟩
      | simp [json_error, Res.rebase]

theorem queue_stmt_flags_framed (value : Json) (queue : Option expr) :
    Framed (fun c => json_parse_queue_stmt_flags c value queue) := by
  intro ctx
  obtain ⟨F, m⟩ := ctx
  simp only [json_parse_queue_stmt_flags]
  repeat' split
  all_goals first
    | exact queue_flags_loop_framed _ _ _ _ ⟨F, m⟩
    | simp [Res.rebase, json_error]

theorem queue_framed : StmtBuilderFramed json_parse_queue_stmt := by
  intro pe ps hpe _ key value ctx
  obtain ⟨F, m⟩ := ctx
  simp only [json_parse_queue_stmt, json_parse_stmt_expr]
  split
  · exact queue_stmt_flags_framed _ _ ⟨F, m⟩
  · rename_i tmp _
    obtain ⟨o1, h1⟩ := framed_at (flagged_framed hpe CTX_F_STMT tmp) F
    rcases o1 with _ | ⟨_ | e1, errs1⟩ <;> simp only [h1, Res.lift, List.nil_append]
    · simp [Res.rebase]
    · simp [Res.rebase, json_error]
    · exact framed_tail (queue_stmt_flags_framed _ _) F m errs1

theorem stmt_tbl_framed (sreg : StmtRegistry) :
    ∀ row ∈ stmt_parser_tbl sreg, StmtBuilderFramed row.cb := by
  intro row hrow
  simp only [stmt_parser_tbl, List.mem_cons, List.mem_singleton, List.not_mem_nil,
    or_false] at hrow
  rcases hrow with h | h | h | h | h | h | h | h | h | h | h | h | h | h | h | h | h | h | h
    | h | h | h | h | h <;> subst h
  all_goals first
    | exact verdict_stmt_framed
    | exact match_framed sreg
    | exact counter_framed
    | exact mangle_framed
    | exact quota_framed
    | exact limit_framed
    | exact fwd_framed
    | exact notrack_framed
    | exact dup_framed
    | exact nat_framed
    | exact reject_framed
    | exact set_stmt_framed
    | exact log_framed sreg
    | exact cthelper_framed
    | exact meter_framed
    | exact queue_framed

theorem stmt_dispatch_framed {tbl : List stmt_entry}
    (ht : ∀ row ∈ tbl, StmtBuilderFramed row.cb) {pe : expr_parse_fn} {ps : stmt_parse_fn}
    (hpe : FramedParser pe) (hps : FramedStmtParser ps) (type : String) (value : Json) :
    Framed (fun c => json_parse_stmt_dispatch tbl pe ps c type value) := by
  induction tbl with
  | nil => intro ctx; simp [json_parse_stmt_dispatch, Res.rebase, json_error]
  | cons row rest ih =>
    intro ctx
    obtain ⟨F, m⟩ := ctx
    simp only [json_parse_stmt_dispatch]
    split
    · exact ht row (List.mem_cons_self _ _) pe ps hpe hps _ value ⟨F, m⟩
    · exact ih (fun r hr => ht r (List.mem_cons_of_mem _ hr)) ⟨F, m⟩

theorem stmt_body_framed (sreg : StmtRegistry) {pe : expr_parse_fn} {ps : stmt_parse_fn}
    (hpe : FramedParser pe) (hps : FramedStmtParser ps) :
    FramedStmtParser (json_parse_stmt_body sreg pe ps) := by
  intro root ctx
  obtain ⟨F, m⟩ := ctx
  simp only [json_parse_stmt_body, json_unpack_stmt_eq]
  cases root with
  | object kvs =>
    rcases kvs with _ | ⟨⟨k, v⟩, _ | ⟨kv2, rest⟩⟩
    · simp [Res.rebase, json_error]
    · simp only []
      split
      · obtain ⟨o1, h1⟩ := framed_at (map_framed pe hpe k v) F
        rcases o1 with _ | ⟨_ | e1, errs1⟩ <;> simp [h1, Res.lift, Res.rebase, json_error]
      · exact stmt_dispatch_framed (stmt_tbl_framed sreg) hpe hps _ _ ⟨F, m⟩
    · simp [Res.rebase, json_error]
  | _ => simp [Res.rebase, json_error]

theorem stmt_fuel_framed (reg : Registry) (sreg : StmtRegistry) (n : Nat) :
    FramedStmtParser (json_parse_stmt_fuel reg sreg n) := by
  induction n with
  | zero => intro x ctx; simp [json_parse_stmt_fuel, Res.rebase]
  | succ n ih => exact stmt_body_framed sreg (json_parse_expr_framed reg) ih

/-- Every call of `json_parse_stmt` is framed. -/
theorem json_parse_stmt_framed (reg : Registry) (sreg : StmtRegistry) :
    FramedStmtParser (json_parse_stmt reg sreg) :=
  fun x ctx => stmt_fuel_framed reg sreg (x.depth + 1) x ctx

/-! ## Scoped flags -/

/-- A framed call that returns has kept the flag word and extended the
queue. -/
theorem framed_ok {α : Type} {p : json_ctx → Res α} (h : Framed p) {ctx c : json_ctx} {v : α}
    (hr : p ctx = .ok v c) : c.flags = ctx.flags ∧ ∃ errs, c.msgs = ctx.msgs ++ errs := by
  rw [h ctx] at hr
  cases hp : p ⟨ctx.flags, []⟩ with
  | fault => simp [hp, Res.rebase] at hr
  | ok v1 c1 =>
    simp only [hp, Res.rebase, Res.ok.injEq] at hr
    obtain ⟨-, rfl⟩ := hr
    exact ⟨rfl, c1.msgs, rfl⟩

/-- C4. A call `json_parse_flagged_expr(ctx, f, N)` returns what
`json_parse_expr` returns on `N` under the flag word `F ||| f`, where `F` is
the flag word on entry, and on return the flag word is `F` again, whether the
sub-parse produced an expression or not. Hence each of the flag-scoped helpers
(rhs, stmt, primary, set_rhs, mangle_lhs, map_lhs), every expression parse and
every statement parse returns with the flag word it was entered with. -/
theorem json_parse_flags_scoped (reg : Registry) (sreg : StmtRegistry) (ctx : json_ctx)
    (f : Nat) (N : Json) :
    json_parse_flagged_expr (json_parse_expr reg) ctx f N
        = (match json_parse_expr reg ⟨ctx.flags ||| f, ctx.msgs⟩ N with
          | .ok e c => .ok e ⟨ctx.flags, c.msgs⟩
          | .fault => .fault)
      ∧ (∀ e c, json_parse_flagged_expr (json_parse_expr reg) ctx f N = .ok e c →
          c.flags = ctx.flags)
      ∧ (∀ helper ∈ [json_parse_rhs_expr, json_parse_stmt_expr, json_parse_primary_expr,
            json_parse_set_rhs_expr, json_parse_mangle_lhs_expr, json_parse_map_lhs_expr],
          ∀ e c, helper (json_parse_expr reg) ctx N = .ok e c → c.flags = ctx.flags)
      ∧ (∀ e c, json_parse_expr reg ctx N = .ok e c → c.flags = ctx.flags)
      ∧ (∀ s c, json_parse_stmt reg sreg ctx N = .ok s c → c.flags = ctx.flags) := by
  have hfl : ∀ g : Nat, ∀ e c,
      json_parse_flagged_expr (json_parse_expr reg) ctx g N = .ok e c → c.flags = ctx.flags :=
    fun g e c h => (framed_ok (flagged_framed (json_parse_expr_framed reg) g N) h).1
  refine ⟨rfl, hfl f, ?_, ?_, ?_⟩
  · intro helper hh e c h
    simp only [List.mem_cons, List.mem_singleton, List.not_mem_nil, or_false] at hh
    rcases hh with rfl | rfl | rfl | rfl | rfl | rfl
    · exact hfl _ e c h
    · exact hfl _ e c h
    · exact hfl _ e c h
    · exact hfl _ e c h
    · exact hfl _ e c h
    · exact hfl _ e c h
  · intro e c h
    exact (framed_ok (json_parse_expr_framed reg N) h).1
  · intro s c h
    exact (framed_ok (json_parse_stmt_framed reg sreg N) h).1

/-- Witness for C4: a payload expression parsed as right-hand side from a
statement context is rejected under the flag word holding RHS and STMT, and
the call returns with the flag word STMT. -/
theorem json_parse_flags_scoped_witness :
    json_parse_flagged_expr (json_parse_expr sample_registry) ⟨CTX_F_STMT, []⟩ CTX_F_RHS
        (.object [("payload", .null)])
      = .ok none ⟨CTX_F_STMT, [context_error ⟨CTX_F_STMT ||| CTX_F_RHS, []⟩ "payload"]⟩ :=
  (json_parse_flags_scoped sample_registry sample_stmt_registry ⟨CTX_F_STMT, []⟩ CTX_F_RHS
    (.object [("payload", .null)])).1.trans rfl

/-! ## Well-formed operands parse to the kind named by their key -/

theorem parses_run {reg : Registry} {F : Nat} {x : Json} (h : parses reg F x) (m : List Erec) :
    ∃ e errs, json_parse_expr reg ⟨F, m⟩ x = .ok (some e) ⟨F, m ++ errs⟩ := by
  obtain ⟨e, c, he⟩ := h
  refine ⟨e, c.msgs, ?_⟩
  have := json_parse_expr_framed reg x ⟨F, m⟩
  simp only [he, Res.rebase] at this
  exact this

theorem parses_flagged {reg : Registry} {F f : Nat} {x : Json} (h : parses reg (F ||| f) x)
    (m : List Erec) :
    ∃ e errs, json_parse_flagged_expr (json_parse_expr reg) ⟨F, m⟩ f x
      = .ok (some e) ⟨F, m ++ errs⟩ := by
  obtain ⟨e, errs, he⟩ := parses_run h m
  exact ⟨e, errs, by simp [json_parse_flagged_expr, he]⟩

/-- A one-key object whose key has a row admissible in the context is handed
to the builder of that row. -/
theorem dispatch_call (reg : Registry) (T : String) (row : cb_entry) (v : Json) (F : Nat)
    (m : List Erec) (hfind : (cb_tbl reg).find? (fun r => T = r.name) = some row)
    (hF : row.flags &&& F = F) :
    json_parse_expr reg ⟨F, m⟩ (.object [(T, v)])
      = row.cb (json_parse_expr reg) ⟨F, m⟩ T v := by
  rw [json_parse_expr_eq]
  simp [json_parse_expr_body, json_parse_expr_with, json_is_integer, json_is_boolean,
    json_unpack_stmt_eq, dispatch_eq, hfind, hF]

theorem row_mask (reg : Registry) {T : String} {M : Nat} (hT : (T, M) ∈ spec_expr_kinds)
    {row : cb_entry} (hfind : (cb_tbl reg).find? (fun r => T = r.name) = some row) :
    row.flags = M := by
  have h1 := find_columns (cb_tbl reg) T
  rw [cb_columns_eq, spec_expr_kinds_find hT, hfind] at h1
  simp only [Option.map_some', Option.some.injEq, Prod.mk.injEq] at h1
  exact h1.2

/-- The step from a builder to the dispatcher: when the builder of the row of
`T` succeeds with a property `K`, so does `json_parse_expr` on the one-key
object. -/
theorem dispatch_succeeds (reg : Registry) {T : String} {M : Nat}
    (hT : (T, M) ∈ spec_expr_kinds) {F : Nat} (hF : M &&& F = F) (m : List Erec) (v : Json)
    (row : cb_entry) (hfind : (cb_tbl reg).find? (fun r => T = r.name) = some row)
    (K : expr → Prop)
    (hb : ∃ e errs, row.cb (json_parse_expr reg) ⟨F, m⟩ T v = .ok (some e) ⟨F, m ++ errs⟩
      ∧ K e) :
    ∃ e errs, json_parse_expr reg ⟨F, m⟩ (.object [(T, v)]) = .ok (some e) ⟨F, m ++ errs⟩
      ∧ K e := by
  rw [dispatch_call reg T row v F m hfind (by rw [row_mask reg hT hfind]; exact hF)]
  exact hb

theorem immediate_succeeds (F : Nat) (m : List Erec) (type : String) (v : Json)
    (hv : immediate_ok F v) :
    ∃ e, json_parse_immediate_expr ⟨F, m⟩ type v = .ok (some e) ⟨F, m⟩
      ∧ (e.etype = .EXPR_SYMBOL ∨ e.etype = .EXPR_VALUE) := by
  have hv1 : json_is_string v = true ∨ json_is_integer v = true
      ∨ (json_is_boolean v = true ∧ is_RHS ⟨F, m⟩ = true) := hv
  cases v with
  | string s =>
    simp only [json_parse_immediate_expr]
    split
    · exact ⟨_, rfl, Or.inl rfl⟩
    · split
      · rename_i hc
        simp only [Bool.and_eq_true] at hc
        obtain ⟨d, b, hd⟩ := json_parse_constant_some ⟨F, m⟩ _ hc.2
        exact ⟨_, hd, Or.inr rfl⟩
      · exact ⟨_, rfl, Or.inl rfl⟩
  | integer n => exact ⟨_, rfl, Or.inl rfl⟩
  | jtrue =>
    have hr : is_RHS ⟨F, m⟩ = true := by
      simpa [json_is_string, json_is_integer, json_is_boolean] using hv1
    refine ⟨.constant_expr .boolean_type .BYTEORDER_HOST_ENDIAN 1 [1], ?_, Or.inr rfl⟩
    simp [json_parse_immediate_expr, hr]
  | jfalse =>
    have hr : is_RHS ⟨F, m⟩ = true := by
      simpa [json_is_string, json_is_integer, json_is_boolean] using hv1
    refine ⟨.constant_expr .boolean_type .BYTEORDER_HOST_ENDIAN 1 [0], ?_, Or.inr rfl⟩
    simp [json_parse_immediate_expr, hr]
  | _ => simp [json_is_string, json_is_integer, json_is_boolean] at hv1

theorem map_succeeds (reg : Registry) (F : Nat) (m : List Erec) (type : String) (v l r : Json)
    (hl : json_unpack_key_o v "left" = some l) (hr : json_unpack_key_o v "right" = some r)
    (pl : parses reg (F ||| CTX_F_MAP) l) (pr : parses reg (F ||| CTX_F_RHS) r) :
    ∃ e errs, json_parse_map_expr (json_parse_expr reg) ⟨F, m⟩ type v
      = .ok (some e) ⟨F, m ++ errs⟩ ∧ e.etype = .EXPR_MAP := by
  obtain ⟨e1, errs1, h1⟩ := parses_flagged pl m
  obtain ⟨e2, errs2, h2⟩ := parses_flagged pr (m ++ errs1)
  refine ⟨.map_expr e1 e2, errs1 ++ errs2, ?_, rfl⟩
  simp [json_parse_map_expr, json_parse_map_lhs_expr, json_parse_rhs_expr, hl, hr, h1, h2]

theorem prefix_succeeds (reg : Registry) (F : Nat) (m : List Erec) (type : String)
    (v addr : Json) (len : Int) (ha : json_unpack_key_o v "addr" = some addr)
    (hl : json_unpack_key_i v "len" = some len) (pa : parses reg (F ||| CTX_F_PRIMARY) addr) :
    ∃ e errs, json_parse_prefix_expr (json_parse_expr reg) ⟨F, m⟩ type v
      = .ok (some e) ⟨F, m ++ errs⟩ ∧ e.etype = .EXPR_PREFIX := by
  obtain ⟨e1, errs1, h1⟩ := parses_flagged pa m
  refine ⟨.prefix_expr e1 len, errs1, ?_, rfl⟩
  simp [json_parse_prefix_expr, json_parse_primary_expr, ha, hl, h1]

theorem range_succeeds (reg : Registry) (F : Nat) (m : List Erec) (type : String) (lo hi : Json)
    (pl : parses reg (F ||| CTX_F_PRIMARY) lo) (ph : parses reg (F ||| CTX_F_PRIMARY) hi) :
    ∃ e errs, json_parse_range_expr (json_parse_expr reg) ⟨F, m⟩ type (.array [lo, hi])
      = .ok (some e) ⟨F, m ++ errs⟩ ∧ e.etype = .EXPR_RANGE := by
  obtain ⟨e1, errs1, h1⟩ := parses_flagged pl m
  obtain ⟨e2, errs2, h2⟩ := parses_flagged ph (m ++ errs1)
  refine ⟨.range_expr e1 e2, errs1 ++ errs2, ?_, rfl⟩
  simp [json_parse_range_expr, json_parse_primary_expr, json_unpack_pair, h1, h2]

theorem binop_succeeds (reg : Registry) (F : Nat) (m : List Erec) (T : String)
    (hT : T ∈ ["|", "^", "&", ">>", "<<"]) (l r : Json)
    (pl : parses reg (F ||| CTX_F_PRIMARY) l) (pr : parses reg (F ||| CTX_F_PRIMARY) r) :
    ∃ e errs, json_parse_binop_expr (json_parse_expr reg) ⟨F, m⟩ T (.array [l, r])
      = .ok (some e) ⟨F, m ++ errs⟩ ∧ e.etype = .EXPR_BINOP := by
  obtain ⟨e1, errs1, h1⟩ := parses_flagged pl m
  obtain ⟨e2, errs2, h2⟩ := parses_flagged pr (m ++ errs1)
  have hop : ∃ row, op_tbl.find? (fun e => T = e.1) = some row := by
    simp only [List.mem_cons, List.mem_singleton, List.not_mem_nil, or_false] at hT
    rcases hT with rfl | rfl | rfl | rfl | rfl <;> exact ⟨_, rfl⟩
  obtain ⟨row, hrow⟩ := hop
  refine ⟨.binop_expr row.2 e1 e2, errs1 ++ errs2, ?_, rfl⟩
  simp [json_parse_binop_expr, json_parse_primary_expr, json_unpack_pair, hrow, h1, h2]

theorem jhash_succeeds (reg : Registry) (F : Nat) (m : List Erec) (v x : Json) (mod : Int)
    (hmod : json_unpack_key_i v "mod" = some mod) (hx : json_unpack_key_o v "expr" = some x)
    (px : parses reg F x) :
    ∃ e errs, json_parse_hash_expr (json_parse_expr reg) ⟨F, m⟩ "jhash" v
      = .ok (some e) ⟨F, m ++ errs⟩ ∧ e.etype = .EXPR_HASH := by
  obtain ⟨e1, errs1, h1⟩ := parses_run px m
  have hne : ¬ ("jhash" = "symhash") := by decide
  cases hs : json_unpack_key_i v "seed" with
  | none =>
    simp only [json_parse_hash_expr, hmod, hx, h1, hs, hne, if_false, ne_eq, not_true_eq_false]
    exact ⟨_, errs1, rfl, rfl⟩
  | some seed =>
    simp only [json_parse_hash_expr, hmod, hx, h1, hs, hne, if_false, ne_eq, not_true_eq_false]
    exact ⟨_, errs1, rfl, rfl⟩

theorem elem_succeeds (reg : Registry) (F : Nat) (m : List Erec) (type : String) (v x : Json)
    (hx : json_unpack_key_o v "val" = some x) (px : parses reg F x) :
    ∃ e errs, json_parse_set_elem_expr (json_parse_expr reg) ⟨F, m⟩ type v
      = .ok (some e) ⟨F, m ++ errs⟩ ∧ e.etype = .EXPR_SET_ELEM := by
  obtain ⟨e1, errs1, h1⟩ := parses_run px m
  simp only [json_parse_set_elem_expr, hx, h1]
  exact ⟨_, errs1, rfl, rfl⟩

/-- A builder that succeeds without queueing a message. -/
theorem quiet_succeeds {r : Res (Option expr)} {F : Nat} {m : List Erec} {K : expr → Prop}
    (h : ∃ e, r = .ok (some e) ⟨F, m⟩ ∧ K e) :
    ∃ e errs, r = .ok (some e) ⟨F, m ++ errs⟩ ∧ K e := by
  obtain ⟨e, he, hk⟩ := h
  exact ⟨e, [], by rw [List.append_nil]; exact he, hk⟩

theorem symhash_succeeds (F : Nat) (m : List Erec) (pe : expr_parse_fn) (v : Json) (mod : Int)
    (hmod : json_unpack_key_i v "mod" = some mod) :
    ∃ e, json_parse_hash_expr pe ⟨F, m⟩ "symhash" v = .ok (some e) ⟨F, m⟩
      ∧ e.etype = .EXPR_HASH := by
  simp only [json_parse_hash_expr, hmod, if_true]
  exact ⟨_, rfl, rfl⟩

theorem payload_raw_succeeds (reg : Registry) (F : Nat) (m : List Erec) (pe : expr_parse_fn)
    (type : String) (v : Json) (base : String) (offset len : Int)
    (hn : json_unpack_key_s v "name" = some "raw")
    (hb : json_unpack_key_s v "base" = some base) (hbase : base ∈ ["ll", "nh", "th"])
    (ho : json_unpack_key_i v "offset" = some offset)
    (hl : json_unpack_key_i v "len" = some len) :
    ∃ e, json_parse_payload_expr reg pe ⟨F, m⟩ type v = .ok (some e) ⟨F, m⟩
      ∧ e.etype = .EXPR_PAYLOAD := by
  simp only [List.mem_cons, List.mem_singleton, List.not_mem_nil, or_false] at hbase
  simp only [json_parse_payload_expr, hn, hb, ho, hl, if_true]
  rcases hbase with rfl | rfl | rfl
  · exact ⟨_, rfl, rfl⟩
  · exact ⟨_, rfl, rfl⟩
  · exact ⟨_, rfl, rfl⟩

theorem payload_succeeds (reg : Registry) (F : Nat) (m : List Erec) (pe : expr_parse_fn)
    (type : String) (v : Json) (name field : String) (proto : proto_desc) (idx : Nat)
    (hn : json_unpack_key_s v "name" = some name) (hraw : name ≠ "raw")
    (hp : proto_lookup_byname reg name = some proto)
    (hf : json_unpack_key_s v "field" = some field)
    (hi : token_index proto.templates field = some idx) :
    ∃ e, json_parse_payload_expr reg pe ⟨F, m⟩ type v = .ok (some e) ⟨F, m⟩
      ∧ e.etype = .EXPR_PAYLOAD := by
  simp only [json_parse_payload_expr, hn, hraw, hp, hf, hi, if_false]
  exact ⟨_, rfl, rfl⟩

theorem exthdr_present_succeeds (reg : Registry) (F : Nat) (m : List Erec) (pe : expr_parse_fn)
    (type : String) (v : Json) (name : String) (idx : Nat) (desc : exthdr_desc)
    (hn : json_unpack_key_s v "name" = some name)
    (hd : exthdr_lookup_byname reg name = some (idx, desc))
    (hf : json_unpack_key_s v "field" = none) :
    ∃ e, json_parse_exthdr_expr reg pe ⟨F, m⟩ type v = .ok (some e) ⟨F, m⟩
      ∧ e.etype = .EXPR_EXTHDR := by
  simp only [json_parse_exthdr_expr, hn, hd, hf]
  exact ⟨_, rfl, rfl⟩

theorem exthdr_field_succeeds (reg : Registry) (F : Nat) (m : List Erec) (pe : expr_parse_fn)
    (type : String) (v : Json) (name field : String) (idx : Nat) (desc : exthdr_desc) (i : Nat)
    (hn : json_unpack_key_s v "name" = some name)
    (hd : exthdr_lookup_byname reg name = some (idx, desc))
    (hf : json_unpack_key_s v "field" = some field)
    (hi : token_index desc.templates field = some i)
    (ho : idx = EXTHDR_RT0_INDEX → ∃ offset, json_unpack_key_i v "offset" = some offset) :
    ∃ e, json_parse_exthdr_expr reg pe ⟨F, m⟩ type v = .ok (some e) ⟨F, m⟩
      ∧ e.etype = .EXPR_EXTHDR := by
  simp only [json_parse_exthdr_expr, hn, hd, hf, hi]
  by_cases hrt : idx = EXTHDR_RT0_INDEX
  · obtain ⟨offset, hoff⟩ := ho hrt
    simp only [hrt, if_true, hoff]
    exact ⟨_, rfl, rfl⟩
  · simp only [hrt, if_false]
    exact ⟨_, rfl, rfl⟩

theorem tcpopt_present_succeeds (reg : Registry) (F : Nat) (m : List Erec) (pe : expr_parse_fn)
    (type : String) (v : Json) (name : String) (t : Nat)
    (hn : json_unpack_key_s v "name" = some name)
    (ht : json_parse_tcp_option_type reg name = some t)
    (hf : json_unpack_key_s v "field" = none) :
    ∃ e, json_parse_tcp_option_expr reg pe ⟨F, m⟩ type v = .ok (some e) ⟨F, m⟩
      ∧ e.etype = .EXPR_EXTHDR := by
  simp only [json_parse_tcp_option_expr, hn, ht, hf]
  exact ⟨_, rfl, rfl⟩

theorem tcpopt_field_succeeds (reg : Registry) (F : Nat) (m : List Erec) (pe : expr_parse_fn)
    (type : String) (v : Json) (name field : String) (t : Nat) (desc : exthdr_desc) (i : Nat)
    (hn : json_unpack_key_s v "name" = some name)
    (ht : json_parse_tcp_option_type reg name = some t)
    (hf : json_unpack_key_s v "field" = some field)
    (hd : reg.tcpopthdr_protocols.get? t = some (some desc))
    (hi : token_index desc.templates field = some i) :
    ∃ e, json_parse_tcp_option_expr reg pe ⟨F, m⟩ type v = .ok (some e) ⟨F, m⟩
      ∧ e.etype = .EXPR_EXTHDR := by
  simp only [json_parse_tcp_option_expr, json_parse_tcp_option_field, hn, ht, hf, hd, hi]
  exact ⟨_, rfl, rfl⟩

theorem meta_succeeds (reg : Registry) (F : Nat) (m : List Erec) (pe : expr_parse_fn)
    (type : String) (name : String) (key : Nat) (hk : reg.meta_key_parse name = .ok key) :
    ∃ e, json_parse_meta_expr reg pe ⟨F, m⟩ type (.string name) = .ok (some e) ⟨F, m⟩
      ∧ e.etype = .EXPR_META := by
  simp only [json_parse_meta_expr, json_unpack_s, hk]
  exact ⟨_, rfl, rfl⟩

theorem rt_key_succeeds (F : Nat) (m : List Erec) (key : String)
    (hkey : key ∈ ["classid", "nexthop", "mtu"]) (fam : Int) :
    ∃ e, json_parse_rt_key ⟨F, m⟩ key fam = .ok (some e) ⟨F, m⟩ ∧ e.etype = .EXPR_RT := by
  have hrow : ∃ row, rt_key_tbl.find? (fun e => key = e.1) = some row := by
    simp only [List.mem_cons, List.mem_singleton, List.not_mem_nil, or_false] at hkey
    rcases hkey with rfl | rfl | rfl <;> exact ⟨_, rfl⟩
  obtain ⟨row, hrow⟩ := hrow
  simp only [json_parse_rt_key, hrow]
  split
  · split
    · exact ⟨_, rfl, rfl⟩
    · exact ⟨_, rfl, rfl⟩
  · exact ⟨_, rfl, rfl⟩

theorem family_ok {family : String} (h : family = "ip" ∨ family = "ip6") :
    ¬ (parse_family family ≠ NFPROTO_IPV4 ∧ parse_family family ≠ NFPROTO_IPV6) := by
  rcases h with rfl | rfl <;> decide

theorem rt_succeeds (F : Nat) (m : List Erec) (pe : expr_parse_fn) (type : String) (v : Json)
    (key : String) (hk : json_unpack_key_s v "key" = some key)
    (hkey : key ∈ ["classid", "nexthop", "mtu"])
    (hfam : ∀ family, json_unpack_key_s v "family" = some family →
      family = "ip" ∨ family = "ip6") :
    ∃ e, json_parse_rt_expr pe ⟨F, m⟩ type v = .ok (some e) ⟨F, m⟩ ∧ e.etype = .EXPR_RT := by
  simp only [json_parse_rt_expr, hk]
  cases hf : json_unpack_key_s v "family" with
  | none => exact rt_key_succeeds F m key hkey _
  | some family =>
    simp only [family_ok (hfam family hf), if_false]
    exact rt_key_succeeds F m key hkey _

theorem ct_succeeds (reg : Registry) (F : Nat) (m : List Erec) (pe : expr_parse_fn)
    (type : String) (v : Json) (key : String) (i : Nat)
    (hk : json_unpack_key_s v "key" = some key)
    (hi : token_index reg.ct_templates key = some i)
    (hfam : ∀ family, json_unpack_key_s v "family" = some family →
      family = "ip" ∨ family = "ip6")
    (hdir : ∀ dir, json_unpack_key_s v "dir" = some dir →
      (dir = "original" ∨ dir = "reply") ∧ ct_key_is_dir i = true) :
    ∃ e, json_parse_ct_expr reg pe ⟨F, m⟩ type v = .ok (some e) ⟨F, m⟩
      ∧ e.etype = .EXPR_CT := by
  have hd : ∀ fam, ∃ e, json_parse_ct_dir ⟨F, m⟩ v key i fam = .ok (some e) ⟨F, m⟩
      ∧ e.etype = .EXPR_CT := by
    intro fam
    simp only [json_parse_ct_dir]
    cases hdv : json_unpack_key_s v "dir" with
    | none => exact ⟨_, rfl, rfl⟩
    | some dir =>
      obtain ⟨hd1, hd2⟩ := hdir dir hdv
      rcases hd1 with rfl | rfl
      · simp only [hd2, if_true, Bool.not_true, Bool.false_eq_true, if_false]
        exact ⟨_, rfl, rfl⟩
      · have hne : ¬ ("reply" = "original") := by decide
        simp only [hd2, hne, if_true, Bool.not_true, Bool.false_eq_true, if_false]
        exact ⟨_, rfl, rfl⟩
  simp only [json_parse_ct_expr, hk, hi]
  cases hf : json_unpack_key_s v "family" with
  | none => exact hd _
  | some family =>
    simp only [family_ok (hfam family hf), if_false]
    exact hd _

theorem numgen_succeeds (F : Nat) (m : List Erec) (pe : expr_parse_fn) (type : String)
    (v : Json) (mode : String) (mod : Int) (hm : json_unpack_key_s v "mode" = some mode)
    (hmode : mode = "inc" ∨ mode = "random") (hmod : json_unpack_key_i v "mod" = some mod) :
    ∃ e, json_parse_numgen_expr pe ⟨F, m⟩ type v = .ok (some e) ⟨F, m⟩
      ∧ e.etype = .EXPR_NUMGEN := by
  simp only [json_parse_numgen_expr, hm, hmod]
  rcases hmode with rfl | rfl
  · exact ⟨_, rfl, rfl⟩
  · exact ⟨_, rfl, rfl⟩

theorem verdict_plain_succeeds (F : Nat) (m : List Erec) (pe : expr_parse_fn) (T : String)
    (hT : T ∈ ["accept", "drop", "continue", "return"]) (v : Json) :
    ∃ e, json_parse_verdict_expr pe ⟨F, m⟩ T v = .ok (some e) ⟨F, m⟩
      ∧ e.etype = .EXPR_VERDICT := by
  simp only [List.mem_cons, List.mem_singleton, List.not_mem_nil, or_false] at hT
  rcases hT with rfl | rfl | rfl | rfl <;> exact ⟨_, rfl, rfl⟩

theorem verdict_chain_succeeds (F : Nat) (m : List Erec) (pe : expr_parse_fn) (T : String)
    (hT : T ∈ ["jump", "goto"]) (chain : String) :
    ∃ e, json_parse_verdict_expr pe ⟨F, m⟩ T (.string chain) = .ok (some e) ⟨F, m⟩
      ∧ e.etype = .EXPR_VERDICT := by
  simp only [List.mem_cons, List.mem_singleton, List.not_mem_nil, or_false] at hT
  rcases hT with rfl | rfl <;> exact ⟨_, rfl, rfl⟩

/-! ### The loops of concat and set -/

theorem concat_step_none (reg : Registry) (F : Nat) (m : List Erec) (x : Json)
    (rest : List Json) (idx : Nat) (px : parses reg (F ||| CTX_F_PRIMARY) x) :
    ∃ tmp errs, json_parse_concat_loop (json_parse_expr reg) ⟨F, m⟩ (x :: rest) idx none
      = json_parse_concat_loop (json_parse_expr reg) ⟨F, m ++ errs⟩ rest (idx + 1)
          (some tmp) := by
  obtain ⟨e1, errs1, h1⟩ := parses_flagged px m
  refine ⟨e1, errs1, ?_⟩
  simp only [json_parse_concat_loop, json_parse_primary_expr, h1]

theorem concat_step_some (reg : Registry) (F : Nat) (m : List Erec) (x : Json)
    (rest : List Json) (idx : Nat) (a : expr) (px : parses reg (F ||| CTX_F_PRIMARY) x) :
    ∃ l errs, json_parse_concat_loop (json_parse_expr reg) ⟨F, m⟩ (x :: rest) idx (some a)
      = json_parse_concat_loop (json_parse_expr reg) ⟨F, m ++ errs⟩ rest (idx + 1)
          (some (.concat_expr l)) := by
  obtain ⟨e1, errs1, h1⟩ := parses_flagged px m
  by_cases ha : a.etype = .EXPR_CONCAT
  · cases a <;> simp only [expr.etype] at ha <;> try (exact absurd ha (by decide))
    rename_i l0
    refine ⟨l0 ++ [e1], errs1, ?_⟩
    simp [json_parse_concat_loop, json_parse_primary_expr, h1, expr.etype, compound_expr_add]
  · refine ⟨[] ++ [a] ++ [e1], errs1, ?_⟩
    simp [json_parse_concat_loop, json_parse_primary_expr, h1, ha, compound_expr_add]

theorem concat_loop_succeeds (reg : Registry) (F : Nat) (xs : List Json)
    (hx : ∀ x ∈ xs, parses reg (F ||| CTX_F_PRIMARY) x) (m : List Erec) (idx : Nat)
    (l : List expr) :
    ∃ l1 errs, json_parse_concat_loop (json_parse_expr reg) ⟨F, m⟩ xs idx
      (some (.concat_expr l)) = .ok (some (.concat_expr l1)) ⟨F, m ++ errs⟩ := by
  induction xs generalizing m idx l with
  | nil => exact ⟨l, [], by simp [json_parse_concat_loop]⟩
  | cons x rest ih =>
    obtain ⟨l0, errs0, h0⟩ :=
      concat_step_some reg F m x rest idx (.concat_expr l) (hx x (List.mem_cons_self _ _))
    obtain ⟨l1, errs1, h1⟩ :=
      ih (fun y hy => hx y (List.mem_cons_of_mem _ hy)) (m ++ errs0) (idx + 1) l0
    exact ⟨l1, errs0 ++ errs1, by rw [h0, h1, List.append_assoc]⟩

theorem concat_succeeds (reg : Registry) (F : Nat) (m : List Erec) (type : String)
    (xs : List Json) (h2 : 2 ≤ xs.length)
    (hx : ∀ x ∈ xs, parses reg (F ||| CTX_F_PRIMARY) x) :
    ∃ e errs, json_parse_concat_expr (json_parse_expr reg) ⟨F, m⟩ type (.array xs)
      = .ok (some e) ⟨F, m ++ errs⟩ ∧ e.etype = .EXPR_CONCAT := by
  match xs, h2, hx with
  | x :: y :: rest, _, hx =>
    obtain ⟨t0, errs0, h0⟩ :=
      concat_step_none reg F m x (y :: rest) 0 (hx x (List.mem_cons_self _ _))
    obtain ⟨l1, errs1, h1⟩ := concat_step_some reg F (m ++ errs0) y rest (0 + 1) t0
      (hx y (List.mem_cons_of_mem _ (List.mem_cons_self _ _)))
    obtain ⟨l2, errs2, h3⟩ := concat_loop_succeeds reg F rest
      (fun z hz => hx z (List.mem_cons_of_mem _ (List.mem_cons_of_mem _ hz)))
      (m ++ errs0 ++ errs1) (0 + 1 + 1) l1
    refine ⟨.concat_expr l2, errs0 ++ (errs1 ++ errs2), ?_, rfl⟩
    simp only [json_parse_concat_expr, json_is_array, json_array_items, Bool.not_true,
      Bool.false_eq_true, if_false]
    rw [h0, h1, h3, List.append_assoc, List.append_assoc]

theorem set_step (reg : Registry) (F : Nat) (m : List Erec) (x : Json) (rest : List Json)
    (idx : Nat) (acc : Option expr) (hx : set_item_contract reg F x) :
    ∃ item errs, json_parse_set_loop (json_parse_expr reg) ⟨F, m⟩ (x :: rest) idx acc
      = json_parse_set_loop (json_parse_expr reg) ⟨F, m ++ errs⟩ rest (idx + 1)
          (some (set_expr_add acc item)) := by
  rcases hx with ⟨k, v, rfl, pk, pv⟩ | ⟨ho, po⟩ | hi
  · obtain ⟨e1, errs1, h1⟩ := parses_flagged pk m
    obtain ⟨e2, errs2, h2⟩ := parses_flagged pv (m ++ errs1)
    refine ⟨.mapping_expr (set_elem_wrap e1) e2, errs1 ++ errs2, ?_⟩
    simp only [json_parse_set_loop, json_unpack_pair, json_parse_rhs_expr,
      json_parse_set_rhs_expr, h1, h2, List.append_assoc]
  · obtain ⟨e1, errs1, h1⟩ := parses_flagged po m
    refine ⟨set_elem_wrap e1, errs1, ?_⟩
    cases x <;> simp only [json_is_object, Bool.false_eq_true] at ho
    simp only [json_parse_set_loop, json_unpack_pair, json_parse_rhs_expr, json_is_object,
      if_true, h1]
  · obtain ⟨e1, h1, _⟩ := immediate_succeeds F m "elem" x hi
    refine ⟨set_elem_expr_alloc e1, [], ?_⟩
    have hi1 : json_is_string x = true ∨ json_is_integer x = true
        ∨ (json_is_boolean x = true ∧ is_RHS ⟨F, []⟩ = true) := hi
    cases x <;> simp only [json_is_string, json_is_integer, json_is_boolean, Bool.false_eq_true,
      false_and, or_false, false_or] at hi1 <;>
      simp only [json_parse_set_loop, json_unpack_pair, json_is_object, Bool.false_eq_true,
        if_false, h1, List.append_nil]

theorem set_loop_succeeds (reg : Registry) (F : Nat) (xs : List Json)
    (hx : ∀ x ∈ xs, set_item_contract reg F x) (m : List Erec) (idx : Nat) (l : List expr) :
    ∃ l1 errs, json_parse_set_loop (json_parse_expr reg) ⟨F, m⟩ xs idx (some (.set_expr l))
      = .ok (some (.set_expr l1)) ⟨F, m ++ errs⟩ := by
  induction xs generalizing m idx l with
  | nil => exact ⟨l, [], by simp [json_parse_set_loop]⟩
  | cons x rest ih =>
    obtain ⟨item, errs0, h0⟩ :=
      set_step reg F m x rest idx (some (.set_expr l)) (hx x (List.mem_cons_self _ _))
    obtain ⟨l1, errs1, h1⟩ :=
      ih (fun y hy => hx y (List.mem_cons_of_mem _ hy)) (m ++ errs0) (idx + 1) (l ++ [item])
    refine ⟨l1, errs0 ++ errs1, ?_⟩
    rw [h0, ← List.append_assoc, ← h1]
    rfl

theorem set_array_succeeds (reg : Registry) (F : Nat) (m : List Erec) (type : String)
    (xs : List Json) (hne : xs ≠ []) (hx : ∀ x ∈ xs, set_item_contract reg F x) :
    ∃ e errs, json_parse_set_expr (json_parse_expr reg) ⟨F, m⟩ type (.array xs)
      = .ok (some e) ⟨F, m ++ errs⟩ ∧ e.etype = .EXPR_SET := by
  match xs, hne, hx with
  | x :: rest, _, hx =>
    obtain ⟨item, errs0, h0⟩ :=
      set_step reg F m x rest 0 none (hx x (List.mem_cons_self _ _))
    obtain ⟨l1, errs1, h1⟩ := set_loop_succeeds reg F rest
      (fun y hy => hx y (List.mem_cons_of_mem _ hy)) (m ++ errs0) (0 + 1) ([] ++ [item])
    refine ⟨.set_expr l1, errs0 ++ errs1, ?_, rfl⟩
    simp only [json_parse_set_expr, json_is_object, json_is_array, json_array_items,
      Bool.or_true, if_true]
    rw [h0, ← List.append_assoc, ← h1]
    rfl

/-- A scalar operand of `set`: a set holding the one element, or, for a
string with a leading `@` that is neither keyword nor constant under RHS, the
set-reference symbol itself. -/
theorem set_scalar_succeeds (reg : Registry) (F : Nat) (m : List Erec) (type : String)
    (v : Json) (hv : immediate_ok F v) :
    ∃ e, json_parse_set_expr (json_parse_expr reg) ⟨F, m⟩ type v = .ok (some e) ⟨F, m⟩
      ∧ (e.etype = .EXPR_SET
        ∨ ∃ rest, v = .string ⟨'@' :: rest⟩ ∧ e = .symbol_expr .SYMBOL_SET ⟨rest⟩) := by
  obtain ⟨e1, h1, _⟩ := immediate_succeeds F m type v hv
  have hi1 : json_is_string v = true ∨ json_is_integer v = true
      ∨ (json_is_boolean v = true ∧ is_RHS ⟨F, []⟩ = true) := hv
  have hscalar : (json_is_object v || json_is_array v) = false := by
    cases v <;> simp [json_is_string, json_is_integer, json_is_boolean] at hi1 <;> rfl
  simp only [json_parse_set_expr, hscalar, Bool.false_eq_true, if_false, h1]
  by_cases hs : ∃ name, e1 = .symbol_expr .SYMBOL_SET name
  · obtain ⟨name, rfl⟩ := hs
    refine ⟨_, rfl, Or.inr ?_⟩
    cases v with
    | string s =>
      simp only [json_parse_immediate_expr] at h1
      split at h1
      · simp at h1
      · split at h1
        · rename_i hc
          simp only [Bool.and_eq_true] at hc
          obtain ⟨d, b, hd⟩ := json_parse_constant_some ⟨F, m⟩ _ hc.2
          rw [hd] at h1
          simp at h1
        · simp only [Res.ok.injEq, Option.some.injEq, expr.symbol_expr.injEq, and_true] at h1
          obtain ⟨hty, hname⟩ := h1
          by_cases hat : s.data.head? = some '@'
          · obtain ⟨data⟩ := s
            cases data with
            | nil => simp at hat
            | cons c rest =>
              simp only [List.head?_cons, Option.some.injEq] at hat
              subst hat
              rw [immediate_symtype_at] at hname
              exact ⟨rest, rfl, by rw [← hname]⟩
          · rw [immediate_symtype_plain s hat] at hty
            exact absurd hty (fun h => symbol_types.noConfusion h)
    | integer n => simp [json_parse_immediate_expr] at h1
    | jtrue =>
      simp only [json_parse_immediate_expr] at h1
      split at h1 <;> simp at h1
    | jfalse =>
      simp only [json_parse_immediate_expr] at h1
      split at h1 <;> simp at h1
    | _ => simp [json_is_string, json_is_integer, json_is_boolean] at hi1
  · refine ⟨compound_expr_add (.set_expr []) (set_elem_expr_alloc e1), ?_, Or.inl rfl⟩
    cases e1 with
    | symbol_expr t n =>
      cases t with
      | SYMBOL_SET => exact absurd ⟨n, rfl⟩ hs
      | _ => rfl
    | _ => rfl

/-! ### The flag word of fib -/

theorem fib_flag_step (n : String) (hn : n ∈ ["saddr", "daddr", "mark", "iif", "oif"])
    (b0 b1 b2 b3 b4 : Bool) :
    fib_flag_parse n (fib_word b0 b1 b2 b3 b4)
      = some (fib_word (b0 || decide (n = "saddr")) (b1 || decide (n = "daddr"))
          (b2 || decide (n = "mark")) (b3 || decide (n = "iif"))
          (b4 || decide (n = "oif"))) := by
  simp only [List.mem_cons, List.mem_singleton, List.not_mem_nil, or_false] at hn
  rcases hn with rfl | rfl | rfl | rfl | rfl <;>
    cases b0 <;> cases b1 <;> cases b2 <;> cases b3 <;> cases b4 <;> rfl

theorem fib_loop_word (F : Nat) (m : List Erec) (names : List String)
    (hall : ∀ n ∈ names, n ∈ ["saddr", "daddr", "mark", "iif", "oif"]) (idx : Nat)
    (b0 b1 b2 b3 b4 : Bool) :
    json_parse_fib_flags_loop ⟨F, m⟩ (names.map .string) idx (fib_word b0 b1 b2 b3 b4)
      = .ok (some (fib_word (b0 || decide ("saddr" ∈ names)) (b1 || decide ("daddr" ∈ names))
          (b2 || decide ("mark" ∈ names)) (b3 || decide ("iif" ∈ names))
          (b4 || decide ("oif" ∈ names)))) ⟨F, m⟩ := by
  induction names generalizing idx b0 b1 b2 b3 b4 with
  | nil => simp [json_parse_fib_flags_loop]
  | cons n rest ih =>
    simp only [List.map_cons, json_parse_fib_flags_loop,
      fib_flag_step n (hall n (List.mem_cons_self _ _))]
    rw [ih (fun y hy => hall y (List.mem_cons_of_mem _ hy))]
    simp only [List.mem_cons, Bool.decide_or, Bool.or_assoc, eq_comm]

theorem fib_checks_ok (F : Nat) (m : List Erec) (r : Nat) (b0 b1 b2 b3 b4 : Bool)
    (h1 : b0 ≠ b1) (h2 : ¬ (b3 = true ∧ b4 = true)) :
    json_parse_fib_checks ⟨F, m⟩ (fib_word b0 b1 b2 b3 b4) r
      = .ok (some (.fib_expr (fib_word b0 b1 b2 b3 b4) r)) ⟨F, m⟩ := by
  cases b0 <;> cases b1 <;> cases b2 <;> cases b3 <;> cases b4 <;>
    first
    | rfl
    | exact absurd rfl h1
    | exact absurd ⟨rfl, rfl⟩ h2

theorem fib_succeeds (F : Nat) (m : List Erec) (pe : expr_parse_fn) (type : String)
    (v flags : Json) (result : String) (names : List String)
    (hr : json_unpack_key_s v "result" = some result)
    (hres : result ∈ ["oif", "oifname", "type"])
    (hfl : json_unpack_key_o v "flags" = some flags)
    (hshape : (∃ n, flags = .string n ∧ names = [n]) ∨ flags = .array (names.map .string))
    (hall : ∀ n ∈ names, n ∈ ["saddr", "daddr", "mark", "iif", "oif"])
    (hone : ("saddr" ∈ names ∧ "daddr" ∉ names) ∨ ("saddr" ∉ names ∧ "daddr" ∈ names))
    (hio : ¬ ("iif" ∈ names ∧ "oif" ∈ names)) :
    ∃ e, json_parse_fib_expr pe ⟨F, m⟩ type v = .ok (some e) ⟨F, m⟩
      ∧ e.etype = .EXPR_FIB := by
  have hres1 : ¬ (fib_result_parse result = NFT_FIB_RESULT_UNSPEC) := by
    simp only [List.mem_cons, List.mem_singleton, List.not_mem_nil, or_false] at hres
    rcases hres with rfl | rfl | rfl <;> decide
  have h1 : (false || decide ("saddr" ∈ names)) ≠ (false || decide ("daddr" ∈ names)) := by
    rcases hone with ⟨a, b⟩ | ⟨a, b⟩ <;> simp [a, b]
  have h2 : ¬ ((false || decide ("iif" ∈ names)) = true
      ∧ (false || decide ("oif" ∈ names)) = true) := by
    simpa using hio
  have hloop : json_parse_fib_flags_loop ⟨F, m⟩ (names.map .string) 0 0 = _ :=
    fib_loop_word F m names hall 0 false false false false false
  have hchk := fib_checks_ok F m (fib_result_parse result) _ _
    (false || decide ("mark" ∈ names)) _ _ h1 h2
  simp only [json_parse_fib_expr, hr, hres1, if_false, hfl]
  rcases hshape with ⟨n, rfl, rfl⟩ | rfl
  · have hstep : fib_flag_parse n 0 = _ :=
      fib_flag_step n (hall n (List.mem_singleton_self n)) false false false false false
    have hw : fib_word (false || decide (n = "saddr")) (false || decide (n = "daddr"))
        (false || decide (n = "mark")) (false || decide (n = "iif"))
        (false || decide (n = "oif"))
        = fib_word (false || decide ("saddr" ∈ [n])) (false || decide ("daddr" ∈ [n]))
          (false || decide ("mark" ∈ [n])) (false || decide ("iif" ∈ [n]))
          (false || decide ("oif" ∈ [n])) := by
      simp only [List.mem_singleton, eq_comm]
    simp only [hstep, json_parse_fib_tail, json_array_items, json_parse_fib_flags_loop, hw,
      hchk]
    exact ⟨_, rfl, rfl⟩
  · simp only [json_is_array, Bool.not_true, Bool.false_eq_true, if_false, json_parse_fib_tail,
      json_array_items, hloop, hchk]
    exact ⟨_, rfl, rfl⟩

/-- The step from a builder that yields the kind `k` to the statement of the
kind theorem at key `T`. -/
theorem kind_case (reg : Registry) {T : String} {M : Nat} (hT : (T, M) ∈ spec_expr_kinds)
    {F : Nat} (hF : M &&& F = F) (m : List Erec) (v : Json) (row : cb_entry)
    (hfind : (cb_tbl reg).find? (fun r => T = r.name) = some row) (k : expr_types)
    (hk : k ∈ spec_kind_of T)
    (hb : ∃ e errs, row.cb (json_parse_expr reg) ⟨F, m⟩ T v = .ok (some e) ⟨F, m ++ errs⟩
      ∧ e.etype = k) :
    ∃ e errs, json_parse_expr reg ⟨F, m⟩ (.object [(T, v)]) = .ok (some e) ⟨F, m ++ errs⟩
      ∧ (e.etype ∈ spec_kind_of T
        ∨ (T = "set" ∧ ∃ rest, v = .string ⟨'@' :: rest⟩
            ∧ e = .symbol_expr .SYMBOL_SET ⟨rest⟩)) := by
  obtain ⟨e, errs, he, hke⟩ := dispatch_succeeds reg hT hF m v row hfind _ hb
  exact ⟨e, errs, he, Or.inl (by rw [hke]; exact hk)⟩

/-- C2 (the claim as written fails). Under RHS, which the mask of `set`
covers, the operand `"@blocklist"` satisfies the contract of `set`, and
`json_parse_expr` returns the set-reference symbol `blocklist`: a Symbol, not
a Set. -/
theorem json_parse_expr_set_reference :
    ("set", flag_mask [.RHS, .STMT]) ∈ spec_expr_kinds
      ∧ flag_mask [.RHS, .STMT] &&& CTX_F_RHS = CTX_F_RHS
      ∧ operand_contract sample_registry CTX_F_RHS "set" (.string "@blocklist")
      ∧ json_parse_expr sample_registry ⟨CTX_F_RHS, []⟩
          (.object [("set", .string "@blocklist")])
        = .ok (some (.symbol_expr .SYMBOL_SET "blocklist")) ⟨CTX_F_RHS, []⟩
      ∧ (expr.symbol_expr .SYMBOL_SET "blocklist").etype = .EXPR_SYMBOL
      ∧ spec_kind_of "set" = [.EXPR_SET] :=
  ⟨by decide, by decide, .set_scalar _ (Or.inl rfl), rfl, rfl, rfl⟩

/-- C2 (amended). For every key T of the expression kind table with mask M,
every flag word F that M covers and every operand that satisfies the contract
of the builder of T, `json_parse_expr` applied in context F to the one-key
object with key T returns an expression, leaves the flag word as it was and
only appends to the queue; the expression has the kind named by T, except that
`set` applied to a string operand with a leading `@` may return the
set-reference symbol named by the rest of the string. -/
theorem json_parse_expr_kind (reg : Registry) (T : String) (M : Nat)
    (hT : (T, M) ∈ spec_expr_kinds) (F : Nat) (hF : M &&& F = F) (v : Json)
    (hv : operand_contract reg F T v) (m : List Erec) :
    ∃ e errs, json_parse_expr reg ⟨F, m⟩ (.object [(T, v)]) = .ok (some e) ⟨F, m ++ errs⟩
      ∧ (e.etype ∈ spec_kind_of T
        ∨ (T = "set" ∧ ∃ rest, v = .string ⟨'@' :: rest⟩
            ∧ e = .symbol_expr .SYMBOL_SET ⟨rest⟩)) := by
  cases hv with
  | concat xs h2 hx =>
    exact kind_case reg hT hF m _ ⟨"concat", json_parse_concat_expr, _⟩ rfl .EXPR_CONCAT
      (by decide) (concat_succeeds reg F m "concat" xs h2 hx)
  | set_array xs hne hx =>
    exact kind_case reg hT hF m _ ⟨"set", json_parse_set_expr, _⟩ rfl .EXPR_SET
      (by decide) (set_array_succeeds reg F m "set" xs hne hx)
  | set_scalar v hv =>
    obtain ⟨e, errs, he, hk⟩ := dispatch_succeeds reg hT hF m v
      ⟨"set", json_parse_set_expr, _⟩ rfl _
      (quiet_succeeds (set_scalar_succeeds reg F m "set" v hv))
    refine ⟨e, errs, he, ?_⟩
    rcases hk with hk | hk
    · exact Or.inl (by rw [hk]; decide)
    · exact Or.inr ⟨rfl, hk⟩
  | map v l r hl hr pl pr =>
    exact kind_case reg hT hF m _ ⟨"map", json_parse_map_expr, _⟩ rfl .EXPR_MAP
      (by decide) (map_succeeds reg F m "map" v l r hl hr pl pr)
  | addr_prefix v addr len ha hl pa =>
    exact kind_case reg hT hF m _ ⟨"prefix", json_parse_prefix_expr, _⟩ rfl .EXPR_PREFIX
      (by decide) (prefix_succeeds reg F m "prefix" v addr len ha hl pa)
  | range lo hi pl ph =>
    exact kind_case reg hT hF m _ ⟨"range", json_parse_range_expr, _⟩ rfl .EXPR_RANGE
      (by decide) (range_succeeds reg F m "range" lo hi pl ph)
  | wildcard v =>
    exact kind_case reg hT hF m _ ⟨"*", json_parse_wildcard_expr, _⟩ rfl .EXPR_PREFIX
      (by decide) (quiet_succeeds ⟨_, rfl, rfl⟩)
  | immediate v hv =>
    obtain ⟨e, errs, he, hk⟩ := dispatch_succeeds reg hT hF m v
      ⟨"immediate", fun _ => json_parse_immediate_expr, _⟩ rfl _
      (quiet_succeeds (immediate_succeeds F m "immediate" v hv))
    refine ⟨e, errs, he, Or.inl ?_⟩
    rcases hk with hk | hk <;> rw [hk] <;> decide
  | payload_raw v base offset len hn hb hbase ho hl =>
    exact kind_case reg hT hF m _ ⟨"payload", json_parse_payload_expr reg, _⟩ rfl
      .EXPR_PAYLOAD (by decide)
      (quiet_succeeds (payload_raw_succeeds reg F m (json_parse_expr reg) "payload" v base offset
        len hn hb hbase ho hl))
  | payload v name field proto idx hn hraw hp hf hi =>
    exact kind_case reg hT hF m _ ⟨"payload", json_parse_payload_expr reg, _⟩ rfl
      .EXPR_PAYLOAD (by decide)
      (quiet_succeeds (payload_succeeds reg F m (json_parse_expr reg) "payload" v name field
        proto idx hn hraw hp hf hi))
  | exthdr_present v name idx desc hn hd hf =>
    exact kind_case reg hT hF m _ ⟨"exthdr", json_parse_exthdr_expr reg, _⟩ rfl
      .EXPR_EXTHDR (by decide)
      (quiet_succeeds (exthdr_present_succeeds reg F m (json_parse_expr reg) "exthdr" v name idx
        desc hn hd hf))
  | exthdr_field v name field idx desc i hn hd hf hi ho =>
    exact kind_case reg hT hF m _ ⟨"exthdr", json_parse_exthdr_expr reg, _⟩ rfl
      .EXPR_EXTHDR (by decide)
      (quiet_succeeds (exthdr_field_succeeds reg F m (json_parse_expr reg) "exthdr" v name field
        idx desc i hn hd hf hi ho))
  | tcpopt_present v name t hn ht hf =>
    exact kind_case reg hT hF m _ ⟨"tcp option", json_parse_tcp_option_expr reg, _⟩ rfl
      .EXPR_EXTHDR (by decide)
      (quiet_succeeds (tcpopt_present_succeeds reg F m (json_parse_expr reg) "tcp option" v name
        t hn ht hf))
  | tcpopt_field v name field t desc i hn ht hf hd hi =>
    exact kind_case reg hT hF m _ ⟨"tcp option", json_parse_tcp_option_expr reg, _⟩ rfl
      .EXPR_EXTHDR (by decide)
      (quiet_succeeds (tcpopt_field_succeeds reg F m (json_parse_expr reg) "tcp option" v name
        field t desc i hn ht hf hd hi))
  | meta_key name key hk =>
    exact kind_case reg hT hF m _ ⟨"meta", json_parse_meta_expr reg, _⟩ rfl .EXPR_META
      (by decide) (quiet_succeeds (meta_succeeds reg F m (json_parse_expr reg) "meta" name key hk))
  | rt v key hk hkey hfam =>
    exact kind_case reg hT hF m _ ⟨"rt", json_parse_rt_expr, _⟩ rfl .EXPR_RT
      (by decide) (quiet_succeeds (rt_succeeds F m (json_parse_expr reg) "rt" v key hk hkey hfam))
  | ct v key i hk hi hfam hdir =>
    exact kind_case reg hT hF m _ ⟨"ct", json_parse_ct_expr reg, _⟩ rfl .EXPR_CT
      (by decide) (quiet_succeeds (ct_succeeds reg F m (json_parse_expr reg) "ct" v key i hk hi
        hfam hdir))
  | numgen v mode mod hm hmode hmod =>
    exact kind_case reg hT hF m _ ⟨"numgen", json_parse_numgen_expr, _⟩ rfl .EXPR_NUMGEN
      (by decide) (quiet_succeeds (numgen_succeeds F m (json_parse_expr reg) "numgen" v mode mod
        hm hmode hmod))
  | jhash v x mod hmod hx px =>
    exact kind_case reg hT hF m _ ⟨"jhash", json_parse_hash_expr, _⟩ rfl .EXPR_HASH
      (by decide) (jhash_succeeds reg F m v x mod hmod hx px)
  | symhash v mod hmod =>
    exact kind_case reg hT hF m _ ⟨"symhash", json_parse_hash_expr, _⟩ rfl .EXPR_HASH
      (by decide) (quiet_succeeds (symhash_succeeds F m (json_parse_expr reg) v mod hmod))
  | fib v flags result names hr hres hfl hshape hall hone hio =>
    exact kind_case reg hT hF m _ ⟨"fib", json_parse_fib_expr, _⟩ rfl .EXPR_FIB
      (by decide)
      (quiet_succeeds (fib_succeeds F m (json_parse_expr reg) "fib" v flags result names hr hres
        hfl hshape hall
        hone hio))
  | binop _ hop l r pl pr =>
    have hop1 := hop
    simp only [List.mem_cons, List.mem_singleton, List.not_mem_nil, or_false] at hop1
    rcases hop1 with rfl | rfl | rfl | rfl | rfl
    · exact kind_case reg hT hF m _ ⟨"|", json_parse_binop_expr, _⟩ rfl .EXPR_BINOP
        (by decide) (binop_succeeds reg F m "|" hop l r pl pr)
    · exact kind_case reg hT hF m _ ⟨"^", json_parse_binop_expr, _⟩ rfl .EXPR_BINOP
        (by decide) (binop_succeeds reg F m "^" hop l r pl pr)
    · exact kind_case reg hT hF m _ ⟨"&", json_parse_binop_expr, _⟩ rfl .EXPR_BINOP
        (by decide) (binop_succeeds reg F m "&" hop l r pl pr)
    · exact kind_case reg hT hF m _ ⟨">>", json_parse_binop_expr, _⟩ rfl .EXPR_BINOP
        (by decide) (binop_succeeds reg F m ">>" hop l r pl pr)
    · exact kind_case reg hT hF m _ ⟨"<<", json_parse_binop_expr, _⟩ rfl .EXPR_BINOP
        (by decide) (binop_succeeds reg F m "<<" hop l r pl pr)
  | verdict_plain _ hvd v =>
    have hvd1 := hvd
    simp only [List.mem_cons, List.mem_singleton, List.not_mem_nil, or_false] at hvd1
    rcases hvd1 with rfl | rfl | rfl | rfl
    · exact kind_case reg hT hF m _ ⟨"accept", json_parse_verdict_expr, _⟩ rfl .EXPR_VERDICT
        (by decide) (quiet_succeeds (verdict_plain_succeeds F m (json_parse_expr reg) "accept"
          hvd v))
    · exact kind_case reg hT hF m _ ⟨"drop", json_parse_verdict_expr, _⟩ rfl .EXPR_VERDICT
        (by decide) (quiet_succeeds (verdict_plain_succeeds F m (json_parse_expr reg) "drop" hvd v))
    · exact kind_case reg hT hF m _ ⟨"continue", json_parse_verdict_expr, _⟩ rfl
        .EXPR_VERDICT (by decide) (quiet_succeeds (verdict_plain_succeeds F m (json_parse_expr
          reg) "continue" hvd v))
    · exact kind_case reg hT hF m _ ⟨"return", json_parse_verdict_expr, _⟩ rfl .EXPR_VERDICT
        (by decide) (quiet_succeeds (verdict_plain_succeeds F m (json_parse_expr reg) "return"
          hvd v))
  | verdict_chain _ hvd chain =>
    have hvd1 := hvd
    simp only [List.mem_cons, List.mem_singleton, List.not_mem_nil, or_false] at hvd1
    rcases hvd1 with rfl | rfl
    · exact kind_case reg hT hF m _ ⟨"jump", json_parse_verdict_expr, _⟩ rfl .EXPR_VERDICT
        (by decide) (quiet_succeeds (verdict_chain_succeeds F m (json_parse_expr reg) "jump" hvd
          chain))
    · exact kind_case reg hT hF m _ ⟨"goto", json_parse_verdict_expr, _⟩ rfl .EXPR_VERDICT
        (by decide) (quiet_succeeds (verdict_chain_succeeds F m (json_parse_expr reg) "goto" hvd
          chain))
  | elem v x hx px =>
    exact kind_case reg hT hF m _ ⟨"elem", json_parse_set_elem_expr, _⟩ rfl .EXPR_SET_ELEM
      (by decide) (elem_succeeds reg F m "elem" v x hx px)

/-- C2, at a concrete input: `{"range": [1, 2]}` under RHS. -/
theorem json_parse_expr_kind_witness :
    ("range", flag_mask [.RHS, .STMT]) ∈ spec_expr_kinds
      ∧ flag_mask [.RHS, .STMT] &&& CTX_F_RHS = CTX_F_RHS
      ∧ operand_contract sample_registry CTX_F_RHS "range" (.array [.integer 1, .integer 2])
      ∧ ∃ e errs, json_parse_expr sample_registry ⟨CTX_F_RHS, []⟩
            (.object [("range", .array [.integer 1, .integer 2])])
          = .ok (some e) ⟨CTX_F_RHS, [] ++ errs⟩
        ∧ (e.etype ∈ spec_kind_of "range"
          ∨ ("range" = "set" ∧ ∃ rest, Json.array [.integer 1, .integer 2] = .string ⟨'@' :: rest⟩
              ∧ e = .symbol_expr .SYMBOL_SET ⟨rest⟩)) :=
  ⟨by decide, by decide, .range (.integer 1) (.integer 2) ⟨_, _, rfl⟩ ⟨_, _, rfl⟩,
    json_parse_expr_kind sample_registry "range" (flag_mask [.RHS, .STMT]) (by decide)
      CTX_F_RHS (by decide) _ (.range (.integer 1) (.integer 2) ⟨_, _, rfl⟩ ⟨_, _, rfl⟩) []⟩

/-! ## C11: the acceptance condition of fib -/

theorem string_items_eq_some {items : List Json} {names : List String} :
    string_items items = some names ↔ items = names.map .string := by
  induction items generalizing names with
  | nil =>
    cases names <;> simp [string_items]
  | cons x rest ih =>
    cases x with
    | string s =>
      cases h : string_items rest with
      | none =>
        simp only [string_items, h]
        constructor
        · intro hc
          cases hc
        · intro hc
          cases names with
          | nil => simp at hc
          | cons n ns =>
            simp only [List.map_cons, List.cons.injEq] at hc
            have := (@ih ns).mpr hc.2
            simp [h] at this
      | some ns0 =>
        have h0 := (@ih ns0).mp h
        simp only [string_items, h, Option.some.injEq]
        constructor
        · rintro rfl
          simp [h0]
        · intro hc
          cases names with
          | nil => simp at hc
          | cons n ns =>
            simp only [List.map_cons, List.cons.injEq, Json.string.injEq] at hc
            have h1 := (@ih ns).mpr hc.2
            rw [h] at h1
            simp only [Option.some.injEq] at h1
            rw [hc.1, h1]
    | _ =>
      simp only [string_items]
      constructor
      · intro hc
        cases hc
      · intro hc
        cases names <;> simp at hc

theorem fib_flag_parse_none (n : String) (w : Nat)
    (hn : n ∉ ["saddr", "daddr", "mark", "iif", "oif"]) : fib_flag_parse n w = none := by
  simp only [List.mem_cons, List.mem_singleton, List.not_mem_nil, or_false, not_or] at hn
  obtain ⟨h0, h1, h2, h3, h4⟩ := hn
  simp [fib_flag_parse, fib_flags, List.findIdx?_cons, h0, h1, h2, h3, h4]

theorem fib_loop_reject (F : Nat) (m : List Erec) (items : List Json)
    (hno : ¬ ∃ names, string_items items = some names
      ∧ ∀ n ∈ names, n ∈ ["saddr", "daddr", "mark", "iif", "oif"])
    (idx : Nat) (b0 b1 b2 b3 b4 : Bool) :
    ∃ err, json_parse_fib_flags_loop ⟨F, m⟩ items idx (fib_word b0 b1 b2 b3 b4)
      = .ok none ⟨F, m ++ [err]⟩ := by
  induction items generalizing idx b0 b1 b2 b3 b4 with
  | nil => exact absurd ⟨[], rfl, by simp⟩ hno
  | cons x rest ih =>
    cases x with
    | string n =>
      by_cases hn : n ∈ ["saddr", "daddr", "mark", "iif", "oif"]
      · simp only [json_parse_fib_flags_loop, fib_flag_step n hn]
        apply ih
        rintro ⟨names, h1, h2⟩
        refine hno ⟨n :: names, by simp [string_items, h1], ?_⟩
        intro y hy
        rcases List.mem_cons.mp hy with rfl | hy
        · exact hn
        · exact h2 y hy
      · simp only [json_parse_fib_flags_loop, fib_flag_parse_none n _ hn]
        exact ⟨_, rfl⟩
    | _ =>
      simp only [json_parse_fib_flags_loop]
      exact ⟨_, rfl⟩

theorem fib_checks_reject (F : Nat) (m : List Erec) (r : Nat) (b0 b1 b2 b3 b4 : Bool)
    (h : b0 = b1 ∨ (b3 = true ∧ b4 = true)) :
    ∃ err, json_parse_fib_checks ⟨F, m⟩ (fib_word b0 b1 b2 b3 b4) r
      = .ok none ⟨F, m ++ [err]⟩ := by
  cases b0 <;> cases b1 <;> cases b2 <;> cases b3 <;> cases b4 <;>
    first
    | exact ⟨_, rfl⟩
    | simp at h

/-- The sanity checks of fib on the flag word of `names`. -/
theorem fib_checks_names (F : Nat) (m : List Erec) (r : Nat) (names : List String) :
    ((("saddr" ∈ names ∧ "daddr" ∉ names) ∨ ("saddr" ∉ names ∧ "daddr" ∈ names))
        ∧ ¬ ("iif" ∈ names ∧ "oif" ∈ names)
        ∧ json_parse_fib_checks ⟨F, m⟩ (spec_fib_flagval names) r
          = .ok (some (.fib_expr (spec_fib_flagval names) r)) ⟨F, m⟩)
      ∨ (¬ ((("saddr" ∈ names ∧ "daddr" ∉ names) ∨ ("saddr" ∉ names ∧ "daddr" ∈ names))
          ∧ ¬ ("iif" ∈ names ∧ "oif" ∈ names))
        ∧ ∃ err, json_parse_fib_checks ⟨F, m⟩ (spec_fib_flagval names) r
          = .ok none ⟨F, m ++ [err]⟩) := by
  by_cases h : (("saddr" ∈ names ∧ "daddr" ∉ names) ∨ ("saddr" ∉ names ∧ "daddr" ∈ names))
      ∧ ¬ ("iif" ∈ names ∧ "oif" ∈ names)
  · refine Or.inl ⟨h.1, h.2, ?_⟩
    apply fib_checks_ok
    · rcases h.1 with ⟨a, b⟩ | ⟨a, b⟩ <;> simp [a, b]
    · simpa using h.2
  · refine Or.inr ⟨h, ?_⟩
    apply fib_checks_reject
    by_cases hs : "saddr" ∈ names <;> by_cases hd : "daddr" ∈ names <;>
      by_cases hi : "iif" ∈ names <;> by_cases ho : "oif" ∈ names <;>
      simp [hs, hd, hi, ho] at h ⊢

theorem fib_result_unspec (result : String) (h : result ∉ ["oif", "oifname", "type"]) :
    fib_result_parse result = NFT_FIB_RESULT_UNSPEC := by
  simp only [List.mem_cons, List.mem_singleton, List.not_mem_nil, or_false, not_or] at h
  simp [fib_result_parse, h.1, h.2.1, h.2.2]

theorem fib_result_known (result : String) (h : result ∈ ["oif", "oifname", "type"]) :
    fib_result_parse result ≠ NFT_FIB_RESULT_UNSPEC
      ∧ [("oif", NFT_FIB_RESULT_OIF), ("oifname", NFT_FIB_RESULT_OIFNAME),
          ("type", NFT_FIB_RESULT_ADDRTYPE)].lookup result = some (fib_result_parse result) := by
  simp only [List.mem_cons, List.mem_singleton, List.not_mem_nil, or_false] at h
  rcases h with rfl | rfl | rfl <;> exact ⟨by decide, rfl⟩

/-- The outcome of `json_parse_fib_expr` on every operand: the Fib expression
when the acceptance condition holds, and no expression with one more error
record when it does not. -/
theorem fib_outcome (pe : expr_parse_fn) (F : Nat) (m : List Erec) (type : String)
    (root : Json) :
    (∃ result names, spec_fib_accepts root result names
        ∧ json_parse_fib_expr pe ⟨F, m⟩ type root
          = .ok (some (.fib_expr (spec_fib_flagval names) (fib_result_parse result))) ⟨F, m⟩)
      ∨ ((¬ ∃ result names, spec_fib_accepts root result names)
        ∧ ∃ err, json_parse_fib_expr pe ⟨F, m⟩ type root = .ok none ⟨F, m ++ [err]⟩) := by
  cases hr : json_unpack_key_s root "result" with
  | none =>
    refine Or.inr ⟨?_, ⟨_, by simp only [json_parse_fib_expr, hr]; rfl⟩⟩
    rintro ⟨result, names, h1, _⟩
    rw [hr] at h1
    cases h1
  | some result =>
    by_cases hres : result ∈ ["oif", "oifname", "type"]
    · obtain ⟨hres1, _⟩ := fib_result_known result hres
      cases hfl : json_unpack_key_o root "flags" with
      | none =>
        refine Or.inr ⟨?_, ?_⟩
        · rintro ⟨r, names, _, _, ⟨flags, h3, _⟩, _⟩
          rw [hfl] at h3
          cases h3
        · simp only [json_parse_fib_expr, hr, hres1, if_false, hfl]
          exact fib_checks_reject F m _ false false false false false (Or.inl rfl)
      | some flags =>
        -- the names are determined by `flags`
        have huniq : ∀ r names, spec_fib_accepts root r names →
            r = result ∧ fib_flag_names flags = some names := by
          rintro r names ⟨h1, _, ⟨fl, h3, h4⟩, _⟩
          rw [hr] at h1
          rw [hfl] at h3
          cases h1
          cases h3
          exact ⟨rfl, h4⟩
        cases hnames : fib_flag_names flags with
        | none =>
          refine Or.inr ⟨?_, ?_⟩
          · rintro ⟨r, names, hacc⟩
            have := (huniq r names hacc).2
            rw [hnames] at this
            cases this
          · simp only [json_parse_fib_expr, hr, hres1, if_false, hfl]
            cases flags with
            | string n => simp [fib_flag_names] at hnames
            | array xs =>
              simp only [json_is_array, Bool.not_true, Bool.false_eq_true, if_false,
                json_parse_fib_tail, json_array_items]
              have hno : ¬ ∃ names, string_items xs = some names
                  ∧ ∀ n ∈ names, n ∈ ["saddr", "daddr", "mark", "iif", "oif"] := by
                rintro ⟨names, h1, _⟩
                simp [fib_flag_names, h1] at hnames
              obtain ⟨err, he⟩ := fib_loop_reject F m xs hno 0 false false false false false
              have he0 : json_parse_fib_flags_loop ⟨F, m⟩ xs 0 0 = _ := he
              rw [he0]
              exact ⟨_, rfl⟩
            | _ =>
              simp only [json_is_array, Bool.not_false, if_true]
              exact ⟨_, rfl⟩
        | some names =>
          by_cases hall : ∀ n ∈ names, n ∈ ["saddr", "daddr", "mark", "iif", "oif"]
          · -- the flag word is that of `names`; the checks decide
            have hword : json_parse_fib_expr pe ⟨F, m⟩ type root
                = json_parse_fib_checks ⟨F, m⟩ (spec_fib_flagval names)
                    (fib_result_parse result) := by
              simp only [json_parse_fib_expr, hr, hres1, if_false, hfl]
              cases flags with
              | string n =>
                simp only [fib_flag_names, Option.some.injEq] at hnames
                subst hnames
                have hstep : fib_flag_parse n 0 = _ :=
                  fib_flag_step n (hall n (List.mem_singleton_self n)) false false false false
                    false
                simp only [hstep, json_parse_fib_tail, json_array_items,
                  json_parse_fib_flags_loop, spec_fib_flagval, List.mem_singleton,
                  Bool.false_or, eq_comm]
              | array xs =>
                simp only [fib_flag_names] at hnames
                have hxs := string_items_eq_some.mp hnames
                subst hxs
                have hloop : json_parse_fib_flags_loop ⟨F, m⟩ (names.map .string) 0 0 = _ :=
                  fib_loop_word F m names hall 0 false false false false false
                simp only [json_is_array, Bool.not_true, Bool.false_eq_true, if_false,
                  json_parse_fib_tail, json_array_items, hloop, spec_fib_flagval,
                  Bool.false_or]
              | _ => simp [fib_flag_names] at hnames
            rcases fib_checks_names F m (fib_result_parse result) names with
              ⟨h1, h2, h3⟩ | ⟨h1, h2⟩
            · exact Or.inl ⟨result, names, ⟨hr, hres, ⟨flags, hfl, hnames⟩, hall, h1, h2⟩,
                by rw [hword, h3]⟩
            · refine Or.inr ⟨?_, by rw [hword]; exact h2⟩
              rintro ⟨r, names1, hacc⟩
              have hn := (huniq r names1 hacc).2
              rw [hnames] at hn
              cases hn
              exact h1 ⟨hacc.2.2.2.2.1, hacc.2.2.2.2.2⟩
          · refine Or.inr ⟨?_, ?_⟩
            · rintro ⟨r, names1, hacc⟩
              have hn := (huniq r names1 hacc).2
              rw [hnames] at hn
              cases hn
              exact hall hacc.2.2.2.1
            · simp only [json_parse_fib_expr, hr, hres1, if_false, hfl]
              cases flags with
              | string n =>
                simp only [fib_flag_names, Option.some.injEq] at hnames
                subst hnames
                have hn : n ∉ ["saddr", "daddr", "mark", "iif", "oif"] := by
                  intro hc
                  exact hall (fun y hy => by rw [List.mem_singleton.mp hy]; exact hc)
                simp only [fib_flag_parse_none n 0 hn]
                exact ⟨_, rfl⟩
              | array xs =>
                simp only [fib_flag_names] at hnames
                have hno : ¬ ∃ names, string_items xs = some names
                    ∧ ∀ n ∈ names, n ∈ ["saddr", "daddr", "mark", "iif", "oif"] := by
                  rintro ⟨names1, h1, h2⟩
                  rw [hnames] at h1
                  cases h1
                  exact hall h2
                obtain ⟨err, he⟩ := fib_loop_reject F m xs hno 0 false false false false false
                have he0 : json_parse_fib_flags_loop ⟨F, m⟩ xs 0 0 = _ := he
                simp only [json_is_array, Bool.not_true, Bool.false_eq_true, if_false,
                  json_parse_fib_tail, json_array_items, he0]
                exact ⟨_, rfl⟩
              | _ => simp [fib_flag_names] at hnames
    · refine Or.inr ⟨?_, ?_⟩
      · rintro ⟨r, names, h1, h2, _⟩
        rw [hr] at h1
        cases h1
        exact hres h2
      · simp only [json_parse_fib_expr, hr, fib_result_unspec result hres, if_true]
        exact ⟨_, rfl⟩

theorem fib_word_testBit (b0 b1 b2 b3 b4 : Bool) (i : Nat) :
    (fib_word b0 b1 b2 b3 b4).testBit i
      = match i with
        | 0 => b0
        | 1 => b1
        | 2 => b2
        | 3 => b3
        | 4 => b4
        | _ => false := by
  rcases i with _ | _ | _ | _ | _ | i
  · cases b0 <;> cases b1 <;> cases b2 <;> cases b3 <;> cases b4 <;> rfl
  · cases b0 <;> cases b1 <;> cases b2 <;> cases b3 <;> cases b4 <;> rfl
  · cases b0 <;> cases b1 <;> cases b2 <;> cases b3 <;> cases b4 <;> rfl
  · cases b0 <;> cases b1 <;> cases b2 <;> cases b3 <;> cases b4 <;> rfl
  · cases b0 <;> cases b1 <;> cases b2 <;> cases b3 <;> cases b4 <;> rfl
  · have hlt : fib_word b0 b1 b2 b3 b4 < 2 ^ (i + 5) := by
      have h32 : fib_word b0 b1 b2 b3 b4 < 32 := by
        cases b0 <;> cases b1 <;> cases b2 <;> cases b3 <;> cases b4 <;> decide
      have h2 : 32 ≤ 2 ^ (i + 5) := by
        rw [pow_add]
        have : 1 ≤ 2 ^ i := Nat.one_le_two_pow
        omega
      omega
    exact Nat.testBit_lt_two_pow hlt

/-- The flag word of `names` holds exactly the named flags: bit `i` is set
exactly when the `i`-th name of the flag table is named. -/
theorem spec_fib_flagval_testBit (names : List String) (i : Nat) :
    (spec_fib_flagval names).testBit i = true
      ↔ ∃ n, fib_flags.get? i = some n ∧ n ∈ names := by
  rw [spec_fib_flagval, fib_word_testBit]
  rcases i with _ | _ | _ | _ | _ | i <;> simp [fib_flags]

theorem spec_fib_accepts_unique {root : Json} {r1 r2 : String} {n1 n2 : List String}
    (h1 : spec_fib_accepts root r1 n1) (h2 : spec_fib_accepts root r2 n2) :
    r1 = r2 ∧ n1 = n2 := by
  obtain ⟨a1, _, ⟨f1, b1, c1⟩, _⟩ := h1
  obtain ⟨a2, _, ⟨f2, b2, c2⟩, _⟩ := h2
  rw [a1] at a2
  rw [b1] at b2
  cases a2
  cases b2
  rw [c1] at c2
  cases c2
  exact ⟨rfl, rfl⟩

/-- C11. `json_parse_fib_expr` returns a Fib expression if and only if the
operand meets the acceptance condition of the specification (`result` among
oif, oifname, type; `flags` a string or an array of strings among saddr,
daddr, mark, iif, oif; exactly one of saddr and daddr; not both iif and oif).
When it does, the expression holds the flag word whose bits are exactly the
named flags and the code of the named result, and nothing is queued; in every
other case no expression is returned and one error record is queued. -/
theorem json_parse_fib_expr_accepts (pe : expr_parse_fn) (ctx : json_ctx) (type : String)
    (root : Json) :
    ((∃ e c, json_parse_fib_expr pe ctx type root = .ok (some e) c ∧ e.etype = .EXPR_FIB)
        ↔ ∃ result names, spec_fib_accepts root result names)
      ∧ (∀ result names, spec_fib_accepts root result names →
          json_parse_fib_expr pe ctx type root
              = .ok (some (.fib_expr (spec_fib_flagval names) (fib_result_parse result))) ctx
            ∧ (∀ i, (spec_fib_flagval names).testBit i = true
                ↔ ∃ n, fib_flags.get? i = some n ∧ n ∈ names)
            ∧ [("oif", NFT_FIB_RESULT_OIF), ("oifname", NFT_FIB_RESULT_OIFNAME),
                ("type", NFT_FIB_RESULT_ADDRTYPE)].lookup result
              = some (fib_result_parse result))
      ∧ ((¬ ∃ result names, spec_fib_accepts root result names) →
          ∃ err, json_parse_fib_expr pe ctx type root
            = .ok none ⟨ctx.flags, ctx.msgs ++ [err]⟩) := by
  obtain ⟨F, m⟩ := ctx
  rcases fib_outcome pe F m type root with ⟨result, names, hacc, heq⟩ | ⟨hno, err, heq⟩
  · refine ⟨⟨fun _ => ⟨result, names, hacc⟩, fun _ => ⟨_, _, heq, rfl⟩⟩, ?_, ?_⟩
    · intro r n h
      obtain ⟨rfl, rfl⟩ := spec_fib_accepts_unique h hacc
      exact ⟨heq, spec_fib_flagval_testBit _, (fib_result_known _ h.2.1).2⟩
    · intro h
      exact absurd ⟨result, names, hacc⟩ h
  · refine ⟨⟨?_, fun h => absurd h hno⟩, fun r n h => absurd ⟨r, n, h⟩ hno, fun _ => ⟨err, heq⟩⟩
    rintro ⟨e, c, he, _⟩
    rw [heq] at he
    cases he

/-- C11 at the inputs named by the claim: flags `[saddr]` is accepted, and
`[saddr, daddr]`, `[saddr, iif, oif]` and a missing `flags` are rejected with
one error. -/
theorem json_parse_fib_expr_accepts_witness :
    json_parse_fib_expr (fun c _ => .ok none c) ⟨0, []⟩ "fib"
        (.object [("result", .string "oif"), ("flags", .array [.string "saddr"])])
      = .ok (some (.fib_expr 1 NFT_FIB_RESULT_OIF)) ⟨0, []⟩
    ∧ (∃ err, json_parse_fib_expr (fun c _ => .ok none c) ⟨0, []⟩ "fib"
        (.object [("result", .string "oif"),
          ("flags", .array [.string "saddr", .string "daddr"])])
      = .ok none ⟨0, [] ++ [err]⟩)
    ∧ (∃ err, json_parse_fib_expr (fun c _ => .ok none c) ⟨0, []⟩ "fib"
        (.object [("result", .string "oif"),
          ("flags", .array [.string "saddr", .string "iif", .string "oif"])])
      = .ok none ⟨0, [] ++ [err]⟩)
    ∧ (∃ err, json_parse_fib_expr (fun c _ => .ok none c) ⟨0, []⟩ "fib"
        (.object [("result", .string "oif")])
      = .ok none ⟨0, [] ++ [err]⟩) :=
  ⟨((json_parse_fib_expr_accepts _ ⟨0, []⟩ "fib"
        (.object [("result", .string "oif"), ("flags", .array [.string "saddr"])])).2.1
      "oif" ["saddr"]
      ⟨rfl, by decide, ⟨_, rfl, rfl⟩, by decide, by decide, by decide⟩).1,
    (json_parse_fib_expr_accepts _ ⟨0, []⟩ "fib" _).2.2 (by
      rintro ⟨r, n, h1⟩
      obtain ⟨_, _, ⟨fl, h3, h4⟩, _, h5, _⟩ := h1
      cases h3
      cases h4
      revert h5
      decide),
    (json_parse_fib_expr_accepts _ ⟨0, []⟩ "fib" _).2.2 (by
      rintro ⟨r, n, h1⟩
      obtain ⟨_, _, ⟨fl, h3, h4⟩, _, _, h6⟩ := h1
      cases h3
      cases h4
      revert h6
      decide),
    (json_parse_fib_expr_accepts _ ⟨0, []⟩ "fib" _).2.2 (by
      rintro ⟨r, n, h1⟩
      obtain ⟨_, _, ⟨fl, h3, h4⟩, _⟩ := h1
      cases h3)⟩

/-! ## C12: the direction of ct -/

theorem ct_key_is_dir_iff (key : Nat) : ct_key_is_dir key = true ↔ key ∈ ct_dir_keys := by
  simp [ct_key_is_dir, List.any_eq_true]

/-- With the key resolved and the family absent or valid, `json_parse_ct_expr`
is its direction tail. -/
theorem ct_expr_dir_tail (reg : Registry) (pe : expr_parse_fn) (ctx : json_ctx)
    (type : String) (root : Json) (key : String) (keyval : Nat)
    (hk : json_unpack_key_s root "key" = some key)
    (hi : token_index reg.ct_templates key = some keyval)
    (hfam : ∀ family, json_unpack_key_s root "family" = some family →
      family = "ip" ∨ family = "ip6") :
    json_parse_ct_expr reg pe ctx type root
      = json_parse_ct_dir ctx root key keyval (optional_family root) := by
  simp only [json_parse_ct_expr, hk, hi, optional_family]
  cases hf : json_unpack_key_s root "family" with
  | none => rfl
  | some family => simp only [family_ok (hfam family hf), if_false]

/-- C12 (the claim as written fails). The key `saddr` resolves to the
directional key `NFT_CT_SRC` and `dir` is `original`, yet no expression is
returned: the family `arp` is rejected before the direction is read. -/
theorem json_parse_ct_expr_family_guard :
    json_unpack_key_s (.object [("key", .string "saddr"), ("family", .string "arp"),
        ("dir", .string "original")]) "key" = some "saddr"
      ∧ token_index sample_ct_registry.ct_templates "saddr" = some NFT_CT_SRC
      ∧ NFT_CT_SRC ∈ ct_dir_keys
      ∧ json_unpack_key_s (.object [("key", .string "saddr"), ("family", .string "arp"),
          ("dir", .string "original")]) "dir" = some "original"
      ∧ json_parse_ct_expr sample_ct_registry (fun c _ => .ok none c) ⟨0, []⟩ "ct"
          (.object [("key", .string "saddr"), ("family", .string "arp"),
            ("dir", .string "original")])
        = .ok none ⟨0, [.error "Invalid CT family '%s'." [.str "arp"]]⟩ :=
  ⟨rfl, rfl, by decide, rfl, rfl⟩

/-- C12 (amended). For every ct operand whose `key` resolves in the ct
templates and whose `family` is absent or one of ip, ip6: when `dir` is a
string, `json_parse_ct_expr` returns an expression if and only if `dir` is
original or reply and the key is one of the ten directional keys, the
expression then carries that direction, and otherwise no expression is
returned and one error is queued; when `dir` is absent the expression carries
no direction (-1). -/
theorem json_parse_ct_expr_dir (reg : Registry) (pe : expr_parse_fn) (ctx : json_ctx)
    (type : String) (root : Json) (key : String) (keyval : Nat)
    (hk : json_unpack_key_s root "key" = some key)
    (hi : token_index reg.ct_templates key = some keyval)
    (hfam : ∀ family, json_unpack_key_s root "family" = some family →
      family = "ip" ∨ family = "ip6") :
    (∀ dir, json_unpack_key_s root "dir" = some dir →
        ((∃ e c, json_parse_ct_expr reg pe ctx type root = .ok (some e) c)
            ↔ (dir = "original" ∨ dir = "reply") ∧ keyval ∈ ct_dir_keys)
          ∧ (keyval ∈ ct_dir_keys →
              (dir = "original" → json_parse_ct_expr reg pe ctx type root
                = .ok (some (.ct_expr keyval IP_CT_DIR_ORIGINAL (optional_family root))) ctx)
              ∧ (dir = "reply" → json_parse_ct_expr reg pe ctx type root
                = .ok (some (.ct_expr keyval IP_CT_DIR_REPLY (optional_family root))) ctx))
          ∧ (¬ ((dir = "original" ∨ dir = "reply") ∧ keyval ∈ ct_dir_keys) →
              ∃ err, json_parse_ct_expr reg pe ctx type root
                = .ok none ⟨ctx.flags, ctx.msgs ++ [err]⟩))
      ∧ (json_unpack_key_s root "dir" = none →
          json_parse_ct_expr reg pe ctx type root
            = .ok (some (.ct_expr keyval (-1) (optional_family root))) ctx) := by
  rw [ct_expr_dir_tail reg pe ctx type root key keyval hk hi hfam]
  constructor
  · intro dir hdir
    have hne : ¬ ("reply" = "original") := by decide
    by_cases hkd : keyval ∈ ct_dir_keys
    · have hkd1 := (ct_key_is_dir_iff keyval).mpr hkd
      by_cases h1 : dir = "original"
      · subst h1
        have heq : json_parse_ct_dir ctx root key keyval (optional_family root)
            = .ok (some (.ct_expr keyval IP_CT_DIR_ORIGINAL (optional_family root))) ctx := by
          simp [json_parse_ct_dir, hdir, hkd1]
        refine ⟨⟨fun _ => ⟨Or.inl rfl, hkd⟩, fun _ => ⟨_, _, heq⟩⟩,
          fun _ => ⟨fun _ => heq, fun h => absurd h.symm hne⟩, fun h => absurd ⟨Or.inl rfl, hkd⟩ h⟩
      · by_cases h2 : dir = "reply"
        · subst h2
          have heq : json_parse_ct_dir ctx root key keyval (optional_family root)
              = .ok (some (.ct_expr keyval IP_CT_DIR_REPLY (optional_family root))) ctx := by
            simp [json_parse_ct_dir, hdir, hkd1]
          refine ⟨⟨fun _ => ⟨Or.inr rfl, hkd⟩, fun _ => ⟨_, _, heq⟩⟩,
            fun _ => ⟨fun h => absurd h hne, fun _ => heq⟩,
            fun h => absurd ⟨Or.inr rfl, hkd⟩ h⟩
        · have heq : json_parse_ct_dir ctx root key keyval (optional_family root)
              = .ok none (json_error ctx "Invalid ct direction '%s'." [.str dir]) := by
            simp [json_parse_ct_dir, hdir, h1, h2]
          refine ⟨⟨?_, fun h => absurd h.1 (by simp [h1, h2])⟩,
            fun _ => ⟨fun h => absurd h h1, fun h => absurd h h2⟩, fun _ => ⟨_, heq⟩⟩
          rintro ⟨e, c, he⟩
          rw [heq] at he
          cases he
    · have hkd1 : ct_key_is_dir keyval = false := by
        cases h : ct_key_is_dir keyval with
        | false => rfl
        | true => exact absurd ((ct_key_is_dir_iff keyval).mp h) hkd
      have heq : ∃ err, json_parse_ct_dir ctx root key keyval (optional_family root)
          = .ok none ⟨ctx.flags, ctx.msgs ++ [err]⟩ := by
        simp only [json_parse_ct_dir, hdir, hkd1]
        by_cases h1 : dir = "original"
        · simp only [h1, if_true, Bool.not_false]
          exact ⟨_, rfl⟩
        · by_cases h2 : dir = "reply"
          · simp only [h2, hne, if_true, if_false, Bool.not_false]
            exact ⟨_, rfl⟩
          · simp only [h1, h2, if_false]
            exact ⟨_, rfl⟩
      refine ⟨⟨?_, fun h => absurd h.2 hkd⟩, fun h => absurd h hkd, fun _ => heq⟩
      rintro ⟨e, c, he⟩
      obtain ⟨err, herr⟩ := heq
      rw [herr] at he
      cases he
  · intro hdir
    simp only [json_parse_ct_dir, hdir]

/-- C12 (amended) at a concrete input: `saddr` with dir `reply` and family
`ip`. -/
theorem json_parse_ct_expr_dir_witness :
    json_parse_ct_expr sample_ct_registry (fun c _ => .ok none c) ⟨0, []⟩ "ct"
        (.object [("key", .string "saddr"), ("family", .string "ip"),
          ("dir", .string "reply")])
      = .ok (some (.ct_expr NFT_CT_SRC IP_CT_DIR_REPLY NFPROTO_IPV4)) ⟨0, []⟩ :=
  (((json_parse_ct_expr_dir sample_ct_registry (fun c _ => .ok none c) ⟨0, []⟩ "ct"
      (.object [("key", .string "saddr"), ("family", .string "ip"), ("dir", .string "reply")])
      "saddr" NFT_CT_SRC rfl rfl
      (by
        intro family hf
        cases hf
        exact Or.inl rfl)).1 "reply" rfl).2.1 (by decide)).2 rfl

/-! ## The kind returned by each builder -/

theorem immediate_kind {ctx : json_ctx} {type : String} {v : Json} {e : expr} {c : json_ctx}
    (h : json_parse_immediate_expr ctx type v = .ok (some e) c) :
    e.etype = .EXPR_SYMBOL ∨ e.etype = .EXPR_VALUE := by
  simp only [json_parse_immediate_expr, json_parse_constant] at h
  repeat' split at h
  all_goals first
    | (cases h; first | exact Or.inl rfl | exact Or.inr rfl)
    | cases h

theorem map_kind {pe : expr_parse_fn} {ctx : json_ctx} {type : String} {v : Json} {e : expr}
    {c : json_ctx} (h : json_parse_map_expr pe ctx type v = .ok (some e) c) :
    e.etype = .EXPR_MAP := by
  simp only [json_parse_map_expr] at h
  repeat' split at h
  all_goals first
    | (cases h; rfl)
    | cases h

theorem payload_kind {reg : Registry} {pe : expr_parse_fn} {ctx : json_ctx} {type : String}
    {v : Json} {e : expr} {c : json_ctx}
    (h : json_parse_payload_expr reg pe ctx type v = .ok (some e) c) :
    e.etype = .EXPR_PAYLOAD := by
  simp only [json_parse_payload_expr] at h
  repeat' split at h
  all_goals first
    | (cases h; rfl)
    | cases h

theorem exthdr_kind {reg : Registry} {pe : expr_parse_fn} {ctx : json_ctx} {type : String}
    {v : Json} {e : expr} {c : json_ctx}
    (h : json_parse_exthdr_expr reg pe ctx type v = .ok (some e) c) :
    e.etype = .EXPR_EXTHDR := by
  simp only [json_parse_exthdr_expr] at h
  repeat' split at h
  all_goals first
    | (cases h; rfl)
    | cases h

theorem tcp_option_kind {reg : Registry} {pe : expr_parse_fn} {ctx : json_ctx} {type : String}
    {v : Json} {e : expr} {c : json_ctx}
    (h : json_parse_tcp_option_expr reg pe ctx type v = .ok (some e) c) :
    e.etype = .EXPR_EXTHDR := by
  simp only [json_parse_tcp_option_expr] at h
  repeat' split at h
  all_goals first
    | (cases h; rfl)
    | cases h

theorem meta_kind {reg : Registry} {pe : expr_parse_fn} {ctx : json_ctx} {type : String}
    {v : Json} {e : expr} {c : json_ctx}
    (h : json_parse_meta_expr reg pe ctx type v = .ok (some e) c) :
    e.etype = .EXPR_META := by
  simp only [json_parse_meta_expr] at h
  repeat' split at h
  all_goals first
    | (cases h; rfl)
    | cases h

theorem rt_kind {pe : expr_parse_fn} {ctx : json_ctx} {type : String}
    {v : Json} {e : expr} {c : json_ctx}
    (h : json_parse_rt_expr pe ctx type v = .ok (some e) c) :
    e.etype = .EXPR_RT := by
  simp only [json_parse_rt_expr, json_parse_rt_key] at h
  repeat' split at h
  all_goals first
    | (cases h; rfl)
    | cases h

theorem ct_kind {reg : Registry} {pe : expr_parse_fn} {ctx : json_ctx} {type : String}
    {v : Json} {e : expr} {c : json_ctx}
    (h : json_parse_ct_expr reg pe ctx type v = .ok (some e) c) :
    e.etype = .EXPR_CT := by
  simp only [json_parse_ct_expr, json_parse_ct_dir] at h
  repeat' split at h
  all_goals first
    | (cases h; rfl)
    | cases h

theorem numgen_kind {pe : expr_parse_fn} {ctx : json_ctx} {type : String}
    {v : Json} {e : expr} {c : json_ctx}
    (h : json_parse_numgen_expr pe ctx type v = .ok (some e) c) :
    e.etype = .EXPR_NUMGEN := by
  simp only [json_parse_numgen_expr] at h
  repeat' split at h
  all_goals first
    | (cases h; rfl)
    | cases h

theorem hash_kind {pe : expr_parse_fn} {ctx : json_ctx} {type : String} {v : Json} {e : expr}
    {c : json_ctx} (h : json_parse_hash_expr pe ctx type v = .ok (some e) c) :
    e.etype = .EXPR_HASH := by
  simp only [json_parse_hash_expr] at h
  repeat' split at h
  all_goals first
    | (cases h; rfl)
    | cases h

theorem binop_kind {pe : expr_parse_fn} {ctx : json_ctx} {type : String} {v : Json} {e : expr}
    {c : json_ctx} (h : json_parse_binop_expr pe ctx type v = .ok (some e) c) :
    e.etype = .EXPR_BINOP := by
  simp only [json_parse_binop_expr] at h
  repeat' split at h
  all_goals first
    | (cases h; rfl)
    | cases h

theorem set_elem_kind {pe : expr_parse_fn} {ctx : json_ctx} {type : String} {v : Json}
    {e : expr} {c : json_ctx} (h : json_parse_set_elem_expr pe ctx type v = .ok (some e) c) :
    e.etype = .EXPR_SET_ELEM := by
  simp only [json_parse_set_elem_expr] at h
  repeat' split at h
  all_goals first
    | (cases h; rfl)
    | cases h

theorem prefix_kind {pe : expr_parse_fn} {ctx : json_ctx} {type : String} {v : Json}
    {e : expr} {c : json_ctx} (h : json_parse_prefix_expr pe ctx type v = .ok (some e) c) :
    e.etype = .EXPR_PREFIX := by
  simp only [json_parse_prefix_expr] at h
  repeat' split at h
  all_goals first
    | (cases h; rfl)
    | cases h

theorem range_kind {pe : expr_parse_fn} {ctx : json_ctx} {type : String} {v : Json}
    {e : expr} {c : json_ctx} (h : json_parse_range_expr pe ctx type v = .ok (some e) c) :
    e.etype = .EXPR_RANGE := by
  simp only [json_parse_range_expr] at h
  repeat' split at h
  all_goals first
    | (cases h; rfl)
    | cases h

theorem wildcard_kind {pe : expr_parse_fn} {ctx : json_ctx} {type : String} {v : Json}
    {e : expr} {c : json_ctx} (h : json_parse_wildcard_expr pe ctx type v = .ok (some e) c) :
    e.etype = .EXPR_PREFIX := by
  simp only [json_parse_wildcard_expr] at h
  cases h
  rfl

theorem verdict_kind {pe : expr_parse_fn} {ctx : json_ctx} {type : String} {v : Json}
    {e : expr} {c : json_ctx} (h : json_parse_verdict_expr pe ctx type v = .ok (some e) c) :
    e.etype = .EXPR_VERDICT := by
  simp only [json_parse_verdict_expr] at h
  repeat' split at h
  all_goals first
    | (cases h; rfl)
    | cases h

theorem fib_kind {pe : expr_parse_fn} {ctx : json_ctx} {type : String} {v : Json} {e : expr}
    {c : json_ctx} (h : json_parse_fib_expr pe ctx type v = .ok (some e) c) :
    e.etype = .EXPR_FIB := by
  obtain ⟨F, m⟩ := ctx
  rcases fib_outcome pe F m type v with ⟨_, _, _, heq⟩ | ⟨_, err, heq⟩
  · rw [heq] at h
    cases h
    rfl
  · rw [heq] at h
    cases h

/-- A flag word that a mask covers holds no flag outside the mask. -/
theorem mask_covers_bit {M F b : Nat} (hM : M &&& b = 0) (hF : M &&& F = F) : F &&& b = 0 := by
  rw [← hF, Nat.land_assoc, Nat.land_comm F b, ← Nat.land_assoc, hM, Nat.zero_and]

theorem lor_land_self (F b : Nat) : (F ||| b) &&& b = b := by
  apply Nat.eq_of_testBit_eq
  intro i
  simp only [Nat.testBit_land, Nat.testBit_lor]
  cases F.testBit i <;> cases b.testBit i <;> rfl

/-- No row of `cb_tbl` that admits PRIMARY builds a concat. -/
theorem cb_tbl_primary_kind (reg : Registry) : ∀ row ∈ cb_tbl reg,
    row.flags &&& CTX_F_PRIMARY ≠ 0 → ∀ (pe : expr_parse_fn) (ctx : json_ctx) (type : String)
      (v : Json) (e : expr) (c : json_ctx), row.cb pe ctx type v = .ok (some e) c →
      e.etype ≠ .EXPR_CONCAT := by
  intro row hrow
  simp only [cb_tbl, List.mem_cons, List.mem_singleton, List.not_mem_nil, or_false] at hrow
  rcases hrow with h | h | h | h | h | h | h | h | h | h | h | h | h | h | h | h | h | h | h
    | h | h | h | h | h | h | h | h | h | h <;> subst h
  all_goals first
    | (intro hP; exact absurd rfl hP)
    | (intro _ pe ctx type v e c h
       dsimp only at h
       first
        | (have hk := map_kind h; rw [hk]; decide)
        | (have hk := payload_kind h; rw [hk]; decide)
        | (have hk := exthdr_kind h; rw [hk]; decide)
        | (have hk := tcp_option_kind h; rw [hk]; decide)
        | (have hk := meta_kind h; rw [hk]; decide)
        | (have hk := rt_kind h; rw [hk]; decide)
        | (have hk := ct_kind h; rw [hk]; decide)
        | (have hk := numgen_kind h; rw [hk]; decide)
        | (have hk := hash_kind h; rw [hk]; decide)
        | (have hk := fib_kind h; rw [hk]; decide)
        | (have hk := binop_kind h; rw [hk]; decide)
        | (have hk := set_elem_kind h; rw [hk]; decide)
        | (rcases immediate_kind h with hk | hk <;> rw [hk] <;> decide))

/-- Under a flag word that holds PRIMARY, `json_parse_expr` never returns a
concat: the `concat` key is outside the mask, and a list is refused. -/
theorem primary_not_concat (reg : Registry) {F : Nat} {m : List Erec} {x : Json} {e : expr}
    {c : json_ctx} (hP : F &&& CTX_F_PRIMARY ≠ 0)
    (h : json_parse_expr reg ⟨F, m⟩ x = .ok (some e) c) : e.etype ≠ .EXPR_CONCAT := by
  have hPb : is_PRIMARY ⟨F, m⟩ = true := by simpa [is_PRIMARY] using hP
  rw [json_parse_expr_eq] at h
  simp only [json_parse_expr_body, json_parse_expr_with] at h
  have himm : ∀ {t : String} {v : Json},
      json_parse_immediate_expr ⟨F, m⟩ t v = .ok (some e) c → e.etype ≠ .EXPR_CONCAT := by
    intro t v hi
    rcases immediate_kind hi with hk | hk <;> rw [hk] <;> decide
  have hdisp : ∀ (cc : json_ctx) (type : String) (value : Json), cc.flags = F →
      json_parse_expr_dispatch (cb_tbl reg) (json_parse_expr reg) cc type value
        = .ok (some e) c → e.etype ≠ .EXPR_CONCAT := by
    intro cc type value hcc hd
    rw [dispatch_eq] at hd
    cases hf : (cb_tbl reg).find? (fun r => type = r.name) with
    | none => simp [hf] at hd
    | some row =>
      simp only [hf] at hd
      split at hd
      · cases hd
      · rename_i hcov
        have hcov1 : row.flags &&& F = F := by
          rw [hcc] at hcov
          exact not_not.mp hcov
        have hrowP : row.flags &&& CTX_F_PRIMARY ≠ 0 := fun h0 =>
          hP (mask_covers_bit h0 hcov1)
        exact cb_tbl_primary_kind reg row (List.mem_of_find?_eq_some hf) hrowP _ _ _ _ _ _ hd
  cases x with
  | array items =>
    simp only [hPb, if_true] at h
    split at h <;> cases h
  | string s =>
    simp only at h
    split at h
    · split at h
      · cases h
      · cases h
        exact fun hc => expr_types.noConfusion hc
    · exact himm h
  | object kvs =>
    simp only [json_is_integer, json_is_boolean, Bool.or_false, Bool.and_false,
      Bool.false_eq_true, if_false, json_unpack_stmt_eq] at h
    split at h
    · cases h
    · rename_i type value cc hh
      split at hh
      · cases hh
        exact hdisp _ _ _ rfl h
      · cases hh
  | integer n =>
    simp only [hPb, json_is_integer, Bool.or_true, Bool.true_or, Bool.and_true, if_true] at h
    exact himm h
  | jtrue =>
    simp only [hPb, json_is_boolean, Bool.or_true, Bool.true_or, Bool.and_true, if_true] at h
    exact himm h
  | jfalse =>
    simp only [hPb, json_is_boolean, Bool.or_true, Bool.true_or, Bool.and_true, if_true] at h
    exact himm h
  | real =>
    simp only [json_is_integer, json_is_boolean, Bool.or_false, Bool.and_false,
      Bool.false_eq_true, if_false, json_unpack_stmt_eq] at h
    cases h
  | null =>
    simp only [json_is_integer, json_is_boolean, Bool.or_false, Bool.and_false,
      Bool.false_eq_true, if_false, json_unpack_stmt_eq] at h
    cases h

/-! ## C13, C14: concat -/

theorem flagged_flags {pe : expr_parse_fn} {F : Nat} {m : List Erec} {f : Nat} {x : Json}
    {v : Option expr} {c : json_ctx}
    (h : json_parse_flagged_expr pe ⟨F, m⟩ f x = .ok v c) :
    c.flags = F ∧ ∃ c1, pe ⟨F ||| f, m⟩ x = .ok v c1 := by
  simp only [json_parse_flagged_expr] at h
  split at h
  · rename_i e1 c1 heq
    cases h
    exact ⟨rfl, c1, heq⟩
  · cases h

/-- A primary parse by `json_parse_expr` never yields a concat. -/
theorem primary_expr_not_concat (reg : Registry) {F : Nat} {m : List Erec} {x : Json}
    {e : expr} {c : json_ctx}
    (h : json_parse_primary_expr (json_parse_expr reg) ⟨F, m⟩ x = .ok (some e) c) :
    e.etype ≠ .EXPR_CONCAT := by
  obtain ⟨_, c1, h1⟩ := flagged_flags h
  refine primary_not_concat reg ?_ h1
  rw [lor_land_self]
  decide

theorem forall₂_mem_right {α β : Type} {R : α → β → Prop} {xs : List α} {es : List β}
    (h : List.Forall₂ R xs es) : ∀ b ∈ es, ∃ a ∈ xs, R a b := by
  induction h with
  | nil => simp
  | cons hab _ ih =>
    intro b hb
    rcases List.mem_cons.mp hb with rfl | hb
    · exact ⟨_, List.mem_cons_self _ _, hab⟩
    · obtain ⟨a, ha, hr⟩ := ih b hb
      exact ⟨a, List.mem_cons_of_mem _ ha, hr⟩

/-- The loop of concat once the accumulator is a concat: the parsed items are
appended in order. -/
theorem concat_loop_inv (pe : expr_parse_fn) (F : Nat) (items : List Json) (m : List Erec)
    (idx : Nat) (l : List expr) (e : expr) (c : json_ctx)
    (h : json_parse_concat_loop pe ⟨F, m⟩ items idx (some (.concat_expr l)) = .ok (some e) c) :
    ∃ es, e = .concat_expr (l ++ es)
      ∧ List.Forall₂ (fun x child => ∃ mi mo,
          json_parse_primary_expr pe ⟨F, mi⟩ x = .ok (some child) ⟨F, mo⟩) items es := by
  induction items generalizing m idx l with
  | nil =>
    simp only [json_parse_concat_loop] at h
    cases h
    exact ⟨[], by simp, List.Forall₂.nil⟩
  | cons x rest ih =>
    simp only [json_parse_concat_loop] at h
    split at h
    · cases h
    · cases h
    · rename_i tmp c1 heq
      obtain ⟨hfl, _⟩ := flagged_flags heq
      obtain ⟨F1, m1⟩ := c1
      simp only at hfl
      subst hfl
      simp only [expr.etype, ne_eq, not_true_eq_false, if_false, compound_expr_add] at h
      obtain ⟨es, he, hall⟩ := ih m1 (idx + 1) (l ++ [tmp]) h
      refine ⟨tmp :: es, by simp [he], List.Forall₂.cons ⟨m, m1, heq⟩ hall⟩

/-- Every outcome of `json_parse_concat_expr` that is a concat: the operand
is an array of at least two items, the children are the primary parses of the
items in order, and none of them is a concat. -/
theorem concat_expr_inv (reg : Registry) (F : Nat) (m : List Erec) (type : String)
    (root : Json) (e : expr) (c : json_ctx)
    (h : json_parse_concat_expr (json_parse_expr reg) ⟨F, m⟩ type root = .ok (some e) c)
    (hk : e.etype = .EXPR_CONCAT) :
    ∃ xs es, root = .array xs ∧ e = .concat_expr es ∧ 2 ≤ xs.length
      ∧ List.Forall₂ (fun x child => ∃ mi mo,
          json_parse_primary_expr (json_parse_expr reg) ⟨F, mi⟩ x
            = .ok (some child) ⟨F, mo⟩) xs es
      ∧ ∀ child ∈ es, child.etype ≠ .EXPR_CONCAT := by
  simp only [json_parse_concat_expr] at h
  split at h
  · cases h
  · rename_i harr
    cases root with
    | array xs =>
      simp only [json_array_items] at h
      rcases xs with _ | ⟨x, rest⟩
      · simp only [json_parse_concat_loop] at h
        cases h
      · simp only [json_parse_concat_loop] at h
        split at h
        · cases h
        · cases h
        · rename_i tmp c1 heq
          obtain ⟨hfl, _⟩ := flagged_flags heq
          obtain ⟨F1, m1⟩ := c1
          have hfl1 : F = F1 := hfl.symm
          subst hfl1
          have hnc := primary_expr_not_concat reg heq
          rcases rest with _ | ⟨y, rest2⟩
          · simp only [json_parse_concat_loop] at h
            cases h
            exact absurd hk hnc
          · simp only [json_parse_concat_loop] at h
            split at h
            · cases h
            · cases h
            · rename_i tmp2 c2 heq2
              obtain ⟨hfl2, _⟩ := flagged_flags heq2
              obtain ⟨F2, m2⟩ := c2
              have hfl3 : F = F2 := hfl2.symm
              subst hfl3
              simp only [hnc, ne_eq, not_false_eq_true, if_true, compound_expr_add,
                List.nil_append] at h
              obtain ⟨es, he, hall⟩ :=
                concat_loop_inv (json_parse_expr reg) F rest2 m2 _ _ e c h
              have hforall := List.Forall₂.cons ⟨m, m1, heq⟩
                (List.Forall₂.cons ⟨m1, m2, heq2⟩ hall)
              refine ⟨_, tmp :: tmp2 :: es, rfl, by simpa using he, by simp, hforall, ?_⟩
              intro child hchild
              obtain ⟨x0, _, mi, mo, hx0⟩ := forall₂_mem_right hforall child hchild
              exact primary_expr_not_concat reg hx0
    | _ => simp [json_is_array] at harr

theorem forall₂_mem_left {α β : Type} {R : α → β → Prop} {xs : List α} {es : List β}
    (h : List.Forall₂ R xs es) : ∀ a ∈ xs, ∃ b ∈ es, R a b := by
  induction h with
  | nil => simp
  | cons hab _ ih =>
    intro a ha
    rcases List.mem_cons.mp ha with rfl | ha
    · exact ⟨_, List.mem_cons_self _ _, hab⟩
    · obtain ⟨b, hb, hr⟩ := ih a ha
      exact ⟨b, List.mem_cons_of_mem _ hb, hr⟩

/-- C13. Whenever `json_parse_concat_expr` returns a concat, under any flag
word, the operand is an array, the children of the concat are the expressions
that `json_parse_primary_expr` returns for the array items, one per item and
in array order, and no child is itself a concat. -/
theorem json_parse_concat_expr_flat (reg : Registry) (ctx : json_ctx) (type : String)
    (root : Json) (e : expr) (c : json_ctx)
    (h : json_parse_concat_expr (json_parse_expr reg) ctx type root = .ok (some e) c)
    (hk : e.etype = .EXPR_CONCAT) :
    ∃ xs es, root = .array xs ∧ e = .concat_expr es
      ∧ List.Forall₂ (fun x child => ∃ mi mo,
          json_parse_primary_expr (json_parse_expr reg) ⟨ctx.flags, mi⟩ x
            = .ok (some child) ⟨ctx.flags, mo⟩) xs es
      ∧ ∀ child ∈ es, child.etype ≠ .EXPR_CONCAT := by
  obtain ⟨F, m⟩ := ctx
  obtain ⟨xs, es, h1, h2, _, h4, h5⟩ := concat_expr_inv reg F m type root e c h hk
  exact ⟨xs, es, h1, h2, h4, h5⟩

/-- C13 at a concrete input: `[1, "eth0", 2]` under RHS. -/
theorem json_parse_concat_expr_flat_witness :
    ∃ xs es, Json.array [.integer 1, .string "eth0", .integer 2] = .array xs
      ∧ expr.concat_expr [.symbol_expr .SYMBOL_VALUE "1", .symbol_expr .SYMBOL_VALUE "eth0",
          .symbol_expr .SYMBOL_VALUE "2"] = .concat_expr es
      ∧ List.Forall₂ (fun x child => ∃ mi mo,
          json_parse_primary_expr (json_parse_expr sample_registry) ⟨CTX_F_RHS, mi⟩ x
            = .ok (some child) ⟨CTX_F_RHS, mo⟩) xs es
      ∧ ∀ child ∈ es, child.etype ≠ .EXPR_CONCAT :=
  json_parse_concat_expr_flat sample_registry ⟨CTX_F_RHS, []⟩ "concat"
    (.array [.integer 1, .string "eth0", .integer 2])
    (.concat_expr [.symbol_expr .SYMBOL_VALUE "1", .symbol_expr .SYMBOL_VALUE "eth0",
      .symbol_expr .SYMBOL_VALUE "2"]) ⟨CTX_F_RHS, []⟩ rfl rfl

/-- C14 (the claim as written fails). The empty array gives no expression and
no error record; a one-element array gives the expression of that element. -/
theorem json_parse_concat_expr_short_arrays :
    json_parse_concat_expr (json_parse_expr sample_registry) ⟨CTX_F_RHS, []⟩ "concat"
        (.array [])
      = .ok none ⟨CTX_F_RHS, []⟩
    ∧ json_parse_concat_expr (json_parse_expr sample_registry) ⟨CTX_F_RHS, []⟩ "concat"
        (.array [.integer 1])
      = .ok (some (.symbol_expr .SYMBOL_VALUE "1")) ⟨CTX_F_RHS, []⟩ :=
  ⟨rfl, rfl⟩

/-- C14 (amended). For the empty array `json_parse_concat_expr` returns no
expression and queues nothing. For a one-element array it returns what the
primary parse of the element returns: that expression itself, which is not a
concat, or no expression with the index error when the element does not
parse. A concat is returned only for an array of at least two items, each of
which parses as a primary. -/
theorem json_parse_concat_expr_short (reg : Registry) (ctx : json_ctx) (type : String) :
    json_parse_concat_expr (json_parse_expr reg) ctx type (.array []) = .ok none ctx
      ∧ (∀ x, json_parse_concat_expr (json_parse_expr reg) ctx type (.array [x])
          = match json_parse_primary_expr (json_parse_expr reg) ctx x with
            | .fault => .fault
            | .ok none c => .ok none (json_error c "Parsing expr at index %zd failed." [.int 0])
            | .ok (some e) c => .ok (some e) c)
      ∧ (∀ x e c, json_parse_concat_expr (json_parse_expr reg) ctx type (.array [x])
          = .ok (some e) c → e.etype ≠ .EXPR_CONCAT)
      ∧ (∀ root e c, json_parse_concat_expr (json_parse_expr reg) ctx type root
          = .ok (some e) c → e.etype = .EXPR_CONCAT →
          ∃ xs, root = .array xs ∧ 2 ≤ xs.length
            ∧ ∀ x ∈ xs, ∃ child mi mo,
              json_parse_primary_expr (json_parse_expr reg) ⟨ctx.flags, mi⟩ x
                = .ok (some child) ⟨ctx.flags, mo⟩) := by
  obtain ⟨F, m⟩ := ctx
  have hone : ∀ x, json_parse_concat_expr (json_parse_expr reg) ⟨F, m⟩ type (.array [x])
      = match json_parse_primary_expr (json_parse_expr reg) ⟨F, m⟩ x with
        | .fault => .fault
        | .ok none c => .ok none (json_error c "Parsing expr at index %zd failed." [.int 0])
        | .ok (some e) c => .ok (some e) c := by
    intro x
    simp only [json_parse_concat_expr, json_is_array, json_array_items, Bool.not_true,
      Bool.false_eq_true, if_false, json_parse_concat_loop]
    split <;> simp_all [json_parse_concat_loop]
  refine ⟨rfl, hone, ?_, ?_⟩
  · intro x e c h
    rw [hone] at h
    split at h
    · cases h
    · cases h
    · rename_i e1 c1 heq
      cases h
      exact primary_expr_not_concat reg heq
  · intro root e c h hk
    obtain ⟨xs, es, h1, _, h3, h4, _⟩ := concat_expr_inv reg F m type root e c h hk
    refine ⟨xs, h1, h3, ?_⟩
    intro x hx
    obtain ⟨child, _, hr⟩ := forall₂_mem_left h4 x hx
    exact ⟨child, hr⟩

/-- C14 (amended) at a concrete input: the one-element array `[1]` under
RHS yields a symbol. -/
theorem json_parse_concat_expr_short_witness :
    json_parse_concat_expr (json_parse_expr sample_registry) ⟨CTX_F_RHS, []⟩ "concat"
        (.array [.integer 1])
      = .ok (some (.symbol_expr .SYMBOL_VALUE "1")) ⟨CTX_F_RHS, []⟩
    ∧ (expr.symbol_expr .SYMBOL_VALUE "1").etype ≠ .EXPR_CONCAT :=
  ⟨rfl, (json_parse_concat_expr_short sample_registry ⟨CTX_F_RHS, []⟩ "concat").2.2.1
    (.integer 1) (.symbol_expr .SYMBOL_VALUE "1") ⟨CTX_F_RHS, []⟩ rfl⟩

/-! ## C15, C16: scalar operands of set and the wrapping of set elements -/

/-- C15 (the code at the failing input). Under RHS the scalar operand `"@ip"`
of `set` is not returned as the set reference `ip`: the primitive reader
returns the value symbol `ip` (the keyword test discards `SYMBOL_SET`), and
`json_parse_set_expr` wraps it into a set of one element. For comparison,
`"@blocklist"` under RHS, and `"@ip"` when RHS is clear, are returned as bare
set references, and the plain string `"eth0"` gives a set holding one
SetElem that wraps the symbol. -/
theorem json_parse_set_expr_scalar_at_keyword :
    json_parse_set_expr (json_parse_expr sample_registry) ⟨CTX_F_RHS, []⟩ "set"
        (.string "@ip")
      = .ok (some (.set_expr [.set_elem_expr (.symbol_expr .SYMBOL_VALUE "ip") 0 0 none]))
          ⟨CTX_F_RHS, []⟩
    ∧ json_parse_set_expr (json_parse_expr sample_registry) ⟨CTX_F_RHS, []⟩ "set"
        (.string "@tcp")
      = .ok (some (.set_expr [.set_elem_expr
          (.constant_expr .inet_protocol_type .BYTEORDER_HOST_ENDIAN (8 * BITS_PER_BYTE)
            [IPPROTO_TCP]) 0 0 none])) ⟨CTX_F_RHS, []⟩
    ∧ json_parse_set_expr (json_parse_expr sample_registry) ⟨CTX_F_RHS, []⟩ "set"
        (.string "@blocklist")
      = .ok (some (.symbol_expr .SYMBOL_SET "blocklist")) ⟨CTX_F_RHS, []⟩
    ∧ json_parse_set_expr (json_parse_expr sample_registry) ⟨CTX_F_STMT, []⟩ "set"
        (.string "@ip")
      = .ok (some (.symbol_expr .SYMBOL_SET "ip")) ⟨CTX_F_STMT, []⟩
    ∧ json_parse_set_expr (json_parse_expr sample_registry) ⟨CTX_F_RHS, []⟩ "set"
        (.string "eth0")
      = .ok (some (.set_expr [.set_elem_expr (.symbol_expr .SYMBOL_VALUE "eth0") 0 0 none]))
          ⟨CTX_F_RHS, []⟩ :=
  ⟨rfl, rfl, rfl, rfl, rfl⟩

/-- The wrap used by `json_parse_set_expr` and `json_parse_set_elem_expr_stmt`
leaves a SetElem as it is: applying it twice is applying it once. -/
theorem set_elem_wrap_idem (e : expr) : set_elem_wrap (set_elem_wrap e) = set_elem_wrap e := by
  by_cases h : e.etype = .EXPR_SET_ELEM
  · have h1 : set_elem_wrap e = e := by simp [set_elem_wrap, h]
    rw [h1, h1]
  · have h1 : set_elem_wrap e = set_elem_expr_alloc e := by simp [set_elem_wrap, h]
    rw [h1]
    rfl

/-- C16 (the code at the failing input). Under RHS, `json_parse_expr` on
`{"elem": {"val": {"elem": {"val": 1}}}}` returns a SetElem whose wrapped
value is itself a SetElem: `json_parse_set_elem_expr` wraps the parsed `val`
without the kind test that `json_parse_set_expr` and
`json_parse_set_elem_expr_stmt` make before wrapping. -/
theorem json_parse_expr_elem_wrapped_twice :
    json_parse_expr sample_registry ⟨CTX_F_RHS, []⟩
        (.object [("elem", .object [("val", .object [("elem",
          .object [("val", .integer 1)])])])])
      = .ok (some (.set_elem_expr
          (.set_elem_expr (.symbol_expr .SYMBOL_VALUE "1") 0 0 none) 0 0 none))
          ⟨CTX_F_RHS, []⟩
    ∧ (expr.set_elem_expr (.symbol_expr .SYMBOL_VALUE "1") 0 0 none).etype
      = .EXPR_SET_ELEM :=
  ⟨rfl, rfl⟩

/-! ## C17, C18: seconds to milliseconds -/

theorem c_int_of_range (x : Int) (h0 : -2 ^ 31 ≤ x) (h1 : x ≤ 2 ^ 31 - 1) : c_int x = x := by
  unfold c_int
  rw [Int.emod_eq_of_lt (by omega) (by omega)]
  omega

theorem c_uint64_of_range (x : Int) (h0 : 0 ≤ x) (h1 : x < 2 ^ 64) : (c_uint64 x : Int) = x := by
  unfold c_uint64
  rw [Int.emod_eq_of_lt h0 h1, Int.toNat_of_nonneg h0]

theorem elem_msecs_exact (i : Int) (h0 : 0 ≤ i) (h1 : i * 1000 ≤ 2 ^ 31 - 1) :
    (elem_msecs i : Int) = i * 1000 := by
  unfold elem_msecs
  rw [c_int_of_range _ (by omega) h1, c_uint64_of_range _ (by omega) (by omega)]

theorem set_timeout_msecs_exact (i : Int) (h0 : 0 ≤ i) (h1 : i < 2 ^ 32) :
    (set_timeout_msecs i : Int) = i * 1000 := by
  unfold set_timeout_msecs store_int_u64
  rw [Int.emod_eq_of_lt h0 h1]
  have h2 : (i.toNat : Int) = i := Int.toNat_of_nonneg h0
  have h3 : i.toNat * 1000 < 2 ^ 64 := by omega
  rw [Nat.mod_eq_of_lt h3]
  push_cast
  rw [h2]

theorem set_gc_int_msecs_exact (i : Int) (h0 : 0 ≤ i) (h1 : i * 1000 < 2 ^ 32) :
    (set_gc_int_msecs i : Int) = i * 1000 := by
  unfold set_gc_int_msecs store_int_u32
  omega

/-- C17 (the code at the failing input). The element
`{"val": 1, "elem_timeout": 3000000}` is stored with timeout
18446744072414584320, not 3000000000: the product `i * 1000` is formed in the
C `int` `i`, wraps, and the negative result is converted to the 64-bit field.
For `elem_timeout` 30 the stored value is 30000. In an `add set` command a
`gc-interval` of 5000000 is stored as 705032704, not 5000000000. -/
theorem json_parse_set_elem_expr_timeout_wraps :
    json_parse_expr sample_registry ⟨CTX_F_RHS, []⟩
        (.object [("elem", .object [("val", .integer 1),
          ("elem_timeout", .integer 3000000)])])
      = .ok (some (.set_elem_expr (.symbol_expr .SYMBOL_VALUE "1") 18446744072414584320 0
          none)) ⟨CTX_F_RHS, []⟩
    ∧ (18446744072414584320 : Int) ≠ 3000000 * 1000
    ∧ json_parse_expr sample_registry ⟨CTX_F_RHS, []⟩
        (.object [("elem", .object [("val", .integer 1), ("elem_timeout", .integer 30)])])
      = .ok (some (.set_elem_expr (.symbol_expr .SYMBOL_VALUE "1") 30000 0 none))
          ⟨CTX_F_RHS, []⟩
    ∧ json_parse_cmd_add_set sample_registry sample_cmd_registry ⟨0, []⟩
        (.object [("family", .string "ip"), ("table", .string "t"), ("name", .string "s"),
          ("type", .string "ipv4_addr"), ("gc-interval", .integer 5000000)])
        .CMD_ADD .CMD_OBJ_SET
      = .ok (some (cmd_alloc .CMD_ADD .CMD_OBJ_SET
          { family := NFPROTO_IPV4, table_name := some "t", set_name := some "s" }
          (.set {
            handle := { family := NFPROTO_IPV4, table_name := some "t", set_name := some "s" },
            key := some (.constant_expr (.other "ipv4_addr") .BYTEORDER_BIG_ENDIAN 32 []),
            gc_int := 705032704 }))) ⟨0, []⟩
    ∧ (705032704 : Int) ≠ 5000000 * 1000 :=
  ⟨rfl, by decide, rfl, rfl, by decide⟩

theorem parse_family_known (name : String) (h : name ∈ spec_families) :
    0 ≤ parse_family name ∧ family_of_code (parse_family name) = some name := by
  simp only [spec_families, List.mem_cons, List.mem_singleton, List.not_mem_nil, or_false] at h
  rcases h with rfl | rfl | rfl | rfl | rfl | rfl <;> exact ⟨by decide, by decide⟩

theorem parse_family_unknown (name : String) (h : name ∉ spec_families) :
    parse_family name = -1 := by
  simp only [spec_families, List.mem_cons, List.mem_singleton, List.not_mem_nil, or_false,
    not_or] at h
  obtain ⟨h0, h1, h2, h3, h4, h5⟩ := h
  simp [parse_family, family_tbl, List.find?, h0, h1, h2, h3, h4, h5]

theorem parse_family_neg (name : String) (h : name ∉ spec_families) : parse_family name < 0 := by
  rw [parse_family_unknown name h]
  decide

theorem name_or_handle_cases (ctx : json_ctx) (root : Json) (op : cmd_ops)
    (setname : handle → String → handle) (what : String) (h : handle) :
    (name_or_handle_given root op = true
        ∧ ∃ h1, json_unpack_name_or_handle ctx root op setname what h = (some h1, ctx))
      ∨ (name_or_handle_given root op = false
        ∧ ∃ err, json_unpack_name_or_handle ctx root op setname what h
          = (none, ⟨ctx.flags, ctx.msgs ++ [err]⟩)) := by
  unfold name_or_handle_given json_unpack_name_or_handle
  by_cases hop : op ≠ .CMD_DELETE
  · rw [if_pos hop, if_pos hop]
    cases json_unpack_key_s root "name" with
    | none => exact Or.inr ⟨rfl, _, rfl⟩
    | some name => exact Or.inl ⟨rfl, _, rfl⟩
  · rw [if_neg hop, if_neg hop]
    cases json_unpack_key_s root "name" with
    | some name => exact Or.inl ⟨rfl, _, rfl⟩
    | none =>
      cases json_unpack_key_I root "handle" with
      | some id => exact Or.inl ⟨rfl, _, rfl⟩
      | none => exact Or.inr ⟨rfl, _, rfl⟩

theorem add_table_rejects (root : Json) (op : cmd_ops) (o : cmd_obj) (fam : String)
    (hf : json_unpack_key_s root "family" = some fam) (hn : fam ∉ spec_families) :
    rejects_unknown_family (fun ctx => json_parse_cmd_add_table ctx root op o)
      (name_or_handle_given root op = true) fam := by
  intro ctx
  have hneg := parse_family_neg fam hn
  simp only [json_parse_cmd_add_table, hf]
  rcases name_or_handle_cases ctx root op
      (fun h name => { h with table_name := some name }) "a table" {} with
    ⟨hg, h1, he⟩ | ⟨hg, err, he⟩
  · rw [he]
    dsimp only
    rw [if_pos hneg]
    exact ⟨⟨_, rfl⟩, fun _ => rfl⟩
  · rw [he]
    exact ⟨⟨_, rfl⟩, fun h => by rw [hg] at h; cases h⟩

theorem add_chain_rejects (creg : CmdRegistry) (root : Json) (op : cmd_ops) (o : cmd_obj)
    (fam : String) (hf : json_unpack_key_s root "family" = some fam)
    (hn : fam ∉ spec_families) :
    rejects_unknown_family (fun ctx => json_parse_cmd_add_chain creg ctx root op o)
      ((json_unpack_key_s root "table").isSome = true ∧ name_or_handle_given root op = true)
      fam := by
  intro ctx
  have hneg := parse_family_neg fam hn
  simp only [json_parse_cmd_add_chain, hf]
  cases ht : json_unpack_key_s root "table" with
  | none => exact ⟨⟨_, rfl⟩, fun h => by simp at h⟩
  | some table =>
    simp only
    rcases name_or_handle_cases ctx root op
        (fun h name => { h with chain_name := some name }) "a chain"
        { table_name := some table } with
      ⟨hg, h1, he⟩ | ⟨hg, err, he⟩
    · rw [he]
      dsimp only
      rw [if_pos hneg]
      exact ⟨⟨_, rfl⟩, fun _ => rfl⟩
    · rw [he]
      exact ⟨⟨_, rfl⟩, fun h => by rw [hg] at h; cases h.2⟩

theorem add_set_rejects (reg : Registry) (creg : CmdRegistry) (root : Json) (op : cmd_ops)
    (o : cmd_obj) (fam : String) (hf : json_unpack_key_s root "family" = some fam)
    (hn : fam ∉ spec_families) :
    rejects_unknown_family (fun ctx => json_parse_cmd_add_set reg creg ctx root op o)
      ((json_unpack_key_s root "table").isSome = true ∧ name_or_handle_given root op = true)
      fam := by
  intro ctx
  have hneg := parse_family_neg fam hn
  simp only [json_parse_cmd_add_set, hf]
  cases ht : json_unpack_key_s root "table" with
  | none => exact ⟨⟨_, rfl⟩, fun h => by simp at h⟩
  | some table =>
    simp only
    rcases name_or_handle_cases ctx root op
        (fun h name => { h with set_name := some name }) "a set"
        { table_name := some table } with
      ⟨hg, h1, he⟩ | ⟨hg, err, he⟩
    · rw [he]
      dsimp only
      rw [if_pos hneg]
      exact ⟨⟨_, rfl⟩, fun _ => rfl⟩
    · rw [he]
      exact ⟨⟨_, rfl⟩, fun h => by rw [hg] at h; cases h.2⟩

theorem add_rule_rejects (ps : stmt_parse_fn) (root : Json) (op : cmd_ops) (o : cmd_obj)
    (fam : String) (hf : json_unpack_key_s root "family" = some fam)
    (hn : fam ∉ spec_families) :
    rejects_unknown_family (fun ctx => json_parse_cmd_add_rule ps ctx root op o)
      (rule_members_given root op = true) fam := by
  intro ctx
  have hneg := parse_family_neg fam hn
  simp only [json_parse_cmd_add_rule, hf, rule_members_given]
  cases json_unpack_key_s root "table" with
  | none => exact ⟨⟨_, rfl⟩, fun h => by simp at h⟩
  | some table =>
    cases json_unpack_key_s root "chain" with
    | none => exact ⟨⟨_, rfl⟩, fun h => by simp at h⟩
    | some chainname =>
      dsimp only
      by_cases hop : op ≠ .CMD_DELETE
      · rw [if_pos hop, if_pos hop]
        cases json_unpack_key_o root "expr" with
        | none => exact ⟨⟨_, rfl⟩, fun h => by simp at h⟩
        | some tmp =>
          dsimp only
          rw [if_pos hneg]
          exact ⟨⟨_, rfl⟩, fun _ => rfl⟩
      · rw [if_neg hop, if_neg hop]
        cases json_unpack_key_I root "handle" with
        | none => exact ⟨⟨_, rfl⟩, fun h => by simp at h⟩
        | some id =>
          dsimp only
          rw [if_pos hneg]
          exact ⟨⟨_, rfl⟩, fun _ => rfl⟩

theorem add_element_rejects (reg : Registry) (root : Json) (op : cmd_ops) (o : cmd_obj)
    (fam : String) (hf : json_unpack_key_s root "family" = some fam)
    (hn : fam ∉ spec_families) :
    rejects_unknown_family (fun ctx => json_parse_cmd_add_element reg ctx root op o)
      ((json_unpack_key_s root "table").isSome = true
        ∧ (json_unpack_key_s root "name").isSome = true
        ∧ (json_unpack_key_o root "elem").isSome = true) fam := by
  intro ctx
  have hneg := parse_family_neg fam hn
  simp only [json_parse_cmd_add_element, hf]
  cases json_unpack_key_s root "table" with
  | none => exact ⟨⟨_, rfl⟩, fun h => by simp at h⟩
  | some table =>
    cases json_unpack_key_s root "name" with
    | none => exact ⟨⟨_, rfl⟩, fun h => by simp at h⟩
    | some name =>
      cases json_unpack_key_o root "elem" with
      | none => exact ⟨⟨_, rfl⟩, fun h => by simp at h⟩
      | some tmp =>
        dsimp only
        rw [if_pos hneg]
        exact ⟨⟨_, rfl⟩, fun _ => rfl⟩

theorem add_flowtable_rejects (creg : CmdRegistry) (root : Json) (op : cmd_ops) (o : cmd_obj)
    (fam : String) (hf : json_unpack_key_s root "family" = some fam)
    (hn : fam ∉ spec_families) :
    rejects_unknown_family (fun ctx => json_parse_cmd_add_flowtable creg ctx root op o)
      ((json_unpack_key_s root "table").isSome = true
        ∧ (json_unpack_key_s root "name").isSome = true) fam := by
  intro ctx
  have hneg := parse_family_neg fam hn
  simp only [json_parse_cmd_add_flowtable, hf]
  cases json_unpack_key_s root "table" with
  | none => exact ⟨⟨_, rfl⟩, fun h => by simp at h⟩
  | some table =>
    cases json_unpack_key_s root "name" with
    | none => exact ⟨⟨_, rfl⟩, fun h => by simp at h⟩
    | some name =>
      dsimp only
      rw [if_pos hneg]
      exact ⟨⟨_, rfl⟩, fun _ => rfl⟩

theorem add_object_rejects (creg : CmdRegistry) (root : Json) (op : cmd_ops) (o : cmd_obj)
    (fam : String) (hf : json_unpack_key_s root "family" = some fam)
    (hn : fam ∉ spec_families) :
    rejects_unknown_family (fun ctx => json_parse_cmd_add_object creg ctx root op o)
      (object_members_given root op o = true) fam := by
  intro ctx
  have hneg := parse_family_neg fam hn
  simp only [json_parse_cmd_add_object, hf, object_members_given]
  cases json_unpack_key_s root "table" with
  | none => exact ⟨⟨_, rfl⟩, fun h => by simp at h⟩
  | some table =>
    dsimp only
    by_cases hop : op ≠ .CMD_DELETE ∨ o = NFT_OBJECT_CT_HELPER_obj
    · rw [if_pos hop, if_pos hop]
      cases json_unpack_key_s root "name" with
      | none => exact ⟨⟨_, rfl⟩, fun h => by simp at h⟩
      | some name =>
        dsimp only
        rw [if_pos hneg]
        exact ⟨⟨_, rfl⟩, fun _ => rfl⟩
    · rw [if_neg hop, if_neg hop]
      cases json_unpack_key_s root "name" with
      | some name =>
        dsimp only
        rw [if_pos hneg]
        exact ⟨⟨_, rfl⟩, fun _ => rfl⟩
      | none =>
        cases json_unpack_key_I root "handle" with
        | some id =>
          dsimp only
          rw [if_pos hneg]
          exact ⟨⟨_, rfl⟩, fun _ => rfl⟩
        | none => exact ⟨⟨_, rfl⟩, fun h => by simp at h⟩

theorem replace_rejects (ps : stmt_parse_fn) (root : Json) (op : cmd_ops)
    (fam : String) (hf : json_unpack_key_s root "family" = some fam)
    (hn : fam ∉ spec_families) :
    rejects_unknown_family (fun ctx => json_parse_cmd_replace ps ctx root op)
      (replace_members_given root op = true) fam := by
  intro ctx
  have hneg := parse_family_neg fam hn
  simp only [json_parse_cmd_replace, hf, replace_members_given]
  cases json_unpack_key_o root "rule" with
  | none => exact ⟨⟨_, rfl⟩, fun h => by simp at h⟩
  | some r =>
    cases json_unpack_key_s root "table" with
    | none => exact ⟨⟨_, rfl⟩, fun h => by simp at h⟩
    | some table =>
      cases json_unpack_key_s root "chain" with
      | none => exact ⟨⟨_, rfl⟩, fun h => by simp at h⟩
      | some chainname =>
        cases json_unpack_key_o root "expr" with
        | none => exact ⟨⟨_, rfl⟩, fun h => by simp at h⟩
        | some tmp =>
          dsimp only
          by_cases h1 : op = .CMD_REPLACE
          · have h2 : ¬ (op = .CMD_INSERT) := by rw [h1]; decide
            rw [if_pos h1, if_pos h1, if_neg h2]
            cases json_unpack_key_I root "handle" with
            | none => exact ⟨⟨_, rfl⟩, fun h => by simp at h⟩
            | some id =>
              dsimp only
              rw [if_neg h2]
              dsimp only
              rw [if_pos hneg]
              exact ⟨⟨_, rfl⟩, fun _ => rfl⟩
          · rw [if_neg h1, if_neg h1]
            dsimp only
            by_cases h2 : op = .CMD_INSERT
            · rw [if_pos h2, if_pos h2]
              cases json_unpack_key_i root "pos" with
              | none => exact ⟨⟨_, rfl⟩, fun h => by simp at h⟩
              | some pos =>
                dsimp only
                rw [if_pos hneg]
                exact ⟨⟨_, rfl⟩, fun _ => rfl⟩
            · rw [if_neg h2, if_neg h2]
              dsimp only
              rw [if_pos hneg]
              exact ⟨⟨_, rfl⟩, fun _ => rfl⟩

theorem list_multiple_rejects (root : Json) (op : cmd_ops) (o : cmd_obj)
    (fam : String) (hf : json_unpack_key_s root "family" = some fam)
    (hn : fam ∉ spec_families) :
    rejects_unknown_family (fun ctx => json_parse_cmd_list_multiple ctx root op o) True fam := by
  intro ctx
  have hneg := parse_family_neg fam hn
  simp only [json_parse_cmd_list_multiple, hf]
  rw [if_pos hneg]
  exact ⟨⟨_, rfl⟩, fun _ => rfl⟩

theorem rename_rejects (root : Json) (op : cmd_ops) (members : List (String × Json))
    (fam : String) (hc : json_object_get root "chain" = some (.object members))
    (hf : json_unpack_key_s (.object members) "family" = some fam)
    (hn : fam ∉ spec_families) :
    rejects_unknown_family (fun ctx => json_parse_cmd_rename ctx root op)
      ((json_unpack_key_s (.object members) "table").isSome = true
        ∧ (json_unpack_key_s (.object members) "name").isSome = true
        ∧ (json_unpack_key_s (.object members) "newname").isSome = true) fam := by
  intro ctx
  have hneg := parse_family_neg fam hn
  simp only [json_parse_cmd_rename, hc, hf]
  cases json_unpack_key_s (.object members) "table" with
  | none => exact ⟨⟨_, rfl⟩, fun h => by simp at h⟩
  | some table =>
    cases json_unpack_key_s (.object members) "name" with
    | none => exact ⟨⟨_, rfl⟩, fun h => by simp at h⟩
    | some name =>
      cases json_unpack_key_s (.object members) "newname" with
      | none => exact ⟨⟨_, rfl⟩, fun h => by simp at h⟩
      | some newname =>
        dsimp only
        rw [if_pos hneg]
        exact ⟨⟨_, rfl⟩, fun _ => rfl⟩

theorem parse_family_nonneg_iff (name : String) :
    0 ≤ parse_family name ↔ name ∈ spec_families := by
  constructor
  · intro h
    by_contra hn
    have := parse_family_neg name hn
    omega
  · intro h
    exact (parse_family_known name h).1

theorem parse_family_inj (a b : String) (ha : a ∈ spec_families) (hb : b ∈ spec_families)
    (h : parse_family a = parse_family b) : a = b := by
  have h1 := (parse_family_known a ha).2
  have h2 := (parse_family_known b hb).2
  rw [h, h2] at h1
  exact (Option.some.inj h1).symm

/-- C19 (counterexample): an `add table` operand with the unknown family `foo`
and no `name` member yields no command, but the one error recorded is the
library's unpack error for the missing `name`, not the 'Unknown family' error:
the name is read before the family is checked. -/
theorem json_parse_cmd_add_table_name_first :
    json_parse_cmd_add_table ⟨0, []⟩ (.object [("family", .string "foo")])
        .CMD_ADD .CMD_OBJ_TABLE
      = .ok none (json_unpack_err ⟨0, []⟩)
    ∧ json_unpack_err ⟨0, []⟩ ≠ json_error ⟨0, []⟩ "Unknown family '%s'." [.str "foo"] := by
  refine ⟨rfl, ?_⟩
  intro h
  cases h

/-- C19 (amended): `parse_family` returns a non-negative code exactly for the
six names `ip`, `ip6`, `inet`, `arp`, `bridge`, `netdev` and the sentinel `-1`
for every other string; on the six names it is injective and looking the code
up in `family_tbl` recovers the name. Every command builder that reads
`family` returns no command and records exactly one error when the family is
any other string, and that error is the 'Unknown family' error whenever the
members the builder reads before its family check are given. -/
theorem parse_family_round_trip :
    (∀ name : String, (0 ≤ parse_family name ↔ name ∈ spec_families)
      ∧ (name ∉ spec_families → parse_family name = -1))
    ∧ (∀ a b : String, a ∈ spec_families → b ∈ spec_families →
        parse_family a = parse_family b → a = b)
    ∧ (∀ name : String, name ∈ spec_families →
        family_of_code (parse_family name) = some name)
    ∧ (∀ (reg : Registry) (sreg : StmtRegistry) (creg : CmdRegistry) (root : Json)
        (fam : String) (op : cmd_ops) (o : cmd_obj),
        json_unpack_key_s root "family" = some fam → fam ∉ spec_families →
        rejects_unknown_family (fun ctx => json_parse_cmd_add_table ctx root op o)
            (name_or_handle_given root op = true) fam
        ∧ rejects_unknown_family (fun ctx => json_parse_cmd_add_chain creg ctx root op o)
            ((json_unpack_key_s root "table").isSome = true
              ∧ name_or_handle_given root op = true) fam
        ∧ rejects_unknown_family
            (fun ctx => json_parse_cmd_add_rule (json_parse_stmt reg sreg) ctx root op o)
            (rule_members_given root op = true) fam
        ∧ rejects_unknown_family (fun ctx => json_parse_cmd_add_set reg creg ctx root op o)
            ((json_unpack_key_s root "table").isSome = true
              ∧ name_or_handle_given root op = true) fam
        ∧ rejects_unknown_family (fun ctx => json_parse_cmd_add_element reg ctx root op o)
            ((json_unpack_key_s root "table").isSome = true
              ∧ (json_unpack_key_s root "name").isSome = true
              ∧ (json_unpack_key_o root "elem").isSome = true) fam
        ∧ rejects_unknown_family
            (fun ctx => json_parse_cmd_add_flowtable creg ctx root op o)
            ((json_unpack_key_s root "table").isSome = true
              ∧ (json_unpack_key_s root "name").isSome = true) fam
        ∧ rejects_unknown_family (fun ctx => json_parse_cmd_add_object creg ctx root op o)
            (object_members_given root op o = true) fam
        ∧ rejects_unknown_family
            (fun ctx => json_parse_cmd_replace (json_parse_stmt reg sreg) ctx root op)
            (replace_members_given root op = true) fam
        ∧ rejects_unknown_family (fun ctx => json_parse_cmd_list_multiple ctx root op o)
            True fam)
    ∧ (∀ (root : Json) (members : List (String × Json)) (fam : String) (op : cmd_ops),
        json_object_get root "chain" = some (.object members) →
        json_unpack_key_s (.object members) "family" = some fam → fam ∉ spec_families →
        rejects_unknown_family (fun ctx => json_parse_cmd_rename ctx root op)
          ((json_unpack_key_s (.object members) "table").isSome = true
            ∧ (json_unpack_key_s (.object members) "name").isSome = true
            ∧ (json_unpack_key_s (.object members) "newname").isSome = true) fam) := by
  refine ⟨fun name => ⟨parse_family_nonneg_iff name, parse_family_unknown name⟩,
    parse_family_inj, fun name h => (parse_family_known name h).2, ?_, ?_⟩
  · intro reg sreg creg root fam op o hf hn
    exact ⟨add_table_rejects root op o fam hf hn, add_chain_rejects creg root op o fam hf hn,
      add_rule_rejects _ root op o fam hf hn, add_set_rejects reg creg root op o fam hf hn,
      add_element_rejects reg root op o fam hf hn,
      add_flowtable_rejects creg root op o fam hf hn,
      add_object_rejects creg root op o fam hf hn, replace_rejects _ root op fam hf hn,
      list_multiple_rejects root op o fam hf hn⟩
  · intro root members fam op hc hf hn
    exact rename_rejects root op members fam hc hf hn

/-- C19 (witness): the operand `{"family": "foo", "name": "t"}` of `add table`
names an unknown family and gives its name, so the builder returns no command
with the 'Unknown family' error; `inet` maps to a code that is found again in
the table. -/
theorem parse_family_round_trip_witness :
    json_parse_cmd_add_table ⟨0, []⟩
        (.object [("family", .string "foo"), ("name", .string "t")]) .CMD_ADD .CMD_OBJ_TABLE
      = .ok none (json_error ⟨0, []⟩ "Unknown family '%s'." [.str "foo"])
    ∧ family_of_code (parse_family "inet") = some "inet" :=
  ⟨((parse_family_round_trip.2.2.2.1 sample_registry sample_stmt_registry
      sample_cmd_registry (.object [("family", .string "foo"), ("name", .string "t")]) "foo"
      .CMD_ADD .CMD_OBJ_TABLE rfl (by decide)).1 ⟨0, []⟩).2 rfl,
   parse_family_round_trip.2.2.1 "inet" (by decide)⟩

/-! ## C20: a run of `__json_parse` in which every command is accepted -/

theorem cmds_loop_appends {σ : Type} (reg : Registry) (sreg : StmtRegistry)
    (creg : CmdRegistry) (ev : Evaluator σ) (ctx ctx2 : json_ctx) (st st2 : σ)
    (items : List Json) (built : List cmd)
    (hall : builds_all reg sreg creg ev ctx st items built ctx2 st2) :
    ∀ (cmds : List cmd) (index : Nat),
      json_parse_cmds_loop reg sreg creg ev ctx st cmds items index
        = .ok (0, cmds ++ built, st2) ctx2 := by
  induction hall with
  | nil ctx st =>
    intro cmds index
    simp only [json_parse_cmds_loop, List.append_nil]
  | cons ctx ctx1 ctx2 st st2 value rest c built hobj hcmd hev hrest ih =>
    intro cmds index
    have hneg : ¬ (ev.cmd_evaluate st c).1 < 0 := by omega
    rw [json_parse_cmds_loop]
    simp only [hobj, hcmd, Bool.not_true, Bool.false_eq_true, if_false]
    rw [if_neg hneg, ih (cmds ++ [c]) (index + 1), List.append_assoc]
    rfl

theorem builds_all_aligned {σ : Type} (reg : Registry) (sreg : StmtRegistry)
    (creg : CmdRegistry) (ev : Evaluator σ) (ctx ctx2 : json_ctx) (st st2 : σ)
    (items : List Json) (built : List cmd)
    (hall : builds_all reg sreg creg ev ctx st items built ctx2 st2) :
    List.Forall₂ (fun value c => json_is_object value = true
        ∧ ∃ c1 c2, json_parse_cmd reg sreg creg c1 value = .ok (some c) c2) items built := by
  induction hall with
  | nil ctx st => exact List.Forall₂.nil
  | cons ctx ctx1 ctx2 st st2 value rest c built hobj hcmd hev hrest ih =>
    exact List.Forall₂.cons ⟨hobj, ctx, ctx1, hcmd⟩ ih

/-- C20: if `nftables` is an array whose elements, in order, are all objects
for which `json_parse_cmd` builds a command that the evaluator accepts, then
`__json_parse` returns 0 and the command list is its prior content followed by
the built commands, one per element in array order; for an empty array it
returns 0 with the command list, the evaluator state and the error queue
unchanged. -/
theorem json_parse_appends_commands {σ : Type} (reg : Registry) (sreg : StmtRegistry)
    (creg : CmdRegistry) (ev : Evaluator σ) (ctx ctx2 : json_ctx) (st st2 : σ)
    (cmds built : List cmd) (root tmp : Json)
    (hroot : json_unpack_key_o root "nftables" = some tmp)
    (harr : json_is_array tmp = true)
    (hall : builds_all reg sreg creg ev ctx st (json_array_items tmp) built ctx2 st2) :
    __json_parse reg sreg creg ev ctx st cmds root = .ok (0, cmds ++ built, st2) ctx2
    ∧ built.length = (json_array_items tmp).length
    ∧ List.Forall₂ (fun value c => json_is_object value = true
        ∧ ∃ c1 c2, json_parse_cmd reg sreg creg c1 value = .ok (some c) c2)
        (json_array_items tmp) built
    ∧ (json_array_items tmp = [] →
        __json_parse reg sreg creg ev ctx st cmds root = .ok (0, cmds, st) ctx) := by
  have hal := builds_all_aligned reg sreg creg ev ctx ctx2 st st2 _ built hall
  refine ⟨?_, hal.length_eq.symm, hal, ?_⟩
  · simp only [__json_parse, hroot, harr, Bool.not_true, Bool.false_eq_true, if_false]
    exact cmds_loop_appends reg sreg creg ev ctx ctx2 st st2 _ built hall cmds 0
  · intro hnil
    simp only [__json_parse, hroot, harr, Bool.not_true, Bool.false_eq_true, if_false, hnil,
      json_parse_cmds_loop]

/-- C20 (witness): the document with the commands `add table ip filter` and
`add table ip6 nat`, parsed with an empty command list, leaves exactly these two
commands in this order and no error. -/
theorem json_parse_appends_commands_witness :
    __json_parse sample_registry sample_stmt_registry sample_cmd_registry sample_evaluator
        ⟨0, []⟩ () [] (.object [("nftables", .array [sample_add_table, sample_add_table6])])
      = .ok (0, [] ++ [cmd_alloc .CMD_ADD .CMD_OBJ_TABLE
            { family := NFPROTO_IPV4, table_name := some "filter" } .none,
          cmd_alloc .CMD_ADD .CMD_OBJ_TABLE
            { family := NFPROTO_IPV6, table_name := some "nat" } .none], ()) ⟨0, []⟩ :=
  (json_parse_appends_commands sample_registry sample_stmt_registry sample_cmd_registry
    sample_evaluator ⟨0, []⟩ ⟨0, []⟩ () () [] _
    (.object [("nftables", .array [sample_add_table, sample_add_table6])])
    (.array [sample_add_table, sample_add_table6]) rfl rfl
    (builds_all.cons _ _ _ _ _ _ _ _ _ rfl rfl (by decide)
      (builds_all.cons _ _ _ _ _ _ _ _ _ rfl rfl (by decide)
        (builds_all.nil _ _)))).1

/-! ## C24: the one-key reader -/

theorem unpack_stmt_some_iff (ctx c : json_ctx) (root : Json) (kv : String × Json) :
    json_unpack_stmt ctx root = (some kv, c) ↔ root = .object [kv] ∧ c = ctx := by
  rw [json_unpack_stmt_eq]
  constructor
  · intro h
    split at h
    · simp only [Prod.mk.injEq, Option.some.injEq] at h
      obtain ⟨rfl, rfl⟩ := h
      exact ⟨rfl, rfl⟩
    · simp at h
  · rintro ⟨rfl, rfl⟩
    rfl

theorem unpack_stmt_malformed (ctx : json_ctx) (members : List (String × Json))
    (h : members.length ≠ 1) :
    json_unpack_stmt ctx (.object members)
      = (none, ⟨ctx.flags, ctx.msgs
          ++ [Erec.error "Malformed object (too many properties): '%s'."
              [.dump (.object members)]]⟩) := by
  rw [json_unpack_stmt_eq]
  rcases members with _ | ⟨kv, _ | ⟨kv2, rest⟩⟩
  · rfl
  · simp at h
  · rfl

/-- C24: `json_unpack_stmt` succeeds exactly on an object with exactly one
key, and then yields that key and its value with the queue untouched; for an
object with zero keys or with two or more keys it appends exactly one error
and fails, and `json_parse_expr` and `json_parse_stmt` on such an object
return no node with that one error. -/
theorem json_unpack_stmt_one_key (reg : Registry) (sreg : StmtRegistry) (ctx : json_ctx)
    (root : Json) :
    (∀ (key : String) (value : Json) (c : json_ctx),
        json_unpack_stmt ctx root = (some (key, value), c)
          ↔ root = .object [(key, value)] ∧ c = ctx)
    ∧ ((∃ kv c, json_unpack_stmt ctx root = (some kv, c))
        ↔ ∃ key value, root = .object [(key, value)])
    ∧ (∀ members : List (String × Json), root = .object members → members.length ≠ 1 →
        json_unpack_stmt ctx root
          = (none, ⟨ctx.flags, ctx.msgs
              ++ [Erec.error "Malformed object (too many properties): '%s'."
                  [.dump root]]⟩)
        ∧ json_parse_expr reg ctx root
          = .ok none ⟨ctx.flags, ctx.msgs
              ++ [Erec.error "Malformed object (too many properties): '%s'."
                  [.dump root]]⟩
        ∧ json_parse_stmt reg sreg ctx root
          = .ok none ⟨ctx.flags, ctx.msgs
              ++ [Erec.error "Malformed object (too many properties): '%s'."
                  [.dump root]]⟩) := by
  refine ⟨fun key value c => unpack_stmt_some_iff ctx c root (key, value), ?_, ?_⟩
  · constructor
    · rintro ⟨⟨key, value⟩, c, h⟩
      exact ⟨key, value, ((unpack_stmt_some_iff ctx c root (key, value)).1 h).1⟩
    · rintro ⟨key, value, rfl⟩
      exact ⟨(key, value), ctx, (unpack_stmt_some_iff ctx ctx _ (key, value)).2 ⟨rfl, rfl⟩⟩
  · rintro members rfl hlen
    have hu := unpack_stmt_malformed ctx members hlen
    refine ⟨hu, ?_, ?_⟩
    · rw [json_parse_expr_eq]
      simp only [json_parse_expr_body, json_parse_expr_with, json_is_integer, json_is_boolean,
        hu]
      simp
    · rw [json_parse_stmt_eq]
      simp only [json_parse_stmt_body, hu]

/-- C24 (witness): the empty object and an object with the two keys `accept`
and `drop` are refused by the statement parser with the one error of the
one-key reader. -/
theorem json_unpack_stmt_one_key_witness :
    json_parse_stmt sample_registry sample_stmt_registry ⟨0, []⟩ (.object [])
      = .ok none ⟨0, [Erec.error "Malformed object (too many properties): '%s'."
          [.dump (.object [])]]⟩
    ∧ json_parse_stmt sample_registry sample_stmt_registry ⟨0, []⟩
        (.object [("accept", .null), ("drop", .null)])
      = .ok none ⟨0, [Erec.error "Malformed object (too many properties): '%s'."
          [.dump (.object [("accept", .null), ("drop", .null)])]]⟩ :=
  ⟨((json_unpack_stmt_one_key sample_registry sample_stmt_registry ⟨0, []⟩
      (.object [])).2.2 [] rfl (by decide)).2.2,
   ((json_unpack_stmt_one_key sample_registry sample_stmt_registry ⟨0, []⟩
      (.object [("accept", .null), ("drop", .null)])).2.2 _ rfl (by decide)).2.2⟩

/-! ## C27: the table builder -/

theorem name_or_handle_table (ctx : json_ctx) (root : Json) (op : cmd_ops) :
    (name_or_handle_given root op = true
      ∧ json_unpack_name_or_handle ctx root op
          (fun h name => { h with table_name := some name }) "a table" {}
        = (some (match json_unpack_key_s root "name" with
            | some name => { table_name := some name }
            | none => { handle_id := c_uint64 ((json_unpack_key_I root "handle").getD 0) }),
          ctx))
    ∨ (name_or_handle_given root op = false
      ∧ ∃ err, json_unpack_name_or_handle ctx root op
          (fun h name => { h with table_name := some name }) "a table" {}
        = (none, ⟨ctx.flags, ctx.msgs ++ [err]⟩)) := by
  unfold name_or_handle_given json_unpack_name_or_handle
  by_cases hop : op ≠ .CMD_DELETE
  · rw [if_pos hop, if_pos hop]
    cases json_unpack_key_s root "name" with
    | none => exact Or.inr ⟨rfl, _, rfl⟩
    | some name => exact Or.inl ⟨rfl, rfl⟩
  · rw [if_neg hop, if_neg hop]
    cases json_unpack_key_s root "name" with
    | some name => exact Or.inl ⟨rfl, rfl⟩
    | none =>
      cases json_unpack_key_I root "handle" with
      | some id => exact Or.inl ⟨rfl, rfl⟩
      | none => exact Or.inr ⟨rfl, _, rfl⟩

/-- C27: `json_parse_cmd_add_table` returns a command if and only if `family`
is a string naming one of the six families and `name` is a string or, for a
delete only, `handle` is an integer. The command then has the given operator
and object kind, the family code of the named family and the given name (for a
delete without a name: the handle), and no error is queued; in every other
case no command is returned and exactly one error is queued. -/
theorem json_parse_cmd_add_table_iff (ctx : json_ctx) (root : Json) (op : cmd_ops)
    (o : cmd_obj) :
    ((∃ c ctx1, json_parse_cmd_add_table ctx root op o = .ok (some c) ctx1)
      ↔ (∃ fam, json_unpack_key_s root "family" = some fam ∧ fam ∈ spec_families)
        ∧ name_or_handle_given root op = true)
    ∧ (∀ fam, json_unpack_key_s root "family" = some fam → fam ∈ spec_families →
        name_or_handle_given root op = true →
        json_parse_cmd_add_table ctx root op o
          = .ok (some (cmd_alloc op o
              (match json_unpack_key_s root "name" with
                | some name => { family := parse_family fam, table_name := some name }
                | none =>
                  { family := parse_family fam,
                    handle_id := c_uint64 ((json_unpack_key_I root "handle").getD 0) })
              .none)) ctx)
    ∧ (¬ ((∃ fam, json_unpack_key_s root "family" = some fam ∧ fam ∈ spec_families)
          ∧ name_or_handle_given root op = true) →
        ∃ err, json_parse_cmd_add_table ctx root op o
          = .ok none ⟨ctx.flags, ctx.msgs ++ [err]⟩) := by
  have hgood : ∀ fam, json_unpack_key_s root "family" = some fam → fam ∈ spec_families →
      name_or_handle_given root op = true →
      json_parse_cmd_add_table ctx root op o
        = .ok (some (cmd_alloc op o
            (match json_unpack_key_s root "name" with
              | some name => { family := parse_family fam, table_name := some name }
              | none =>
                { family := parse_family fam,
                  handle_id := c_uint64 ((json_unpack_key_I root "handle").getD 0) })
            .none)) ctx := by
    intro fam hf hm hg
    have hnn : ¬ parse_family fam < 0 := not_lt.mpr (parse_family_known fam hm).1
    simp only [json_parse_cmd_add_table, hf]
    rcases name_or_handle_table ctx root op with ⟨_, he⟩ | ⟨hg2, _⟩
    · rw [he]
      dsimp only
      rw [if_neg hnn]
      cases json_unpack_key_s root "name" <;> rfl
    · rw [hg] at hg2
      cases hg2
  have hbad : ¬ ((∃ fam, json_unpack_key_s root "family" = some fam ∧ fam ∈ spec_families)
        ∧ name_or_handle_given root op = true) →
      ∃ err, json_parse_cmd_add_table ctx root op o
        = .ok none ⟨ctx.flags, ctx.msgs ++ [err]⟩ := by
    intro hn
    simp only [json_parse_cmd_add_table]
    cases hf : json_unpack_key_s root "family" with
    | none => exact ⟨_, rfl⟩
    | some fam =>
      dsimp only
      rcases name_or_handle_table ctx root op with ⟨hg, he⟩ | ⟨_, err, he⟩
      · rw [he]
        dsimp only
        have hneg : parse_family fam < 0 :=
          parse_family_neg fam (fun hm => hn ⟨⟨fam, hf, hm⟩, hg⟩)
        rw [if_pos hneg]
        exact ⟨_, rfl⟩
      · rw [he]
        exact ⟨err, rfl⟩
  refine ⟨⟨?_, ?_⟩, hgood, hbad⟩
  · rintro ⟨c, ctx1, h⟩
    by_contra hn
    obtain ⟨err, he⟩ := hbad hn
    rw [he] at h
    cases h
  · rintro ⟨⟨fam, hf, hm⟩, hg⟩
    exact ⟨_, _, hgood fam hf hm hg⟩

/-- C27 (witness): family `ip` and name `filter` give an Add-Table command
with the family code of `ip` and the name `filter`. -/
theorem json_parse_cmd_add_table_iff_witness :
    json_parse_cmd_add_table ⟨0, []⟩
        (.object [("family", .string "ip"), ("name", .string "filter")]) .CMD_ADD
        .CMD_OBJ_TABLE
      = .ok (some (cmd_alloc .CMD_ADD .CMD_OBJ_TABLE
          { family := NFPROTO_IPV4, table_name := some "filter" } .none)) ⟨0, []⟩ :=
  (json_parse_cmd_add_table_iff ⟨0, []⟩
    (.object [("family", .string "ip"), ("name", .string "filter")]) .CMD_ADD
    .CMD_OBJ_TABLE).2.1 "ip" rfl (by decide) rfl

/-! ## C23: objects with no key or with several keys at the command level -/

theorem cmd_loop_eq (tbl : List parse_cb_entry) (ctx : json_ctx) (root : Json) :
    json_parse_cmd_loop tbl ctx root
      = match tbl.find? (fun r => (json_object_get root r.key).isSome) with
        | none => .ok none (json_error ctx "Unknown command object." [])
        | some row => row.cb ctx ((json_object_get root row.key).getD .null) row.op := by
  induction tbl with
  | nil => rfl
  | cons row rest ih =>
    rw [json_parse_cmd_loop, List.find?_cons]
    cases h : json_object_get root row.key with
    | none => simpa using ih
    | some tmp => simp [h]

theorem cmd_obj_loop_eq (tbl : List cmd_obj_entry) (create_guard : Bool) (name : String)
    (ctx : json_ctx) (root : Json) (op : cmd_ops) :
    json_parse_cmd_obj_loop tbl create_guard name ctx root op
      = match tbl.find? (fun r => (json_object_get root r.key).isSome) with
        | none =>
          .ok none (json_error ctx ("Unknown object passed to " ++ name ++ " command.") [])
        | some row =>
          if create_guard && decide (op = .CMD_CREATE) && decide (row.obj = .CMD_OBJ_RULE) then
            .ok none (json_error ctx "Create command not available for rules." [])
          else row.cb ctx ((json_object_get root row.key).getD .null) op row.obj := by
  induction tbl with
  | nil => rfl
  | cons row rest ih =>
    rw [json_parse_cmd_obj_loop, List.find?_cons]
    cases h : json_object_get root row.key with
    | none => simpa using ih
    | some tmp => simp [h]

/-- C23 (counterexample): an array element carrying both the operator `add`
and the operator `delete` is resolved to the `add`, and an `add` value carrying
both a `table` and a `chain` is resolved to the table: a command is built and
no error is queued. -/
theorem json_parse_cmd_two_keys_resolved :
    json_parse_cmd sample_registry sample_stmt_registry sample_cmd_registry ⟨0, []⟩
        (.object [("delete", .object [("table",
            .object [("family", .string "ip6"), ("name", .string "nat")])]),
          ("add", .object [("table",
            .object [("family", .string "ip"), ("name", .string "filter")])])])
      = .ok (some (cmd_alloc .CMD_ADD .CMD_OBJ_TABLE
          { family := NFPROTO_IPV4, table_name := some "filter" } .none)) ⟨0, []⟩
    ∧ json_parse_cmd sample_registry sample_stmt_registry sample_cmd_registry ⟨0, []⟩
        (.object [("add", .object [
          ("chain", .object [("family", .string "ip"), ("table", .string "filter"),
            ("name", .string "input")]),
          ("table", .object [("family", .string "ip"), ("name", .string "filter")])])])
      = .ok (some (cmd_alloc .CMD_ADD .CMD_OBJ_TABLE
          { family := NFPROTO_IPV4, table_name := some "filter" } .none)) ⟨0, []⟩ :=
  ⟨rfl, rfl⟩

/-- C23 (amended): the command parser takes the first row of its operator
table (add, replace, create, insert, delete, list, reset, flush, rename) whose
key is a member of the element, and the add, list, reset and flush parsers
take the first row of their object table whose key is a member of the operator
value; the other members are ignored. When no row matches, in particular for
an object with zero keys, exactly one error is queued and no command is
built. -/
theorem json_parse_cmd_first_key (reg : Registry) (sreg : StmtRegistry) (creg : CmdRegistry)
    (ctx : json_ctx) (root : Json) (op : cmd_ops) :
    json_parse_cmd reg sreg creg ctx root
      = (match (parse_cb_table reg sreg creg).find?
            (fun r => (json_object_get root r.key).isSome) with
        | none => .ok none (json_error ctx "Unknown command object." [])
        | some row => row.cb ctx ((json_object_get root row.key).getD .null) row.op)
    ∧ (json_is_object root = true →
        json_parse_cmd_add reg sreg creg ctx root op
          = (match (cmd_add_table reg sreg creg).find?
                (fun r => (json_object_get root r.key).isSome) with
            | none => .ok none (json_error ctx "Unknown object passed to add command." [])
            | some row =>
              if op = .CMD_CREATE ∧ row.obj = .CMD_OBJ_RULE then
                .ok none (json_error ctx "Create command not available for rules." [])
              else row.cb ctx ((json_object_get root row.key).getD .null) op row.obj)
        ∧ json_parse_cmd_list reg creg ctx root op
          = (match (cmd_list_table reg creg).find?
                (fun r => (json_object_get root r.key).isSome) with
            | none => .ok none (json_error ctx "Unknown object passed to list command." [])
            | some row => row.cb ctx ((json_object_get root row.key).getD .null) op row.obj)
        ∧ json_parse_cmd_reset creg ctx root op
          = (match (cmd_reset_table creg).find?
                (fun r => (json_object_get root r.key).isSome) with
            | none => .ok none (json_error ctx "Unknown object passed to reset command." [])
            | some row => row.cb ctx ((json_object_get root row.key).getD .null) op row.obj)
        ∧ json_parse_cmd_flush reg creg ctx root op
          = (match (cmd_flush_table reg creg).find?
                (fun r => (json_object_get root r.key).isSome) with
            | none => .ok none (json_error ctx "Unknown object passed to flush command." [])
            | some row => row.cb ctx ((json_object_get root row.key).getD .null) op row.obj))
    ∧ (root = .object [] →
        json_parse_cmd reg sreg creg ctx root
          = .ok none ⟨ctx.flags, ctx.msgs ++ [Erec.error "Unknown command object." []]⟩
        ∧ json_parse_cmd_add reg sreg creg ctx root op
          = .ok none ⟨ctx.flags, ctx.msgs
              ++ [Erec.error "Unknown object passed to add command." []]⟩
        ∧ json_parse_cmd_replace (json_parse_stmt reg sreg) ctx root op
          = .ok none ⟨ctx.flags, ctx.msgs ++ [Erec.lib]⟩
        ∧ json_parse_cmd_list reg creg ctx root op
          = .ok none ⟨ctx.flags, ctx.msgs
              ++ [Erec.error "Unknown object passed to list command." []]⟩
        ∧ json_parse_cmd_reset creg ctx root op
          = .ok none ⟨ctx.flags, ctx.msgs
              ++ [Erec.error "Unknown object passed to reset command." []]⟩
        ∧ json_parse_cmd_flush reg creg ctx root op
          = .ok none ⟨ctx.flags, ctx.msgs
              ++ [Erec.error "Unknown object passed to flush command." []]⟩
        ∧ json_parse_cmd_rename ctx root op
          = .ok none ⟨ctx.flags, ctx.msgs ++ [Erec.lib]⟩) := by
  refine ⟨cmd_loop_eq _ ctx root, ?_, ?_⟩
  · intro hobj
    refine ⟨?_, ?_, ?_, ?_⟩
    · simp only [json_parse_cmd_add, hobj, Bool.not_true, Bool.false_eq_true, if_false]
      rw [cmd_obj_loop_eq]
      split
      · rfl
      · simp only [Bool.true_and, Bool.and_eq_true, decide_eq_true_eq]
    · simp only [json_parse_cmd_list, hobj, Bool.not_true, Bool.false_eq_true, if_false]
      rw [cmd_obj_loop_eq]
      split
      · rfl
      · simp
    · simp only [json_parse_cmd_reset, hobj, Bool.not_true, Bool.false_eq_true, if_false]
      rw [cmd_obj_loop_eq]
      split
      · rfl
      · simp
    · simp only [json_parse_cmd_flush, hobj, Bool.not_true, Bool.false_eq_true, if_false]
      rw [cmd_obj_loop_eq]
      split
      · rfl
      · simp
  · rintro rfl
    exact ⟨rfl, rfl, rfl, rfl, rfl, rfl, rfl⟩

/-- C23 (witness): the element `{}` and the operator values `{}` of `add` and
`delete` are refused with one error. -/
theorem json_parse_cmd_first_key_witness :
    json_parse_cmd sample_registry sample_stmt_registry sample_cmd_registry ⟨0, []⟩
        (.object [])
      = .ok none ⟨0, [Erec.error "Unknown command object." []]⟩
    ∧ json_parse_cmd_add sample_registry sample_stmt_registry sample_cmd_registry ⟨0, []⟩
        (.object []) .CMD_DELETE
      = .ok none ⟨0, [Erec.error "Unknown object passed to add command." []]⟩ :=
  ⟨((json_parse_cmd_first_key sample_registry sample_stmt_registry sample_cmd_registry
      ⟨0, []⟩ (.object []) .CMD_ADD).2.2 rfl).1,
   ((json_parse_cmd_first_key sample_registry sample_stmt_registry sample_cmd_registry
      ⟨0, []⟩ (.object []) .CMD_DELETE).2.2 rfl).2.1⟩

/-! ## C25: replace and insert -/

/-- C25: for the operand `{rule: R}` of `replace` and of `insert`, whatever `R`
carries, `json_parse_cmd_replace` returns no command and queues the unpack
error: after reading `rule` it looks for `family`, `table`, `chain` and `expr`
in the operand itself, next to `rule`, and so does `json_parse_cmd` for the
elements `{replace: {rule: R}}` and `{insert: {rule: R}}`. -/
theorem json_parse_cmd_replace_rule_operand (reg : Registry) (sreg : StmtRegistry)
    (creg : CmdRegistry) (ctx : json_ctx) (R : Json) (op : cmd_ops) :
    json_parse_cmd_replace (json_parse_stmt reg sreg) ctx (.object [("rule", R)]) op
      = .ok none ⟨ctx.flags, ctx.msgs ++ [Erec.lib]⟩
    ∧ json_parse_cmd reg sreg creg ctx (.object [("replace", .object [("rule", R)])])
      = .ok none ⟨ctx.flags, ctx.msgs ++ [Erec.lib]⟩
    ∧ json_parse_cmd reg sreg creg ctx (.object [("insert", .object [("rule", R)])])
      = .ok none ⟨ctx.flags, ctx.msgs ++ [Erec.lib]⟩ :=
  ⟨rfl, rfl, rfl⟩

/-- The layout that `json_parse_cmd_replace` accepts: with `family`, `table`, `chain`, `expr` and
`handle` placed next to `rule`, the element is accepted as a Replace command
on a rule; the value of `rule` is not looked at. -/
theorem json_parse_cmd_replace_flat_operand :
    json_parse_cmd sample_registry sample_stmt_registry sample_cmd_registry ⟨0, []⟩
        (.object [("replace", .object [("rule", .null), ("family", .string "ip"),
          ("table", .string "t"), ("chain", .string "c"), ("handle", .integer 7),
          ("expr", .array [])])])
      = .ok (some (cmd_alloc .CMD_REPLACE .CMD_OBJ_RULE
          { family := NFPROTO_IPV4, table_name := some "t", chain_name := some "c",
            handle_id := 7 } (.rule {}))) ⟨0, []⟩ :=
  rfl

/-! ## C28: the chain builder and the priority -/

theorem object_get_skip (k key : String) (v : Json) (ms : List (String × Json))
    (h : key ≠ k) :
    json_object_get (.object ((k, v) :: ms)) key = json_object_get (.object ms) key := by
  have hk : (key == k) = false := by simp [h]
  simp only [json_object_get, List.lookup_cons, hk]

theorem object_get_head (k : String) (v : Json) (ms : List (String × Json)) :
    json_object_get (.object ((k, v) :: ms)) k = some v := by
  simp [json_object_get, List.lookup_cons]

/-- C28: the value of `prio` has no effect on what `json_parse_cmd_add_chain`
returns. Two operands that differ only in the integer given for `prio` yield
the same outcome, so the priority is not part of the command; for the base
chain of the example (type filter, hook input, prio 10, policy accept) the
chain of the command holds the flag, the type, the hook and the policy
only. -/
theorem json_parse_cmd_add_chain_prio_dropped (creg : CmdRegistry) (ctx : json_ctx)
    (ms : List (String × Json)) (p q : Int) (op : cmd_ops) (o : cmd_obj) :
    json_parse_cmd_add_chain creg ctx (.object (("prio", .integer p) :: ms)) op o
      = json_parse_cmd_add_chain creg ctx (.object (("prio", .integer q) :: ms)) op o
    ∧ json_parse_cmd_add_chain sample_cmd_registry ⟨0, []⟩
        (.object [("family", .string "inet"), ("table", .string "t"),
          ("name", .string "input"), ("type", .string "filter"), ("hook", .string "input"),
          ("prio", .integer 10), ("policy", .string "accept")]) .CMD_ADD .CMD_OBJ_CHAIN
      = .ok (some (cmd_alloc .CMD_ADD .CMD_OBJ_CHAIN
          { family := NFPROTO_INET, table_name := some "t", chain_name := some "input" }
          (.chain
            { handle :=
                { family := NFPROTO_INET, table_name := some "t", chain_name := some "input" },
              flags := CHAIN_F_BASECHAIN,
              type := some "filter",
              hookstr := some "input",
              policy := some NF_ACCEPT }))) ⟨0, []⟩ := by
  refine ⟨?_, rfl⟩
  have hs : ∀ (x : Int) (key : String), key ≠ "prio" →
      json_unpack_key_s (.object (("prio", .integer x) :: ms)) key
        = json_unpack_key_s (.object ms) key := by
    intro x key h
    simp only [json_unpack_key_s, object_get_skip "prio" key _ ms h]
  have hI : ∀ (x : Int) (key : String), key ≠ "prio" →
      json_unpack_key_I (.object (("prio", .integer x) :: ms)) key
        = json_unpack_key_I (.object ms) key := by
    intro x key h
    simp only [json_unpack_key_I, object_get_skip "prio" key _ ms h]
  have hi : ∀ x : Int, json_unpack_key_i (.object (("prio", .integer x) :: ms)) "prio"
      = some (c_int x) := by
    intro x
    simp only [json_unpack_key_i, object_get_head]
  simp only [json_parse_cmd_add_chain, json_unpack_name_or_handle,
    json_parse_cmd_add_chain_base,
    hs _ "family" (by decide), hs _ "table" (by decide), hs _ "name" (by decide),
    hs _ "type" (by decide), hs _ "hook" (by decide), hs _ "dev" (by decide),
    hs _ "policy" (by decide), hI _ "handle" (by decide), hi]
  cases json_unpack_key_s (.object ms) "type" <;>
    cases json_unpack_key_s (.object ms) "hook" <;> rfl

/-! ## C26: the rule builder -/

theorem rule_stmts_all (ps : stmt_parse_fn) (ctx ctx2 : json_ctx) (items : List Json)
    (stmts : List stmt) (hall : stmts_parse ps ctx items stmts ctx2) :
    ∀ (index : Nat) (r : rule),
      json_parse_rule_stmts ps ctx items index r
        = .ok (some { r with
            num_stmts := r.num_stmts + items.length,
            stmts := r.stmts ++ stmts }) ctx2 := by
  induction hall with
  | nil ctx =>
    intro index r
    simp [json_parse_rule_stmts]
  | cons ctx ctx1 ctx2 value rest s stmts hobj hs hrest ih =>
    intro index r
    rw [json_parse_rule_stmts]
    simp only [hobj, hs, Bool.not_true, Bool.false_eq_true, if_false]
    rw [ih]
    simp only [List.length_cons, List.append_assoc, List.singleton_append]
    congr 3
    omega

theorem rule_stmts_fail (ps : stmt_parse_fn) (ctx ctx1 : json_ctx) (pre : List Json)
    (stmts : List stmt) (hall : stmts_parse ps ctx pre stmts ctx1) (value : Json)
    (post : List Json) :
    ∀ (index : Nat) (r : rule),
      (json_is_object value = false →
        json_parse_rule_stmts ps ctx (pre ++ value :: post) index r
          = .ok none (json_error ctx1
              "Unexpected expr array element of type %s, expected object."
              [.str (json_typename value)]))
      ∧ (∀ c, json_is_object value = true → ps ctx1 value = .ok none c →
        json_parse_rule_stmts ps ctx (pre ++ value :: post) index r
          = .ok none (json_error c "Parsing expr array at index %zd failed."
              [.int (index + pre.length)])) := by
  induction hall with
  | nil ctx =>
    intro index r
    constructor
    · intro hobj
      simp [json_parse_rule_stmts, hobj]
    · intro c hobj hs
      simp [json_parse_rule_stmts, hobj, hs]
  | cons ctx ctx1 ctx2 v rest s stmts hobj hs hrest ih =>
    intro index r
    have h := ih (index + 1) { r with num_stmts := r.num_stmts + 1, stmts := r.stmts ++ [s] }
    constructor
    · intro hv
      rw [List.cons_append, json_parse_rule_stmts]
      simp only [hobj, hs, Bool.not_true, Bool.false_eq_true, if_false]
      exact h.1 hv
    · intro c hv hc
      rw [List.cons_append, json_parse_rule_stmts]
      simp only [hobj, hs, Bool.not_true, Bool.false_eq_true, if_false]
      rw [h.2 c hv hc]
      have e : ((index + 1 : Nat) : Int) + (rest.length : Int)
          = (index : Int) + ((rest.length + 1 : Nat) : Int) := by
        push_cast
        omega
      simp only [List.length_cons, e]

/-- C26: for a rule operand with a `family` among the six, a `table` and a
`chain`. When the operator is not delete: if `expr` is an array of `n` objects
that `json_parse_stmt` parses one after the other, the command holds a rule
with `num_stmts = n` and the parsed statements in array order; if `expr` is
missing, or is not an array, or some element is not an object or is not
parsed, no command is returned and one more error is queued. For a delete, a
missing integer `handle` is refused, and with a `handle` the command is
returned without `expr` being read. -/
theorem json_parse_cmd_add_rule_stmts (reg : Registry) (sreg : StmtRegistry) (ctx : json_ctx)
    (root : Json) (op : cmd_ops) (o : cmd_obj) (fam table chainname : String)
    (hf : json_unpack_key_s root "family" = some fam) (hm : fam ∈ spec_families)
    (ht : json_unpack_key_s root "table" = some table)
    (hc : json_unpack_key_s root "chain" = some chainname) :
    (op ≠ .CMD_DELETE →
      (∀ (items : List Json) (stmts : List stmt) (ctx2 : json_ctx),
        json_unpack_key_o root "expr" = some (.array items) →
        stmts_parse (json_parse_stmt reg sreg) ctx items stmts ctx2 →
        json_parse_cmd_add_rule (json_parse_stmt reg sreg) ctx root op o
          = .ok (some (cmd_alloc op o
              { family := parse_family fam, table_name := some table,
                chain_name := some chainname,
                position_id := match json_unpack_key_i root "pos" with
                  | some pos => store_int_u64 pos
                  | none => 0 }
              (.rule
                { comment := json_unpack_key_s root "comment",
                  num_stmts := items.length,
                  stmts := stmts }))) ctx2)
      ∧ (json_unpack_key_o root "expr" = none →
        json_parse_cmd_add_rule (json_parse_stmt reg sreg) ctx root op o
          = .ok none ⟨ctx.flags, ctx.msgs ++ [Erec.lib]⟩)
      ∧ (∀ tmp, json_unpack_key_o root "expr" = some tmp → json_is_array tmp = false →
        json_parse_cmd_add_rule (json_parse_stmt reg sreg) ctx root op o
          = .ok none ⟨ctx.flags, ctx.msgs
              ++ [Erec.error "Value of property \"expr\" must be an array." []]⟩)
      ∧ (∀ (pre post : List Json) (value : Json) (stmts : List stmt) (ctx1 : json_ctx),
        json_unpack_key_o root "expr" = some (.array (pre ++ value :: post)) →
        stmts_parse (json_parse_stmt reg sreg) ctx pre stmts ctx1 →
        (json_is_object value = false →
          json_parse_cmd_add_rule (json_parse_stmt reg sreg) ctx root op o
            = .ok none ⟨ctx1.flags, ctx1.msgs
                ++ [Erec.error "Unexpected expr array element of type %s, expected object."
                    [.str (json_typename value)]]⟩)
        ∧ (∀ c, json_is_object value = true →
          json_parse_stmt reg sreg ctx1 value = .ok none c →
          json_parse_cmd_add_rule (json_parse_stmt reg sreg) ctx root op o
            = .ok none ⟨c.flags, c.msgs
                ++ [Erec.error "Parsing expr array at index %zd failed."
                    [.int pre.length]]⟩)))
    ∧ (op = .CMD_DELETE →
      (json_unpack_key_I root "handle" = none →
        json_parse_cmd_add_rule (json_parse_stmt reg sreg) ctx root op o
          = .ok none ⟨ctx.flags, ctx.msgs ++ [Erec.lib]⟩)
      ∧ (∀ id, json_unpack_key_I root "handle" = some id →
        json_parse_cmd_add_rule (json_parse_stmt reg sreg) ctx root op o
          = .ok (some (cmd_alloc op o
              { family := parse_family fam, table_name := some table,
                chain_name := some chainname, handle_id := c_uint64 id } .none)) ctx)) := by
  have hnn : ¬ parse_family fam < 0 := not_lt.mpr (parse_family_known fam hm).1
  constructor
  · intro hop
    refine ⟨?_, ?_, ?_, ?_⟩
    · intro items stmts ctx2 he hall
      simp only [json_parse_cmd_add_rule, hf, ht, hc, he, if_pos hop, if_neg hnn,
        json_parse_cmd_add_rule_body, if_neg (fun h3 : op = .CMD_DELETE => hop h3),
        json_is_array, json_array_items, Bool.not_true, Bool.false_eq_true, if_false,
        rule_stmts_all _ ctx ctx2 items stmts hall]
      cases json_unpack_key_i root "pos" <;> simp
    · intro he
      simp only [json_parse_cmd_add_rule, hf, ht, hc, he, if_pos hop]
      rfl
    · intro tmp he ha
      simp only [json_parse_cmd_add_rule, hf, ht, hc, he, if_pos hop, if_neg hnn,
        json_parse_cmd_add_rule_body, if_neg (fun h3 : op = .CMD_DELETE => hop h3), ha,
        Bool.not_false, if_true]
      rfl
    · intro pre post value stmts ctx1 he hall
      have h := rule_stmts_fail _ ctx ctx1 pre stmts hall value post 0
        { comment := json_unpack_key_s root "comment" }
      constructor
      · intro hv
        simp only [json_parse_cmd_add_rule, hf, ht, hc, he, if_pos hop, if_neg hnn,
          json_parse_cmd_add_rule_body, if_neg (fun h3 : op = .CMD_DELETE => hop h3),
          json_is_array, json_array_items, Bool.not_true, Bool.false_eq_true, if_false,
          h.1 hv]
        rfl
      · intro c hv hcv
        simp only [json_parse_cmd_add_rule, hf, ht, hc, he, if_pos hop, if_neg hnn,
          json_parse_cmd_add_rule_body, if_neg (fun h3 : op = .CMD_DELETE => hop h3),
          json_is_array, json_array_items, Bool.not_true, Bool.false_eq_true, if_false,
          h.2 c hv hcv]
        simp [json_error]
  · intro hop
    have hop2 : ¬ op ≠ .CMD_DELETE := not_not.mpr hop
    constructor
    · intro hh
      simp only [json_parse_cmd_add_rule, hf, ht, hc, hh, if_neg hop2]
      rfl
    · intro id hh
      simp only [json_parse_cmd_add_rule, hf, ht, hc, hh, if_neg hop2, if_neg hnn,
        json_parse_cmd_add_rule_body, if_pos hop]

/-- C26 (witness): the rule operand with the statements `accept` and
`notrack` gives an Add-Rule command with two statements in that order. -/
theorem json_parse_cmd_add_rule_stmts_witness :
    json_parse_cmd_add_rule (json_parse_stmt sample_registry sample_stmt_registry) ⟨0, []⟩
        sample_rule .CMD_ADD .CMD_OBJ_RULE
      = .ok (some (cmd_alloc .CMD_ADD .CMD_OBJ_RULE
          { family := parse_family "ip", table_name := some "t", chain_name := some "c",
            position_id := match json_unpack_key_i sample_rule "pos" with
              | some pos => store_int_u64 pos
              | none => 0 }
          (.rule
            { comment := json_unpack_key_s sample_rule "comment",
              num_stmts := [Json.object [("accept", .null)],
                Json.object [("notrack", .null)]].length,
              stmts := [.verdict_stmt (.verdict_expr NF_ACCEPT none), .notrack_stmt] })))
        ⟨0, []⟩ :=
  ((json_parse_cmd_add_rule_stmts sample_registry sample_stmt_registry ⟨0, []⟩ sample_rule
      .CMD_ADD .CMD_OBJ_RULE "ip" "t" "c" rfl (by decide) rfl rfl).1 (by decide)).1
    [.object [("accept", .null)], .object [("notrack", .null)]]
    [.verdict_stmt (.verdict_expr NF_ACCEPT none), .notrack_stmt] ⟨0, []⟩ rfl
    (stmts_parse.cons _ _ _ _ _ _ _ rfl rfl
      (stmts_parse.cons _ _ _ _ _ _ _ rfl rfl (stmts_parse.nil _)))

/-! ## C29: the mangle statement -/

open expr_types in
theorem mangle_stmt_of_kind (ctx : json_ctx) (left right : expr) :
    (left.etype = EXPR_EXTHDR → mangle_stmt_of ctx left right
        = .ok (some (.exthdr_stmt left right)) ctx)
    ∧ (left.etype = EXPR_PAYLOAD → mangle_stmt_of ctx left right
        = .ok (some (.payload_stmt left right)) ctx)
    ∧ (left.etype = EXPR_META → ∃ key, left = .meta_expr key
        ∧ mangle_stmt_of ctx left right = .ok (some (.meta_stmt key right)) ctx)
    ∧ (left.etype = EXPR_CT → ∃ key direction nfproto, left = .ct_expr key direction nfproto
        ∧ (key ≠ NFT_CT_HELPER → mangle_stmt_of ctx left right
            = .ok (some (.ct_stmt key direction right)) ctx)
        ∧ (key = NFT_CT_HELPER → mangle_stmt_of ctx left right
            = .ok (some (.objref_stmt NFT_OBJECT_CT_HELPER right)) ctx))
    ∧ (left.etype ≠ EXPR_EXTHDR → left.etype ≠ EXPR_PAYLOAD → left.etype ≠ EXPR_META →
        left.etype ≠ EXPR_CT → mangle_stmt_of ctx left right
          = .ok none ⟨ctx.flags, ctx.msgs
              ++ [Erec.error "Invalid LHS expression type for mangle statement." []]⟩) := by
  cases left with
  | ct_expr key direction nfproto =>
    refine ⟨by simp [expr.etype], by simp [expr.etype], by simp [expr.etype], ?_,
      by simp [expr.etype]⟩
    intro _
    refine ⟨key, direction, nfproto, rfl, ?_, ?_⟩
    · intro h
      simp [mangle_stmt_of, h]
    · intro h
      simp [mangle_stmt_of, h]
  | _ => simp [mangle_stmt_of, expr.etype, json_error]

open expr_types in
/-- C29: in `json_parse_mangle_stmt` the left side is parsed with the flag
MANGLE and the right side as a statement expression. Once both have parsed,
the kind of the left expression decides: Exthdr gives the exthdr statement of
(left, right), Payload the payload statement of (left, right), Meta the meta
statement with the key of left and right, Ct with a key other than helper the
ct statement with the key and the direction of left and right, Ct with the key
helper the object reference of type ct-helper with the expression right, and
every other kind gives no statement and one error. -/
theorem json_parse_mangle_stmt_by_kind (pe : expr_parse_fn) (ps : stmt_parse_fn)
    (ctx ctx1 ctx2 : json_ctx) (key : String) (value jleft jright : Json) (left right : expr)
    (hjl : json_unpack_key_o value "left" = some jleft)
    (hjr : json_unpack_key_o value "right" = some jright)
    (hl : json_parse_flagged_expr pe ctx CTX_F_MANGLE jleft = .ok (some left) ctx1)
    (hr : json_parse_flagged_expr pe ctx1 CTX_F_STMT jright = .ok (some right) ctx2) :
    (left.etype = EXPR_EXTHDR → json_parse_mangle_stmt pe ps ctx key value
        = .ok (some (.exthdr_stmt left right)) ctx2)
    ∧ (left.etype = EXPR_PAYLOAD → json_parse_mangle_stmt pe ps ctx key value
        = .ok (some (.payload_stmt left right)) ctx2)
    ∧ (left.etype = EXPR_META → ∃ k, left = .meta_expr k
        ∧ json_parse_mangle_stmt pe ps ctx key value = .ok (some (.meta_stmt k right)) ctx2)
    ∧ (left.etype = EXPR_CT → ∃ k direction nfproto, left = .ct_expr k direction nfproto
        ∧ (k ≠ NFT_CT_HELPER → json_parse_mangle_stmt pe ps ctx key value
            = .ok (some (.ct_stmt k direction right)) ctx2)
        ∧ (k = NFT_CT_HELPER → json_parse_mangle_stmt pe ps ctx key value
            = .ok (some (.objref_stmt NFT_OBJECT_CT_HELPER right)) ctx2))
    ∧ (left.etype ≠ EXPR_EXTHDR → left.etype ≠ EXPR_PAYLOAD → left.etype ≠ EXPR_META →
        left.etype ≠ EXPR_CT → json_parse_mangle_stmt pe ps ctx key value
          = .ok none ⟨ctx2.flags, ctx2.msgs
              ++ [Erec.error "Invalid LHS expression type for mangle statement." []]⟩) := by
  have h : json_parse_mangle_stmt pe ps ctx key value = mangle_stmt_of ctx2 left right := by
    simp only [json_parse_mangle_stmt, hjl, hjr, json_parse_mangle_lhs_expr, hl,
      json_parse_stmt_expr, hr]
  rw [h]
  exact mangle_stmt_of_kind ctx2 left right

/-- C29 (witness): `mangle` of `meta mark` with the value 1 gives the meta
statement with the key of the left side and the parsed right side. -/
theorem json_parse_mangle_stmt_by_kind_witness :
    ∃ k, (expr.meta_expr 3) = .meta_expr k
      ∧ json_parse_mangle_stmt (json_parse_expr sample_registry)
          (json_parse_stmt sample_registry sample_stmt_registry) ⟨0, []⟩ "mangle"
          (.object [("left", .object [("meta", .string "mark")]), ("right", .integer 1)])
        = .ok (some (.meta_stmt k (.symbol_expr .SYMBOL_VALUE (toString (1 : Int)))))
          ⟨0, []⟩ :=
  (json_parse_mangle_stmt_by_kind (json_parse_expr sample_registry)
    (json_parse_stmt sample_registry sample_stmt_registry) ⟨0, []⟩ ⟨0, []⟩ ⟨0, []⟩ "mangle"
    (.object [("left", .object [("meta", .string "mark")]), ("right", .integer 1)])
    (.object [("meta", .string "mark")]) (.integer 1) (.meta_expr 3) _ rfl rfl rfl rfl).2.2.1
    rfl

/-! ## C30: unknown flags of a nat statement -/

/-- C30: a nat statement whose `flags` is the unknown string `bogus`, or an
array holding `random` and `bogus`, is returned all the same: the errors are
queued, but the statement comes back with the flag word 0, respectively with
the bit of `random`, because `json_parse_nat_flags` drops the return code of
`json_parse_nat_flag` and hands back the flag word collected so far. -/
theorem json_parse_nat_stmt_unknown_flag (pe : expr_parse_fn) (ps : stmt_parse_fn)
    (ctx : json_ctx) :
    json_parse_nat_stmt pe ps ctx "snat" (.object [("flags", .string "bogus")])
      = .ok (some (.nat_stmt 0 none none 0))
          ⟨ctx.flags, ctx.msgs ++ [Erec.error "Unknown nat flag '%s'." [.str "bogus"]]⟩
    ∧ json_parse_nat_stmt pe ps ctx "dnat"
        (.object [("flags", .array [.string "random", .string "bogus"])])
      = .ok (some (.nat_stmt 1 none none 4))
          ⟨ctx.flags, ctx.msgs ++ [Erec.error "Unknown nat flag '%s'." [.str "bogus"]]
            ++ [Erec.error "Parsing nat flag at index %zu failed." [.int 1]]⟩
    ∧ json_parse_stmt sample_registry sample_stmt_registry ⟨0, []⟩
        (.object [("masquerade", .object [("flags", .string "bogus")])])
      = .ok (some (.nat_stmt 2 none none 0))
          ⟨0, [Erec.error "Unknown nat flag '%s'." [.str "bogus"]]⟩ :=
  ⟨rfl, rfl, rfl⟩

/-! ## C21: a run of `__json_parse` that fails at an element -/

theorem cmds_loop_prefix {σ : Type} (reg : Registry) (sreg : StmtRegistry)
    (creg : CmdRegistry) (ev : Evaluator σ) (ctx ctx1 : json_ctx) (st st1 : σ)
    (pre : List Json) (built : List cmd)
    (hall : builds_all reg sreg creg ev ctx st pre built ctx1 st1) (rest : List Json) :
    ∀ (cmds : List cmd) (index : Nat),
      json_parse_cmds_loop reg sreg creg ev ctx st cmds (pre ++ rest) index
        = json_parse_cmds_loop reg sreg creg ev ctx1 st1 (cmds ++ built) rest
            (index + pre.length) := by
  induction hall with
  | nil ctx st =>
    intro cmds index
    simp
  | cons ctx ctx1 ctx2 st st2 value tl c built hobj hcmd hev hrest ih =>
    intro cmds index
    have hneg : ¬ (ev.cmd_evaluate st c).1 < 0 := by omega
    rw [List.cons_append, json_parse_cmds_loop]
    simp only [hobj, hcmd, Bool.not_true, Bool.false_eq_true, if_false]
    rw [if_neg hneg, ih (cmds ++ [c]) (index + 1), List.append_assoc, List.length_cons]
    have e : index + 1 + tl.length = index + (tl.length + 1) := by omega
    rw [e]
    rfl

/-- C21: when the elements before index `k` of the `nftables` array are all
built and accepted and the element at index `k` fails (it is not an object, or
no command is built for it, or the evaluator rejects its command),
`__json_parse` returns -1 and the command list is its prior content followed
by exactly the `k` commands of the elements before: neither the command of the
failing element nor anything of the later elements is in the list. -/
theorem json_parse_stops_at_failure {σ : Type} (reg : Registry) (sreg : StmtRegistry)
    (creg : CmdRegistry) (ev : Evaluator σ) (ctx ctx1 : json_ctx) (st st1 : σ)
    (cmds built : List cmd) (root value : Json) (pre post : List Json)
    (hroot : json_unpack_key_o root "nftables" = some (.array (pre ++ value :: post)))
    (hall : builds_all reg sreg creg ev ctx st pre built ctx1 st1) :
    built.length = pre.length
    ∧ (json_is_object value = false →
        __json_parse reg sreg creg ev ctx st cmds root
          = .ok (-1, cmds ++ built, st1) ⟨ctx1.flags, ctx1.msgs
              ++ [Erec.error "Unexpected command array element of type %s, expected object."
                  [.str (json_typename value)]]⟩)
    ∧ (∀ c, json_is_object value = true →
        json_parse_cmd reg sreg creg ctx1 value = .ok none c →
        __json_parse reg sreg creg ev ctx st cmds root
          = .ok (-1, cmds ++ built, st1) ⟨c.flags, c.msgs
              ++ [Erec.error "Parsing command array at index %zd failed."
                  [.int pre.length]]⟩)
    ∧ (∀ c cm, json_is_object value = true →
        json_parse_cmd reg sreg creg ctx1 value = .ok (some cm) c →
        (ev.cmd_evaluate st1 cm).1 < 0 →
        __json_parse reg sreg creg ev ctx st cmds root
          = .ok (-1, cmds ++ built, (ev.cmd_evaluate st1 cm).2.1)
              ⟨c.flags, c.msgs ++ (ev.cmd_evaluate st1 cm).2.2
                ++ [Erec.error "Evaluating command at index %zd failed."
                    [.int pre.length]]⟩) := by
  have hal := builds_all_aligned reg sreg creg ev ctx ctx1 st st1 pre built hall
  have hrun : __json_parse reg sreg creg ev ctx st cmds root
      = json_parse_cmds_loop reg sreg creg ev ctx1 st1 (cmds ++ built) (value :: post)
          (0 + pre.length) := by
    simp only [__json_parse, hroot, json_is_array, json_array_items, Bool.not_true,
      Bool.false_eq_true, if_false]
    exact cmds_loop_prefix reg sreg creg ev ctx ctx1 st st1 pre built hall (value :: post)
      cmds 0
  rw [hrun, json_parse_cmds_loop]
  refine ⟨hal.length_eq.symm, ?_, ?_, ?_⟩
  · intro hv
    simp [hv, json_error]
  · intro c hv hc
    simp [hv, hc, json_error]
  · intro c cm hv hc hev
    simp [hv, hc, hev, json_error]

/-- C21 (witness): the document whose second element is the integer 5 is
refused at index 1, and the command list holds the command of the first
element only. -/
theorem json_parse_stops_at_failure_witness :
    __json_parse sample_registry sample_stmt_registry sample_cmd_registry sample_evaluator
        ⟨0, []⟩ () []
        (.object [("nftables", .array ([sample_add_table] ++ .integer 5
          :: [sample_add_table6]))])
      = .ok (-1, [] ++ [cmd_alloc .CMD_ADD .CMD_OBJ_TABLE
            { family := NFPROTO_IPV4, table_name := some "filter" } .none], ())
          ⟨0, [] ++ [Erec.error
            "Unexpected command array element of type %s, expected object."
            [.str (json_typename (.integer 5))]]⟩ :=
  (json_parse_stops_at_failure sample_registry sample_stmt_registry sample_cmd_registry
    sample_evaluator ⟨0, []⟩ ⟨0, []⟩ () () [] _
    (.object [("nftables", .array ([sample_add_table] ++ .integer 5
      :: [sample_add_table6]))])
    (.integer 5) [sample_add_table] [sample_add_table6] rfl
    (builds_all.cons _ _ _ _ _ _ _ _ _ rfl rfl (by decide) (builds_all.nil _ _))).2.1 rfl

/-! ## C22: return codes of `__json_parse` and the error queue -/

theorem queue_grows_refl (a : json_ctx) : queue_grows a a := ⟨[], by simp⟩

theorem queue_grows_trans {a b c : json_ctx} (h1 : queue_grows a b) (h2 : queue_grows b c) :
    queue_grows a c := by
  obtain ⟨e1, h1⟩ := h1
  obtain ⟨e2, h2⟩ := h2
  exact ⟨e1 ++ e2, by rw [h2, h1, List.append_assoc]⟩

theorem queue_grows_error (a : json_ctx) (fmt : String) (args : List ErrArg) :
    queue_grows a (json_error a fmt args) := ⟨[_], rfl⟩

theorem queue_grows_unpack (a : json_ctx) : queue_grows a (json_unpack_err a) := ⟨[_], rfl⟩

theorem queue_grows_error_of {a b : json_ctx} (h : queue_grows a b) (fmt : String)
    (args : List ErrArg) : queue_grows a (json_error b fmt args) :=
  queue_grows_trans h (queue_grows_error b fmt args)

theorem res_grows_trans {α : Type} {a b : json_ctx} {r : Res α} (h1 : queue_grows a b)
    (h2 : res_grows b r) : res_grows a r := by
  cases r with
  | fault => trivial
  | ok v c => exact queue_grows_trans h1 h2

theorem res_grows_of_framed {α : Type} {p : json_ctx → Res α} (h : Framed p) (ctx : json_ctx) :
    res_grows ctx (p ctx) := by
  cases hp : p ctx with
  | fault => trivial
  | ok v c => exact (framed_ok h hp).2

theorem res_grows_ok {α : Type} {a b : json_ctx} {v : α} (h : res_grows a (.ok v b)) :
    queue_grows a b := h

theorem name_or_handle_grows (ctx : json_ctx) (root : Json) (op : cmd_ops)
    (setname : handle → String → handle) (what : String) (h : handle) :
    queue_grows ctx (json_unpack_name_or_handle ctx root op setname what h).2 := by
  unfold json_unpack_name_or_handle
  repeat' split
  all_goals first
    | exact queue_grows_refl _
    | exact queue_grows_error _ _ _
    | exact queue_grows_unpack _

theorem add_table_grows (ctx : json_ctx) (root : Json) (op : cmd_ops) (o : cmd_obj) :
    res_grows ctx (json_parse_cmd_add_table ctx root op o) := by
  unfold json_parse_cmd_add_table
  split
  · exact queue_grows_unpack _
  · have hg := name_or_handle_grows ctx root op
      (fun h name => { h with table_name := some name }) "a table" {}
    split
    · rename_i heq
      rw [heq] at hg
      exact hg
    · rename_i heq
      rw [heq] at hg
      split
      · exact queue_grows_error_of hg _ _
      · exact hg

theorem add_chain_base_grows (creg : CmdRegistry) (ctx : json_ctx) (root : Json)
    (op : cmd_ops) (o : cmd_obj) (h : handle) (type hookstr : String) :
    res_grows ctx (json_parse_cmd_add_chain_base creg ctx root op o h type hookstr) := by
  unfold json_parse_cmd_add_chain_base
  repeat' split
  all_goals first
    | exact queue_grows_refl _
    | exact queue_grows_error _ _ _

theorem add_chain_grows (creg : CmdRegistry) (ctx : json_ctx) (root : Json) (op : cmd_ops)
    (o : cmd_obj) : res_grows ctx (json_parse_cmd_add_chain creg ctx root op o) := by
  unfold json_parse_cmd_add_chain
  split
  · rename_i family table _ _
    have hg := name_or_handle_grows ctx root op
      (fun h name => { h with chain_name := some name }) "a chain" { table_name := some table }
    split
    · rename_i heq
      rw [heq] at hg
      exact hg
    · rename_i heq
      rw [heq] at hg
      split
      · exact queue_grows_error_of hg _ _
      · dsimp only
        split
        · exact hg
        · split
          · exact res_grows_trans hg (add_chain_base_grows _ _ _ _ _ _ _ _)
          · exact hg
  · exact queue_grows_unpack _

theorem rule_stmts_grows {ps : stmt_parse_fn} (hps : FramedStmtParser ps) (items : List Json) :
    ∀ (ctx : json_ctx) (index : Nat) (r : rule),
      res_grows ctx (json_parse_rule_stmts ps ctx items index r) := by
  induction items with
  | nil =>
    intro ctx index r
    exact queue_grows_refl _
  | cons value rest ih =>
    intro ctx index r
    rw [json_parse_rule_stmts]
    split
    · exact queue_grows_error _ _ _
    · have hg := res_grows_of_framed (hps value) ctx
      split
      · trivial
      · rename_i heq
        rw [heq] at hg
        exact queue_grows_error_of hg _ _
      · rename_i heq
        rw [heq] at hg
        exact res_grows_trans hg (ih _ _ _)

theorem add_rule_body_grows {ps : stmt_parse_fn} (hps : FramedStmtParser ps) (ctx : json_ctx)
    (root : Json) (op : cmd_ops) (o : cmd_obj) (h : handle) (tmp : Json) :
    res_grows ctx (json_parse_cmd_add_rule_body ps ctx root op o h tmp) := by
  unfold json_parse_cmd_add_rule_body
  split
  · exact queue_grows_refl _
  · split
    · exact queue_grows_error _ _ _
    · dsimp only
      have hg := rule_stmts_grows hps (json_array_items tmp) ctx 0
        { comment := json_unpack_key_s root "comment" }
      split
      · trivial
      · rename_i heq
        rw [heq] at hg
        exact hg
      · rename_i heq
        rw [heq] at hg
        exact hg

theorem add_rule_grows {ps : stmt_parse_fn} (hps : FramedStmtParser ps) (ctx : json_ctx)
    (root : Json) (op : cmd_ops) (o : cmd_obj) :
    res_grows ctx (json_parse_cmd_add_rule ps ctx root op o) := by
  unfold json_parse_cmd_add_rule
  split
  · dsimp only
    split
    · split
      · exact queue_grows_unpack _
      · split
        · exact queue_grows_error _ _ _
        · exact add_rule_body_grows hps _ _ _ _ _ _
    · split
      · exact queue_grows_unpack _
      · split
        · exact queue_grows_error _ _ _
        · exact add_rule_body_grows hps _ _ _ _ _ _
  · exact queue_grows_unpack _
theorem pair_grows {α : Type} {a c : json_ctx} {p : α × json_ctx} {v : α}
    (h : queue_grows a p.2) (e : p = (v, c)) : queue_grows a c := by
  subst e
  exact h

theorem dtype_grows_aux (reg : Registry) : ∀ n : Nat,
    (∀ (root : Json) (ctx : json_ctx), sizeOf root < n →
      res_grows ctx (json_parse_dtype_expr reg ctx root))
    ∧ (∀ (items : List Json) (ctx : json_ctx) (index : Nat) (acc : expr), sizeOf items < n →
      res_grows ctx (json_parse_dtype_loop reg ctx items index acc)) := by
  intro n
  induction n with
  | zero => exact ⟨fun _ _ h => absurd h (Nat.not_lt_zero _),
      fun _ _ _ _ h => absurd h (Nat.not_lt_zero _)⟩
  | succ n ih =>
    constructor
    · intro root ctx hlt
      cases root with
      | array items =>
        rw [json_parse_dtype_expr]
        apply ih.2
        simp only [Json.array.sizeOf_spec] at hlt
        omega
      | string s =>
        rw [json_parse_dtype_expr]
        split
        · exact queue_grows_error _ _ _
        · exact queue_grows_refl _
      | object _ =>
        rw [json_parse_dtype_expr] <;>
          first | exact queue_grows_error _ _ _ | (intro _ h; cases h)
      | integer _ =>
        rw [json_parse_dtype_expr] <;>
          first | exact queue_grows_error _ _ _ | (intro _ h; cases h)
      | real =>
        rw [json_parse_dtype_expr] <;>
          first | exact queue_grows_error _ _ _ | (intro _ h; cases h)
      | jtrue =>
        rw [json_parse_dtype_expr] <;>
          first | exact queue_grows_error _ _ _ | (intro _ h; cases h)
      | jfalse =>
        rw [json_parse_dtype_expr] <;>
          first | exact queue_grows_error _ _ _ | (intro _ h; cases h)
      | null =>
        rw [json_parse_dtype_expr] <;>
          first | exact queue_grows_error _ _ _ | (intro _ h; cases h)
    · intro items ctx index acc hlt
      cases items with
      | nil =>
        rw [json_parse_dtype_loop]
        exact queue_grows_refl _
      | cons value rest =>
        simp only [List.cons.sizeOf_spec] at hlt
        rw [json_parse_dtype_loop]
        have hg := ih.1 value ctx (by omega)
        split
        · trivial
        · rename_i heq
          rw [heq] at hg
          exact queue_grows_error_of hg _ _
        · rename_i heq
          rw [heq] at hg
          exact res_grows_trans hg (ih.2 rest _ _ _ (by omega))

theorem dtype_grows (reg : Registry) (root : Json) (ctx : json_ctx) :
    res_grows ctx (json_parse_dtype_expr reg ctx root) :=
  (dtype_grows_aux reg (sizeOf root + 1)).1 root ctx (Nat.lt_succ_self _)

theorem add_set_map_grows (reg : Registry) (ctx : json_ctx) (root : Json) (s : set) :
    queue_grows ctx (json_parse_cmd_add_set_map reg ctx root s).2 := by
  unfold json_parse_cmd_add_set_map
  repeat' split
  all_goals first
    | exact queue_grows_refl _
    | exact queue_grows_error _ _ _

theorem add_set_policy_grows (ctx : json_ctx) (root : Json) (s : set) :
    queue_grows ctx (json_parse_cmd_add_set_policy ctx root s).2 := by
  unfold json_parse_cmd_add_set_policy
  repeat' split
  all_goals first
    | exact queue_grows_refl _
    | exact queue_grows_error _ _ _

theorem add_set_flags_grows (items : List Json) :
    ∀ (ctx : json_ctx) (index : Nat) (s : set),
      queue_grows ctx (json_parse_cmd_add_set_flags ctx items index s).2 := by
  induction items with
  | nil =>
    intro ctx index s
    exact queue_grows_refl _
  | cons value rest ih =>
    intro ctx index s
    unfold json_parse_cmd_add_set_flags
    repeat' split
    all_goals first
      | exact ih _ _ _
      | exact queue_grows_error _ _ _

theorem add_set_elem_grows (reg : Registry) (creg : CmdRegistry) (ctx : json_ctx)
    (root : Json) (op : cmd_ops) (o : cmd_obj) (h : handle) (s : set) :
    res_grows ctx (json_parse_cmd_add_set_elem reg creg ctx root op o h s) := by
  unfold json_parse_cmd_add_set_elem
  split
  · exact queue_grows_refl _
  · rename_i tmp _
    have hg := res_grows_of_framed
      (set_framed (json_parse_expr reg) (json_parse_expr_framed reg) "elem" tmp) ctx
    split
    · trivial
    · rename_i heq
      rw [heq] at hg
      exact queue_grows_error_of hg _ _
    · rename_i heq
      rw [heq] at hg
      exact hg

theorem add_set_body_grows (reg : Registry) (creg : CmdRegistry) (ctx : json_ctx)
    (root : Json) (op : cmd_ops) (o : cmd_obj) (h : handle) :
    res_grows ctx (json_parse_cmd_add_set_body reg creg ctx root op o h) := by
  unfold json_parse_cmd_add_set_body
  split
  · exact queue_grows_error _ _ _
  · rename_i tmp _
    have h1 := dtype_grows reg tmp ctx
    split
    · trivial
    · rename_i heq
      rw [heq] at h1
      exact queue_grows_error_of h1 _ _
    · rename_i key c1 heq
      rw [heq] at h1
      have h2 := add_set_map_grows reg c1 root { handle := {}, key := some key }
      split
      · rename_i heq2
        rw [heq2] at h2
        exact queue_grows_trans h1 h2
      · rename_i s2 c2 heq2
        rw [heq2] at h2
        have h3 := add_set_policy_grows c2 root s2
        split
        · rename_i heq3
          rw [heq3] at h3
          exact queue_grows_trans h1 (queue_grows_trans h2 h3)
        · rename_i s3 c3 heq3
          rw [heq3] at h3
          split
          · rename_i heq4
            have h4 := pair_grows (add_set_flags_grows _ c3 0 s3) heq4
            exact queue_grows_trans h1 (queue_grows_trans h2 (queue_grows_trans h3 h4))
          · rename_i heq4
            have h4 := pair_grows (add_set_flags_grows _ c3 0 s3) heq4
            exact res_grows_trans
              (queue_grows_trans h1 (queue_grows_trans h2 (queue_grows_trans h3 h4)))
              (add_set_elem_grows _ _ _ _ _ _ _ _)

theorem add_set_grows (reg : Registry) (creg : CmdRegistry) (ctx : json_ctx) (root : Json)
    (op : cmd_ops) (o : cmd_obj) :
    res_grows ctx (json_parse_cmd_add_set reg creg ctx root op o) := by
  unfold json_parse_cmd_add_set
  split
  · rename_i family table _ _
    have hg := name_or_handle_grows ctx root op
      (fun h name => { h with set_name := some name }) "a set" { table_name := some table }
    split
    · rename_i heq
      rw [heq] at hg
      exact hg
    · rename_i heq
      rw [heq] at hg
      split
      · exact queue_grows_error_of hg _ _
      · dsimp only
        split
        · exact hg
        · exact res_grows_trans hg (add_set_body_grows _ _ _ _ _ _ _)
  · exact queue_grows_unpack _

theorem add_element_grows (reg : Registry) (ctx : json_ctx) (root : Json) (op : cmd_ops)
    (o : cmd_obj) : res_grows ctx (json_parse_cmd_add_element reg ctx root op o) := by
  unfold json_parse_cmd_add_element
  split
  · rename_i family table name tmp _ _ _ _
    split
    · exact queue_grows_error _ _ _
    · have hg := res_grows_of_framed
        (set_framed (json_parse_expr reg) (json_parse_expr_framed reg) "elem" tmp) ctx
      split
      · trivial
      · rename_i heq
        rw [heq] at hg
        exact queue_grows_error_of hg _ _
      · rename_i heq
        rw [heq] at hg
        exact hg
  · exact queue_grows_unpack _

theorem flowtable_devs_loop_grows (items : List Json) :
    ∀ (ctx : json_ctx) (index : Nat) (devs : List expr),
      queue_grows ctx (json_parse_flowtable_devs_loop ctx items index devs).2 := by
  induction items with
  | nil =>
    intro ctx index devs
    exact queue_grows_refl _
  | cons value rest ih =>
    intro ctx index devs
    rw [json_parse_flowtable_devs_loop]
    split
    · exact queue_grows_error _ _ _
    · exact ih _ _ _

theorem flowtable_devs_grows (ctx : json_ctx) (root : Json) :
    queue_grows ctx (json_parse_flowtable_devs ctx root).2 := by
  unfold json_parse_flowtable_devs
  split
  · exact queue_grows_refl _
  · split
    · exact queue_grows_refl _
    · exact flowtable_devs_loop_grows _ _ _ _

theorem add_flowtable_grows (creg : CmdRegistry) (ctx : json_ctx) (root : Json)
    (op : cmd_ops) (o : cmd_obj) :
    res_grows ctx (json_parse_cmd_add_flowtable creg ctx root op o) := by
  unfold json_parse_cmd_add_flowtable
  split
  · split
    · exact queue_grows_error _ _ _
    · dsimp only
      split
      · exact queue_grows_refl _
      · split
        · rename_i hook prio devs _ _ _
          split
          · exact queue_grows_error _ _ _
          · have hg := flowtable_devs_grows ctx devs
            split
            · rename_i heq
              rw [heq] at hg
              exact queue_grows_error_of hg _ _
            · rename_i heq
              rw [heq] at hg
              exact hg
        · exact queue_grows_unpack _
  · exact queue_grows_unpack _

theorem obj_ct_helper_grows (creg : CmdRegistry) (ctx : json_ctx) (root : Json) :
    queue_grows ctx (json_parse_obj_ct_helper creg ctx root).2 := by
  unfold json_parse_obj_ct_helper
  cases json_unpack_key_s root "type" <;> cases json_unpack_key_s root "protocol" <;>
    cases json_unpack_key_s root "l3proto" <;> dsimp only <;> (try split_ifs) <;>
    first
      | exact queue_grows_refl _
      | exact queue_grows_error _ _ _

theorem obj_limit_grows (ctx : json_ctx) (root : Json) :
    queue_grows ctx (json_parse_obj_limit ctx root).2 := by
  unfold json_parse_obj_limit
  repeat' split
  all_goals first
    | exact queue_grows_refl _
    | exact queue_grows_error _ _ _
theorem add_object_body_grows (creg : CmdRegistry) (ctx : json_ctx) (root : Json)
    (op : cmd_ops) (o : cmd_obj) (h : handle) :
    res_grows ctx (json_parse_cmd_add_object_body creg ctx root op o h) := by
  unfold json_parse_cmd_add_object_body
  split
  · split
    · exact queue_grows_refl _
    · exact queue_grows_refl _
  · split
    · exact queue_grows_refl _
    · split
      · exact queue_grows_refl _
      · split
        · split
          · rename_i heq
            exact pair_grows (obj_ct_helper_grows creg ctx root) heq
          · rename_i heq
            exact pair_grows (obj_ct_helper_grows creg ctx root) heq
        · split
          · split
            · rename_i heq
              exact pair_grows (obj_limit_grows ctx root) heq
            · rename_i heq
              exact pair_grows (obj_limit_grows ctx root) heq
          · trivial

theorem add_object_grows (creg : CmdRegistry) (ctx : json_ctx) (root : Json) (op : cmd_ops)
    (o : cmd_obj) : res_grows ctx (json_parse_cmd_add_object creg ctx root op o) := by
  unfold json_parse_cmd_add_object
  split
  · dsimp only
    split
    · rename_i heq
      refine pair_grows ?_ heq
      repeat' split
      all_goals first
        | exact queue_grows_refl _
        | exact queue_grows_error _ _ _
        | exact queue_grows_unpack _
    · rename_i hv c1 heq
      have h1 : queue_grows ctx c1 := by
        refine pair_grows ?_ heq
        repeat' split
        all_goals first
          | exact queue_grows_refl _
          | exact queue_grows_error _ _ _
          | exact queue_grows_unpack _
      split
      · exact queue_grows_error_of h1 _ _
      · exact res_grows_trans h1 (add_object_body_grows _ _ _ _ _ _)
  · exact queue_grows_unpack _

theorem list_multiple_grows (ctx : json_ctx) (root : Json) (op : cmd_ops) (o : cmd_obj) :
    res_grows ctx (json_parse_cmd_list_multiple ctx root op o) := by
  unfold json_parse_cmd_list_multiple
  dsimp only
  repeat' split
  all_goals first
    | exact queue_grows_refl _
    | exact queue_grows_error _ _ _

theorem rename_grows (ctx : json_ctx) (root : Json) (op : cmd_ops) :
    res_grows ctx (json_parse_cmd_rename ctx root op) := by
  unfold json_parse_cmd_rename
  dsimp only
  repeat' split
  all_goals first
    | exact queue_grows_refl _
    | exact queue_grows_error _ _ _
    | exact queue_grows_unpack _

theorem replace_grows {ps : stmt_parse_fn} (hps : FramedStmtParser ps) (ctx : json_ctx)
    (root : Json) (op : cmd_ops) : res_grows ctx (json_parse_cmd_replace ps ctx root op) := by
  unfold json_parse_cmd_replace
  split
  · exact queue_grows_unpack _
  · split
    · dsimp only
      split
      · rename_i heq
        refine pair_grows ?_ heq
        repeat' split
        all_goals first
          | exact queue_grows_refl _
          | exact queue_grows_unpack _
      · rename_i h1 c1 heq
        have g1 : queue_grows ctx c1 := by
          refine pair_grows ?_ heq
          repeat' split
          all_goals first
            | exact queue_grows_refl _
            | exact queue_grows_unpack _
        split
        · rename_i heq2
          refine queue_grows_trans g1 (pair_grows ?_ heq2)
          repeat' split
          all_goals first
            | exact queue_grows_refl _
            | exact queue_grows_unpack _
        · rename_i h2 c2 heq2
          have g2 : queue_grows c1 c2 := by
            refine pair_grows ?_ heq2
            repeat' split
            all_goals first
              | exact queue_grows_refl _
              | exact queue_grows_unpack _
          have g := queue_grows_trans g1 g2
          split
          · exact queue_grows_error_of g _ _
          · split
            · exact queue_grows_error_of g _ _
            · split
              · trivial
              · rename_i heq3
                exact queue_grows_trans g (res_grows_ok (heq3 ▸ rule_stmts_grows hps _ c2 0 _))
              · rename_i heq3
                exact queue_grows_trans g (res_grows_ok (heq3 ▸ rule_stmts_grows hps _ c2 0 _))
    · exact queue_grows_unpack _
theorem cmd_obj_loop_grows (tbl : List cmd_obj_entry)
    (htbl : ∀ row ∈ tbl, ∀ (ctx : json_ctx) (tmp : Json) (op : cmd_ops) (o : cmd_obj),
      res_grows ctx (row.cb ctx tmp op o))
    (create_guard : Bool) (name : String) (ctx : json_ctx) (root : Json) (op : cmd_ops) :
    res_grows ctx (json_parse_cmd_obj_loop tbl create_guard name ctx root op) := by
  induction tbl with
  | nil => exact queue_grows_error _ _ _
  | cons row rest ih =>
    rw [json_parse_cmd_obj_loop]
    split
    · exact ih (fun r hr => htbl r (List.mem_cons_of_mem _ hr))
    · split
      · exact queue_grows_error _ _ _
      · exact htbl row (List.mem_cons_self _ _) _ _ _ _

theorem cmd_add_table_grows (reg : Registry) (sreg : StmtRegistry) (creg : CmdRegistry) :
    ∀ row ∈ cmd_add_table reg sreg creg,
      ∀ (ctx : json_ctx) (tmp : Json) (op : cmd_ops) (o : cmd_obj),
        res_grows ctx (row.cb ctx tmp op o) := by
  intro row hrow ctx tmp op o
  simp only [cmd_add_table, List.mem_cons, List.mem_singleton, List.not_mem_nil,
    or_false] at hrow
  rcases hrow with rfl | rfl | rfl | rfl | rfl | rfl | rfl | rfl | rfl | rfl | rfl
  all_goals first
    | exact add_table_grows _ _ _ _
    | exact add_chain_grows _ _ _ _ _
    | exact add_rule_grows (json_parse_stmt_framed reg sreg) _ _ _ _
    | exact add_set_grows _ _ _ _ _ _
    | exact add_element_grows _ _ _ _ _
    | exact add_flowtable_grows _ _ _ _ _
    | exact add_object_grows _ _ _ _ _

theorem cmd_list_table_grows (reg : Registry) (creg : CmdRegistry) :
    ∀ row ∈ cmd_list_table reg creg,
      ∀ (ctx : json_ctx) (tmp : Json) (op : cmd_ops) (o : cmd_obj),
        res_grows ctx (row.cb ctx tmp op o) := by
  intro row hrow ctx tmp op o
  simp only [cmd_list_table, List.mem_cons, List.mem_singleton, List.not_mem_nil,
    or_false] at hrow
  rcases hrow with rfl | rfl | rfl | rfl | rfl | rfl | rfl | rfl | rfl | rfl | rfl | rfl
    | rfl | rfl | rfl | rfl | rfl | rfl | rfl | rfl
  all_goals first
    | exact add_table_grows _ _ _ _
    | exact add_chain_grows _ _ _ _ _
    | exact add_set_grows _ _ _ _ _ _
    | exact add_object_grows _ _ _ _ _
    | exact list_multiple_grows _ _ _ _

theorem cmd_reset_table_grows (creg : CmdRegistry) :
    ∀ row ∈ cmd_reset_table creg,
      ∀ (ctx : json_ctx) (tmp : Json) (op : cmd_ops) (o : cmd_obj),
        res_grows ctx (row.cb ctx tmp op o) := by
  intro row hrow ctx tmp op o
  simp only [cmd_reset_table, List.mem_cons, List.mem_singleton, List.not_mem_nil,
    or_false] at hrow
  rcases hrow with rfl | rfl | rfl | rfl
  all_goals first
    | exact add_object_grows _ _ _ _ _
    | exact list_multiple_grows _ _ _ _

theorem cmd_flush_table_grows (reg : Registry) (creg : CmdRegistry) :
    ∀ row ∈ cmd_flush_table reg creg,
      ∀ (ctx : json_ctx) (tmp : Json) (op : cmd_ops) (o : cmd_obj),
        res_grows ctx (row.cb ctx tmp op o) := by
  intro row hrow ctx tmp op o
  simp only [cmd_flush_table, List.mem_cons, List.mem_singleton, List.not_mem_nil,
    or_false] at hrow
  rcases hrow with rfl | rfl | rfl | rfl | rfl | rfl
  all_goals first
    | exact add_table_grows _ _ _ _
    | exact add_chain_grows _ _ _ _ _
    | exact add_set_grows _ _ _ _ _ _
    | exact list_multiple_grows _ _ _ _

theorem cmd_add_grows (reg : Registry) (sreg : StmtRegistry) (creg : CmdRegistry)
    (ctx : json_ctx) (root : Json) (op : cmd_ops) :
    res_grows ctx (json_parse_cmd_add reg sreg creg ctx root op) := by
  unfold json_parse_cmd_add
  split
  · exact queue_grows_error _ _ _
  · exact cmd_obj_loop_grows _ (cmd_add_table_grows reg sreg creg) _ _ _ _ _

theorem cmd_list_grows (reg : Registry) (creg : CmdRegistry) (ctx : json_ctx) (root : Json)
    (op : cmd_ops) : res_grows ctx (json_parse_cmd_list reg creg ctx root op) := by
  unfold json_parse_cmd_list
  split
  · exact queue_grows_error _ _ _
  · exact cmd_obj_loop_grows _ (cmd_list_table_grows reg creg) _ _ _ _ _

theorem cmd_reset_grows (creg : CmdRegistry) (ctx : json_ctx) (root : Json) (op : cmd_ops) :
    res_grows ctx (json_parse_cmd_reset creg ctx root op) := by
  unfold json_parse_cmd_reset
  split
  · exact queue_grows_error _ _ _
  · exact cmd_obj_loop_grows _ (cmd_reset_table_grows creg) _ _ _ _ _

theorem cmd_flush_grows (reg : Registry) (creg : CmdRegistry) (ctx : json_ctx) (root : Json)
    (op : cmd_ops) : res_grows ctx (json_parse_cmd_flush reg creg ctx root op) := by
  unfold json_parse_cmd_flush
  split
  · exact queue_grows_error _ _ _
  · exact cmd_obj_loop_grows _ (cmd_flush_table_grows reg creg) _ _ _ _ _

theorem cmd_loop_grows (tbl : List parse_cb_entry)
    (htbl : ∀ row ∈ tbl, ∀ (ctx : json_ctx) (tmp : Json) (op : cmd_ops),
      res_grows ctx (row.cb ctx tmp op))
    (ctx : json_ctx) (root : Json) : res_grows ctx (json_parse_cmd_loop tbl ctx root) := by
  induction tbl with
  | nil => exact queue_grows_error _ _ _
  | cons row rest ih =>
    rw [json_parse_cmd_loop]
    split
    · exact ih (fun r hr => htbl r (List.mem_cons_of_mem _ hr))
    · exact htbl row (List.mem_cons_self _ _) _ _ _

/-- Every call of `json_parse_cmd` that returns has only appended records to
the message queue. -/
theorem json_parse_cmd_grows (reg : Registry) (sreg : StmtRegistry) (creg : CmdRegistry)
    (ctx : json_ctx) (root : Json) : res_grows ctx (json_parse_cmd reg sreg creg ctx root) := by
  unfold json_parse_cmd
  apply cmd_loop_grows
  intro row hrow ctx tmp op
  simp only [parse_cb_table, List.mem_cons, List.mem_singleton, List.not_mem_nil,
    or_false] at hrow
  rcases hrow with rfl | rfl | rfl | rfl | rfl | rfl | rfl | rfl | rfl
  all_goals first
    | exact cmd_add_grows _ _ _ _ _ _
    | exact replace_grows (json_parse_stmt_framed reg sreg) _ _ _
    | exact cmd_list_grows _ _ _ _ _
    | exact cmd_reset_grows _ _ _ _
    | exact cmd_flush_grows _ _ _ _ _
    | exact rename_grows _ _ _

theorem grows_error_nonempty {a b : json_ctx} (h : queue_grows a b) (fmt : String)
    (args : List ErrArg) :
    ∃ errs, errs ≠ [] ∧ (json_error b fmt args).msgs = a.msgs ++ errs := by
  obtain ⟨e, he⟩ := h
  exact ⟨e ++ [Erec.error fmt args], by simp, by simp [json_error, he]⟩

theorem cmds_loop_codes {σ : Type} (reg : Registry) (sreg : StmtRegistry)
    (creg : CmdRegistry) (ev : Evaluator σ) (items : List Json) :
    ∀ (ctx : json_ctx) (st : σ) (cmds : List cmd) (index : Nat) (rc : Int)
      (cmds1 : List cmd) (st1 : σ) (c : json_ctx),
      json_parse_cmds_loop reg sreg creg ev ctx st cmds items index = .ok (rc, cmds1, st1) c →
      (rc = 0 ∨ rc = -1)
        ∧ queue_grows ctx c
        ∧ (rc < 0 → ∃ errs, errs ≠ [] ∧ c.msgs = ctx.msgs ++ errs) := by
  induction items with
  | nil =>
    intro ctx st cmds index rc cmds1 st1 c h
    simp only [json_parse_cmds_loop, Res.ok.injEq, Prod.mk.injEq] at h
    obtain ⟨⟨rfl, -, -⟩, rfl⟩ := h
    exact ⟨Or.inl rfl, queue_grows_refl _, fun h => absurd h (by decide)⟩
  | cons value rest ih =>
    intro ctx st cmds index rc cmds1 st1 c h
    rw [json_parse_cmds_loop] at h
    split at h
    · simp only [Res.ok.injEq, Prod.mk.injEq] at h
      obtain ⟨⟨rfl, -, -⟩, rfl⟩ := h
      exact ⟨Or.inr rfl, queue_grows_error _ _ _,
        fun _ => grows_error_nonempty (queue_grows_refl _) _ _⟩
    · have hg := json_parse_cmd_grows reg sreg creg ctx value
      split at h
      · cases h
      · rename_i c1 heq
        rw [heq] at hg
        simp only [Res.ok.injEq, Prod.mk.injEq] at h
        obtain ⟨⟨rfl, -, -⟩, rfl⟩ := h
        exact ⟨Or.inr rfl, queue_grows_error_of hg _ _,
          fun _ => grows_error_nonempty (res_grows_ok hg) _ _⟩
      · rename_i cm c1 heq
        rw [heq] at hg
        have hg1 : queue_grows ctx
            ({ c1 with msgs := c1.msgs ++ (ev.cmd_evaluate st cm).2.2 } : json_ctx) := by
          obtain ⟨e1, he1⟩ := res_grows_ok hg
          exact ⟨e1 ++ (ev.cmd_evaluate st cm).2.2, by simp [he1]⟩
        dsimp only at h
        split at h
        · simp only [Res.ok.injEq, Prod.mk.injEq] at h
          obtain ⟨⟨rfl, -, -⟩, rfl⟩ := h
          exact ⟨Or.inr rfl, queue_grows_error_of hg1 _ _,
            fun _ => grows_error_nonempty hg1 _ _⟩
        · obtain ⟨hrc, hg2, hneg⟩ := ih _ _ _ _ _ _ _ _ h
          refine ⟨hrc, queue_grows_trans hg1 hg2, fun hlt => ?_⟩
          obtain ⟨e3, hne, he3⟩ := hneg hlt
          obtain ⟨e1, he1⟩ := hg1
          refine ⟨e1 ++ e3, by simp [hne], ?_⟩
          rw [he3, he1, List.append_assoc]

theorem cmds_loop_returns {σ : Type} (reg : Registry) (sreg : StmtRegistry)
    (creg : CmdRegistry) (ev : Evaluator σ) (items : List Json)
    (hnf : ∀ (c : json_ctx) (v : Json), v ∈ items →
      json_parse_cmd reg sreg creg c v ≠ .fault) :
    ∀ (ctx : json_ctx) (st : σ) (cmds : List cmd) (index : Nat),
      ∃ rc cmds1 st1 c,
        json_parse_cmds_loop reg sreg creg ev ctx st cmds items index
          = .ok (rc, cmds1, st1) c := by
  induction items with
  | nil =>
    intro ctx st cmds index
    exact ⟨_, _, _, _, rfl⟩
  | cons value rest ih =>
    intro ctx st cmds index
    rw [json_parse_cmds_loop]
    split
    · exact ⟨_, _, _, _, rfl⟩
    · split
      · rename_i heq
        exact absurd heq (hnf ctx value (List.mem_cons_self _ _))
      · exact ⟨_, _, _, _, rfl⟩
      · dsimp only
        split
        · exact ⟨_, _, _, _, rfl⟩
        · exact ih (fun c v hv => hnf c v (List.mem_cons_of_mem _ hv)) _ _ _ _
/-- Return codes of `__json_parse`, for the runs in which no builder
dereferences NULL: the call returns whenever `json_parse_cmd` returns for the
elements of the array (the loop itself always ends), and every value it returns
is 0 or the negative value -1. Whenever it returns a negative value (`nftables`
missing or not an array, an element that is not an object, no command built,
or the evaluator rejecting the command), the message queue on return is the
queue on entry followed by at least one record; in every case the records
queued before the call are kept. -/
theorem json_parse_return_codes {σ : Type} (reg : Registry) (sreg : StmtRegistry)
    (creg : CmdRegistry) (ev : Evaluator σ) (ctx : json_ctx) (st : σ) (cmds : List cmd)
    (root : Json) :
    ((∀ tmp, json_unpack_key_o root "nftables" = some tmp →
        ∀ (c : json_ctx) (v : Json), v ∈ json_array_items tmp →
          json_parse_cmd reg sreg creg c v ≠ .fault) →
      ∃ rc cmds1 st1 c,
        __json_parse reg sreg creg ev ctx st cmds root = .ok (rc, cmds1, st1) c)
    ∧ (∀ (rc : Int) (cmds1 : List cmd) (st1 : σ) (c : json_ctx),
        __json_parse reg sreg creg ev ctx st cmds root = .ok (rc, cmds1, st1) c →
        (rc = 0 ∨ rc = -1)
          ∧ (rc < 0 → ∃ errs, errs ≠ [] ∧ c.msgs = ctx.msgs ++ errs)
          ∧ ∃ errs, c.msgs = ctx.msgs ++ errs) := by
  constructor
  · intro hnf
    unfold __json_parse
    split
    · exact ⟨_, _, _, _, rfl⟩
    · rename_i tmp heq
      split
      · exact ⟨_, _, _, _, rfl⟩
      · exact cmds_loop_returns reg sreg creg ev _ (hnf tmp heq) _ _ _ _
  · intro rc cmds1 st1 c h
    unfold __json_parse at h
    split at h
    · simp only [Res.ok.injEq, Prod.mk.injEq] at h
      obtain ⟨⟨rfl, -, -⟩, rfl⟩ := h
      exact ⟨Or.inr rfl, fun _ => ⟨[Erec.lib], by simp, rfl⟩, ⟨[Erec.lib], rfl⟩⟩
    · split at h
      · simp only [Res.ok.injEq, Prod.mk.injEq] at h
        obtain ⟨⟨rfl, -, -⟩, rfl⟩ := h
        exact ⟨Or.inr rfl, fun _ => grows_error_nonempty (queue_grows_refl _) _ _,
          queue_grows_error _ _ _⟩
      · obtain ⟨hrc, hg, hneg⟩ := cmds_loop_codes reg sreg creg ev _ _ _ _ _ _ _ _ _ h
        exact ⟨hrc, hneg, hg⟩

/-- The document whose second element is the integer 5, parsed with one
record already queued, makes `__json_parse` return -1, and the queue on return
is that record followed by a new one. -/
theorem json_parse_return_codes_witness :
    ((-1 : Int) = 0 ∨ (-1 : Int) = -1)
    ∧ ((-1 : Int) < 0 → ∃ errs, errs ≠ []
        ∧ (json_error ⟨0, [Erec.ext "earlier"]⟩
            "Unexpected command array element of type %s, expected object."
            [.str (json_typename (.integer 5))]).msgs
          = (⟨0, [Erec.ext "earlier"]⟩ : json_ctx).msgs ++ errs)
    ∧ ∃ errs, (json_error ⟨0, [Erec.ext "earlier"]⟩
          "Unexpected command array element of type %s, expected object."
          [.str (json_typename (.integer 5))]).msgs
        = (⟨0, [Erec.ext "earlier"]⟩ : json_ctx).msgs ++ errs :=
  (json_parse_return_codes sample_registry sample_stmt_registry sample_cmd_registry
    sample_evaluator ⟨0, [Erec.ext "earlier"]⟩ () []
    (.object [("nftables", .array [sample_add_table, .integer 5])])).2 (-1)
    [cmd_alloc .CMD_ADD .CMD_OBJ_TABLE
      { family := NFPROTO_IPV4, table_name := some "filter" } .none] ()
    (json_error ⟨0, [Erec.ext "earlier"]⟩
      "Unexpected command array element of type %s, expected object."
      [.str (json_typename (.integer 5))]) rfl

/-- C22 (the code at the failing input): the document whose only command adds
a rule with the set statement `add` of the element `bogus` to the set `s`
makes `__json_parse` dereference NULL: the parse of the element yields no
expression, and `json_parse_set_elem_expr_stmt` reads its kind. The call does
not return, so it returns neither 0 nor a negative value. The same holds for a
rule that matches against `set` of `null`. -/
theorem json_parse_does_not_return :
    __json_parse sample_registry sample_stmt_registry sample_cmd_registry sample_evaluator
        ⟨0, []⟩ () []
        (.object [("nftables", .array [.object [("add", .object [("rule",
          .object [("family", .string "ip"), ("table", .string "t"), ("chain", .string "c"),
            ("expr", .array [.object [("set", .object [("op", .string "add"),
              ("elem", .object [("bogus", .null)]), ("set", .string "@s")])]])])])]])])
      = .fault
    ∧ __json_parse sample_registry sample_stmt_registry sample_cmd_registry sample_evaluator
        ⟨0, []⟩ () []
        (.object [("nftables", .array [.object [("add", .object [("rule",
          .object [("family", .string "ip"), ("table", .string "t"), ("chain", .string "c"),
            ("expr", .array [.object [("match", .object [
              ("left", .object [("meta", .string "mark")]),
              ("right", .object [("set", .null)])])]])])])]])])
      = .fault :=
  ⟨rfl, rfl⟩

/-! ## C31: the reject statement -/

theorem reject_type_parse_cases (t : Option String) :
    (t = some "tcp reset" → reject_type_parse t = (NFT_REJECT_TCP_RST, 0, 0, none))
    ∧ (t = some "icmpx" →
        reject_type_parse t = (NFT_REJECT_ICMPX_UNREACH, 0, 0, some .icmpx_code_type))
    ∧ (t = some "icmp" →
        reject_type_parse t = (NFT_REJECT_ICMP_UNREACH, 0, NFPROTO_IPV4, some .icmp_code_type))
    ∧ (t = some "icmpv6" →
        reject_type_parse t
          = (NFT_REJECT_ICMP_UNREACH, 0, NFPROTO_IPV6, some .icmpv6_code_type))
    ∧ (t ≠ some "tcp reset" → t ≠ some "icmpx" → t ≠ some "icmp" → t ≠ some "icmpv6" →
        reject_type_parse t = (-1, -1, 0, none)) := by
  refine ⟨?_, ?_, ?_, ?_, ?_⟩
  · rintro rfl
    rfl
  · rintro rfl
    rfl
  · rintro rfl
    rfl
  · rintro rfl
    rfl
  · intro h1 h2 h3 h4
    cases t with
    | none => rfl
    | some s =>
      have e1 : s ≠ "tcp reset" := fun h => h1 (by rw [h])
      have e2 : s ≠ "icmpx" := fun h => h2 (by rw [h])
      have e3 : s ≠ "icmp" := fun h => h3 (by rw [h])
      have e4 : s ≠ "icmpv6" := fun h => h4 (by rw [h])
      simp only [reject_type_parse, if_neg e1, if_neg e2, if_neg e3, if_neg e4]

theorem reject_stmt_shape (pe : expr_parse_fn) (ps : stmt_parse_fn) (ctx : json_ctx)
    (key : String) (value : Json) (s : stmt) (c : json_ctx)
    (h : json_parse_reject_stmt pe ps ctx key value = .ok (some s) c) :
    ∃ e d, s = .reject_stmt (reject_type_parse (json_unpack_key_s value "type")).1
      (reject_type_parse (json_unpack_key_s value "type")).2.1
      (reject_type_parse (json_unpack_key_s value "type")).2.2.1 e d := by
  simp only [json_parse_reject_stmt] at h
  split at h
  · cases h
    exact ⟨_, _, rfl⟩
  · split at h
    · cases h
    · cases h
    · cases h
      exact ⟨_, _, rfl⟩

/-- C31: every statement that `json_parse_reject_stmt` returns holds the kind,
the icmp code and the family that `type` selects: `tcp reset` gives TCP-reset
with code 0, `icmpx` ICMPX-unreachable with code 0, `icmp` ICMP-unreachable
with family IPv4 and code 0, `icmpv6` ICMP-unreachable with family IPv6 and
code 0, and an absent `type` or any other string gives kind -1 and code -1.
The `type` never makes the builder refuse: a statement is returned whenever
`expr` is absent or is read by the primitive reader. -/
theorem json_parse_reject_stmt_type (pe : expr_parse_fn) (ps : stmt_parse_fn)
    (ctx : json_ctx) (key : String) (value : Json) :
    (∀ (s : stmt) (c : json_ctx), json_parse_reject_stmt pe ps ctx key value = .ok (some s) c →
      (json_unpack_key_s value "type" = some "tcp reset" →
        ∃ fam e d, s = .reject_stmt NFT_REJECT_TCP_RST 0 fam e d)
      ∧ (json_unpack_key_s value "type" = some "icmpx" →
        ∃ fam e d, s = .reject_stmt NFT_REJECT_ICMPX_UNREACH 0 fam e d)
      ∧ (json_unpack_key_s value "type" = some "icmp" →
        ∃ e d, s = .reject_stmt NFT_REJECT_ICMP_UNREACH 0 NFPROTO_IPV4 e d)
      ∧ (json_unpack_key_s value "type" = some "icmpv6" →
        ∃ e d, s = .reject_stmt NFT_REJECT_ICMP_UNREACH 0 NFPROTO_IPV6 e d)
      ∧ (json_unpack_key_s value "type" ≠ some "tcp reset" →
          json_unpack_key_s value "type" ≠ some "icmpx" →
          json_unpack_key_s value "type" ≠ some "icmp" →
          json_unpack_key_s value "type" ≠ some "icmpv6" →
        ∃ fam e d, s = .reject_stmt (-1) (-1) fam e d))
    ∧ (json_unpack_key_o value "expr" = none →
        ∃ s, json_parse_reject_stmt pe ps ctx key value = .ok (some s) ctx)
    ∧ (∀ tmp e c, json_unpack_key_o value "expr" = some tmp →
        json_parse_immediate_expr ctx "immediate" tmp = .ok (some e) c →
        ∃ s, json_parse_reject_stmt pe ps ctx key value = .ok (some s) c) := by
  refine ⟨?_, ?_, ?_⟩
  · intro s c h
    obtain ⟨e, d, hs⟩ := reject_stmt_shape pe ps ctx key value s c h
    have hc := reject_type_parse_cases (json_unpack_key_s value "type")
    refine ⟨?_, ?_, ?_, ?_, ?_⟩
    · intro ht
      rw [hc.1 ht] at hs
      exact ⟨_, e, d, hs⟩
    · intro ht
      rw [hc.2.1 ht] at hs
      exact ⟨_, e, d, hs⟩
    · intro ht
      rw [hc.2.2.1 ht] at hs
      exact ⟨e, d, hs⟩
    · intro ht
      rw [hc.2.2.2.1 ht] at hs
      exact ⟨e, d, hs⟩
    · intro h1 h2 h3 h4
      rw [hc.2.2.2.2 h1 h2 h3 h4] at hs
      exact ⟨_, e, d, hs⟩
  · intro he
    simp only [json_parse_reject_stmt, he]
    exact ⟨_, rfl⟩
  · intro tmp e c he hi
    simp only [json_parse_reject_stmt, he, hi]
    exact ⟨_, rfl⟩

/-- C31 (witness): `{"type": "icmp"}` gives the ICMP-unreachable statement of
family IPv4 with code 0, and `{"type": "bogus"}` is still answered with a
statement, of kind -1 and code -1. -/
theorem json_parse_reject_stmt_type_witness :
    (∃ e d, stmt.reject_stmt NFT_REJECT_ICMP_UNREACH 0 NFPROTO_IPV4 none none
        = .reject_stmt NFT_REJECT_ICMP_UNREACH 0 NFPROTO_IPV4 e d)
    ∧ ∃ s, json_parse_reject_stmt (json_parse_expr sample_registry)
        (json_parse_stmt sample_registry sample_stmt_registry) ⟨0, []⟩ "reject"
        (.object [("type", .string "bogus")]) = .ok (some s) ⟨0, []⟩ :=
  ⟨((json_parse_reject_stmt_type (json_parse_expr sample_registry)
      (json_parse_stmt sample_registry sample_stmt_registry) ⟨0, []⟩ "reject"
      (.object [("type", .string "icmp")])).1
      (.reject_stmt NFT_REJECT_ICMP_UNREACH 0 NFPROTO_IPV4 none none) ⟨0, []⟩ rfl).2.2.1 rfl,
   (json_parse_reject_stmt_type (json_parse_expr sample_registry)
      (json_parse_stmt sample_registry sample_stmt_registry) ⟨0, []⟩ "reject"
      (.object [("type", .string "bogus")])).2.1 rfl⟩

/-! ## C32: the presence bits of the log statement -/

theorem verdict_plain (pe : expr_parse_fn) (ctx : json_ctx) (operand : Json)
    (hs : json_is_string operand = false) :
    json_parse_verdict_expr pe ctx "accept" operand
        = .ok (some (.verdict_expr NF_ACCEPT none)) ctx
    ∧ json_parse_verdict_expr pe ctx "drop" operand
        = .ok (some (.verdict_expr NF_DROP none)) ctx
    ∧ json_parse_verdict_expr pe ctx "continue" operand
        = .ok (some (.verdict_expr NFT_CONTINUE none)) ctx
    ∧ json_parse_verdict_expr pe ctx "return" operand
        = .ok (some (.verdict_expr NFT_RETURN none)) ctx
    ∧ json_parse_verdict_expr pe ctx "jump" operand
        = .ok none ⟨ctx.flags, ctx.msgs
            ++ [Erec.error "Verdict %s needs chain argument." [.str "jump"]]⟩
    ∧ json_parse_verdict_expr pe ctx "goto" operand
        = .ok none ⟨ctx.flags, ctx.msgs
            ++ [Erec.error "Verdict %s needs chain argument." [.str "goto"]]⟩ := by
  have hc : json_unpack_s operand = none := by
    cases operand <;> first | rfl | (simp [json_is_string] at hs)
  refine ⟨?_, ?_, ?_, ?_, ?_, ?_⟩ <;>
    simp [json_parse_verdict_expr, verdict_tbl, List.find?, hc, json_error]

theorem verdict_chain (pe : expr_parse_fn) (ctx : json_ctx) (chain : String) :
    json_parse_verdict_expr pe ctx "jump" (.string chain)
        = .ok (some (.verdict_expr NFT_JUMP (some chain))) ctx
    ∧ json_parse_verdict_expr pe ctx "goto" (.string chain)
        = .ok (some (.verdict_expr NFT_GOTO (some chain))) ctx :=
  ⟨rfl, rfl⟩

/-- C33 (counterexample): on the right-hand side the one-key object with key
`queue` is refused as an unknown expression type, and `accept` with the string
operand `foo` returns a Verdict that holds the chain `foo`. -/
theorem json_parse_expr_verdict_queue_and_chain :
    json_parse_expr sample_registry ⟨CTX_F_RHS, []⟩ (.object [("queue", .null)])
      = .ok none ⟨CTX_F_RHS, [Erec.error "Unknown expression type '%s'." [.str "queue"]]⟩
    ∧ json_parse_expr sample_registry ⟨CTX_F_RHS, []⟩ (.object [("accept", .string "foo")])
      = .ok (some (.verdict_expr NF_ACCEPT (some "foo"))) ⟨CTX_F_RHS, []⟩ :=
  ⟨rfl, rfl⟩

/-- C33 (amended): in a context whose flag word is a subset of RHS and
SET_RHS, `json_parse_expr` accepts the one-key objects with key accept, drop,
continue and return for every operand that is not a string and returns the
Verdict of that kind without a chain; for key jump or goto it returns the
Verdict with the chain name when the operand is a string, and no expression
with one error otherwise; the key queue is refused as an unknown expression
type. -/
theorem json_parse_expr_verdict (reg : Registry) (F : Nat) (m : List Erec) (operand : Json)
    (hF : (CTX_F_RHS ||| CTX_F_SET_RHS) &&& F = F) :
    (json_is_string operand = false →
      json_parse_expr reg ⟨F, m⟩ (.object [("accept", operand)])
          = .ok (some (.verdict_expr NF_ACCEPT none)) ⟨F, m⟩
      ∧ json_parse_expr reg ⟨F, m⟩ (.object [("drop", operand)])
          = .ok (some (.verdict_expr NF_DROP none)) ⟨F, m⟩
      ∧ json_parse_expr reg ⟨F, m⟩ (.object [("continue", operand)])
          = .ok (some (.verdict_expr NFT_CONTINUE none)) ⟨F, m⟩
      ∧ json_parse_expr reg ⟨F, m⟩ (.object [("return", operand)])
          = .ok (some (.verdict_expr NFT_RETURN none)) ⟨F, m⟩
      ∧ json_parse_expr reg ⟨F, m⟩ (.object [("jump", operand)])
          = .ok none ⟨F, m ++ [Erec.error "Verdict %s needs chain argument." [.str "jump"]]⟩
      ∧ json_parse_expr reg ⟨F, m⟩ (.object [("goto", operand)])
          = .ok none ⟨F, m ++ [Erec.error "Verdict %s needs chain argument." [.str "goto"]]⟩)
    ∧ (∀ chain : String, operand = .string chain →
      json_parse_expr reg ⟨F, m⟩ (.object [("jump", operand)])
          = .ok (some (.verdict_expr NFT_JUMP (some chain))) ⟨F, m⟩
      ∧ json_parse_expr reg ⟨F, m⟩ (.object [("goto", operand)])
          = .ok (some (.verdict_expr NFT_GOTO (some chain))) ⟨F, m⟩)
    ∧ json_parse_expr reg ⟨F, m⟩ (.object [("queue", operand)])
        = .ok none ⟨F, m ++ [Erec.error "Unknown expression type '%s'." [.str "queue"]]⟩ := by
  have hcall : ∀ T : String,
      (cb_tbl reg).find? (fun r => T = r.name)
        = some ⟨T, json_parse_verdict_expr, CTX_F_RHS ||| CTX_F_SET_RHS⟩ →
      json_parse_expr reg ⟨F, m⟩ (.object [(T, operand)])
        = json_parse_verdict_expr (json_parse_expr reg) ⟨F, m⟩ T operand := by
    intro T hfind
    exact dispatch_call reg T _ operand F m hfind hF
  refine ⟨?_, ?_, ?_⟩
  · intro hs
    have hv := verdict_plain (json_parse_expr reg) ⟨F, m⟩ operand hs
    exact ⟨(hcall "accept" rfl).trans hv.1, (hcall "drop" rfl).trans hv.2.1,
      (hcall "continue" rfl).trans hv.2.2.1, (hcall "return" rfl).trans hv.2.2.2.1,
      (hcall "jump" rfl).trans hv.2.2.2.2.1, (hcall "goto" rfl).trans hv.2.2.2.2.2⟩
  · rintro chain rfl
    have hv := verdict_chain (json_parse_expr reg) ⟨F, m⟩ chain
    exact ⟨(hcall "jump" rfl).trans hv.1, (hcall "goto" rfl).trans hv.2⟩
  · rw [json_parse_expr_eq]
    simp only [json_parse_expr_body, json_parse_expr_with, json_is_integer, json_is_boolean,
      Bool.or_self, Bool.and_false, json_unpack_stmt_eq, dispatch_eq]
    rfl

/-- C33 (witness): under RHS, `{"drop": null}` is the drop verdict without a
chain and `{"jump": "c1"}` the jump verdict to the chain `c1`. -/
theorem json_parse_expr_verdict_witness :
    json_parse_expr sample_registry ⟨CTX_F_RHS, []⟩ (.object [("drop", .null)])
      = .ok (some (.verdict_expr NF_DROP none)) ⟨CTX_F_RHS, []⟩
    ∧ json_parse_expr sample_registry ⟨CTX_F_RHS, []⟩ (.object [("jump", .string "c1")])
      = .ok (some (.verdict_expr NFT_JUMP (some "c1"))) ⟨CTX_F_RHS, []⟩ :=
  ⟨((json_parse_expr_verdict sample_registry CTX_F_RHS [] .null (by decide)).1 rfl).2.1,
   ((json_parse_expr_verdict sample_registry CTX_F_RHS [] (.string "c1") (by decide)).2.1
      "c1" rfl).1⟩

/-! ## C34: raw payload expressions -/

theorem unpack_key_i_iff (root : Json) (key : String) :
    (json_unpack_key_i root key).isSome = true
      ↔ ∃ n, json_object_get root key = some (.integer n) := by
  unfold json_unpack_key_i
  constructor
  · intro h
    split at h
    · rename_i n heq
      exact ⟨n, heq⟩
    · cases h
  · rintro ⟨n, hn⟩
    rw [hn]
    rfl

theorem unpack_key_i_integer (root : Json) (key : String) (n : Int)
    (h : json_object_get root key = some (.integer n)) :
    json_unpack_key_i root key = some (c_int n) := by
  unfold json_unpack_key_i
  rw [h]

/-- C34 (counterexample): the raw payload with base `th`, offset 4294967297
and length 8 is returned with the offset 1: the offset is read with the format
`i` into a C `int`, which does not hold the given integer. -/
theorem json_parse_payload_expr_raw_out_of_range :
    json_parse_payload_expr sample_registry (json_parse_expr sample_registry) ⟨0, []⟩
        "payload" (.object [("name", .string "raw"), ("base", .string "th"),
          ("offset", .integer 4294967297), ("len", .integer 8)])
      = .ok (some (.payload_raw_expr .PROTO_BASE_TRANSPORT_HDR 1 8
          .BYTEORDER_BIG_ENDIAN true)) ⟨0, []⟩
    ∧ (1 : Int) ≠ 4294967297 :=
  ⟨rfl, by decide⟩

/-- C34 (amended): for a payload expression with name `raw`,
`json_parse_payload_expr` returns an expression if and only if `base` is one of
the strings ll, nh, th and `offset` and `len` are integers. The result is then
the raw payload with the link-layer, network or transport header base, with
the offset and the length as the format `i` reads them into a C `int` (the
given integer reduced to the signed 32-bit range: exactly the given value when
it lies in the range of an `int`; no unit conversion), big-endian byte order
and the raw flag set, and nothing is queued. -/
theorem json_parse_payload_expr_raw (reg : Registry) (pe : expr_parse_fn) (ctx : json_ctx)
    (type : String) (root : Json) (hname : json_unpack_key_s root "name" = some "raw") :
    ((∃ e c, json_parse_payload_expr reg pe ctx type root = .ok (some e) c)
      ↔ (∃ base, json_unpack_key_s root "base" = some base
            ∧ (base = "ll" ∨ base = "nh" ∨ base = "th"))
        ∧ (∃ n, json_object_get root "offset" = some (.integer n))
        ∧ (∃ n, json_object_get root "len" = some (.integer n)))
    ∧ (∀ (base : String) (offset len : Int), json_unpack_key_s root "base" = some base →
        json_object_get root "offset" = some (.integer offset) →
        json_object_get root "len" = some (.integer len) →
        (base = "ll" → json_parse_payload_expr reg pe ctx type root
          = .ok (some (.payload_raw_expr .PROTO_BASE_LL_HDR (c_int offset) (c_int len)
              .BYTEORDER_BIG_ENDIAN true)) ctx)
        ∧ (base = "nh" → json_parse_payload_expr reg pe ctx type root
          = .ok (some (.payload_raw_expr .PROTO_BASE_NETWORK_HDR (c_int offset) (c_int len)
              .BYTEORDER_BIG_ENDIAN true)) ctx)
        ∧ (base = "th" → json_parse_payload_expr reg pe ctx type root
          = .ok (some (.payload_raw_expr .PROTO_BASE_TRANSPORT_HDR (c_int offset) (c_int len)
              .BYTEORDER_BIG_ENDIAN true)) ctx))
    ∧ (∀ n : Int, -2 ^ 31 ≤ n → n ≤ 2 ^ 31 - 1 → c_int n = n) := by
  have hgood : ∀ (base : String) (offset len : Int), json_unpack_key_s root "base" = some base →
      json_object_get root "offset" = some (.integer offset) →
      json_object_get root "len" = some (.integer len) →
      (base = "ll" → json_parse_payload_expr reg pe ctx type root
        = .ok (some (.payload_raw_expr .PROTO_BASE_LL_HDR (c_int offset) (c_int len)
            .BYTEORDER_BIG_ENDIAN true)) ctx)
      ∧ (base = "nh" → json_parse_payload_expr reg pe ctx type root
        = .ok (some (.payload_raw_expr .PROTO_BASE_NETWORK_HDR (c_int offset) (c_int len)
            .BYTEORDER_BIG_ENDIAN true)) ctx)
      ∧ (base = "th" → json_parse_payload_expr reg pe ctx type root
        = .ok (some (.payload_raw_expr .PROTO_BASE_TRANSPORT_HDR (c_int offset) (c_int len)
            .BYTEORDER_BIG_ENDIAN true)) ctx) := by
    intro base offset len hb ho hl
    have ho1 := unpack_key_i_integer root "offset" offset ho
    have hl1 := unpack_key_i_integer root "len" len hl
    refine ⟨?_, ?_, ?_⟩
    · rintro rfl
      simp [json_parse_payload_expr, hname, hb, ho1, hl1]
    · rintro rfl
      simp [json_parse_payload_expr, hname, hb, ho1, hl1]
    · rintro rfl
      simp [json_parse_payload_expr, hname, hb, ho1, hl1]
  refine ⟨⟨?_, ?_⟩, hgood, c_int_of_range⟩
  · rintro ⟨e, c, h⟩
    simp only [json_parse_payload_expr, hname, if_true] at h
    split at h
    · rename_i base offset len hb ho hl
      refine ⟨⟨base, hb, ?_⟩, (unpack_key_i_iff root "offset").1 (by rw [ho]; rfl),
        (unpack_key_i_iff root "len").1 (by rw [hl]; rfl)⟩
      by_cases h1 : base = "ll"
      · exact Or.inl h1
      · by_cases h2 : base = "nh"
        · exact Or.inr (Or.inl h2)
        · by_cases h3 : base = "th"
          · exact Or.inr (Or.inr h3)
          · simp [h1, h2, h3] at h
    · cases h
  · rintro ⟨⟨base, hb, hcase⟩, ⟨offset, ho⟩, ⟨len, hl⟩⟩
    have hg := hgood base offset len hb ho hl
    rcases hcase with h | h | h
    · exact ⟨_, _, hg.1 h⟩
    · exact ⟨_, _, hg.2.1 h⟩
    · exact ⟨_, _, hg.2.2 h⟩

/-- C34 (witness): base `th`, offset 16 and length 8 give the raw payload on
the transport header with offset 16 and length 8. -/
theorem json_parse_payload_expr_raw_witness :
    json_parse_payload_expr sample_registry (json_parse_expr sample_registry) ⟨0, []⟩
        "payload" (.object [("name", .string "raw"), ("base", .string "th"),
          ("offset", .integer 16), ("len", .integer 8)])
      = .ok (some (.payload_raw_expr .PROTO_BASE_TRANSPORT_HDR (c_int 16) (c_int 8)
          .BYTEORDER_BIG_ENDIAN true)) ⟨0, []⟩
    ∧ c_int 16 = 16 ∧ c_int 8 = 8 :=
  ⟨((json_parse_payload_expr_raw sample_registry (json_parse_expr sample_registry) ⟨0, []⟩
      "payload" (.object [("name", .string "raw"), ("base", .string "th"),
        ("offset", .integer 16), ("len", .integer 8)]) rfl).2.1 "th" 16 8 rfl rfl rfl).2.2 rfl,
   (json_parse_payload_expr_raw sample_registry (json_parse_expr sample_registry) ⟨0, []⟩
      "payload" (.object [("name", .string "raw"), ("base", .string "th"),
        ("offset", .integer 16), ("len", .integer 8)]) rfl).2.2 16 (by decide) (by decide),
   (json_parse_payload_expr_raw sample_registry (json_parse_expr sample_registry) ⟨0, []⟩
      "payload" (.object [("name", .string "raw"), ("base", .string "th"),
        ("offset", .integer 16), ("len", .integer 8)]) rfl).2.2 8 (by decide) (by decide)⟩

/-! ## C35: the offset of a route-type-0 field -/

/-- C36: the set builders are not total. For a null or real operand (and for
a boolean operand outside RHS) `json_parse_set_expr` reads the kind of the
expression that the primitive reader did not return: the call does not return.
`json_parse_set_elem_expr_stmt` does the same when the parse of `elem` yields
no expression, so the set statement with such an `elem` does not return
either and the test of `json_parse_set_stmt` for a missing element is never
reached with one. For an operand that is an object or an empty array,
`json_parse_set_expr` returns no expression and queues nothing. -/
theorem json_parse_set_expr_missing_operand (pe : expr_parse_fn) (ctx : json_ctx)
    (type : String) :
    json_parse_set_expr pe ctx type .null = .fault
    ∧ json_parse_set_expr pe ctx type .real = .fault
    ∧ json_parse_set_expr pe ⟨0, []⟩ type .jtrue = .fault
    ∧ json_parse_expr sample_registry ⟨CTX_F_RHS, []⟩ (.object [("set", .null)]) = .fault
    ∧ json_parse_set_elem_expr_stmt (json_parse_expr sample_registry) ⟨0, []⟩
        (.object [("bogus", .null)]) = .fault
    ∧ json_parse_stmt sample_registry sample_stmt_registry ⟨0, []⟩
        (.object [("set", .object [("op", .string "add"),
          ("elem", .object [("bogus", .null)]), ("set", .string "@s")])]) = .fault
    ∧ json_parse_set_expr pe ctx type (.object [("a", .null)]) = .ok none ctx
    ∧ json_parse_set_expr pe ctx type (.array []) = .ok none ctx :=
  ⟨rfl, rfl, rfl, rfl, rfl, rfl, rfl, rfl⟩

/-! ## C37: the width of the named constants -/

/-- C37: for each of the eleven named constants `json_parse_constant` returns
the constant with the datatype and the data byte of the claim (the protocol
number with the inet-protocol datatype, and 5 with the icmp-type datatype for
`redirect`), but with the length `8 * BITS_PER_BYTE` = 64 bits, not 8 bits;
on the right-hand side the primitive reader returns that 64-bit constant. -/
theorem json_parse_constant_width (ctx : json_ctx) :
    json_parse_constant ctx "tcp"
      = .ok (some (.constant_expr .inet_protocol_type .BYTEORDER_HOST_ENDIAN 64 [6])) ctx
    ∧ json_parse_constant ctx "udp"
      = .ok (some (.constant_expr .inet_protocol_type .BYTEORDER_HOST_ENDIAN 64 [17])) ctx
    ∧ json_parse_constant ctx "udplite"
      = .ok (some (.constant_expr .inet_protocol_type .BYTEORDER_HOST_ENDIAN 64 [136])) ctx
    ∧ json_parse_constant ctx "esp"
      = .ok (some (.constant_expr .inet_protocol_type .BYTEORDER_HOST_ENDIAN 64 [50])) ctx
    ∧ json_parse_constant ctx "ah"
      = .ok (some (.constant_expr .inet_protocol_type .BYTEORDER_HOST_ENDIAN 64 [51])) ctx
    ∧ json_parse_constant ctx "icmp"
      = .ok (some (.constant_expr .inet_protocol_type .BYTEORDER_HOST_ENDIAN 64 [1])) ctx
    ∧ json_parse_constant ctx "icmpv6"
      = .ok (some (.constant_expr .inet_protocol_type .BYTEORDER_HOST_ENDIAN 64 [58])) ctx
    ∧ json_parse_constant ctx "comp"
      = .ok (some (.constant_expr .inet_protocol_type .BYTEORDER_HOST_ENDIAN 64 [108])) ctx
    ∧ json_parse_constant ctx "dccp"
      = .ok (some (.constant_expr .inet_protocol_type .BYTEORDER_HOST_ENDIAN 64 [33])) ctx
    ∧ json_parse_constant ctx "sctp"
      = .ok (some (.constant_expr .inet_protocol_type .BYTEORDER_HOST_ENDIAN 64 [132])) ctx
    ∧ json_parse_constant ctx "redirect"
      = .ok (some (.constant_expr .icmp_type_type .BYTEORDER_HOST_ENDIAN 64 [5])) ctx
    ∧ json_parse_immediate_expr ⟨CTX_F_RHS, []⟩ "immediate" (.string "tcp")
      = .ok (some (.constant_expr .inet_protocol_type .BYTEORDER_HOST_ENDIAN 64 [6]))
          ⟨CTX_F_RHS, []⟩ :=
  ⟨rfl, rfl, rfl, rfl, rfl, rfl, rfl, rfl, rfl, rfl, rfl, rfl⟩

/-! ## C38: the text of the flag word -/

/-- C38: `ctx_flags_to_string` names the five flags RHS, STMT, PRIMARY, DTYPE
and SET_RHS only. The flag words MANGLE, SES and MAP all give the empty text
of the empty flag word, and RHS with MANGLE gives the text of RHS alone, so
different flag words share a text; the context error raised for `exthdr` on the
left side of a mangle statement names no flag at all. -/
theorem ctx_flags_to_string_omits :
    ctx_flags_to_string ⟨0, []⟩ = ""
    ∧ ctx_flags_to_string ⟨CTX_F_MANGLE, []⟩ = ""
    ∧ ctx_flags_to_string ⟨CTX_F_SES, []⟩ = ""
    ∧ ctx_flags_to_string ⟨CTX_F_MAP, []⟩ = ""
    ∧ ctx_flags_to_string ⟨CTX_F_RHS, []⟩ = "RHS"
    ∧ ctx_flags_to_string ⟨CTX_F_RHS ||| CTX_F_MANGLE, []⟩ = "RHS"
    ∧ ctx_flags_to_string ⟨CTX_F_RHS ||| CTX_F_STMT ||| CTX_F_PRIMARY ||| CTX_F_DTYPE
        ||| CTX_F_SET_RHS ||| CTX_F_MANGLE ||| CTX_F_SES ||| CTX_F_MAP, []⟩
      = "RHS, STMT, PRIMARY, DTYPE, SET_RHS"
    ∧ json_parse_expr sample_registry ⟨CTX_F_MANGLE, []⟩
        (.object [("exthdr", .object [("name", .string "hbh")])])
      = .ok none ⟨CTX_F_MANGLE,
          [Erec.error "Expression type %s not allowed in context (%s)."
            [.str "exthdr", .str ""]]⟩ := by
  refine ⟨by decide, by decide, by decide, by decide, by decide, by decide, by decide, rfl⟩

/-! ## C39: exthdr on the left side of a mangle statement -/

theorem etype_compound_expr_add (a t : expr) : (compound_expr_add a t).etype = a.etype := by
  cases a <;> rfl

theorem list_loop_kind (pe : expr_parse_fn) (items : List Json) :
    ∀ (ctx : json_ctx) (k : Nat) (acc e : expr) (c : json_ctx),
      json_parse_list_loop pe ctx items k acc = .ok (some e) c → e.etype = acc.etype := by
  induction items with
  | nil =>
    intro ctx k acc e c h
    simp only [json_parse_list_loop] at h
    cases h
    rfl
  | cons x rest ih =>
    intro ctx k acc e c h
    simp only [json_parse_list_loop] at h
    split at h
    · cases h
    · cases h
    · rw [ih _ _ _ _ _ h, etype_compound_expr_add]

/-- No row of `cb_tbl` other than `tcp option` builds an Exthdr expression
under a flag word that holds MANGLE. -/
theorem cb_tbl_mangle_kind (reg : Registry) : ∀ row ∈ cb_tbl reg,
    row.flags &&& CTX_F_MANGLE ≠ 0 → ∀ (pe : expr_parse_fn) (ctx : json_ctx) (type : String)
      (v : Json) (e : expr) (c : json_ctx), row.cb pe ctx type v = .ok (some e) c →
      e.etype = .EXPR_EXTHDR → row.name = "tcp option" := by
  intro row hrow
  simp only [cb_tbl, List.mem_cons, List.mem_singleton, List.not_mem_nil, or_false] at hrow
  rcases hrow with h | h | h | h | h | h | h | h | h | h | h | h | h | h | h | h | h | h | h
    | h | h | h | h | h | h | h | h | h | h <;> subst h
  all_goals first
    | (intro hP; dsimp only at hP; exact (hP (by decide)).elim)
    | (intro _ pe ctx type v e c h hk
       dsimp only at h
       first
        | rfl
        | (have hk1 := payload_kind h; rw [hk1] at hk; cases hk)
        | (have hk1 := meta_kind h; rw [hk1] at hk; cases hk)
        | (have hk1 := ct_kind h; rw [hk1] at hk; cases hk))

/-- Under a flag word that holds MANGLE, an Exthdr expression comes from a
one-key object with the key `tcp option` only. -/
theorem mangle_exthdr_origin (reg : Registry) {F : Nat} {m : List Erec} {x : Json} {e : expr}
    {c : json_ctx} (hM : F &&& CTX_F_MANGLE ≠ 0)
    (h : json_parse_expr reg ⟨F, m⟩ x = .ok (some e) c) (hk : e.etype = .EXPR_EXTHDR) :
    ∃ operand, x = .object [("tcp option", operand)] := by
  rw [json_parse_expr_eq] at h
  simp only [json_parse_expr_body, json_parse_expr_with] at h
  have himm : ∀ {t : String} {v : Json},
      json_parse_immediate_expr ⟨F, m⟩ t v = .ok (some e) c → False := by
    intro t v hi
    rcases immediate_kind hi with hk1 | hk1 <;> rw [hk1] at hk <;> cases hk
  cases x with
  | array items =>
    simp only at h
    split at h
    · cases h
    · split at h
      · cases h
      · have hl := list_loop_kind _ _ _ _ _ _ _ h
        rw [hl] at hk
        cases hk
  | string s =>
    simp only at h
    split at h
    · split at h
      · cases h
      · cases h
        cases hk
    · exact (himm h).elim
  | object kvs =>
    simp only [json_is_integer, json_is_boolean, Bool.or_false, Bool.and_false,
      Bool.false_eq_true, if_false, json_unpack_stmt_eq] at h
    split at h
    · cases h
    · rename_i type value cc hh
      split at hh
      · rename_i kv
        cases hh
        rw [dispatch_eq] at h
        cases hf : (cb_tbl reg).find? (fun r => type = r.name) with
        | none => simp [hf] at h
        | some row =>
          simp only [hf] at h
          split at h
          · cases h
          · rename_i hcov
            have hcov1 : row.flags &&& F = F := not_not.mp hcov
            have hrowM : row.flags &&& CTX_F_MANGLE ≠ 0 := fun h0 =>
              hM (mask_covers_bit h0 hcov1)
            have hname := cb_tbl_mangle_kind reg row (List.mem_of_find?_eq_some hf) hrowM
              _ _ _ _ _ _ h hk
            have htype : type = row.name := by
              have := List.find?_some hf
              simpa using this
            exact ⟨value, by rw [kv, htype, hname]⟩
      · cases hh
  | integer n =>
    simp only [json_is_integer, json_is_boolean, Bool.or_false, Bool.and_true,
      json_unpack_stmt_eq] at h
    split at h
    · exact (himm h).elim
    · cases h
  | jtrue =>
    simp only [json_is_integer, json_is_boolean, Bool.false_or, Bool.and_true,
      json_unpack_stmt_eq] at h
    split at h
    · exact (himm h).elim
    · cases h
  | jfalse =>
    simp only [json_is_integer, json_is_boolean, Bool.false_or, Bool.and_true,
      json_unpack_stmt_eq] at h
    split at h
    · exact (himm h).elim
    · cases h
  | real =>
    simp only [json_is_integer, json_is_boolean, Bool.or_false, Bool.and_false,
      Bool.false_eq_true, if_false, json_unpack_stmt_eq] at h
    cases h
  | null =>
    simp only [json_is_integer, json_is_boolean, Bool.or_false, Bool.and_false,
      Bool.false_eq_true, if_false, json_unpack_stmt_eq] at h
    cases h

theorem exthdr_mask_lacks_mangle (F : Nat) :
    flag_mask [.PRIMARY, .SET_RHS, .SES, .MAP] &&& (F ||| CTX_F_MANGLE) ≠ F ||| CTX_F_MANGLE := by
  intro h
  have h1 := mask_covers_bit (by decide : flag_mask [.PRIMARY, .SET_RHS, .SES, .MAP]
    &&& CTX_F_MANGLE = 0) h
  rw [lor_land_self] at h1
  exact absurd h1 (by decide)

theorem mangle_stmt_of_exthdr {ctx c : json_ctx} {left right l r : expr}
    (h : mangle_stmt_of ctx left right = .ok (some (.exthdr_stmt l r)) c) :
    left.etype = .EXPR_EXTHDR := by
  cases left <;> simp only [mangle_stmt_of] at h <;> first
    | rfl
    | cases h
    | (split at h <;> cases h)

/-- C39: a mangle statement whose `left` is a one-key object with the key
`exthdr` yields no statement, whatever the operand, the member `right` and the
flag word on entry are. With `right` present the left side is parsed under the
entry flags with MANGLE added; the mask of `exthdr` lacks MANGLE, so the
parser queues the context error, and the statement parser adds
"Invalid LHS of mangle statement"; with `right` absent the unpack error is
queued. Whenever `json_parse_mangle_stmt` does return an exthdr statement, its
`left` member is a one-key object with the key `tcp option`. -/
theorem json_parse_mangle_stmt_exthdr_left (reg : Registry) (ps : stmt_parse_fn) (F : Nat)
    (m : List Erec) (key : String) (value operand : Json)
    (hl : json_unpack_key_o value "left" = some (.object [("exthdr", operand)])) :
    (∀ s c, json_parse_mangle_stmt (json_parse_expr reg) ps ⟨F, m⟩ key value
        ≠ .ok (some s) c)
    ∧ (∀ jright, json_unpack_key_o value "right" = some jright →
        json_parse_mangle_stmt (json_parse_expr reg) ps ⟨F, m⟩ key value
          = .ok none ⟨F, m ++ [context_error ⟨F ||| CTX_F_MANGLE, m⟩ "exthdr",
              Erec.error "Invalid LHS of mangle statement" []]⟩)
    ∧ (json_unpack_key_o value "right" = none →
        json_parse_mangle_stmt (json_parse_expr reg) ps ⟨F, m⟩ key value
          = .ok none (json_unpack_err ⟨F, m⟩))
    ∧ (∀ (value1 jleft : Json) (l r : expr) (c : json_ctx),
        json_unpack_key_o value1 "left" = some jleft →
        json_parse_mangle_stmt (json_parse_expr reg) ps ⟨F, m⟩ key value1
          = .ok (some (.exthdr_stmt l r)) c →
        ∃ operand1, jleft = .object [("tcp option", operand1)]) := by
  have hctx := (json_parse_expr_context_error reg "exthdr"
    (flag_mask [.PRIMARY, .SET_RHS, .SES, .MAP]) (by decide) ⟨F ||| CTX_F_MANGLE, m⟩ operand
    (exthdr_mask_lacks_mangle F)).1
  have h2 : ∀ jright, json_unpack_key_o value "right" = some jright →
      json_parse_mangle_stmt (json_parse_expr reg) ps ⟨F, m⟩ key value
        = .ok none ⟨F, m ++ [context_error ⟨F ||| CTX_F_MANGLE, m⟩ "exthdr",
            Erec.error "Invalid LHS of mangle statement" []]⟩ := by
    intro jright hr
    simp only [json_parse_mangle_stmt, hl, hr, json_parse_mangle_lhs_expr,
      json_parse_flagged_expr, hctx, json_error, List.append_assoc, List.singleton_append]
  have h3 : json_unpack_key_o value "right" = none →
      json_parse_mangle_stmt (json_parse_expr reg) ps ⟨F, m⟩ key value
        = .ok none (json_unpack_err ⟨F, m⟩) := by
    intro hr
    simp only [json_parse_mangle_stmt, hl, hr]
  refine ⟨?_, h2, h3, ?_⟩
  · intro s c h
    cases hr : json_unpack_key_o value "right" with
    | none =>
      rw [h3 hr] at h
      cases h
    | some jright =>
      rw [h2 jright hr] at h
      cases h
  · intro value1 jleft l r c hl1 h
    simp only [json_parse_mangle_stmt, hl1, json_parse_mangle_lhs_expr] at h
    cases hr : json_unpack_key_o value1 "right" with
    | none =>
      simp only [hr] at h
      cases h
    | some jright =>
      simp only [hr] at h
      split at h
      · cases h
      · cases h
      · rename_i left c1 heq
        obtain ⟨_, c2, hp⟩ := flagged_flags heq
        split at h
        · cases h
        · cases h
        · have hk := mangle_stmt_of_exthdr h
          exact mangle_exthdr_origin reg
            (by rw [lor_land_self]; decide) hp hk

/-- C39 (witness): the mangle statement with the left side
`exthdr` of the header `hbh` and the right side 1, entered with the empty flag
word. -/
theorem json_parse_mangle_stmt_exthdr_left_witness :
    json_unpack_key_o
        (.object [("left", .object [("exthdr", .object [("name", .string "hbh")])]),
          ("right", .integer 1)]) "left"
      = some (.object [("exthdr", .object [("name", .string "hbh")])])
    ∧ json_parse_mangle_stmt (json_parse_expr sample_registry)
        (json_parse_stmt sample_registry sample_stmt_registry) ⟨0, []⟩ "mangle"
        (.object [("left", .object [("exthdr", .object [("name", .string "hbh")])]),
          ("right", .integer 1)])
      = .ok none ⟨0, [] ++ [context_error ⟨0 ||| CTX_F_MANGLE, []⟩ "exthdr",
          Erec.error "Invalid LHS of mangle statement" []]⟩ :=
  ⟨rfl, (json_parse_mangle_stmt_exthdr_left sample_registry
    (json_parse_stmt sample_registry sample_stmt_registry) 0 [] "mangle"
    (.object [("left", .object [("exthdr", .object [("name", .string "hbh")])]),
      ("right", .integer 1)]) (.object [("name", .string "hbh")]) rfl).2.1 (.integer 1) rfl⟩

/-! ## C40: the key of a set statement -/

theorem lor_keeps_bit {F b : Nat} (p : Nat) (h : F &&& b ≠ 0) : (F ||| p) &&& b ≠ 0 := by
  intro h0
  apply h
  apply Nat.eq_of_testBit_eq
  intro i
  have h1 := congrArg (fun n => Nat.testBit n i) h0
  simp only [Nat.testBit_land, Nat.testBit_lor, Nat.zero_testBit] at h1 ⊢
  cases hF : F.testBit i <;> cases hb : b.testBit i <;> simp [hF, hb] at h1 ⊢

/-- Every row of `cb_tbl` whose mask holds SES is the `concat` row or builds an
expression that is no set element. -/
theorem cb_tbl_ses_kind (reg : Registry) : ∀ row ∈ cb_tbl reg,
    row.flags &&& CTX_F_SES ≠ 0 →
      row.cb = json_parse_concat_expr
      ∨ ∀ (pe : expr_parse_fn) (ctx : json_ctx) (type : String)
          (v : Json) (e : expr) (c : json_ctx), row.cb pe ctx type v = .ok (some e) c →
          e.etype ≠ .EXPR_SET_ELEM := by
  intro row hrow
  simp only [cb_tbl, List.mem_cons, List.mem_singleton, List.not_mem_nil, or_false] at hrow
  rcases hrow with h | h | h | h | h | h | h | h | h | h | h | h | h | h | h | h | h | h | h
    | h | h | h | h | h | h | h | h | h | h <;> subst h
  all_goals first
    | (intro hP; dsimp only at hP; exact (hP (by decide)).elim)
    | (intro _; exact Or.inl rfl)
    | (intro _
       refine Or.inr ?_
       intro pe ctx type v e c h
       dsimp only at h
       first
        | (have hk := payload_kind h; rw [hk]; decide)
        | (have hk := exthdr_kind h; rw [hk]; decide)
        | (have hk := tcp_option_kind h; rw [hk]; decide)
        | (have hk := meta_kind h; rw [hk]; decide)
        | (have hk := rt_kind h; rw [hk]; decide)
        | (have hk := ct_kind h; rw [hk]; decide)
        | (have hk := numgen_kind h; rw [hk]; decide)
        | (have hk := hash_kind h; rw [hk]; decide)
        | (have hk := fib_kind h; rw [hk]; decide)
        | (have hk := binop_kind h; rw [hk]; decide)
        | (rcases immediate_kind h with hk | hk <;> rw [hk] <;> decide))

/-- The loop of `json_parse_concat_expr` returns no set element when none of
its items parses to one. -/
theorem concat_loop_not_elem (pe : expr_parse_fn) (F : Nat) (items : List Json)
    (hitems : ∀ x ∈ items, ∀ (m : List Erec) (e : expr) (c : json_ctx),
      pe ⟨F ||| CTX_F_PRIMARY, m⟩ x = .ok (some e) c → e.etype ≠ .EXPR_SET_ELEM) :
    ∀ (m : List Erec) (idx : Nat) (acc : Option expr) (e : expr) (c : json_ctx),
      (∀ a, acc = some a → a.etype ≠ .EXPR_SET_ELEM) →
      json_parse_concat_loop pe ⟨F, m⟩ items idx acc = .ok (some e) c →
      e.etype ≠ .EXPR_SET_ELEM := by
  induction items with
  | nil =>
    intro m idx acc e c hacc h
    simp only [json_parse_concat_loop] at h
    cases h
    exact hacc e rfl
  | cons x rest ih =>
    intro m idx acc e c hacc h
    have ihr := ih (fun y hy => hitems y (List.mem_cons_of_mem _ hy))
    simp only [json_parse_concat_loop] at h
    split at h
    · cases h
    · cases h
    · rename_i tmp c1 heq
      obtain ⟨hfl, c2, hp⟩ := flagged_flags heq
      obtain ⟨F1, m1⟩ := c1
      simp only at hfl
      subst hfl
      have htmp := hitems x (List.mem_cons_self _ _) m tmp c2 hp
      cases acc with
      | none =>
        simp only at h
        exact ihr m1 (idx + 1) (some tmp) e c (fun a ha => by cases ha; exact htmp) h
      | some a =>
        simp only at h
        split at h
        · refine ihr m1 (idx + 1) _ e c ?_ h
          intro b hb
          cases hb
          rw [etype_compound_expr_add, etype_compound_expr_add]
          decide
        · refine ihr m1 (idx + 1) _ e c ?_ h
          intro b hb
          cases hb
          rw [etype_compound_expr_add]
          exact hacc a rfl

/-- Under a flag word that holds SES, `json_parse_expr` never returns a set
element: the mask of `elem` lacks SES, and the items of a concat are parsed
with PRIMARY added to the same flag word. -/
theorem ses_not_elem (reg : Registry) : ∀ (n : Nat) (x : Json), x.depth < n →
    ∀ (F : Nat) (m : List Erec) (e : expr) (c : json_ctx), F &&& CTX_F_SES ≠ 0 →
      json_parse_expr reg ⟨F, m⟩ x = .ok (some e) c → e.etype ≠ .EXPR_SET_ELEM := by
  intro n
  induction n with
  | zero => intro x hx; omega
  | succ n ih =>
    intro x hx F m e c hS h
    rw [json_parse_expr_eq] at h
    simp only [json_parse_expr_body, json_parse_expr_with] at h
    have himm : ∀ {t : String} {v : Json},
        json_parse_immediate_expr ⟨F, m⟩ t v = .ok (some e) c → e.etype ≠ .EXPR_SET_ELEM := by
      intro t v hi
      rcases immediate_kind hi with hk | hk <;> rw [hk] <;> decide
    cases x with
    | array items =>
      simp only at h
      split at h
      · cases h
      · split at h
        · cases h
        · rw [list_loop_kind _ _ _ _ _ _ _ h]
          decide
    | string s =>
      simp only at h
      split at h
      · split at h
        · cases h
        · cases h
          exact fun hc => expr_types.noConfusion hc
      · exact himm h
    | object kvs =>
      simp only [json_is_integer, json_is_boolean, Bool.or_false, Bool.and_false,
        Bool.false_eq_true, if_false, json_unpack_stmt_eq] at h
      split at h
      · cases h
      · rename_i type value cc hh
        split at hh
        · rename_i kv
          cases hh
          cases kv
          rw [dispatch_eq] at h
          cases hf : (cb_tbl reg).find? (fun r => type = r.name) with
          | none => simp [hf] at h
          | some row =>
            simp only [hf] at h
            split at h
            · cases h
            · rename_i hcov
              have hcov1 : row.flags &&& F = F := not_not.mp hcov
              have hrowS : row.flags &&& CTX_F_SES ≠ 0 := fun h0 =>
                hS (mask_covers_bit h0 hcov1)
              rcases cb_tbl_ses_kind reg row (List.mem_of_find?_eq_some hf) hrowS with hc | hc
              · rw [hc] at h
                simp only [json_parse_concat_expr] at h
                split at h
                · cases h
                · refine concat_loop_not_elem (json_parse_expr reg) F (json_array_items value)
                    ?_ m 0 none e c (fun a ha => by cases ha) h
                  intro y hy m1 e1 c1 hp
                  have hd := depth_array_items hy
                  have hv : value.depth < n := by
                    simp only [Json.depth, depthMembers] at hx
                    omega
                  exact ih y (by omega) _ m1 e1 c1 (lor_keeps_bit _ hS) hp
              · exact hc _ _ _ _ _ _ h
        · cases hh
    | integer k =>
      simp only [json_is_integer, json_is_boolean, Bool.or_false, Bool.and_true,
        json_unpack_stmt_eq] at h
      split at h
      · exact himm h
      · cases h
    | jtrue =>
      simp only [json_is_integer, json_is_boolean, Bool.false_or, Bool.and_true,
        json_unpack_stmt_eq] at h
      split at h
      · exact himm h
      · cases h
    | jfalse =>
      simp only [json_is_integer, json_is_boolean, Bool.false_or, Bool.and_true,
        json_unpack_stmt_eq] at h
      split at h
      · exact himm h
      · cases h
    | real =>
      simp only [json_is_integer, json_is_boolean, Bool.or_false, Bool.and_false,
        Bool.false_eq_true, if_false, json_unpack_stmt_eq] at h
      cases h
    | null =>
      simp only [json_is_integer, json_is_boolean, Bool.or_false, Bool.and_false,
        Bool.false_eq_true, if_false, json_unpack_stmt_eq] at h
      cases h

/-- On a one-key object whose key is a name of `cb_tbl`, the three lookups of
the set statement find nothing. -/
theorem cb_tbl_name_fields (reg : Registry) : ∀ row ∈ cb_tbl reg, ∀ (v : Json) (e : expr),
    set_stmt_elem_fields (.object [(row.name, v)]) e = e := by
  intro row hrow
  simp only [cb_tbl, List.mem_cons, List.mem_singleton, List.not_mem_nil, or_false] at hrow
  rcases hrow with h | h | h | h | h | h | h | h | h | h | h | h | h | h | h | h | h | h | h
    | h | h | h | h | h | h | h | h | h | h <;> subst h <;> intro v e <;> rfl

/-- A node that `json_parse_expr` has parsed is an array, a string, an
integer, a boolean, or a one-key object whose key is the name of a row of
`cb_tbl`. -/
theorem parsed_node_shape (reg : Registry) {F : Nat} {m : List Erec} {x : Json} {e : expr}
    {c : json_ctx} (h : json_parse_expr reg ⟨F, m⟩ x = .ok (some e) c) :
    (∃ T v row, x = .object [(T, v)] ∧ row ∈ cb_tbl reg ∧ T = row.name)
    ∨ (∃ s, x = .string s)
    ∨ ((∃ items, x = .array items) ∧ F &&& (CTX_F_RHS ||| CTX_F_STMT) ≠ 0)
    ∨ ((json_is_integer x || json_is_boolean x) = true
        ∧ (is_RHS ⟨F, m⟩ || is_STMT ⟨F, m⟩ || is_PRIMARY ⟨F, m⟩) = true) := by
  rw [json_parse_expr_eq] at h
  simp only [json_parse_expr_body, json_parse_expr_with] at h
  cases x with
  | array items =>
    simp only at h
    split at h
    · cases h
    · rename_i hF
      exact Or.inr (Or.inr (Or.inl ⟨⟨items, rfl⟩, hF⟩))
  | string s => exact Or.inr (Or.inl ⟨s, rfl⟩)
  | object kvs =>
    simp only [json_is_integer, json_is_boolean, Bool.or_false, Bool.and_false,
      Bool.false_eq_true, if_false, json_unpack_stmt_eq] at h
    split at h
    · cases h
    · rename_i type value cc hh
      split at hh
      · rename_i kv
        cases hh
        cases kv
        rw [dispatch_eq] at h
        cases hf : (cb_tbl reg).find? (fun r => type = r.name) with
        | none => simp [hf] at h
        | some row =>
          have htype : type = row.name := by
            have := List.find?_some hf
            simpa using this
          exact Or.inl ⟨type, value, row, rfl, List.mem_of_find?_eq_some hf, htype⟩
      · cases hh
  | integer k =>
    simp only [json_is_integer, json_is_boolean, Bool.or_false, Bool.and_true,
      json_unpack_stmt_eq] at h
    split at h
    · rename_i hc
      exact Or.inr (Or.inr (Or.inr ⟨rfl, hc⟩))
    · cases h
  | jtrue =>
    simp only [json_is_integer, json_is_boolean, Bool.false_or, Bool.and_true,
      json_unpack_stmt_eq] at h
    split at h
    · rename_i hc
      exact Or.inr (Or.inr (Or.inr ⟨rfl, hc⟩))
    · cases h
  | jfalse =>
    simp only [json_is_integer, json_is_boolean, Bool.false_or, Bool.and_true,
      json_unpack_stmt_eq] at h
    split at h
    · rename_i hc
      exact Or.inr (Or.inr (Or.inr ⟨rfl, hc⟩))
    · cases h
  | real =>
    simp only [json_is_integer, json_is_boolean, Bool.or_false, Bool.and_false,
      Bool.false_eq_true, if_false, json_unpack_stmt_eq] at h
    cases h
  | null =>
    simp only [json_is_integer, json_is_boolean, Bool.or_false, Bool.and_false,
      Bool.false_eq_true, if_false, json_unpack_stmt_eq] at h
    cases h

/-- On a node that `json_parse_expr` has parsed, the three lookups of the set
statement find nothing. -/
theorem parsed_node_fields (reg : Registry) {F : Nat} {m : List Erec} {x : Json} {e : expr}
    {c : json_ctx} (h : json_parse_expr reg ⟨F, m⟩ x = .ok (some e) c) (e1 : expr) :
    set_stmt_elem_fields x e1 = e1 := by
  rcases parsed_node_shape reg h with ⟨T, v, row, rfl, hrow, rfl⟩ | ⟨s, rfl⟩ | ⟨⟨items, rfl⟩, _⟩
    | ⟨hx, _⟩
  · exact cb_tbl_name_fields reg row hrow v e1
  · rfl
  · rfl
  · cases x <;> first | rfl | simp [json_is_integer, json_is_boolean] at hx

theorem set_stmt_ref_shape {ctx c : json_ctx} {op : nft_dynset_ops} {k : expr} {set : String}
    {s : stmt} (h : json_parse_set_stmt_ref ctx op k set = .ok (some s) c) :
    ∃ name, set.data = '@' :: name.data
      ∧ s = .set_stmt op k (.symbol_expr .SYMBOL_SET name) ∧ c = ctx := by
  simp only [json_parse_set_stmt_ref] at h
  split at h
  · rename_i rest hd
    cases h
    exact ⟨String.mk rest, hd, rfl, rfl⟩
  · cases h

theorem set_stmt_elem_shape (reg : Registry) {F : Nat} {m : List Erec} {op : nft_dynset_ops}
    {elem : Json} {set : String} {s : stmt} {c : json_ctx}
    (h : json_parse_set_stmt_elem (json_parse_expr reg) ⟨F, m⟩ op elem set = .ok (some s) c) :
    ∃ e name c1, json_parse_expr reg ⟨F ||| CTX_F_SES, m⟩ elem = .ok (some e) c1
      ∧ e.etype ≠ .EXPR_SET_ELEM
      ∧ set_stmt_elem_fields elem (set_elem_expr_alloc e) = set_elem_expr_alloc e
      ∧ set.data = '@' :: name.data
      ∧ s = .set_stmt op (.set_elem_expr e 0 0 none) (.symbol_expr .SYMBOL_SET name) := by
  simp only [json_parse_set_stmt_elem, json_parse_set_elem_expr_stmt] at h
  split at h
  · cases h
  · cases h
  · rename_i k c1 heq
    split at heq
    · cases heq
    · cases heq
    · rename_i e c2 hfl
      obtain ⟨_, c3, hp⟩ := flagged_flags hfl
      have hne := ses_not_elem reg (elem.depth + 1) elem (Nat.lt_succ_self _) _ m e c3
        (by rw [lor_land_self]; decide) hp
      have hf := parsed_node_fields reg hp (set_elem_expr_alloc e)
      rw [if_pos hne] at heq
      cases heq
      rw [hf] at h
      obtain ⟨name, hd, hs, _⟩ := set_stmt_ref_shape h
      exact ⟨e, name, c3, hp, hne, hf, hd, hs⟩

/-- C40: every statement that `json_parse_set_stmt` returns, with the empty
flag word on entry as with any other, has as key a freshly wrapped set element
without timeout, expiration or comment: `op` is `add` or `update`, the `elem`
node parsed under the entry flags with SES added to an expression that is no
set element (the mask of `elem` lacks SES), so it is wrapped with timeout 0,
expiration 0 and no comment, and the lookups of `elem_timeout`,
`elem_expires` and `elem_comment` on the `elem` node leave the wrapped element
as it is; the set is the symbol named after the `@` of `set`. A node that
parses under the flag word SES alone is a string or a one-key object whose key
is the name of a row of `cb_tbl`. -/
theorem json_parse_set_stmt_key (reg : Registry) (ps : stmt_parse_fn) (F : Nat)
    (m : List Erec) (key : String) (value : Json) (s : stmt) (c : json_ctx)
    (h : json_parse_set_stmt (json_parse_expr reg) ps ⟨F, m⟩ key value = .ok (some s) c) :
    (∃ op elem set e name c1,
      (json_unpack_key_s value "op" = some "add" ∧ op = .NFT_DYNSET_OP_ADD
        ∨ json_unpack_key_s value "op" = some "update" ∧ op = .NFT_DYNSET_OP_UPDATE)
      ∧ json_unpack_key_o value "elem" = some elem
      ∧ json_unpack_key_s value "set" = some set
      ∧ set.data = '@' :: name.data
      ∧ json_parse_expr reg ⟨F ||| CTX_F_SES, m⟩ elem = .ok (some e) c1
      ∧ e.etype ≠ .EXPR_SET_ELEM
      ∧ set_stmt_elem_fields elem (set_elem_expr_alloc e) = set_elem_expr_alloc e
      ∧ s = .set_stmt op (.set_elem_expr e 0 0 none) (.symbol_expr .SYMBOL_SET name))
    ∧ (∀ (m1 : List Erec) (x : Json) (e1 : expr) (c1 : json_ctx),
        json_parse_expr reg ⟨0 ||| CTX_F_SES, m1⟩ x = .ok (some e1) c1 →
        (∃ str, x = .string str)
        ∨ ∃ T v row, x = .object [(T, v)] ∧ row ∈ cb_tbl reg ∧ T = row.name) := by
  constructor
  · simp only [json_parse_set_stmt] at h
    split at h
    · rename_i opstr elem set hop helem hset
      split at h
      · rename_i hadd
        obtain ⟨e, name, c1, hp, hne, hf, hd, hs⟩ := set_stmt_elem_shape reg h
        exact ⟨_, elem, set, e, name, c1, Or.inl ⟨by rw [hop, hadd], rfl⟩, helem, hset, hd, hp,
          hne, hf, hs⟩
      · split at h
        · rename_i hupd
          obtain ⟨e, name, c1, hp, hne, hf, hd, hs⟩ := set_stmt_elem_shape reg h
          exact ⟨_, elem, set, e, name, c1, Or.inr ⟨by rw [hop, hupd], rfl⟩, helem, hset, hd,
            hp, hne, hf, hs⟩
        · cases h
    · cases h
  · intro m1 x e1 c1 hp
    rcases parsed_node_shape reg hp with hobj | hstr | ⟨_, hF⟩ | ⟨_, hF⟩
    · exact Or.inr hobj
    · exact Or.inl hstr
    · exact absurd (by decide) hF
    · simp [is_RHS, is_STMT, is_PRIMARY, CTX_F_SES, CTX_F_RHS, CTX_F_STMT, CTX_F_PRIMARY] at hF
      rcases hF with h1 | h1 <;> exact absurd (by decide) h1

/-- C40 (witness): the statement that adds `meta mark` to the set `s`, entered
with the empty flag word; its key is the wrapped meta expression with timeout
0, expiration 0 and no comment. -/
theorem json_parse_set_stmt_key_witness :
    json_parse_set_stmt (json_parse_expr sample_registry)
        (json_parse_stmt sample_registry sample_stmt_registry) ⟨0, []⟩ "set"
        (.object [("op", .string "add"), ("elem", .object [("meta", .string "mark")]),
          ("set", .string "@s")])
      = .ok (some (.set_stmt .NFT_DYNSET_OP_ADD (.set_elem_expr (.meta_expr 3) 0 0 none)
          (.symbol_expr .SYMBOL_SET "s"))) ⟨0, []⟩
    ∧ ∃ op elem set e name c1,
      (json_unpack_key_s (.object [("op", .string "add"),
            ("elem", .object [("meta", .string "mark")]), ("set", .string "@s")]) "op"
          = some "add" ∧ op = .NFT_DYNSET_OP_ADD
        ∨ json_unpack_key_s (.object [("op", .string "add"),
            ("elem", .object [("meta", .string "mark")]), ("set", .string "@s")]) "op"
          = some "update" ∧ op = .NFT_DYNSET_OP_UPDATE)
      ∧ json_unpack_key_o (.object [("op", .string "add"),
            ("elem", .object [("meta", .string "mark")]), ("set", .string "@s")]) "elem"
          = some elem
      ∧ json_unpack_key_s (.object [("op", .string "add"),
            ("elem", .object [("meta", .string "mark")]), ("set", .string "@s")]) "set"
          = some set
      ∧ set.data = '@' :: name.data
      ∧ json_parse_expr sample_registry ⟨0 ||| CTX_F_SES, []⟩ elem = .ok (some e) c1
      ∧ e.etype ≠ .EXPR_SET_ELEM
      ∧ set_stmt_elem_fields elem (set_elem_expr_alloc e) = set_elem_expr_alloc e
      ∧ stmt.set_stmt .NFT_DYNSET_OP_ADD (.set_elem_expr (.meta_expr 3) 0 0 none)
          (.symbol_expr .SYMBOL_SET "s")
        = .set_stmt op (.set_elem_expr e 0 0 none) (.symbol_expr .SYMBOL_SET name) :=
  ⟨rfl, (json_parse_set_stmt_key sample_registry
    (json_parse_stmt sample_registry sample_stmt_registry) 0 [] "set"
    (.object [("op", .string "add"), ("elem", .object [("meta", .string "mark")]),
      ("set", .string "@s")]) _ ⟨0, []⟩ rfl).1⟩

end ParserJson
